import Mathlib

/-! OS/161 virtual memory core: shallow embedding and verified properties.

The development embeds the virtual-memory code of `kern/arch/mips/mips/dumbvm.c`,
`kern/vm/swap.c`, `kern/userprog/loadelf.c` and the `sys_sbrk` system call of
`kern/arch/mips/mips/syscall.c`.

Conventions of the embedding.
* Machine words (`vaddr_t`, `paddr_t`, `size_t`, `int32_t` flag words) are natural
  numbers below `2^32`; arithmetic that can wrap carries an explicit `% 2^32`.
* Pointers to `struct addrspace` are `Option Nat` (`none` is `NULL`); the structures
  themselves live in the map `Kernel.ass`.
* Memory is byte granular: a 4096-byte page is a function from byte offset to byte.
  Page tables are arrays of 32-bit words and are stored big-endian when they travel
  through the swap device.
* A kernel abort (`panic`, failed `assert`) and the endless `thread_yield` loop of
  `make_pg_available` are results of type `Abort`.
* `random()` and the hardware choice of `TLB_Random` are oracle arguments.
-/

namespace OS161

/-! ## Constants -/

/-- Modelled from the spec: `PAGE_SIZE` of `machine/vm.h` (4 KiB pages). -/
def PAGE_SIZE : Nat := 4096

/-- Modelled from the spec: `PAGE_FRAME` of `machine/vm.h`, the mask of the page number. -/
def PAGE_FRAME : Nat := 0xfffff000

/-- Modelled from the spec: `MIPS_KSEG0` of `machine/vm.h`, the start of kernel space. -/
def MIPS_KSEG0 : Nat := 0x80000000

/-- Modelled from the spec: `USERSTACK` of `machine/vm.h`, the fixed top of the user stack. -/
def USERSTACK : Nat := 0x80000000

/-- Size of the 32-bit machine word. -/
def WORD : Nat := 2 ^ 32

/-- Modelled from the spec: `PADDR_TO_KVADDR` of `machine/vm.h`. -/
def PADDR_TO_KVADDR (paddr : Nat) : Nat := (paddr + MIPS_KSEG0) % WORD

/-- Modelled from the spec: `NUM_TLB` of `machine/tlb.h`. -/
def NUM_TLB : Nat := 64

/-- Modelled from the spec: `TLBHI_VPAGE` of `machine/tlb.h`. -/
def TLBHI_VPAGE : Nat := 0xfffff000

/-- Modelled from the spec: `TLBLO_DIRTY` of `machine/tlb.h`. -/
def TLBLO_DIRTY : Nat := 0x00000400

/-- Modelled from the spec: `TLBLO_VALID` of `machine/tlb.h`. -/
def TLBLO_VALID : Nat := 0x00000200

/-- Modelled from the spec: `TLBHI_INVALID(i)` of `machine/tlb.h`. -/
def TLBHI_INVALID (i : Nat) : Nat := ((0x80000 + i) <<< 12) % WORD

/-- Modelled from the spec: `TLBLO_INVALID()` of `machine/tlb.h`. -/
def TLBLO_INVALID : Nat := 0

/-- Modelled from the spec: `PF_R` of `elf.h` (bit `Re` of the page-table entry). -/
def PF_R : Nat := 0x4

/-- Modelled from the spec: `PF_W` of `elf.h` (bit `Wr` of the page-table entry). -/
def PF_W : Nat := 0x2

/-- Modelled from the spec: `PF_X` of `elf.h` (bit `X` of the page-table entry). -/
def PF_X : Nat := 0x1

/-- Modelled from the spec: `PF_L` of `elf.h`, the `L` bit of the page-table entry
layout documented in `vm.h` (`{20b PFN, 5b0, 1bL, 1bM, 1bR, 1bV, 1bRe, 1bWr, 1bX}`). -/
def PF_L : Nat := 0x40

/-- Modelled from the spec: `EUNIMP` of `kern/errno.h`. -/
def EUNIMP : Nat := 1

/-- Modelled from the spec: `ENOMEM` of `kern/errno.h`. -/
def ENOMEM : Nat := 3

/-- Modelled from the spec: `EFAULT` of `kern/errno.h`. -/
def EFAULT : Nat := 6

/-- Modelled from the spec: `EINVAL` of `kern/errno.h`. -/
def EINVAL : Nat := 8

def PGDIR_INDEX : Nat := 0xffc00000
def PGDIR_PRESENT : Nat := 0x00000001
def PGDIR_LOADED : Nat := 0x00000002
def PGTBL_INDEX : Nat := 0x003ff000
def PGTBL_VALID_MASK : Nat := 0x00000008
def PFLAG_USED_MASK : Nat := 0x80000000
def PFLAG_NUM_CONTG_PAGES : Nat := 0x0000007f
def VM_FAULT_READ : Nat := 0
def VM_FAULT_WRITE : Nat := 1
def VM_FAULT_READONLY : Nat := 2
def USER_HEAP_MAX : Nat := 1048576
def VM_FAULT_OK : Nat := 0
def VM_FAULT_USER : Nat := 1
def NUM_PTABLES_IN_MEM : Nat := 3
def PINMEM_FLAG_EXECUTABLE_MASK : Nat := 0x00200000
def PINMEM_FLAG_COUNTER_MASK : Nat := 0x001fffff
def DUMBVM_STACKPAGES : Nat := 24
def MIN_COREMAP_PAGES : Nat := 10
def SWAP_MAP_SIZE : Nat := 1280
def SWMAP_FLAG_USED : Nat := 0x00000001
def SWAP_GLOBAL_OFFSET : Nat := 0

/-! ## Data model -/

/-- A page of bytes: byte offset to byte value. -/
abbrev Bytes := Nat → Nat

/-- The coremap entry `struct page` of `vm.h`. -/
structure Page where
  as : Option Nat
  vpn : Nat
  flags : Nat

/-- The swap-table entry `struct SwapMap` of `swap.c`. -/
structure SwapMap where
  as : Option Nat
  flags : Nat

/-- The per-process record `struct addrspace` of `addrspace.h`. -/
structure AddrSpace where
  as_vbase1 : Nat
  as_npages1 : Nat
  as_flags1 : Nat
  as_vbase2 : Nat
  as_npages2 : Nat
  as_flags2 : Nat
  executable_offset : Nat
  executable_memsize : Nat
  executable_filesize : Nat
  data_offset : Nat
  data_memsize : Nat
  data_filesize : Nat
  as_stack_vbase : Nat
  as_heap_vstart : Nat
  as_heap_vtop : Nat
  exec_path : Nat
  pg_dir : Nat → Nat
  ptables_in_mem : Nat → Nat → Nat
  page_table_flags : Nat → Nat

/-- A file of the VFS: its length and its bytes. -/
structure File where
  size : Nat
  data : Bytes

/-- The kernel state the VM core works on: the file-scope statics of `dumbvm.c` and
`swap.c`, physical frame contents, the swap device, the TLB, the address spaces and
`curthread->t_vmspace`. -/
structure Kernel where
  pages : Nat → Page
  num_pages : Nat
  free_paddr : Nat
  mem : Nat → Bytes
  swap_map : Nat → SwapMap
  disk : Bytes
  tlb : Nat → Nat × Nat
  ass : Nat → AddrSpace
  t_vmspace : Option Nat
  files : Nat → Option File

/-- Ways a kernel call fails to return. -/
inductive Abort where
  | panic
  | assertion
  | wait
  deriving DecidableEq, Repr

/-- Conversion of a C `int` to the 32-bit word holding it. -/
def toWord (n : Int) : Nat := (n % (WORD : Int)).toNat

/-! ## `sys_sbrk` (syscall.c) -/

/-- The system call `sys_sbrk(amount, retval)`: the result is the error code, the word
stored to `*retval` and the new kernel state.  `assert(curthread->t_vmspace != NULL)`
is the first line of the function. -/
def sys_sbrk (st : Kernel) (amount : Int) : Except Abort (Nat × Nat × Kernel) :=
  match st.t_vmspace with
  | none => .error .assertion
  | some a =>
    let sp := st.ass a
    let old_heap_vtop := sp.as_heap_vtop
    if amount = 0 then
      .ok (0, old_heap_vtop, st)
    else if (old_heap_vtop + toWord amount) % WORD < sp.as_heap_vstart then
      .ok (EINVAL, toWord (-1), st)
    else if (old_heap_vtop + toWord amount) % WORD ≥ sp.as_stack_vbase then
      .ok (ENOMEM, toWord (-1), st)
    else if ((old_heap_vtop + toWord amount) % WORD + WORD - sp.as_heap_vstart) % WORD
        > USER_HEAP_MAX then
      .ok (ENOMEM, toWord (-1), st)
    else
      let sp1 : AddrSpace :=
        { sp with as_heap_vtop := (sp.as_heap_vtop + toWord amount) % WORD }
      .ok (0, old_heap_vtop, { st with ass := Function.update st.ass a sp1 })

/-! ## Memory, loops and small helpers -/

/-- Modelled from the spec: `ENOEXEC` of `kern/errno.h`. -/
def ENOEXEC : Nat := 13

/-- The 32-bit complement `~m`. -/
def notw (m : Nat) : Nat := WORD - 1 - m

/-- Least index `i` with `start ≤ i < start + fuel` at which `p` holds: a C `for` loop
counting upward that leaves at its first hit. -/
def scanUp (p : Nat → Bool) : Nat → Nat → Option Nat
  | 0, _ => none
  | fuel + 1, i => if p i then some i else scanUp p fuel (i + 1)

/-- Greatest index `i ≤ start` at which `p` holds: the loop
`for(i = start; i >= 0; --i)` that leaves at its first hit. -/
def scanDown (p : Nat → Bool) : Nat → Option Nat
  | 0 => if p 0 then some 0 else none
  | i + 1 => if p (i + 1) then some (i + 1) else scanDown p i

/-- A place a 4096-byte page can be copied from or to: a managed physical frame, named
by its physical address, or the resident page-table slot `as->ptables_in_mem[slot]`. -/
inductive Loc where
  | frame (paddr : Nat)
  | ptable (a : Nat) (slot : Nat)

/-- Physical address of managed frame `i`: `free_paddr + i * PAGE_SIZE`. -/
def frame_paddr (st : Kernel) (i : Nat) : Nat := (st.free_paddr + i * PAGE_SIZE) % WORD

/-- Index of the managed frame at physical address `paddr`:
`(paddr - free_paddr) / PAGE_SIZE`. -/
def frame_index (st : Kernel) (paddr : Nat) : Nat :=
  ((paddr + WORD - st.free_paddr) % WORD) / PAGE_SIZE

/-- Bytes of a page table in memory (big-endian 32-bit entries). -/
def ptable_bytes (t : Nat → Nat) : Bytes :=
  fun b => (t (b / 4) / 256 ^ (3 - b % 4)) % 256

/-- Page-table entries read back from 4096 bytes (big-endian 32-bit entries). -/
def bytes_ptable (m : Bytes) : Nat → Nat :=
  fun k => (m (4 * k) % 256) * 256 ^ 3 + (m (4 * k + 1) % 256) * 256 ^ 2
    + (m (4 * k + 2) % 256) * 256 + m (4 * k + 3) % 256

/-- The 4096 bytes held at a location. -/
def read_page (st : Kernel) : Loc → Bytes
  | .frame paddr => st.mem (frame_index st paddr)
  | .ptable a slot => ptable_bytes ((st.ass a).ptables_in_mem slot)

/-- Replace field `ass[a]` of the kernel state. -/
def setAs (st : Kernel) (a : Nat) (sp : AddrSpace) : Kernel :=
  { st with ass := Function.update st.ass a sp }

/-- Store 4096 bytes at a location. -/
def write_page (st : Kernel) (l : Loc) (buf : Bytes) : Kernel :=
  match l with
  | .frame paddr => { st with mem := Function.update st.mem (frame_index st paddr) buf }
  | .ptable a slot =>
    let sp := st.ass a
    let tbl := bytes_ptable buf
    setAs st a { sp with ptables_in_mem := Function.update sp.ptables_in_mem slot tbl }

/-- Store to `as->ptables_in_mem[slot][idx].pg_tbl_entry`. -/
def set_pte (st : Kernel) (a slot idx v : Nat) : Kernel :=
  let sp := st.ass a
  let tbl := Function.update (sp.ptables_in_mem slot) idx v
  setAs st a { sp with ptables_in_mem := Function.update sp.ptables_in_mem slot tbl }

/-- Load of `as->ptables_in_mem[slot][idx].pg_tbl_entry`. -/
def get_pte (st : Kernel) (a slot idx : Nat) : Nat := (st.ass a).ptables_in_mem slot idx

/-- Store to `as->page_table_flags[slot]`. -/
def set_ptflags (st : Kernel) (a slot v : Nat) : Kernel :=
  let sp := st.ass a
  setAs st a { sp with page_table_flags := Function.update sp.page_table_flags slot v }

/-- Store to `as->pg_dir[i].pg_dir_entry`. -/
def set_pgdir (st : Kernel) (a i v : Nat) : Kernel :=
  let sp := st.ass a
  setAs st a { sp with pg_dir := Function.update sp.pg_dir i v }

/-! ## Swap store (swap.c) -/

/-- The two ways `find_swapped_page_location` treats the slot it finds. -/
inductive swap_option where
  | SWAP_MOVE_IN
  | SWAP_COPY_IN
  deriving DecidableEq

/-- Index of the first free swap slot, as `find_free_swap_section` finds it; `none`
stands for `panic("Out of swap space!")`. -/
def find_free_swap_section (st : Kernel) : Option Nat :=
  scanUp (fun i => decide ((st.swap_map i).flags &&& SWMAP_FLAG_USED = 0)) SWAP_MAP_SIZE 0

/-- Index of the first in-use slot keyed `(as, vpn)`, the search loop of
`find_swapped_page_location`. -/
def find_swapped_index (st : Kernel) (asp : Option Nat) (vpn : Nat) : Option Nat :=
  scanUp (fun i => decide ((st.swap_map i).flags &&& SWMAP_FLAG_USED ≠ 0
      ∧ (st.swap_map i).as = asp ∧ (st.swap_map i).flags &&& PAGE_FRAME = vpn))
    SWAP_MAP_SIZE 0

/-- The function `find_swapped_page_location`: device offset of the slot keyed `(as, vpn)`;
a move-in clears the slot's flag word. -/
def find_swapped_page_location (st : Kernel) (asp : Option Nat) (vpn : Nat)
    (opt : swap_option) : Except Abort (Nat × Kernel) :=
  match find_swapped_index st asp vpn with
  | none => .error .panic
  | some i =>
    let st1 : Kernel :=
      match opt with
      | .SWAP_MOVE_IN =>
        let ent : SwapMap := { as := (st.swap_map i).as, flags := 0 }
        { st with swap_map := Function.update st.swap_map i ent }
      | .SWAP_COPY_IN => st
    .ok (i * PAGE_SIZE + SWAP_GLOBAL_OFFSET, st1)

/-- The function `swap_in_page(as, vpn, free_page)`: bring the page keyed `(as, vpn)` from
the device to `free_page` and release its slot. -/
def swap_in_page (st : Kernel) (asp : Option Nat) (vpn : Nat) (free_page : Loc) :
    Except Abort Kernel :=
  match find_swapped_page_location st asp vpn .SWAP_MOVE_IN with
  | .error e => .error e
  | .ok (pos, st1) => .ok (write_page st1 free_page (fun o => st1.disk (pos + o)))

/-- The function `swap_copy_in_page(as, vpn, free_page)`: as `swap_in_page`, keeping the slot. -/
def swap_copy_in_page (st : Kernel) (asp : Option Nat) (vpn : Nat) (free_page : Loc) :
    Except Abort Kernel :=
  match find_swapped_page_location st asp vpn .SWAP_COPY_IN with
  | .error e => .error e
  | .ok (pos, st1) => .ok (write_page st1 free_page (fun o => st1.disk (pos + o)))

/-- The function `swap_out_page(as, vpn, page_addr)`: claim the first free slot for
`(as, vpn)` and write the 4096 bytes at `page_addr` to it. -/
def swap_out_page (st : Kernel) (asp : Option Nat) (vpn : Nat) (page_addr : Loc) :
    Except Abort Kernel :=
  match find_free_swap_section st with
  | none => .error .panic
  | some free_index =>
    let pos := free_index * PAGE_SIZE + SWAP_GLOBAL_OFFSET
    let buf := read_page st page_addr
    let ent : SwapMap := { as := asp, flags := (vpn &&& PAGE_FRAME) ||| SWMAP_FLAG_USED }
    let disk1 : Bytes := fun o => if pos ≤ o ∧ o < pos + PAGE_SIZE then buf (o - pos) else st.disk o
    .ok { st with swap_map := Function.update st.swap_map free_index ent, disk := disk1 }

/-! ## TLB access (modelled hardware interface) -/

/-- Modelled from the spec: `TLB_Write(entryhi, entrylo, index)` of `machine/tlb.h`. -/
def TLB_Write (st : Kernel) (ehi elo i : Nat) : Kernel :=
  { st with tlb := Function.update st.tlb i (ehi, elo) }

/-- Modelled from the spec: `TLB_Read(&entryhi, &entrylo, index)` of `machine/tlb.h`. -/
def TLB_Read (st : Kernel) (i : Nat) : Nat × Nat := st.tlb i

/-- Modelled from the spec: `TLB_Probe(entryhi, entrylo)` of `machine/tlb.h`: the index of
the entry whose virtual page matches, `none` for a negative result. -/
def TLB_Probe (st : Kernel) (ehi : Nat) : Option Nat :=
  scanUp (fun i => decide ((st.tlb i).1 &&& TLBHI_VPAGE = ehi &&& TLBHI_VPAGE)) NUM_TLB 0

/-- Modelled from the spec: `TLB_Random(entryhi, entrylo)` of `machine/tlb.h`; the slot the
hardware picks is the oracle `r`. -/
def TLB_Random (st : Kernel) (ehi elo r : Nat) : Kernel :=
  TLB_Write st ehi elo (r % NUM_TLB)

/-! ## Page-table cache (dumbvm.c) -/

/-- One round of the loop of `get_victim_slot` for an executable request; the
accumulator is `(least_count, least_count_index)`. -/
def victim_exec_step (sp : AddrSpace) (acc : Nat × Nat) (i : Nat) : Nat × Nat :=
  let f := sp.page_table_flags i
  if f &&& PINMEM_FLAG_EXECUTABLE_MASK ≠ 0 ∧ f &&& PINMEM_FLAG_COUNTER_MASK < acc.1 then
    (f &&& PINMEM_FLAG_COUNTER_MASK, i)
  else acc

/-- Loop variables of the data branch of `get_victim_slot`; an index of `-1` is `none`
and `broke` records that the loop was left by `break`. -/
structure VictimScan where
  least_count : Nat
  least_count_index : Option Nat
  executable_count : Nat
  second_exec_ptable_index : Option Nat
  broke : Bool

/-- One round of the loop of `get_victim_slot` for a data request. -/
def victim_data_step (sp : AddrSpace) (vpgdir : Nat) (s : VictimScan) (i : Nat) : VictimScan :=
  if s.broke then s else
  let f := sp.page_table_flags i
  let s1 : VictimScan :=
    if f &&& PINMEM_FLAG_EXECUTABLE_MASK = 0 ∧ f &&& PINMEM_FLAG_COUNTER_MASK < s.least_count then
      { s with least_count := f &&& PINMEM_FLAG_COUNTER_MASK, least_count_index := some i }
    else s
  if f &&& PINMEM_FLAG_EXECUTABLE_MASK ≠ 0 then
    if s1.executable_count + 1 > 1 then
      { s1 with executable_count := s1.executable_count + 1, second_exec_ptable_index := some i }
    else
      { s1 with executable_count := s1.executable_count + 1 }
  else if f &&& PGDIR_INDEX = vpgdir then
    { s1 with least_count_index := some i, broke := true }
  else s1

/-- The function `get_victim_slot(as, is_executable, vpgdir)`: the resident page-table
slot to evict. -/
def get_victim_slot (sp : AddrSpace) (is_executable : Bool) (vpgdir : Nat) : Except Abort Nat :=
  if is_executable then
    .ok ((List.range NUM_PTABLES_IN_MEM).foldl (victim_exec_step sp) (0x7fffffff, 0)).2
  else
    let s := (List.range NUM_PTABLES_IN_MEM).foldl (victim_data_step sp vpgdir)
      { least_count := 0x7fffffff, least_count_index := none, executable_count := 0,
        second_exec_ptable_index := none, broke := false }
    match s.least_count_index with
    | some i => .ok i
    | none =>
      match s.second_exec_ptable_index with
      | some j => .ok j
      | none => .error .assertion

/-- The function `find_slot_for_pg_table(as, is_executable, vpgdir)`: a free resident
slot, or the slot of a victim table after writing that table to swap. -/
def find_slot_for_pg_table (st : Kernel) (a : Nat) (is_executable : Bool) (vpgdir : Nat) :
    Except Abort (Nat × Kernel) :=
  match scanUp (fun i => decide ((st.ass a).page_table_flags i = 0)) NUM_PTABLES_IN_MEM 0 with
  | some i => .ok (i, st)
  | none =>
    match get_victim_slot (st.ass a) is_executable vpgdir with
    | .error e => .error e
    | .ok victim_index =>
      let vpn := (st.ass a).page_table_flags victim_index &&& PGDIR_INDEX
      match swap_out_page st (some a) (PADDR_TO_KVADDR vpn) (.ptable a victim_index) with
      | .error e => .error e
      | .ok st1 =>
        let st2 := set_ptflags st1 a victim_index 0
        let d := vpn >>> 22
        .ok (victim_index, set_pgdir st2 a d ((st2.ass a).pg_dir d &&& notw PGDIR_PRESENT))

/-- Flag word `(PGDIR_INDEX & vpn) | (is_executable ? PINMEM_FLAG_EXECUTABLE_MASK : 0)`. -/
def slot_tag (vpn : Nat) (is_executable : Bool) : Nat :=
  (PGDIR_INDEX &&& vpn) ||| (if is_executable then PINMEM_FLAG_EXECUTABLE_MASK else 0)

/-- The function `get_page_table(as, vpn, pgdir_index, is_executable)`: the resident slot
of a page table that was loaded before, swapping it in when it is not present. -/
def get_page_table (st : Kernel) (a : Nat) (vpn pgdir_index : Nat) (is_executable : Bool) :
    Except Abort (Nat × Kernel) :=
  if (st.ass a).pg_dir pgdir_index &&& PGDIR_PRESENT ≠ 0 then
    match scanUp (fun i => decide ((st.ass a).page_table_flags i &&& PGDIR_INDEX
        = vpn &&& PGDIR_INDEX)) NUM_PTABLES_IN_MEM 0 with
    | some i =>
      let f := (st.ass a).page_table_flags i
      .ok (i, set_ptflags st a i
        ((f &&& notw PINMEM_FLAG_COUNTER_MASK) ||| ((f + 1) &&& PINMEM_FLAG_COUNTER_MASK)))
    | none => .error .panic
  else
    match find_slot_for_pg_table st a is_executable (vpn &&& PGDIR_INDEX) with
    | .error e => .error e
    | .ok (empty_slot, st1) =>
      match swap_in_page st1 (some a) (PADDR_TO_KVADDR (vpn &&& PGDIR_INDEX))
          (.ptable a empty_slot) with
      | .error e => .error e
      | .ok st2 =>
        let st3 := set_pgdir st2 a pgdir_index ((st2.ass a).pg_dir pgdir_index ||| PGDIR_PRESENT)
        .ok (empty_slot, set_ptflags st3 a empty_slot (slot_tag vpn is_executable))

/-- The function `get_ptbl(as, vpn, is_executable)`: the resident slot holding the page
table of the directory of `vpn`, created zeroed at the first touch of the directory. -/
def get_ptbl (st : Kernel) (asp : Option Nat) (vpn : Nat) (is_executable : Bool) :
    Except Abort (Nat × Kernel) :=
  let pgdir_index := vpn >>> 22
  match asp with
  | none => .error .panic
  | some a =>
    if (st.ass a).pg_dir pgdir_index &&& PGDIR_LOADED ≠ 0 then
      get_page_table st a vpn pgdir_index is_executable
    else
      match find_slot_for_pg_table st a is_executable (vpn &&& PGDIR_INDEX) with
      | .error e => .error e
      | .ok (empty_slot, st1) =>
        let st2 := set_pgdir st1 a pgdir_index
          (((st1.ass a).pg_dir pgdir_index ||| PGDIR_LOADED) ||| PGDIR_PRESENT)
        let st3 := set_ptflags st2 a empty_slot (slot_tag vpn is_executable)
        let sp := st3.ass a
        let zeroed : Nat → Nat := fun _ => 0
        .ok (empty_slot,
          setAs st3 a { sp with ptables_in_mem := Function.update sp.ptables_in_mem empty_slot zeroed })

/-! ## Demand loading (loadelf.c, dumbvm.c) -/

/-- The function `load_page_from_executable(exec_path, offset, vaddr, paddr, memsize, filesize)`:
read `filesize` bytes of the executable at `offset` into the frame at `paddr` and zero the
frame up to `memsize`; a short read returns `ENOEXEC` before the zeroing. -/
def load_page_from_executable (st : Kernel) (exec_path offset _vaddr paddr memsize filesize : Nat) :
    Except Abort (Nat × Kernel) :=
  let filesize := if filesize > memsize then memsize else filesize
  match st.files exec_path with
  | none => .error .assertion
  | some f =>
    if ¬ memsize ≤ PAGE_SIZE then .error .assertion
    else
      let got := min filesize (f.size - offset)
      let fi := frame_index st paddr
      let old := st.mem fi
      let afterRead : Bytes := fun o => if o < got then f.data (offset + o) else old o
      if filesize - got ≠ 0 then
        .ok (ENOEXEC, { st with mem := Function.update st.mem fi afterRead })
      else
        let zeroed : Bytes := fun o => if filesize ≤ o ∧ o < memsize then 0 else afterRead o
        .ok (0, { st with mem := Function.update st.mem fi zeroed })

/-- The function `load_segment_if_required(as, faultaddress, page_paddr, pg_tbl_entry)`; the
entry pointer is `&as->ptables_in_mem[slot][idx].pg_tbl_entry`. -/
def load_segment_if_required (st : Kernel) (a : Nat) (faultaddress page_paddr : Nat)
    (slot idx : Nat) : Except Abort Kernel :=
  let sp := st.ass a
  let top1 := (sp.as_vbase1 + sp.as_npages1 * PAGE_SIZE) % WORD
  let top2 := (sp.as_vbase2 + sp.as_npages2 * PAGE_SIZE) % WORD
  if sp.as_flags1 &&& PF_X = 0 ∧ sp.as_flags2 &&& PF_X = 0 then .error .assertion
  else
    let exec_vbase := if sp.as_flags1 &&& PF_X ≠ 0 then sp.as_vbase1 else sp.as_vbase2
    let exec_vtop := if sp.as_flags1 &&& PF_X ≠ 0 then top1 else top2
    let data_vbase := if sp.as_flags1 &&& PF_X ≠ 0 then sp.as_vbase2 else sp.as_vbase1
    let data_vtop := if sp.as_flags1 &&& PF_X ≠ 0 then top2 else top1
    let entry := get_pte st a slot idx
    if faultaddress ≥ exec_vbase ∧ faultaddress < exec_vtop then
      let vpn := faultaddress &&& PAGE_FRAME
      let num_pages_ahead := ((vpn + WORD - exec_vbase) % WORD) / PAGE_SIZE
      if ¬ num_pages_ahead * PAGE_SIZE ≤ sp.executable_filesize then .error .assertion
      else if ¬ num_pages_ahead * PAGE_SIZE ≤ sp.executable_memsize then .error .assertion
      else
        let filesize := sp.executable_filesize - num_pages_ahead * PAGE_SIZE
        let memsize := sp.executable_memsize - num_pages_ahead * PAGE_SIZE
        let pos := (sp.executable_offset + num_pages_ahead * PAGE_SIZE) % WORD
        let filesize := if filesize > PAGE_SIZE then PAGE_SIZE else filesize
        let memsize := if memsize > PAGE_SIZE then PAGE_SIZE else memsize
        match load_page_from_executable st sp.exec_path pos vpn page_paddr memsize filesize with
        | .error e => .error e
        | .ok (_, st1) => .ok st1
    else if faultaddress ≥ data_vbase ∧ faultaddress < data_vtop ∧ entry &&& PF_L = 0 then
      let vpn := faultaddress &&& PAGE_FRAME
      let num_pages_ahead := ((vpn + WORD - data_vbase) % WORD) / PAGE_SIZE
      if ¬ num_pages_ahead * PAGE_SIZE ≤ sp.data_memsize then .error .assertion
      else
        let filesize :=
          if num_pages_ahead * PAGE_SIZE > sp.data_filesize then 0
          else sp.data_filesize - num_pages_ahead * PAGE_SIZE
        let memsize := sp.data_memsize - num_pages_ahead * PAGE_SIZE
        let pos := (sp.data_offset + num_pages_ahead * PAGE_SIZE) % WORD
        let filesize := if filesize > PAGE_SIZE then PAGE_SIZE else filesize
        let memsize := if memsize > PAGE_SIZE then PAGE_SIZE else memsize
        match load_page_from_executable st sp.exec_path pos vpn page_paddr memsize filesize with
        | .error e => .error e
        | .ok (_, st1) => .ok (set_pte st1 a slot idx (get_pte st1 a slot idx ||| PF_L))
    else if faultaddress ≥ sp.as_heap_vstart ∧ faultaddress < sp.as_heap_vtop
        ∧ entry &&& PF_L = 0 then
      .ok (set_pte st a slot idx (entry ||| PF_L))
    else if faultaddress ≥ sp.as_stack_vbase ∧ faultaddress < USERSTACK
        ∧ entry &&& PF_L = 0 then
      .ok (set_pte st a slot idx (entry ||| PF_L))
    else
      swap_in_page st (some a) faultaddress (.frame page_paddr)

/-! ## Frame table (dumbvm.c) -/

/-- The loop of `make_pg_available` that invalidates every TLB entry whose virtual page
is `victim_vpn`. -/
def tlb_invalidate (st : Kernel) (victim_vpn : Nat) : Kernel :=
  { st with tlb := fun i =>
      if i < NUM_TLB ∧ (st.tlb i).1 &&& TLBHI_VPAGE = victim_vpn then
        (TLBHI_INVALID i, TLBLO_INVALID)
      else st.tlb i }

/-- Store to `pages[i].flags`. -/
def set_page_flags (st : Kernel) (i v : Nat) : Kernel :=
  let pg := st.pages i
  { st with pages := Function.update st.pages i { as := pg.as, vpn := pg.vpn, flags := v } }

/-- The function `make_pg_available(as, vpn, free_index)`: free a frame, evicting a page of
`as` when no frame is free.  The result is the frame's physical address, its index and the
new state; the oracle `r` is the value of `random()`.  A scan that finds no victim is the
`thread_yield` loop, result `wait`. -/
def make_pg_available (st : Kernel) (a : Nat) (vpn : Nat) (r : Nat) :
    Except Abort (Nat × Nat × Kernel) :=
  let sp := st.ass a
  let top1 := (sp.as_vbase1 + sp.as_npages1 * PAGE_SIZE) % WORD
  let top2 := (sp.as_vbase2 + sp.as_npages2 * PAGE_SIZE) % WORD
  if ¬ ((sp.as_vbase1 ≤ vpn ∧ vpn < top1) ∨ (sp.as_vbase2 ≤ vpn ∧ vpn < top2)
      ∨ (sp.as_stack_vbase ≤ vpn ∧ vpn < USERSTACK)
      ∨ (sp.as_heap_vstart ≤ vpn ∧ vpn < sp.as_heap_vtop)) then .error .panic
  else if st.num_pages = 0 then .error .panic
  else
    let i_start := r % st.num_pages
    let hit : Nat → Bool := fun i =>
      decide ((st.pages i).flags &&& PFLAG_USED_MASK = 0 ∨ (st.pages i).as = some a)
    let found : Option Nat :=
      match scanUp hit (st.num_pages - i_start) i_start with
      | some i => some i
      | none => scanDown hit i_start
    match found with
    | none => .error .wait
    | some victim_index =>
      let victim_vpn := (st.pages victim_index).vpn
      let victim_as := (st.pages victim_index).as
      let page_addr := frame_paddr st victim_index
      let used := (st.pages victim_index).flags &&& PFLAG_USED_MASK ≠ 0
      let walked : Except Abort (Bool × Kernel) :=
        if used then
          match victim_as with
          | none => .error .assertion
          | some va =>
            let vsp := st.ass va
            if vsp.as_flags1 &&& PF_X = 0 ∧ vsp.as_flags2 &&& PF_X = 0 then .error .assertion
            else
              let executable_vbase :=
                if vsp.as_flags1 &&& PF_X ≠ 0 then vsp.as_vbase1 else vsp.as_vbase2
              let executable_vtop :=
                if vsp.as_flags1 &&& PF_X ≠ 0 then (vsp.as_vbase1 + vsp.as_npages1 * PAGE_SIZE) % WORD
                else (vsp.as_vbase2 + vsp.as_npages2 * PAGE_SIZE) % WORD
              let victim_is_executable :=
                decide (victim_vpn ≥ executable_vbase ∧ victim_vpn < executable_vtop)
              match get_ptbl st (some va) victim_vpn victim_is_executable with
              | .error e => .error e
              | .ok (slot, st1) =>
                let victim_page_table_index := (victim_vpn &&& PGTBL_INDEX) >>> 12
                let e1 := get_pte st1 va slot victim_page_table_index &&& notw PGTBL_VALID_MASK
                let st2 := set_pte st1 va slot victim_page_table_index e1
                if page_addr = e1 &&& PAGE_FRAME then .ok (!victim_is_executable, st2)
                else .error .assertion
        else .ok (false, st)
      match walked with
      | .error e => .error e
      | .ok (should_i_swap_out, st2) =>
        let st3 := tlb_invalidate st2 victim_vpn
        let swapped : Except Abort Kernel :=
          if should_i_swap_out then swap_out_page st3 victim_as victim_vpn (.frame page_addr)
          else .ok st3
        match swapped with
        | .error e => .error e
        | .ok st4 => .ok (page_addr, victim_index, set_page_flags st4 victim_index 0)

/-- The function `alloc_page(cur_proc, vpn)`: the physical address of a frame now owned by
`(cur_proc, vpn)`. -/
def alloc_page (st : Kernel) (cur_proc : Option Nat) (vpn : Nat) (r : Nat) :
    Except Abort (Nat × Kernel) :=
  let scan := scanUp (fun i => decide ((st.pages i).flags &&& PFLAG_USED_MASK = 0)) st.num_pages 0
  let page_paddr0 : Nat := match scan with
    | some i => frame_paddr st i
    | none => 0
  let i0 : Nat := match scan with
    | some i => i
    | none => st.num_pages
  let made : Except Abort (Nat × Nat × Kernel) :=
    if page_paddr0 = 0 then
      match cur_proc with
      | none => .error .panic
      | some a => make_pg_available st a vpn r
    else .ok (page_paddr0, i0, st)
  match made with
  | .error e => .error e
  | .ok (page_paddr, i, st1) =>
    if page_paddr = 0 then .error .assertion
    else
      match cur_proc with
      | none => .error .assertion
      | some a =>
        let ent : Page := { as := some a, vpn := vpn, flags := PFLAG_USED_MASK }
        .ok (page_paddr, { st1 with pages := Function.update st1.pages i ent })

/-! ## Fault handler (dumbvm.c) -/

/-- The function `find_pte(cur_as, vpn, flags)`: pointer to the page-table entry of `vpn`, as
`(address space, resident slot, index)`, mapping the page first when the entry is not
`VALID`. -/
def find_pte (st : Kernel) (cur_as : Option Nat) (vpn flags r : Nat) :
    Except Abort ((Nat × Nat × Nat) × Kernel) :=
  match cur_as with
  | none => .error .assertion
  | some a =>
    let sp := st.ass a
    let executable_vbase := if sp.as_flags1 &&& PF_X ≠ 0 then sp.as_vbase1 else sp.as_vbase2
    let executable_vtop :=
      if sp.as_flags1 &&& PF_X ≠ 0 then (sp.as_vbase1 + sp.as_npages1 * PAGE_SIZE) % WORD
      else (sp.as_vbase2 + sp.as_npages2 * PAGE_SIZE) % WORD
    let is_executable := decide (vpn ≥ executable_vbase ∧ vpn < executable_vtop)
    match get_ptbl st (some a) vpn is_executable with
    | .error e => .error e
    | .ok (slot, st1) =>
      let pgtbl_index := (vpn &&& PGTBL_INDEX) >>> 12
      if get_pte st1 a slot pgtbl_index &&& PGTBL_VALID_MASK ≠ 0 then
        .ok ((a, slot, pgtbl_index), st1)
      else
        match alloc_page st1 (some a) vpn r with
        | .error e => .error e
        | .ok (page_paddr, st2) =>
          match load_segment_if_required st2 a vpn page_paddr slot pgtbl_index with
          | .error e => .error e
          | .ok st3 =>
            let e1 := get_pte st3 a slot pgtbl_index &&& notw PAGE_FRAME
            let e2 := e1 ||| (((page_paddr &&& PAGE_FRAME) ||| flags) ||| PGTBL_VALID_MASK)
            .ok ((a, slot, pgtbl_index), set_pte st3 a slot pgtbl_index e2)

/-- The region test at the head of `vm_fault`: the permission flags for the page and
whether the stack is to grow by one page; `none` is the segmentation fault. -/
def classify (sp : AddrSpace) (faultaddress : Nat) : Option (Nat × Bool) :=
  let vbase1 := sp.as_vbase1
  let vtop1 := (vbase1 + sp.as_npages1 * PAGE_SIZE) % WORD
  let vbase2 := sp.as_vbase2
  let vtop2 := (vbase2 + sp.as_npages2 * PAGE_SIZE) % WORD
  let stackbase := sp.as_stack_vbase
  let stacktop := USERSTACK
  let max_stack_growth_base := USERSTACK - DUMBVM_STACKPAGES * PAGE_SIZE
  if faultaddress ≥ vbase1 ∧ faultaddress < vtop1 then some (sp.as_flags1, false)
  else if faultaddress ≥ vbase2 ∧ faultaddress < vtop2 then some (sp.as_flags2, false)
  else if faultaddress ≥ stackbase ∧ faultaddress < stacktop then some (PF_R ||| PF_W, false)
  else if faultaddress ≥ (stackbase + WORD - PAGE_SIZE) % WORD ∧ faultaddress ≥ sp.as_heap_vtop
      ∧ faultaddress ≥ max_stack_growth_base then some (PF_R ||| PF_W, true)
  else if faultaddress ≥ sp.as_heap_vstart ∧ faultaddress < sp.as_heap_vtop then
    some (PF_R ||| PF_W, false)
  else none

/-- The statement `as->as_stack_vbase -= PAGE_SIZE` of the growth branch of `vm_fault`. -/
def grow_stack (st : Kernel) (a : Nat) : Kernel :=
  let sp := st.ass a
  setAs st a { sp with as_stack_vbase := (sp.as_stack_vbase + WORD - PAGE_SIZE) % WORD }

/-- The last part of `vm_fault`: put `(faultaddress, elo_fault)` into the TLB, at the entry
`TLB_Probe` finds, else at the first entry that is not valid, else at a random one. -/
def tlb_install (st : Kernel) (faultaddress elo_fault rt : Nat) : Kernel :=
  match TLB_Probe st faultaddress with
  | some i => TLB_Write st faultaddress elo_fault i
  | none =>
    match scanUp (fun i => decide ((TLB_Read st i).2 &&& TLBLO_VALID = 0)) NUM_TLB 0 with
    | some i => TLB_Write st faultaddress elo_fault i
    | none => TLB_Random st faultaddress elo_fault rt

/-- The function `vm_fault(faulttype, faultaddress)`.  The oracles `rp` and `rt` are the value
`random()` gives to `make_pg_available` and the slot `TLB_Random` picks. -/
def vm_fault (st : Kernel) (faulttype faultaddress : Nat) (rp rt : Nat) :
    Except Abort (Nat × Kernel) :=
  let faultaddress := faultaddress &&& PAGE_FRAME
  match st.t_vmspace with
  | none => .ok (EFAULT, st)
  | some a =>
    let sp := st.ass a
    match classify sp faultaddress with
    | none => .ok (VM_FAULT_USER, st)
    | some (flags, grow) =>
      let st0 : Kernel := if grow then grow_stack st a else st
      if faulttype = VM_FAULT_READONLY then
        match find_pte st0 (some a) faultaddress flags rp with
        | .error e => .error e
        | .ok ((pa, slot, idx), st1) =>
          let pte := get_pte st1 pa slot idx
          if pte &&& PF_W ≠ 0 then
            .ok (VM_FAULT_OK,
              tlb_install st1 faultaddress (((pte &&& PAGE_FRAME) ||| TLBLO_DIRTY) ||| TLBLO_VALID) rt)
          else .ok (VM_FAULT_USER, st1)
      else if faulttype = VM_FAULT_READ then
        match find_pte st0 (some a) faultaddress flags rp with
        | .error e => .error e
        | .ok ((pa, slot, idx), st1) =>
          let pte := get_pte st1 pa slot idx
          let elo_fault := (pte &&& PAGE_FRAME) ||| TLBLO_VALID
          let elo_fault := if pte &&& PF_W ≠ 0 then elo_fault ||| TLBLO_DIRTY else elo_fault
          .ok (VM_FAULT_OK, tlb_install st1 faultaddress elo_fault rt)
      else if faulttype = VM_FAULT_WRITE then
        match find_pte st0 (some a) faultaddress flags rp with
        | .error e => .error e
        | .ok ((pa, slot, idx), st1) =>
          let pte := get_pte st1 pa slot idx
          .ok (VM_FAULT_OK,
            tlb_install st1 faultaddress (((pte &&& PAGE_FRAME) ||| TLBLO_DIRTY) ||| TLBLO_VALID) rt)
      else .error .panic

/-! ## Address-space set-up (dumbvm.c, loadelf.c) -/

/-- The function `as_create()`: `kmalloc_as` is the memory `kmalloc` hands out for the record
(`none` when it fails), with whatever it held before; `kmalloc_pg_dir` tells whether the
allocation of the page directory succeeds.  Only the first 1024 bytes (256 entries) of each
resident page-table slot are cleared, as `bzero(as->ptables_in_mem[i], 1024)` does. -/
def as_create (kmalloc_as : Option AddrSpace) (kmalloc_pg_dir : Bool) : Option AddrSpace :=
  match kmalloc_as with
  | none => none
  | some m =>
    if kmalloc_pg_dir then
      some { m with
        as_vbase1 := 0, as_npages1 := 0, as_vbase2 := 0, as_npages2 := 0,
        as_flags1 := 0, as_flags2 := 0, exec_path := 0,
        executable_offset := 0, executable_memsize := 0, executable_filesize := 0,
        data_offset := 0, data_filesize := 0, data_memsize := 0,
        pg_dir := fun _ => 0, page_table_flags := fun _ => 0,
        ptables_in_mem := fun k i =>
          if k < NUM_PTABLES_IN_MEM ∧ i < 256 then 0 else m.ptables_in_mem k i }
    else none

/-- The function `as_define_region(as, vaddr, sz, readable, writeable, executable)`. -/
def as_define_region (sp : AddrSpace) (vaddr sz readable writeable executable : Nat) :
    Nat × AddrSpace :=
  let sz := (sz + (vaddr &&& notw PAGE_FRAME)) % WORD
  let vaddr := vaddr &&& PAGE_FRAME
  let sz := ((sz + PAGE_SIZE - 1) % WORD) &&& PAGE_FRAME
  let npages := sz / PAGE_SIZE
  if sp.as_vbase1 = 0 then
    (0, { sp with as_vbase1 := vaddr, as_flags1 := (readable ||| writeable) ||| executable,
                  as_npages1 := npages })
  else if sp.as_vbase2 = 0 then
    (0, { sp with as_vbase2 := vaddr, as_flags2 := (readable ||| writeable) ||| executable,
                  as_npages2 := npages })
  else (EUNIMP, sp)

/-- The function `setup_segment(offset, memsize, filesize, is_executable, as)` of `loadelf.c`. -/
def setup_segment (offset memsize filesize : Nat) (is_executable : Bool) (sp : AddrSpace) :
    Except Abort (Nat × AddrSpace) :=
  if is_executable then
    if sp.executable_offset = 0 then
      .ok (0, { sp with executable_offset := offset, executable_filesize := filesize,
                        executable_memsize := memsize })
    else .error .assertion
  else
    .ok (0, { sp with data_offset := offset, data_filesize := filesize, data_memsize := memsize })

/-- The function `as_prepare_load(as)`. -/
def as_prepare_load (sp : AddrSpace) : Nat × AddrSpace := (0, sp)

/-- The function `as_complete_load(as)`. -/
def as_complete_load (sp : AddrSpace) : Nat × AddrSpace :=
  let region1_top := (sp.as_vbase1 + sp.as_npages1 * PAGE_SIZE) % WORD
  let region2_top := (sp.as_vbase2 + sp.as_npages2 * PAGE_SIZE) % WORD
  let start := if region1_top > region2_top then region1_top else region2_top
  (0, { sp with as_heap_vstart := start, as_heap_vtop := start })

/-- The function `as_define_stack(as, stackptr)`: error code, `*stackptr`, new record. -/
def as_define_stack (sp : AddrSpace) : Nat × Nat × AddrSpace :=
  let sp1 : AddrSpace := { sp with as_stack_vbase := USERSTACK - PAGE_SIZE }
  if sp1.as_stack_vbase < sp1.as_heap_vtop then (ENOMEM, USERSTACK, sp1)
  else (0, USERSTACK, sp1)


/-! ## Frame table: bootstrap, kernel runs, eviction of all user pages (dumbvm.c) -/

/-- Size of `struct page` on the 32-bit MIPS target: a pointer, a `vaddr_t` and a
`u_int32_t`. -/
def SIZEOF_PAGE : Nat := 12

/-- A C loop `for(i = start; i < start + n; ++i) body` over the kernel state, left at the first
abort. -/
def for_loop (body : Kernel → Nat → Except Abort Kernel) : Nat → Nat → Kernel → Except Abort Kernel
  | 0, _, st => .ok st
  | n + 1, i, st =>
    match body st i with
    | .error e => .error e
    | .ok st1 => for_loop body n (i + 1) st1

/-- The sizing loop of `vm_bootstrap` on `(pages_start_addr, coremap_end_addr, num_pages)`;
`none` when the fuel runs out. -/
def bootstrap_loop : Nat → Nat × Nat × Nat → Option (Nat × Nat × Nat)
  | 0, _ => none
  | fuel + 1, (pages_start_addr, coremap_end_addr, num_pages) =>
    if (pages_start_addr + WORD - PAGE_SIZE) % WORD ≥ (coremap_end_addr + SIZEOF_PAGE) % WORD then
      bootstrap_loop fuel ((pages_start_addr + WORD - PAGE_SIZE) % WORD,
        (coremap_end_addr + SIZEOF_PAGE) % WORD, num_pages + 1)
    else some (pages_start_addr, coremap_end_addr, num_pages)

/-- The function `vm_bootstrap()`; `lo` and `last_paddr` are what `ram_getsize` reports.  The
frame table `pages` is the array of `num_pages` entries at `lo`, all zeroed. -/
def vm_bootstrap (st : Kernel) (lo last_paddr : Nat) : Except Abort Kernel :=
  let pages_start_addr := ((last_paddr + WORD - PAGE_SIZE) % WORD) &&& PAGE_FRAME
  let coremap_end_addr := (lo + SIZEOF_PAGE) % WORD
  if pages_start_addr < coremap_end_addr then .error .panic
  else
    match bootstrap_loop (2 ^ 21) (pages_start_addr, coremap_end_addr, 1) with
    | none => .error .wait
    | some (pages_start_addr, _, num_pages) =>
      if num_pages < MIN_COREMAP_PAGES then .error .panic
      else
        let zero : Page := { as := none, vpn := 0, flags := 0 }
        .ok { st with pages := fun i => if i < num_pages then zero else st.pages i,
                      num_pages := num_pages, free_paddr := pages_start_addr }

/-- The counting loop of `can_i_alloc_npages`: the fuel is the number of rounds left, at most
`npages` since `*count < npages` is part of the loop test. -/
def count_free (st : Kernel) (npages : Nat) : Nat → Nat → Nat → Nat
  | 0, _, count => count
  | fuel + 1, start, count =>
    if (st.pages start).flags &&& PFLAG_USED_MASK = 0 ∧ count < npages ∧ start < st.num_pages then
      count_free st npages fuel (start + 1) (count + 1)
    else count

/-- The function `can_i_alloc_npages(pages + start, npages, &count)`: the result and
`*count`. -/
def can_i_alloc_npages (st : Kernel) (start npages : Nat) : Bool × Nat :=
  let count := count_free st npages npages start 0
  (decide (count = npages), count)

/-- The function `setup_coremap_for_kpages(pages + start, npages)`. -/
def setup_coremap_for_kpages (st : Kernel) (start npages : Nat) : Kernel :=
  { st with pages := fun j =>
      if start ≤ j ∧ j < start + npages then
        { as := none, vpn := (st.pages j).vpn, flags := PFLAG_USED_MASK }
      else st.pages j }

/-- The loop `while(i < num_pages && (pages[i].flags & PFLAG_USED_MASK)) i++` of
`getkpagesfromvm`. -/
def skip_used (st : Kernel) : Nat → Nat → Nat
  | 0, i => i
  | fuel + 1, i =>
    if i < st.num_pages ∧ (st.pages i).flags &&& PFLAG_USED_MASK ≠ 0 then skip_used st fuel (i + 1)
    else i

/-- The outer loop of `getkpagesfromvm`, entered with index `i`; running out of fuel is the
result `wait`. -/
def getkpages_loop (st : Kernel) (npages : Nat) : Nat → Nat → Except Abort (Nat × Kernel)
  | 0, i => if i < st.num_pages then .error .wait else .ok (0, st)
  | fuel + 1, i =>
    if i < st.num_pages then
      let r := can_i_alloc_npages st i npages
      if r.1 then
        let st1 := setup_coremap_for_kpages st i npages
        let addr := (st.free_paddr + i * PAGE_SIZE) % WORD
        .ok (addr, set_page_flags st1 i
          ((st1.pages i).flags ||| ((npages % WORD) &&& PFLAG_NUM_CONTG_PAGES)))
      else
        getkpages_loop st npages fuel (skip_used st (st.num_pages - (i + r.2)) (i + r.2))
    else .ok (0, st)

/-- The function `getkpagesfromvm(npages)`: the physical address of the run (0 when there is
none) and the new state. -/
def getkpagesfromvm (st : Kernel) (npages : Nat) : Except Abort (Nat × Kernel) :=
  getkpages_loop st npages st.num_pages 0

/-- The function `reclaim_all_user_pages()`. -/
def reclaim_all_user_pages (st : Kernel) : Kernel :=
  { st with pages := fun i =>
      if i < st.num_pages ∧ (st.pages i).as ≠ none then
        { as := (st.pages i).as, vpn := (st.pages i).vpn, flags := 0 }
      else st.pages i }

/-- The body both eviction loops run on an in-use user frame `i`: clear `VALID` in the owner's
page-table entry, write the page to swap, zero the frame's flag word.  A frame without owner
makes the code dereference `NULL`. -/
def evict_frame (st : Kernel) (i : Nat) : Except Abort Kernel :=
  match (st.pages i).as with
  | none => .error .panic
  | some va =>
    let vsp := st.ass va
    let vpn := (st.pages i).vpn
    let is_executable := decide (vpn ≥ vsp.as_vbase1
      ∧ vpn < (vsp.as_vbase1 + vsp.as_npages1 * PAGE_SIZE) % WORD)
    match get_ptbl st (some va) vpn is_executable with
    | .error e => .error e
    | .ok (slot, st1) =>
      let page_index := (vpn &&& PGTBL_INDEX) >>> 12
      let st2 := set_pte st1 va slot page_index
        (get_pte st1 va slot page_index &&& notw PGTBL_VALID_MASK)
      match swap_out_page st2 (st2.pages i).as (st2.pages i).vpn (.frame (frame_paddr st2 i)) with
      | .error e => .error e
      | .ok st3 => .ok (set_page_flags st3 i 0)

/-- The function `evict_all_my_pages_if_necessary(as)`. -/
def evict_all_my_pages_if_necessary (st : Kernel) (asp : Option Nat) : Except Abort Kernel :=
  match scanUp (fun i => decide ((st.pages i).flags &&& PFLAG_USED_MASK = 0)) st.num_pages 0 with
  | some _ => .ok st
  | none =>
    for_loop (fun s i =>
      if (s.pages i).as = asp ∧ (s.pages i).flags &&& PFLAG_USED_MASK ≠ 0 then evict_frame s i
      else .ok s) st.num_pages 0 st

/-- The function `evict_all_user_pages()`. -/
def evict_all_user_pages (st : Kernel) : Except Abort Kernel :=
  for_loop (fun s i =>
    if (s.pages i).as ≠ none ∧ (s.pages i).flags &&& PFLAG_USED_MASK ≠ 0 then evict_frame s i
    else .ok s) st.num_pages 0 st

/-- The function `alloc_kpages(npages)`; `stolen` is what `ram_stealmem(npages)` returns, 0
once the frame table is live. -/
def alloc_kpages (st : Kernel) (npages : Nat) (stolen : Nat) : Except Abort (Nat × Kernel) :=
  if stolen ≠ 0 then .ok (PADDR_TO_KVADDR stolen, st)
  else
    match getkpagesfromvm st npages with
    | .error e => .error e
    | .ok (pa, st1) =>
      if pa ≠ 0 then .ok (PADDR_TO_KVADDR pa, st1)
      else
        match evict_all_user_pages st1 with
        | .error e => .error e
        | .ok st2 =>
          match getkpagesfromvm st2 npages with
          | .error e => .error e
          | .ok (pa2, st3) => if pa2 ≠ 0 then .ok (PADDR_TO_KVADDR pa2, st3) else .ok (0, st3)

/-- The function `free_kpages(addr)`. -/
def free_kpages (st : Kernel) (addr : Nat) : Except Abort Kernel :=
  let coremap_start := PADDR_TO_KVADDR st.free_paddr
  let page_index := ((addr + WORD - coremap_start) % WORD) / PAGE_SIZE
  if ¬ page_index < st.num_pages then .error .assertion
  else
    let num_contiguous_pages := (st.pages page_index).flags &&& PFLAG_NUM_CONTG_PAGES
    if ¬ page_index + num_contiguous_pages ≤ st.num_pages then .error .assertion
    else if ¬ ((st.pages page_index).as = none
        ∧ (st.pages page_index).flags &&& PFLAG_USED_MASK ≠ 0) then .error .assertion
    else
      .ok { st with pages := fun j =>
        if page_index ≤ j ∧ j < page_index + num_contiguous_pages then
          { as := (st.pages j).as, vpn := (st.pages j).vpn, flags := 0 }
        else st.pages j }

/-- The function `free_page(page)`. -/
def free_page (st : Kernel) (page : Nat) : Except Abort Kernel :=
  if page % PAGE_SIZE ≠ 0 then .error .assertion
  else
    let page_index := ((page + WORD - st.free_paddr) % WORD) / PAGE_SIZE
    if ¬ page_index < st.num_pages then .error .assertion
    else
      let ent : Page := { as := none, vpn := (st.pages page_index).vpn, flags := 0 }
      .ok { st with pages := Function.update st.pages page_index ent }

/-! ## Swap store: release (swap.c) -/

/-- The function `swap_free_pages(as)`. -/
def swap_free_pages (st : Kernel) (asp : Option Nat) : Kernel :=
  { st with swap_map := fun i =>
      if i < SWAP_MAP_SIZE ∧ (st.swap_map i).as = asp then
        { as := (st.swap_map i).as, flags := 0 }
      else st.swap_map i }

/-- The function `reclaim_all_swap_sections()`. -/
def reclaim_all_swap_sections (st : Kernel) : Kernel :=
  { st with swap_map := fun i =>
      if i < SWAP_MAP_SIZE then { as := (st.swap_map i).as, flags := 0 } else st.swap_map i }

/-! ## Address-space teardown and copy (dumbvm.c) -/

/-- The function `as_destroy(as)` up to its two `kfree` calls: every frame recorded for `as`
loses its owner and its flag word, and every swap slot of `as` is released. -/
def as_destroy (st : Kernel) (asp : Option Nat) : Kernel :=
  let pages1 : Nat → Page := fun i =>
    if i < st.num_pages ∧ (st.pages i).as = asp then
      { as := none, vpn := (st.pages i).vpn, flags := 0 }
    else st.pages i
  swap_free_pages { st with pages := pages1 } asp

/-- The body the two `PF_L` branches of `copy_individal_page_table` share: allocate a frame
for `(as_new, vpn)`, fill it from the parent's frame or from the parent's swap slot, and write
the child's entry.  `ptbl_old` is `as_old->ptables_in_mem[slot_old]`, `ptbl_new` is
`as_new->ptables_in_mem[slot_new]`. -/
def copy_page (st : Kernel) (as_old as_new slot_old slot_new vpn r i : Nat) :
    Except Abort Kernel :=
  match alloc_page st (some as_new) vpn r with
  | .error e => .error e
  | .ok (page_addr, st1) =>
    let filled : Except Abort Kernel :=
      if get_pte st1 as_old slot_old i &&& PGTBL_VALID_MASK ≠ 0 then
        .ok (write_page st1 (.frame page_addr)
          (read_page st1 (.frame (get_pte st1 as_old slot_old i &&& PAGE_FRAME))))
      else swap_copy_in_page st1 (some as_old) vpn (.frame page_addr)
    match filled with
    | .error e => .error e
    | .ok st2 =>
      .ok (set_pte st2 as_new slot_new i
        ((page_addr ||| (get_pte st2 as_old slot_old i &&& notw PAGE_FRAME)) ||| PGTBL_VALID_MASK))

/-- The function `copy_individal_page_table(as_old, as_new, ptbl_old, ptbl_new, vpgdir)`; `r i`
is the value of `random()` for the allocation of entry `i`. -/
def copy_individal_page_table (st : Kernel) (as_old as_new slot_old slot_new vpgdir : Nat)
    (r : Nat → Nat) : Except Abort Kernel :=
  for_loop (fun s i =>
    let vpn := vpgdir ||| ((i <<< 12) % WORD)
    let e := get_pte s as_old slot_old i
    if e &&& PF_L ≠ 0 ∧ e &&& PGTBL_VALID_MASK ≠ 0 then
      copy_page s as_old as_new slot_old slot_new vpn (r i) i
    else if e &&& PF_L ≠ 0 then
      copy_page s as_old as_new slot_old slot_new vpn (r i) i
    else .ok s) 1024 0 st

/-- The function `copy_all_page_tables(as_old, as_new)`; `r i j` is the value of `random()`
for entry `j` of directory `i`. -/
def copy_all_page_tables (st : Kernel) (as_old as_new : Nat) (r : Nat → Nat → Nat) :
    Except Abort Kernel :=
  let n := st.ass as_new
  if n.as_flags1 &&& PF_X = 0 ∧ n.as_flags2 &&& PF_X = 0 then .error .assertion
  else
    let exec_vbase := if n.as_flags1 &&& PF_X ≠ 0 then n.as_vbase1 else n.as_vbase2
    for_loop (fun s i =>
      if (s.ass as_old).pg_dir i &&& PGDIR_LOADED ≠ 0 then
        match get_page_table s as_old ((i <<< 22) % WORD) i false with
        | .error e => .error e
        | .ok (slot_old, s1) =>
          match find_slot_for_pg_table s1 as_new false ((i <<< 22) % WORD) with
          | .error e => .error e
          | .ok (empty_slot, s2) =>
            match copy_individal_page_table s2 as_old as_new slot_old empty_slot
                ((i <<< 22) % WORD) (r i) with
            | .error e => .error e
            | .ok s3 =>
              let tag := (i <<< 22) % WORD
              let tag1 :=
                if tag &&& PGDIR_INDEX = exec_vbase &&& PGDIR_INDEX then
                  tag ||| PINMEM_FLAG_EXECUTABLE_MASK
                else tag
              let s4 := set_ptflags s3 as_new empty_slot tag1
              .ok (set_pgdir s4 as_new i (PGDIR_PRESENT ||| PGDIR_LOADED))
      else .ok s) 1024 0 st

/-- The function `as_copy(old, ret)`: the error code, `*ret` and the new state.  `new` is the
address `kmalloc` gives the child's record, `kmalloc_as` what that memory held before and
`kmalloc_pg_dir` whether the allocation of the page directory succeeds; `st` is the state in
which the two `kmalloc` calls of `as_create` have returned. -/
def as_copy (st : Kernel) (old new : Nat) (kmalloc_as : Option AddrSpace)
    (kmalloc_pg_dir : Bool) (r : Nat → Nat → Nat) : Except Abort (Nat × Option Nat × Kernel) :=
  match as_create kmalloc_as kmalloc_pg_dir with
  | none => .ok (ENOMEM, none, st)
  | some c =>
    let o := st.ass old
    let c1 : AddrSpace := { c with
      as_vbase1 := o.as_vbase1, as_npages1 := o.as_npages1, as_vbase2 := o.as_vbase2,
      as_npages2 := o.as_npages2, as_flags1 := o.as_flags1, as_flags2 := o.as_flags2,
      as_heap_vstart := o.as_heap_vstart, as_heap_vtop := o.as_heap_vtop,
      as_stack_vbase := o.as_stack_vbase, data_filesize := o.data_filesize,
      data_memsize := o.data_memsize, data_offset := o.data_offset,
      executable_filesize := o.executable_filesize, executable_memsize := o.executable_memsize,
      executable_offset := o.executable_offset, exec_path := o.exec_path }
    match copy_all_page_tables (setAs st new c1) old new r with
    | .error e => .error e
    | .ok st1 => .ok (0, some new, st1)

/-! ## Release of kernel heap blocks -/

/-- Modelled from the spec: `kfree(ptr)` of `lib/kmalloc.c` for a block of a page or more.
`kmalloc` takes such a block from `alloc_kpages` and `kfree` hands it back to `free_kpages`
(vm.h: "Allocate/free kernel heap pages (called by kmalloc/kfree)").  The page directory
(1024 entries of 4 bytes) and `struct addrspace` (three resident page tables of 4096 bytes)
are such blocks. -/
def kfree (st : Kernel) (ptr : Nat) : Except Abort Kernel := free_kpages st ptr

/-! ## Process identifiers (pid.c) -/

/-- The constant `MAX_USER_PROCESSES` of `pid.h`. -/
def MAX_USER_PROCESSES : Nat := 20

/-- The file-scope variables of `pid.c`: the array `pid_array` (entry 0 for a pid that is not
allocated) and `last_pid_index`. -/
structure PidState where
  pid_array : Nat → Int
  last_pid_index : Nat

/-- The function `pid_bootstrap()`: `kmalloc_ok` tells whether the allocation of the array
succeeds; `last_pid_index` has its static initial value 0. -/
def pid_bootstrap (kmalloc_ok : Bool) : Except Abort PidState :=
  if kmalloc_ok then .ok { pid_array := fun _ => 0, last_pid_index := 0 }
  else .error .panic

/-- The `do ... while(i_try_pid != last_pid_index)` loop of `get_new_pid`, entered with the
given `i_try_pid`; the fuel bounds the number of rounds and `none` is its exhaustion. -/
def get_new_pid_loop (s : PidState) : Nat → Nat → Option (Int × PidState)
  | 0, _ => none
  | fuel + 1, i_try_pid =>
    if s.pid_array i_try_pid = 0 then
      some ((i_try_pid : Int) + 1,
        { pid_array := Function.update s.pid_array i_try_pid 1, last_pid_index := i_try_pid })
    else if (i_try_pid + 1) % MAX_USER_PROCESSES ≠ s.last_pid_index then
      get_new_pid_loop s fuel ((i_try_pid + 1) % MAX_USER_PROCESSES)
    else some (-1, s)

/-- The function `get_new_pid()`: the value returned and the new state. -/
def get_new_pid (s : PidState) : Except Abort (Int × PidState) :=
  match get_new_pid_loop s MAX_USER_PROCESSES s.last_pid_index with
  | none => .error .wait
  | some r => .ok r

/-- The function `release_pid(pid)`. -/
def release_pid (s : PidState) (pid : Int) : Except Abort PidState :=
  if ¬ (pid > 0 ∧ pid ≤ (MAX_USER_PROCESSES : Int)) then .error .assertion
  else if s.pid_array (pid - 1).toNat ≠ 1 then .error .assertion
  else .ok { s with pid_array := Function.update s.pid_array (pid - 1).toNat 0 }

/-! ## Frame-table entries read by `can_i_alloc_npages` (dumbvm.c) -/

/-- The loop of `can_i_alloc_npages` once more, recording the index of every frame-table
entry whose `flags` it reads.  Each evaluation of the loop test
`!(start->flags & PFLAG_USED_MASK) && (*count < npages) && (start_vaddr < coremap_end_addr)`
reads `start->flags` first, also the evaluation that ends the loop; the fuel is the number of
rounds left, as in `count_free`. -/
def can_i_alloc_reads (st : Kernel) (npages : Nat) : Nat → Nat → Nat → List Nat
  | 0, start, _ => [start]
  | fuel + 1, start, count =>
    if (st.pages start).flags &&& PFLAG_USED_MASK = 0 ∧ count < npages ∧ start < st.num_pages then
      start :: can_i_alloc_reads st npages fuel (start + 1) (count + 1)
    else [start]

/-- The outer loop of `getkpagesfromvm` once more, collecting the entries read by its calls of
`can_i_alloc_npages(pages + i, npages, &count)`, in order. -/
def getkpages_reads (st : Kernel) (npages : Nat) : Nat → Nat → List Nat
  | 0, _ => []
  | fuel + 1, i =>
    if i < st.num_pages then
      let r := can_i_alloc_npages st i npages
      can_i_alloc_reads st npages npages i 0 ++
        (if r.1 then []
         else getkpages_reads st npages fuel (skip_used st (st.num_pages - (i + r.2)) (i + r.2)))
    else []

/-! ## Specification-level predicates -/

/-- The bounds `heap_vstart ≤ heap_vtop ≤ stack_vbase ≤ USERSTACK` of an address space. -/
def heap_stack_bounds (sp : AddrSpace) : Prop :=
  sp.as_heap_vstart ≤ sp.as_heap_vtop ∧ sp.as_heap_vtop ≤ sp.as_stack_vbase
    ∧ sp.as_stack_vbase ≤ USERSTACK

/-- Virtual page of entry `idx` of the page table held by resident slot `k`. -/
def slot_vpn (sp : AddrSpace) (k idx : Nat) : Nat :=
  (sp.page_table_flags k &&& PGDIR_INDEX) ||| (idx <<< 12)

/-- Every `VALID` entry of a resident page table of address space `a` names a managed frame
that is marked `USED` and carries `(a, vpn)` back. -/
def valid_entries_backed (st : Kernel) (a : Nat) : Prop :=
  ∀ k idx, k < NUM_PTABLES_IN_MEM → idx < 1024 → (st.ass a).page_table_flags k ≠ 0 →
    get_pte st a k idx &&& PGTBL_VALID_MASK ≠ 0 →
      frame_index st (get_pte st a k idx &&& PAGE_FRAME) < st.num_pages
      ∧ frame_paddr st (frame_index st (get_pte st a k idx &&& PAGE_FRAME))
          = get_pte st a k idx &&& PAGE_FRAME
      ∧ (st.pages (frame_index st (get_pte st a k idx &&& PAGE_FRAME))).flags
          &&& PFLAG_USED_MASK ≠ 0
      ∧ (st.pages (frame_index st (get_pte st a k idx &&& PAGE_FRAME))).as = some a
      ∧ (st.pages (frame_index st (get_pte st a k idx &&& PAGE_FRAME))).vpn
          = slot_vpn (st.ass a) k idx

/-- The state `st1` differs from `st` at most in the page directory, the resident page
tables and their flag words of address space `a`, and in the swap store: what a page-table
walk may change. -/
def cache_step (a : Nat) (st st1 : Kernel) : Prop :=
  ∃ pd pt fl sm dk, st1 =
    { st with
      ass := Function.update st.ass a
        { st.ass a with pg_dir := pd, ptables_in_mem := pt, page_table_flags := fl }
      swap_map := sm
      disk := dk }

/-- The state `st1` differs from `st` at most in the resident page tables of address space
`a`, in the frame contents and in the swap table: what a demand load may change. -/
def load_step (a : Nat) (st st1 : Kernel) : Prop :=
  ∃ pt m sm, st1 =
    { st with
      ass := Function.update st.ass a { st.ass a with ptables_in_mem := pt }
      mem := m
      swap_map := sm }

/-- The test `is_executable` of `find_pte`: the page lies in the executable region. -/
def exec_page (sp : AddrSpace) (vpn : Nat) : Bool :=
  decide (vpn ≥ (if sp.as_flags1 &&& PF_X ≠ 0 then sp.as_vbase1 else sp.as_vbase2)
    ∧ vpn < (if sp.as_flags1 &&& PF_X ≠ 0 then (sp.as_vbase1 + sp.as_npages1 * PAGE_SIZE) % WORD
        else (sp.as_vbase2 + sp.as_npages2 * PAGE_SIZE) % WORD))

/-- Index of a page's entry in its page table: `(vpn & PGTBL_INDEX) >> 12`. -/
def pte_index (vpn : Nat) : Nat := (vpn &&& PGTBL_INDEX) >>> 12

/-- The address space keeps a resident slot tagged with the directory of `vpn` only while
that directory is marked `LOADED` and `PRESENT`. -/
def slots_match_directory (sp : AddrSpace) (vpn : Nat) : Prop :=
  ∀ j, j < NUM_PTABLES_IN_MEM → sp.page_table_flags j &&& PGDIR_INDEX = vpn &&& PGDIR_INDEX →
    sp.pg_dir (vpn >>> 22) &&& PGDIR_PRESENT ≠ 0 ∧ sp.pg_dir (vpn >>> 22) &&& PGDIR_LOADED ≠ 0

/-- Some managed frame is free, and no managed frame has physical address 0 (the value
`alloc_page` takes for "no frame found"). -/
def free_frame_available (st : Kernel) : Prop :=
  (∃ i, i < st.num_pages ∧ (st.pages i).flags &&& PFLAG_USED_MASK = 0)
    ∧ ∀ i, i < st.num_pages → frame_paddr st i ≠ 0

/-! ## Concrete configurations on which the code is evaluated -/

/-- A `struct addrspace` whose memory is all zero. -/
def zero_as : AddrSpace :=
  { as_vbase1 := 0, as_npages1 := 0, as_flags1 := 0, as_vbase2 := 0, as_npages2 := 0,
    as_flags2 := 0, executable_offset := 0, executable_memsize := 0, executable_filesize := 0,
    data_offset := 0, data_memsize := 0, data_filesize := 0, as_stack_vbase := 0,
    as_heap_vstart := 0, as_heap_vtop := 0, exec_path := 0, pg_dir := fun _ => 0,
    ptables_in_mem := fun _ _ => 0, page_table_flags := fun _ => 0 }

/-- A `PT_LOAD` program header: address, memory size, file size, file offset, flags. -/
structure Segment where
  p_vaddr : Nat
  p_memsz : Nat
  p_filesz : Nat
  p_offset : Nat
  p_flags : Nat

/-- The two loops of `load_elf` over the `PT_LOAD` segments, followed by `as_complete_load`. -/
def load_segments (sp : AddrSpace) (segs : List Segment) : AddrSpace :=
  let sp1 := segs.foldl (fun s g => (as_define_region s g.p_vaddr g.p_memsz
    (g.p_flags &&& PF_R) (g.p_flags &&& PF_W) (g.p_flags &&& PF_X)).2) sp
  let sp2 := segs.foldl (fun s g =>
    match setup_segment g.p_offset g.p_memsz g.p_filesz (decide (g.p_flags &&& PF_X ≠ 0)) s with
    | .ok (_, s1) => s1
    | .error _ => s) sp1
  (as_complete_load sp2).2

/-- The address space `runprogram` builds for an executable named `1` with the given
segments: `as_create`, `load_elf`, `as_define_stack`, then the copy of the program name. -/
def program_as (segs : List Segment) : AddrSpace :=
  match as_create (some zero_as) true with
  | none => zero_as
  | some sp =>
    let sp1 := (as_define_stack (load_segments sp segs)).2.2
    { sp1 with exec_path := 1 }

/-- A kernel just after boot running one process: ten managed frames from physical address
`0x40000`, the first `kernel_frames` of them held by the kernel and the rest free, an empty
swap table, an invalidated TLB, the executable `1`, and the address space `sp` at pointer `7`
installed as `curthread->t_vmspace`. -/
def boot_kernel (sp : AddrSpace) (kernel_frames : Nat) : Kernel :=
  { pages := fun i =>
      if i < kernel_frames then { as := none, vpn := 0, flags := PFLAG_USED_MASK }
      else { as := none, vpn := 0, flags := 0 }
    num_pages := 10
    free_paddr := 0x40000
    mem := fun _ _ => 0
    swap_map := fun _ => { as := none, flags := 0 }
    disk := fun _ => 0
    tlb := fun i => (TLBHI_INVALID i, TLBLO_INVALID)
    ass := fun _ => sp
    t_vmspace := some 7
    files := fun n => if n = 1 then some { size := 0x2000000, data := fun _ => 0 } else none }

/-- Run a sequence of page faults `(faulttype, faultaddress, random value)`; every fault of
the sequence has to return. -/
def run_faults (st : Kernel) : List (Nat × Nat × Nat) → Except Abort Kernel
  | [] => .ok st
  | (t, addr, r) :: rest =>
    match vm_fault st t addr r 0 with
    | .error e => .error e
    | .ok (_, st1) => run_faults st1 rest

/-- Return value of a call, when it returns. -/
def returned {α : Type} (r : Except Abort (Nat × α)) : Option Nat :=
  match r with
  | .ok (v, _) => some v
  | .error _ => none

/-- The way a call aborts, when it does. -/
def aborted {α : Type} (r : Except Abort α) : Option Abort :=
  match r with
  | .ok _ => none
  | .error e => some e

/-- State left by a call, the given state when it aborts. -/
def state_after {α : Type} (st : Kernel) (r : Except Abort (α × Kernel)) : Kernel :=
  match r with
  | .ok (_, s) => s
  | .error _ => st

/-- State left by a run of faults, the given state when the run aborts. -/
def final_state (st : Kernel) (r : Except Abort Kernel) : Kernel :=
  match r with
  | .ok s => s
  | .error _ => st

/-- A text segment of one page at `0x00400000` (R|X). -/
def text_segment : Segment :=
  { p_vaddr := 0x00400000, p_memsz := 4096, p_filesz := 4096, p_offset := 0x1000, p_flags := 5 }

/-- A data segment of two pages at `0x10000000` (R|W). -/
def data_segment : Segment :=
  { p_vaddr := 0x10000000, p_memsz := 8192, p_filesz := 8192, p_offset := 0x2000, p_flags := 6 }

/-- An ordinary program: one text page, two data pages, three free frames. -/
def plain_kernel : Kernel := boot_kernel (program_as [text_segment, data_segment]) 7

/-- A kernel whose current address space has its heap and stack base at `0xfffff000`, above
`USERSTACK`. -/
def high_heap_kernel : Kernel :=
  boot_kernel { zero_as with as_heap_vstart := 0xfffff000, as_heap_vtop := 0xfffff000,
                             as_stack_vbase := 0xfffff000 } 7

/-- A kernel whose current address space has its heap from 0 to `0x80001000` and its stack
base at `0xfffff000`, above `USERSTACK`. -/
def wrapped_heap_kernel : Kernel :=
  boot_kernel { zero_as with as_heap_vstart := 0, as_heap_vtop := 0x80001000,
                             as_stack_vbase := 0xfffff000 } 7

/-- State left by `sys_sbrk`, the given state when it aborts. -/
def sbrk_state (st : Kernel) (r : Except Abort (Nat × Nat × Kernel)) : Kernel :=
  match r with
  | .ok (_, _, s) => s
  | .error _ => st

/-- A data segment of 1024 pages at `0x7fbff000` (R|W), ending where the first stack page
starts. -/
def wide_data_segment : Segment :=
  { p_vaddr := 0x7fbff000, p_memsz := 0x400000, p_filesz := 0, p_offset := 0x2000, p_flags := 6 }

/-- A program whose data ends at the stack: one text page, `wide_data_segment`, five free
frames. -/
def crowded_kernel : Kernel := boot_kernel (program_as [text_segment, wide_data_segment]) 5

/-- Read faults on the text page, the first data page and the first stack page, then on the
kernel address `0xff800000`. -/
def crowded_faults : List (Nat × Nat × Nat) :=
  [(VM_FAULT_READ, 0x00400000, 0), (VM_FAULT_READ, 0x7fbff000, 0),
   (VM_FAULT_READ, 0x7ffff000, 0), (VM_FAULT_READ, 0xff800000, 0)]

/-- A data segment of 3072 pages at `0x10000000` (R|W), spanning three page directories. -/
def long_data_segment : Segment :=
  { p_vaddr := 0x10000000, p_memsz := 0xc00000, p_filesz := 0, p_offset := 0x2000, p_flags := 6 }

/-- A program under memory pressure: one text page, `long_data_segment`, and a single free
frame (nine of the ten frames are held by the kernel). -/
def tight_kernel : Kernel := boot_kernel (program_as [text_segment, long_data_segment]) 9

/-- Read faults on one data page in each of three page directories, then on the first stack
page. -/
def tight_faults : List (Nat × Nat × Nat) :=
  [(VM_FAULT_READ, 0x10000000, 0), (VM_FAULT_READ, 0x10400000, 0),
   (VM_FAULT_READ, 0x10800000, 0), (VM_FAULT_READ, 0x7ffff000, 0)]

/-- The kernel `st` with every one of the 1280 swap slots in use by another address space
(pointer `8`), slot `i` holding its page `i`. -/
def fill_swap (st : Kernel) : Kernel :=
  { st with swap_map := fun i =>
      { as := some 8, flags := (((i * PAGE_SIZE) % WORD) &&& PAGE_FRAME) ||| SWMAP_FLAG_USED } }

/-- The program of `tight_kernel` (one free frame) with the swap store full. -/
def swapless_tight_kernel : Kernel := fill_swap tight_kernel

/-- A program with `long_data_segment`, five free frames, and the swap store full. -/
def swapless_kernel : Kernel :=
  fill_swap (boot_kernel (program_as [text_segment, long_data_segment]) 5)

/-- State in which `get_ptbl` leaves the kernel, the given state when it aborts. -/
def walk_state (st : Kernel) (a vpn : Nat) (x : Bool) : Kernel :=
  match get_ptbl st (some a) vpn x with
  | .ok (_, s) => s
  | .error _ => st

/-- Resident slot `get_ptbl` returns, `0` when it aborts. -/
def walk_slot (st : Kernel) (a vpn : Nat) (x : Bool) : Nat :=
  match get_ptbl st (some a) vpn x with
  | .ok (k, _) => k
  | .error _ => 0

/-- Result of `find_pte`, a dummy when it aborts. -/
def pte_result (st : Kernel) (a vpn flags r : Nat) : (Nat × Nat × Nat) × Kernel :=
  match find_pte st (some a) vpn flags r with
  | .ok p => p
  | .error _ => ((0, 0, 0), st)

/-- Read faults on the text page and on one data page in each of two page directories: after
them all three resident page-table slots are taken. -/
def warm_faults : List (Nat × Nat × Nat) :=
  [(VM_FAULT_READ, 0x00400000, 0), (VM_FAULT_READ, 0x10000000, 0),
   (VM_FAULT_READ, 0x10400000, 0)]

/-! ## Predicates on the swap table -/

/-- Swap slot `j` has its in-use bit set. -/
def slot_in_use (st : Kernel) (j : Nat) : Prop :=
  (st.swap_map j).flags &&& SWMAP_FLAG_USED ≠ 0

/-- Swap slot `j` is in use and keyed `(asp, vpn)`: the test of `find_swapped_page_location`. -/
def slot_keyed (st : Kernel) (asp : Option Nat) (vpn j : Nat) : Prop :=
  (st.swap_map j).flags &&& SWMAP_FLAG_USED ≠ 0 ∧ (st.swap_map j).as = asp
    ∧ (st.swap_map j).flags &&& PAGE_FRAME = vpn

/-- At most one in-use swap slot per (address space, virtual page) pair. -/
def swap_unique (st : Kernel) : Prop :=
  ∀ i j, i < SWAP_MAP_SIZE → j < SWAP_MAP_SIZE → slot_in_use st i → slot_in_use st j →
    (st.swap_map i).as = (st.swap_map j).as →
    (st.swap_map i).flags &&& PAGE_FRAME = (st.swap_map j).flags &&& PAGE_FRAME → i = j

/-- State a swap operation leaves, the given state when it aborts. -/
def swap_state (st : Kernel) (r : Except Abort Kernel) : Kernel :=
  match r with
  | .ok s => s
  | .error _ => st

/-- The kernel `plain_kernel` after frame 7 was swapped out for `(7, 0x10000000)`: swap slot 0
is in use. -/
def swapped_kernel : Kernel :=
  swap_state plain_kernel (swap_out_page plain_kernel (some 7) 0x10000000 (.frame 0x47000))

/-- The program of `tight_kernel` after a read fault on its data page `0x10000000`: the
only frame that is not the kernel's, frame 9, holds that page. -/
def full_kernel : Kernel :=
  final_state tight_kernel (run_faults tight_kernel [(VM_FAULT_READ, 0x10000000, 0)])

/-- State `make_pg_available` leaves, the given state when it aborts. -/
def made_state (st : Kernel) (r : Except Abort (Nat × Nat × Kernel)) : Kernel :=
  match r with
  | .ok (_, _, s) => s
  | .error _ => st

/-! ## Predicates on the frame table -/

/-- Frame `j` has its `USED` bit clear. -/
def frame_free (st : Kernel) (j : Nat) : Prop := (st.pages j).flags &&& PFLAG_USED_MASK = 0

/-- The `n` frames `i, ..., i + n - 1` are managed frames and all free. -/
def run_free (st : Kernel) (i n : Nat) : Prop :=
  i + n ≤ st.num_pages ∧ ∀ j, j < n → frame_free st (i + j)

/-- The frame-table invariant: a managed frame whose `USED` bit is clear has no owning
address space. -/
def free_frames_unowned (st : Kernel) : Prop :=
  ∀ i, i < st.num_pages → (st.pages i).flags &&& PFLAG_USED_MASK = 0 → (st.pages i).as = none

/-- The frame table after `getkpagesfromvm` has handed out the run of `n` frames at `i`. -/
def kpages_state (st : Kernel) (i n : Nat) : Kernel :=
  set_page_flags (setup_coremap_for_kpages st i n) i
    (((setup_coremap_for_kpages st i n).pages i).flags
      ||| ((n % WORD) &&& PFLAG_NUM_CONTG_PAGES))

/-- State a call that returns a kernel state leaves, the given state when it aborts. -/
def state_of (st : Kernel) (r : Except Abort Kernel) : Kernel :=
  match r with
  | .ok s => s
  | .error _ => st

/-- State and value a call that returns a word and a kernel state leaves; `(0, st)` when it
aborts. -/
def result_of (st : Kernel) (r : Except Abort (Nat × Kernel)) : Nat × Kernel :=
  match r with
  | .ok p => p
  | .error _ => (0, st)

/-- A machine with 1 MiB of RAM of which `[0x30000, 0x100000)` is left for the VM system,
after `vm_bootstrap`. -/
def booted_kernel : Kernel := state_of plain_kernel (vm_bootstrap plain_kernel 0x30000 0x100000)

/-- The program of `tight_kernel` with eight kernel frames, after read faults on its data
pages `0x10000000` and `0x10001000`: frames 8 and 9 hold these pages and no frame is free. -/
def two_page_kernel : Kernel :=
  final_state (boot_kernel (program_as [text_segment, long_data_segment]) 8)
    (run_faults (boot_kernel (program_as [text_segment, long_data_segment]) 8)
      [(VM_FAULT_READ, 0x10000000, 0), (VM_FAULT_READ, 0x10001000, 0)])

/-! ## Page-directory invariant and reachability -/

/-- No page-directory entry of any address space has `PRESENT` set without `LOADED`. -/
def all_pd_ok (st : Kernel) : Prop :=
  ∀ b i, (st.ass b).pg_dir i &&& PGDIR_PRESENT ≠ 0 → (st.ass b).pg_dir i &&& PGDIR_LOADED ≠ 0

/-- One call of the page-table cache on the kernel state: `as_create` placing a new record at
some address, `get_ptbl`, `get_page_table` on a directory that is `LOADED` ("The page table
should have been loaded already", as both of its callers test), `find_slot_for_pg_table`, or
`as_copy`; or any other code, which may change the kernel state in any way that leaves every
page directory as it is (region set-up, `sys_sbrk`, page-table entries, frames, swap). -/
inductive pt_step : Kernel → Kernel → Prop where
  | create (st : Kernel) (new : Nat) (m sp : AddrSpace) :
      as_create (some m) true = some sp → pt_step st (setAs st new sp)
  | other (st st1 : Kernel) :
      (∀ b, (st1.ass b).pg_dir = (st.ass b).pg_dir) → pt_step st st1
  | get_ptbl (st st1 : Kernel) (asp : Option Nat) (vpn k : Nat) (x : Bool) :
      get_ptbl st asp vpn x = .ok (k, st1) → pt_step st st1
  | get_page_table (st st1 : Kernel) (a vpn pgdir_index k : Nat) (x : Bool) :
      (st.ass a).pg_dir pgdir_index &&& PGDIR_LOADED ≠ 0 →
      get_page_table st a vpn pgdir_index x = .ok (k, st1) → pt_step st st1
  | find_slot (st st1 : Kernel) (a d k : Nat) (x : Bool) :
      find_slot_for_pg_table st a x d = .ok (k, st1) → pt_step st st1
  | as_copy (st st1 : Kernel) (old new rc : Nat) (m : Option AddrSpace) (ok : Bool)
      (r : Nat → Nat → Nat) (ret : Option Nat) :
      as_copy st old new m ok r = .ok (rc, ret, st1) → pt_step st st1

/-- The kernel states reachable from address spaces fresh from `as_create` through the calls
of `pt_step`. -/
inductive pt_reachable : Kernel → Prop where
  | init (st : Kernel) :
      (∀ b, ∃ m, as_create (some m) true = some (st.ass b)) → pt_reachable st
  | step (st st1 : Kernel) : pt_reachable st → pt_step st st1 → pt_reachable st1

/-- The record `as_create` returns on zeroed memory. -/
def fresh_as : AddrSpace := (as_create (some zero_as) true).getD zero_as

/-- A kernel after boot all of whose address-space records are fresh from `as_create`. -/
def fresh_kernel : Kernel := boot_kernel fresh_as 7

/-- The kernel `fresh_kernel` after the record at pointer 7 was set up for the program of
`plain_kernel` and `get_ptbl` was called for its text page. -/
def walked_kernel : Kernel :=
  walk_state (setAs fresh_kernel 7 (program_as [text_segment, data_segment])) 7 0x00400000 true

/-- State `as_copy` leaves, the given state when it aborts. -/
def copy_state (st : Kernel) (r : Except Abort (Nat × Option Nat × Kernel)) : Kernel :=
  match r with
  | .ok (_, _, s) => s
  | .error _ => st

/-- The kernel `walked_kernel` after `as_copy` of address space 7 into a record at pointer 9. -/
def copied_kernel : Kernel :=
  copy_state walked_kernel (as_copy walked_kernel 7 9 (some zero_as) true (fun _ _ => 0))

/-! ## Region records and `as_create` on used memory -/

/-- Memory `kmalloc` hands to `as_create` when it was used before: every field holds a non-zero
left-over. -/
def dirty_as : AddrSpace :=
  { zero_as with ptables_in_mem := fun _ _ => 0xdeadbeef, pg_dir := fun _ => 7,
                 page_table_flags := fun _ => 9, as_vbase1 := 5, as_npages1 := 5,
                 as_flags1 := 5, as_vbase2 := 5, as_npages2 := 5, as_flags2 := 5 }

/-- Region 1 of an address space: base, page count and flags. -/
def region1 (sp : AddrSpace) : Nat × Nat × Nat := (sp.as_vbase1, sp.as_npages1, sp.as_flags1)

/-- Region 2 of an address space: base, page count and flags. -/
def region2 (sp : AddrSpace) : Nat × Nat × Nat := (sp.as_vbase2, sp.as_npages2, sp.as_flags2)

/-- The triple a call `as_define_region(as, vaddr, sz, r, w, x)` computes for a 32-bit `vaddr`:
the base rounded down to a page, the page count of the 32-bit size arithmetic, and the OR of
the three permission arguments. -/
def aligned_region (vaddr sz r w x : Nat) : Nat × Nat × Nat :=
  (vaddr / PAGE_SIZE * PAGE_SIZE,
   ((sz + vaddr % PAGE_SIZE) % WORD + PAGE_SIZE - 1) % WORD / PAGE_SIZE,
   (r ||| w) ||| x)

/-! ## Resident page-table slots: victim choice -/

/-- Slot `i` is not marked executable: `!(page_table_flags[i] & PINMEM_FLAG_EXECUTABLE_MASK)`. -/
def data_slot (sp : AddrSpace) (i : Nat) : Prop :=
  sp.page_table_flags i &&& PINMEM_FLAG_EXECUTABLE_MASK = 0

/-- Access counter of slot `i`: `page_table_flags[i] & PINMEM_FLAG_COUNTER_MASK`. -/
def slot_counter (sp : AddrSpace) (i : Nat) : Nat :=
  sp.page_table_flags i &&& PINMEM_FLAG_COUNTER_MASK

/-- Directory tag of slot `i`: `page_table_flags[i] & PGDIR_INDEX`. -/
def slot_dir (sp : AddrSpace) (i : Nat) : Nat := sp.page_table_flags i &&& PGDIR_INDEX

/-- What the loop variables of the data branch of `get_victim_slot` hold after slots
`0 .. n-1` were looked at. -/
def victim_inv (sp : AddrSpace) (v n : Nat) (s : VictimScan) : Prop :=
  (s.broke = true → ∃ b, b < n ∧ s.least_count_index = some b ∧ data_slot sp b
      ∧ slot_dir sp b = v ∧ ∀ j, j < b → ¬ (data_slot sp j ∧ slot_dir sp j = v))
  ∧ (s.broke = false →
      (∀ j, j < n → ¬ (data_slot sp j ∧ slot_dir sp j = v))
      ∧ (s.least_count_index = none → s.least_count = 0x7fffffff ∧ ∀ j, j < n → ¬ data_slot sp j)
      ∧ (∀ r, s.least_count_index = some r →
          r < n ∧ data_slot sp r ∧ s.least_count = slot_counter sp r
          ∧ (∀ j, j < n → data_slot sp j → slot_counter sp r ≤ slot_counter sp j)
          ∧ (∀ j, j < r → data_slot sp j → slot_counter sp r < slot_counter sp j))
      ∧ ((∀ j, j < n → ¬ data_slot sp j) →
          s.executable_count = n ∧ (2 ≤ n → s.second_exec_ptable_index = some (n - 1))))

/-- An address space whose three resident slots carry the flag words `f0`, `f1`, `f2`. -/
def slots_as (f0 f1 f2 : Nat) : AddrSpace :=
  { zero_as with page_table_flags := fun i => if i = 0 then f0 else if i = 1 then f1 else f2 }

/-- A program with `long_data_segment` and five free frames after `warm_faults`: all three
resident slots are taken (directories 1, 0x40 and 0x41) and the swap store is empty. -/
def warm_kernel : Kernel :=
  final_state (boot_kernel (program_as [text_segment, long_data_segment]) 5)
    (run_faults (boot_kernel (program_as [text_segment, long_data_segment]) 5) warm_faults)

/-- The same program after the same faults with the swap store full. -/
def swapless_warm_kernel : Kernel :=
  final_state swapless_kernel (run_faults swapless_kernel warm_faults)

/-! ## Address-space teardown -/

/-- Frame `i` lies in the run of kernel frames that starts at kernel virtual address `addr`:
the frames `free_kpages(addr)` releases. -/
@[reducible] def kernel_run (st : Kernel) (addr i : Nat) : Prop :=
  ((addr + WORD - PADDR_TO_KVADDR st.free_paddr) % WORD) / PAGE_SIZE ≤ i
  ∧ i < ((addr + WORD - PADDR_TO_KVADDR st.free_paddr) % WORD) / PAGE_SIZE
      + ((st.pages (((addr + WORD - PADDR_TO_KVADDR st.free_paddr) % WORD) / PAGE_SIZE)).flags
          &&& PFLAG_NUM_CONTG_PAGES)

/-- A machine with ten frames, three of them taken at boot and seven free, running the
program of `plain_kernel`. -/
def roomy_kernel : Kernel := boot_kernel (program_as [text_segment, data_segment]) 3

/-- The machine `roomy_kernel` after `kmalloc` took four frames for a `struct addrspace` and
one frame for its page directory. -/
def heap_kernel : Kernel :=
  (result_of (result_of roomy_kernel (alloc_kpages roomy_kernel 4 0)).2
    (alloc_kpages (result_of roomy_kernel (alloc_kpages roomy_kernel 4 0)).2 1 0)).2

/-- The machine `heap_kernel` after the process at pointer 7 took read faults on its text page
and its first data page. -/
def live_kernel : Kernel :=
  final_state heap_kernel
    (run_faults heap_kernel [(VM_FAULT_READ, 0x00400000, 0), (VM_FAULT_READ, 0x10000000, 0)])

/-- The kernel `live_kernel` after the data page `0x10000000` of process 7, in frame 9, was
written to swap slot 0. -/
def live_swapped_kernel : Kernel :=
  swap_state live_kernel (swap_out_page live_kernel (some 7) 0x10000000 (.frame 0x49000))

/-- The kernel `fresh_kernel` after `get_ptbl` for the data page `0x00001000` of directory 0. -/
def dir0_kernel : Kernel := walk_state fresh_kernel 7 0x00001000 false

/-- The kernel `dir0_kernel` after `get_ptbl` for the data page `0x00400000` of directory 1. -/
def dir1_kernel : Kernel := walk_state dir0_kernel 7 0x00400000 false

/-! ## Demand loading onto used frames -/

/-- The kernel `st` with an executable `1` whose byte at offset `o` is `o % 251 + 1`: no byte
of the file is zero. -/
def with_pattern_file (st : Kernel) : Kernel :=
  { st with files := fun n =>
      if n = 1 then some { size := 0x2000000, data := fun o => o % 251 + 1 } else none }

/-- A text segment of half a page at `0x00400000` (R|X). -/
def short_text_segment : Segment :=
  { p_vaddr := 0x00400000, p_memsz := 0x800, p_filesz := 0x800, p_offset := 0x1000, p_flags := 5 }

/-- A program with `short_text_segment` and `data_segment`, the executable of
`with_pattern_file`, and a single free frame (frame 9). -/
def pattern_kernel : Kernel :=
  with_pattern_file (boot_kernel (program_as [short_text_segment, data_segment]) 9)

/-- The kernel `pattern_kernel` after a read fault on its data page `0x10000000`: frame 9
holds the 4096 bytes of the file at offset `0x2000`. -/
def pattern_data_kernel : Kernel :=
  final_state pattern_kernel (run_faults pattern_kernel [(VM_FAULT_READ, 0x10000000, 0)])

/-- The kernel `pattern_data_kernel` after a read fault on the first stack page. -/
def pattern_stack_kernel : Kernel :=
  final_state pattern_data_kernel
    (run_faults pattern_data_kernel [(VM_FAULT_READ, 0x7ffff000, 0)])

/-- The kernel `pattern_data_kernel` after a read fault on the text page. -/
def pattern_text_kernel : Kernel :=
  final_state pattern_data_kernel
    (run_faults pattern_data_kernel [(VM_FAULT_READ, 0x00400000, 0)])

/-- The state `st1` differs from `st` at most in the page directory, the resident page tables
and their flag words of address space `a`, in the swap store, in the frame table and in the
TLB: what a page-table walk followed by `alloc_page` for `a` may change.  Frame contents,
files and the regions of every address space are the same. -/
def frame_step (a : Nat) (st st1 : Kernel) : Prop :=
  ∃ pd pt fl sm dk pg tl, st1 =
    { st with
      ass := Function.update st.ass a
        { st.ass a with pg_dir := pd, ptables_in_mem := pt, page_table_flags := fl }
      swap_map := sm
      disk := dk
      pages := pg
      tlb := tl }

/-- Bytes of a frame after a demand load of a segment page: `min fsz msz` bytes of the file
`f` from offset `off`, zeroes up to `msz`, and beyond that what the frame held before. -/
def seg_fill (f : File) (off fsz msz : Nat) (old : Bytes) : Bytes :=
  fun o => if o < min fsz msz then f.data (off + o) else if o < msz then 0 else old o

/-- The page of a load segment that a fault on the page `v` demand-loads, following
`load_segment_if_required`: for a page `k` of the code region, or a page `k` of the data
region whose entry has `L` clear, the file offset `segment_offset + k * PAGE_SIZE`, the file
bytes left `min(PAGE_SIZE, filesize - k * PAGE_SIZE)` (0 if negative) and the memory bytes left
`min(PAGE_SIZE, memsize - k * PAGE_SIZE)`.  `none` for every other page, and for a page beyond
the sizes the code asserts (`k * PAGE_SIZE` above the code segment's file or memory size, or
above the data segment's memory size). -/
def demand_segment (sp : AddrSpace) (v entry : Nat) : Option (Nat × Nat × Nat) :=
  let exec_vbase := if sp.as_flags1 &&& PF_X ≠ 0 then sp.as_vbase1 else sp.as_vbase2
  let exec_vtop :=
    if sp.as_flags1 &&& PF_X ≠ 0 then (sp.as_vbase1 + sp.as_npages1 * PAGE_SIZE) % WORD
    else (sp.as_vbase2 + sp.as_npages2 * PAGE_SIZE) % WORD
  let data_vbase := if sp.as_flags1 &&& PF_X ≠ 0 then sp.as_vbase2 else sp.as_vbase1
  let data_vtop :=
    if sp.as_flags1 &&& PF_X ≠ 0 then (sp.as_vbase2 + sp.as_npages2 * PAGE_SIZE) % WORD
    else (sp.as_vbase1 + sp.as_npages1 * PAGE_SIZE) % WORD
  if v ≥ exec_vbase ∧ v < exec_vtop then
    let k := ((v + WORD - exec_vbase) % WORD) / PAGE_SIZE
    if k * PAGE_SIZE ≤ sp.executable_filesize ∧ k * PAGE_SIZE ≤ sp.executable_memsize then
      some ((sp.executable_offset + k * PAGE_SIZE) % WORD,
        min PAGE_SIZE (sp.executable_filesize - k * PAGE_SIZE),
        min PAGE_SIZE (sp.executable_memsize - k * PAGE_SIZE))
    else none
  else if v ≥ data_vbase ∧ v < data_vtop ∧ entry &&& PF_L = 0 then
    let k := ((v + WORD - data_vbase) % WORD) / PAGE_SIZE
    if k * PAGE_SIZE ≤ sp.data_memsize then
      some ((sp.data_offset + k * PAGE_SIZE) % WORD,
        min PAGE_SIZE (sp.data_filesize - k * PAGE_SIZE),
        min PAGE_SIZE (sp.data_memsize - k * PAGE_SIZE))
    else none
  else none

/-! ## Copy of an address space -/

/-- The machine `roomy_kernel` after faults of process 7 on its text page, its first data page
and its first stack page: the data and the stack page have `L` set, four frames are free. -/
def family_kernel : Kernel :=
  final_state roomy_kernel (run_faults roomy_kernel
    [(VM_FAULT_READ, 0x00400000, 0), (VM_FAULT_READ, 0x10000000, 0),
     (VM_FAULT_WRITE, 0x7ffff000, 0)])

/-! ## Process identifiers -/

/-- A run of `n` calls of `get_new_pid` with no `release_pid` between them: the values
returned, in order, and the last state. -/
def get_new_pids : Nat → PidState → Except Abort (List Int × PidState)
  | 0, s => .ok ([], s)
  | n + 1, s =>
    match get_new_pid s with
    | .error e => .error e
    | .ok (p, s1) =>
      match get_new_pids n s1 with
      | .error e => .error e
      | .ok (ps, s2) => .ok (p :: ps, s2)

/-- The pid state after `pid_bootstrap`. -/
def booted_pids : PidState := { pid_array := fun _ => 0, last_pid_index := 0 }

/-! ## A truncated executable -/

/-- The machine `roomy_kernel` with an executable `1` that is cut off at `0x1800` bytes (its
byte at offset `o` is `o % 251 + 1`): the text segment (file offset `0x1000`, 4096 bytes) has
only its first `0x800` bytes in the file, the data segment (file offset `0x2000`) none. -/
def truncated_kernel : Kernel :=
  { roomy_kernel with files := fun n =>
      if n = 1 then some { size := 0x1800, data := fun o => o % 251 + 1 } else none }

/-! ## A parent with more page directories than resident slots -/

/-- A process with `long_data_segment` on a machine with nine free frames, after read faults
on one data page in each of three page directories (entries 0, 1 and 2 of their tables) and on
the first stack page: four directories are `LOADED`, the table of directory `0x40` is in swap,
and five frames are free. -/
def four_dir_kernel : Kernel :=
  final_state (boot_kernel (program_as [text_segment, long_data_segment]) 1)
    (run_faults (boot_kernel (program_as [text_segment, long_data_segment]) 1)
      [(VM_FAULT_READ, 0x10000000, 0), (VM_FAULT_READ, 0x10401000, 0),
       (VM_FAULT_READ, 0x10802000, 0), (VM_FAULT_READ, 0x7ffff000, 0)])

/-! ## Segments that do not fill whole pages from a page boundary -/

/-- A data segment of 32 bytes at `0x10000ff0` (R|W): it straddles a page boundary, and
`filesz = memsz`. -/
def unaligned_data_segment : Segment :=
  { p_vaddr := 0x10000ff0, p_memsz := 0x20, p_filesz := 0x20, p_offset := 0x2000, p_flags := 6 }

/-- A program with `text_segment` and `unaligned_data_segment`, seven frames free. -/
def unaligned_kernel : Kernel := boot_kernel (program_as [text_segment, unaligned_data_segment]) 3

/-- A text segment of two pages at `0x00400000` (R|X) of which only the first `0x100` bytes
are in the file: `filesz < memsz`. -/
def padded_text_segment : Segment :=
  { p_vaddr := 0x00400000, p_memsz := 0x2000, p_filesz := 0x100, p_offset := 0x1000, p_flags := 5 }

/-- A program with `padded_text_segment` and `data_segment`, seven frames free. -/
def padded_kernel : Kernel := boot_kernel (program_as [padded_text_segment, data_segment]) 3

/-! ## Lemmas: loops -/

theorem scanUp_some {p : Nat → Bool} : ∀ {fuel start i : Nat}, scanUp p fuel start = some i →
    start ≤ i ∧ i < start + fuel ∧ p i = true ∧ ∀ j, start ≤ j → j < i → p j = false := by
  intro fuel
  induction fuel with
  | zero => intro start i h; simp [scanUp] at h
  | succ n ih =>
    intro start i h
    unfold scanUp at h
    by_cases hp : p start = true
    · rw [if_pos hp] at h
      have hi : start = i := by simpa using h
      subst hi
      exact ⟨le_refl _, by omega, hp, fun j h1 h2 => absurd h1 (by omega)⟩
    · rw [if_neg hp] at h
      obtain ⟨h1, h2, h3, h4⟩ := ih h
      refine ⟨by omega, by omega, h3, fun j hj1 hj2 => ?_⟩
      by_cases hjs : j = start
      · subst hjs; simpa using hp
      · exact h4 j (by omega) hj2

theorem scanUp_none {p : Nat → Bool} : ∀ {fuel start : Nat}, scanUp p fuel start = none →
    ∀ j, start ≤ j → j < start + fuel → p j = false := by
  intro fuel
  induction fuel with
  | zero => intro start _ j h1 h2; omega
  | succ n ih =>
    intro start h j h1 h2
    unfold scanUp at h
    by_cases hp : p start = true
    · rw [if_pos hp] at h; simp at h
    · rw [if_neg hp] at h
      by_cases hjs : j = start
      · subst hjs; simpa using hp
      · exact ih h j (by omega) (by omega)

theorem scanUp_first {p : Nat → Bool} : ∀ {fuel start i : Nat}, start ≤ i → i < start + fuel →
    p i = true → (∀ j, start ≤ j → j < i → p j = false) → scanUp p fuel start = some i := by
  intro fuel
  induction fuel with
  | zero => intro start i h1 h2; omega
  | succ n ih =>
    intro start i h1 h2 hp hfirst
    unfold scanUp
    by_cases hs : start = i
    · subst hs; rw [if_pos hp]
    · have hne : p start = false := hfirst start (le_refl _) (by omega)
      rw [if_neg (by simp [hne])]
      exact ih (by omega) (by omega) hp (fun j hj1 hj2 => hfirst j (by omega) hj2)

theorem scanUp_exists {p : Nat → Bool} {fuel start i : Nat} (h1 : start ≤ i)
    (h2 : i < start + fuel) (hp : p i = true) : ∃ j, scanUp p fuel start = some j := by
  cases h : scanUp p fuel start with
  | some j => exact ⟨j, rfl⟩
  | none =>
    have := scanUp_none h i h1 h2
    rw [hp] at this
    exact absurd this (by simp)

/-! ## Lemmas: bits of machine words -/

theorem and_two_pow_ne_zero_iff (x i : Nat) : x &&& 2 ^ i ≠ 0 ↔ x.testBit i = true := by
  constructor
  · intro h
    obtain ⟨j, hj⟩ := Nat.ne_zero_implies_bit_true h
    rw [Nat.testBit_and, Nat.testBit_two_pow] at hj
    simp only [Bool.and_eq_true, decide_eq_true_eq] at hj
    obtain ⟨h1, h2⟩ := hj
    subst h2
    exact h1
  · intro h hz
    have : (x &&& 2 ^ i).testBit i = true := by
      rw [Nat.testBit_and, Nat.testBit_two_pow]
      simp [h]
    rw [hz] at this
    simp at this

theorem and_two_pow_eq_zero_iff (x i : Nat) : x &&& 2 ^ i = 0 ↔ x.testBit i = false := by
  have := and_two_pow_ne_zero_iff x i
  constructor
  · intro h
    by_contra hc
    have hc2 : x.testBit i = true := by simpa using hc
    exact (this.mpr hc2) h
  · intro h
    by_contra hc
    have := this.mp hc
    rw [h] at this
    exact absurd this (by simp)

/-! ## Lemmas: `sys_sbrk` -/

theorem toWord_cast (n : Int) : ((toWord n : Nat) : Int) = n % 4294967296 := by
  unfold toWord WORD
  have h : (0:Int) ≤ n % ((2 ^ 32 : Nat) : Int) := Int.emod_nonneg _ (by norm_num)
  rw [Int.toNat_of_nonneg h]
  norm_num

theorem toWord_of_nonneg (n : Int) (h0 : 0 ≤ n) (h1 : n < 4294967296) :
    ((toWord n : Nat) : Int) = n := by
  rw [toWord_cast]
  exact Int.emod_eq_of_lt h0 h1

theorem toWord_of_neg (n : Int) (h0 : n < 0) (h1 : -4294967296 ≤ n) :
    ((toWord n : Nat) : Int) = n + 4294967296 := by
  rw [toWord_cast]
  omega

/-! ## Lemmas: what the page-table cache leaves unchanged -/

theorem cache_step_refl (a : Nat) (st : Kernel) : cache_step a st st :=
  ⟨(st.ass a).pg_dir, (st.ass a).ptables_in_mem, (st.ass a).page_table_flags, st.swap_map,
    st.disk, by simp⟩

theorem cache_step_trans {a : Nat} {s1 s2 s3 : Kernel} (h1 : cache_step a s1 s2)
    (h2 : cache_step a s2 s3) : cache_step a s1 s3 := by
  obtain ⟨pd1, pt1, fl1, sm1, dk1, rfl⟩ := h1
  obtain ⟨pd2, pt2, fl2, sm2, dk2, rfl⟩ := h2
  exact ⟨pd2, pt2, fl2, sm2, dk2, by simp⟩

theorem cache_step_set_ptflags (st : Kernel) (a k v : Nat) :
    cache_step a st (set_ptflags st a k v) :=
  ⟨(st.ass a).pg_dir, (st.ass a).ptables_in_mem, Function.update (st.ass a).page_table_flags k v,
    st.swap_map, st.disk, by simp [set_ptflags, setAs]⟩

theorem cache_step_set_pgdir (st : Kernel) (a i v : Nat) :
    cache_step a st (set_pgdir st a i v) :=
  ⟨Function.update (st.ass a).pg_dir i v, (st.ass a).ptables_in_mem, (st.ass a).page_table_flags,
    st.swap_map, st.disk, by simp [set_pgdir, setAs]⟩

theorem cache_step_set_pte (st : Kernel) (a k i v : Nat) :
    cache_step a st (set_pte st a k i v) :=
  ⟨(st.ass a).pg_dir,
    Function.update (st.ass a).ptables_in_mem k (Function.update ((st.ass a).ptables_in_mem k) i v),
    (st.ass a).page_table_flags, st.swap_map, st.disk, by simp [set_pte, setAs]⟩

theorem cache_step_set_tables (st : Kernel) (a : Nat) (pt : Nat → Nat → Nat) :
    cache_step a st (setAs st a { st.ass a with ptables_in_mem := pt }) :=
  ⟨(st.ass a).pg_dir, pt, (st.ass a).page_table_flags, st.swap_map, st.disk, by simp [setAs]⟩

theorem cache_step_swap_out {st st1 : Kernel} {a : Nat} {asp : Option Nat} {vpn : Nat} {l : Loc}
    (h : swap_out_page st asp vpn l = .ok st1) : cache_step a st st1 := by
  refine ⟨(st.ass a).pg_dir, (st.ass a).ptables_in_mem, (st.ass a).page_table_flags,
    st1.swap_map, st1.disk, ?_⟩
  unfold swap_out_page at h
  cases hf : find_free_swap_section st with
  | none => rw [hf] at h; simp at h
  | some i =>
    rw [hf] at h
    simp only [Except.ok.injEq] at h
    subst h
    simp

theorem cache_step_swap_in {st st1 : Kernel} {a k : Nat} {asp : Option Nat} {vpn : Nat}
    (h : swap_in_page st asp vpn (.ptable a k) = .ok st1) : cache_step a st st1 := by
  refine ⟨(st.ass a).pg_dir, (st1.ass a).ptables_in_mem, (st.ass a).page_table_flags,
    st1.swap_map, st.disk, ?_⟩
  unfold swap_in_page find_swapped_page_location at h
  cases hf : find_swapped_index st asp vpn with
  | none => rw [hf] at h; simp at h
  | some i =>
    rw [hf] at h
    simp only [Except.ok.injEq] at h
    subst h
    simp [write_page, setAs]

theorem cache_step_then_ptflags {a : Nat} {st st1 : Kernel} (h : cache_step a st st1)
    (k v : Nat) : cache_step a st (set_ptflags st1 a k v) :=
  cache_step_trans h (cache_step_set_ptflags st1 a k v)

theorem cache_step_then_pgdir {a : Nat} {st st1 : Kernel} (h : cache_step a st st1)
    (i v : Nat) : cache_step a st (set_pgdir st1 a i v) :=
  cache_step_trans h (cache_step_set_pgdir st1 a i v)

theorem cache_step_then_tables {a : Nat} {st st1 : Kernel} (h : cache_step a st st1)
    (pt : Nat → Nat → Nat) :
    cache_step a st (setAs st1 a { st1.ass a with ptables_in_mem := pt }) :=
  cache_step_trans h (cache_step_set_tables st1 a pt)

theorem cache_step_find_slot {st st1 : Kernel} {a k : Nat} {x : Bool} {d : Nat}
    (h : find_slot_for_pg_table st a x d = .ok (k, st1)) : cache_step a st st1 := by
  unfold find_slot_for_pg_table at h
  split at h
  · simp only [Except.ok.injEq, Prod.mk.injEq] at h
    rw [← h.2]; exact cache_step_refl a st
  · split at h
    · simp at h
    · simp only at h
      split at h
      · simp at h
      · rename_i st2 hs
        simp only [Except.ok.injEq, Prod.mk.injEq] at h
        rw [← h.2]
        exact cache_step_then_pgdir (cache_step_then_ptflags (cache_step_swap_out hs) _ _) _ _

theorem cache_step_get_page_table {st st1 : Kernel} {a k v i : Nat} {x : Bool}
    (h : get_page_table st a v i x = .ok (k, st1)) : cache_step a st st1 := by
  unfold get_page_table at h
  split at h
  · split at h
    · simp only [Except.ok.injEq, Prod.mk.injEq] at h
      rw [← h.2]; exact cache_step_set_ptflags _ _ _ _
    · simp at h
  · split at h
    · simp at h
    · rename_i slot st2 hs
      split at h
      · simp at h
      · rename_i st3 hin
        simp only [Except.ok.injEq, Prod.mk.injEq] at h
        rw [← h.2]
        exact cache_step_then_ptflags (cache_step_then_pgdir
          (cache_step_trans (cache_step_find_slot hs) (cache_step_swap_in hin)) _ _) _ _

theorem cache_step_get_ptbl {st st1 : Kernel} {a k v : Nat} {x : Bool}
    (h : get_ptbl st (some a) v x = .ok (k, st1)) : cache_step a st st1 := by
  unfold get_ptbl at h
  simp only at h
  split at h
  · exact cache_step_get_page_table h
  · split at h
    · simp at h
    · rename_i slot st2 hs
      simp only [Except.ok.injEq, Prod.mk.injEq] at h
      rw [← h.2]
      exact cache_step_then_tables (cache_step_then_ptflags
        (cache_step_then_pgdir (cache_step_find_slot hs) _ _) _ _) _


/-! ## Lemmas: the page-table cache -/

theorem victim_exec_fold_lt (sp : AddrSpace) (n : Nat) :
    ∀ (l : List Nat) (acc : Nat × Nat), (∀ i ∈ l, i < n) → acc.2 < n →
      (l.foldl (victim_exec_step sp) acc).2 < n := by
  intro l
  induction l with
  | nil => intro acc _ h; simpa using h
  | cons i t ih =>
    intro acc hl hacc
    rw [List.foldl_cons]
    apply ih
    · intro j hj; exact hl j (List.mem_cons_of_mem _ hj)
    · unfold victim_exec_step
      simp only
      split_ifs
      · exact hl i (List.mem_cons_self _ _)
      · exact hacc

theorem victim_data_fold_lt (sp : AddrSpace) (d n : Nat) :
    ∀ (l : List Nat) (s : VictimScan), (∀ i ∈ l, i < n) →
      (∀ i, s.least_count_index = some i → i < n) →
      (∀ i, s.second_exec_ptable_index = some i → i < n) →
      (∀ i, (l.foldl (victim_data_step sp d) s).least_count_index = some i → i < n)
      ∧ (∀ i, (l.foldl (victim_data_step sp d) s).second_exec_ptable_index = some i → i < n) := by
  intro l
  induction l with
  | nil => intro s _ h1 h2; exact ⟨by simpa using h1, by simpa using h2⟩
  | cons i t ih =>
    intro s hl h1 h2
    rw [List.foldl_cons]
    have hi : i < n := hl i (List.mem_cons_self _ _)
    apply ih
    · intro j hj; exact hl j (List.mem_cons_of_mem _ hj)
    · intro j
      unfold victim_data_step
      simp only
      split_ifs <;> (try simp) <;> intros <;> first | omega | (apply h1; assumption)
    · intro j
      unfold victim_data_step
      simp only
      split_ifs <;> (try simp) <;> intros <;> first | omega | (apply h2; assumption)

theorem get_victim_slot_lt {sp : AddrSpace} {x : Bool} {d k : Nat}
    (h : get_victim_slot sp x d = .ok k) : k < NUM_PTABLES_IN_MEM := by
  unfold get_victim_slot at h
  split at h
  · simp only [Except.ok.injEq] at h
    rw [← h]
    exact victim_exec_fold_lt sp _ _ _ (fun i hi => List.mem_range.mp hi) (by decide)
  · have hf := victim_data_fold_lt sp d NUM_PTABLES_IN_MEM (List.range NUM_PTABLES_IN_MEM)
      { least_count := 0x7fffffff, least_count_index := none, executable_count := 0,
        second_exec_ptable_index := none, broke := false }
      (fun i hi => List.mem_range.mp hi) (by simp) (by simp)
    simp only at h
    split at h
    · rename_i i hi
      simp only [Except.ok.injEq] at h
      rw [← h]; exact hf.1 i hi
    · split at h
      · rename_i j hj
        simp only [Except.ok.injEq] at h
        rw [← h]; exact hf.2 j hj
      · simp at h

theorem flag_ne_zero_iff (x m i : Nat) (hm : m = 2 ^ i) : x &&& m ≠ 0 ↔ x.testBit i = true := by
  subst hm; exact and_two_pow_ne_zero_iff x i

theorem flag_eq_zero_iff (x m i : Nat) (hm : m = 2 ^ i) : x &&& m = 0 ↔ x.testBit i = false := by
  subst hm; exact and_two_pow_eq_zero_iff x i

theorem clear_present_keeps_loaded (x : Nat) :
    (x &&& notw PGDIR_PRESENT) &&& PGDIR_LOADED = x &&& PGDIR_LOADED := by
  rw [Nat.and_assoc]
  have : notw PGDIR_PRESENT &&& PGDIR_LOADED = PGDIR_LOADED := by decide
  rw [this]

theorem set_present_loaded (x : Nat) :
    ((x ||| PGDIR_LOADED) ||| PGDIR_PRESENT) &&& PGDIR_PRESENT ≠ 0
    ∧ ((x ||| PGDIR_LOADED) ||| PGDIR_PRESENT) &&& PGDIR_LOADED ≠ 0 := by
  rw [flag_ne_zero_iff _ PGDIR_PRESENT 0 rfl, flag_ne_zero_iff _ PGDIR_LOADED 1 rfl]
  simp only [Nat.testBit_or]
  have h1 : PGDIR_PRESENT.testBit 0 = true := by decide
  have h2 : PGDIR_LOADED.testBit 1 = true := by decide
  simp [h1, h2]

theorem set_present (x : Nat) (h : x &&& PGDIR_LOADED ≠ 0) :
    (x ||| PGDIR_PRESENT) &&& PGDIR_PRESENT ≠ 0 ∧ (x ||| PGDIR_PRESENT) &&& PGDIR_LOADED ≠ 0 := by
  rw [flag_ne_zero_iff _ PGDIR_LOADED 1 rfl] at h
  rw [flag_ne_zero_iff _ PGDIR_PRESENT 0 rfl, flag_ne_zero_iff _ PGDIR_LOADED 1 rfl]
  simp only [Nat.testBit_or]
  have h1 : PGDIR_PRESENT.testBit 0 = true := by decide
  simp [h1, h]

theorem slot_tag_dir (v : Nat) (x : Bool) : slot_tag v x &&& PGDIR_INDEX = v &&& PGDIR_INDEX := by
  unfold slot_tag
  rw [Nat.and_distrib_right, Nat.and_comm PGDIR_INDEX v, Nat.and_assoc, Nat.and_self]
  cases x
  · simp
  · have : PINMEM_FLAG_EXECUTABLE_MASK &&& PGDIR_INDEX = 0 := by decide
    simp [this]

theorem bump_keeps_dir (f : Nat) :
    ((f &&& notw PINMEM_FLAG_COUNTER_MASK) ||| ((f + 1) &&& PINMEM_FLAG_COUNTER_MASK))
      &&& PGDIR_INDEX = f &&& PGDIR_INDEX := by
  rw [Nat.and_distrib_right, Nat.and_assoc, Nat.and_assoc]
  have h1 : notw PINMEM_FLAG_COUNTER_MASK &&& PGDIR_INDEX = PGDIR_INDEX := by decide
  have h2 : PINMEM_FLAG_COUNTER_MASK &&& PGDIR_INDEX = 0 := by decide
  rw [h1, h2]
  simp


theorem swap_out_ass {st st1 : Kernel} {asp : Option Nat} {vpn : Nat} {l : Loc}
    (h : swap_out_page st asp vpn l = .ok st1) : st1.ass = st.ass := by
  unfold swap_out_page at h
  cases hf : find_free_swap_section st with
  | none => rw [hf] at h; simp at h
  | some i =>
    rw [hf] at h
    simp only [Except.ok.injEq] at h
    subst h
    rfl

theorem swap_in_ptable_fields {st st1 : Kernel} {a k : Nat} {asp : Option Nat} {vpn : Nat}
    (h : swap_in_page st asp vpn (.ptable a k) = .ok st1) :
    (st1.ass a).pg_dir = (st.ass a).pg_dir
    ∧ (st1.ass a).page_table_flags = (st.ass a).page_table_flags := by
  unfold swap_in_page find_swapped_page_location at h
  cases hf : find_swapped_index st asp vpn with
  | none => rw [hf] at h; simp at h
  | some i =>
    rw [hf] at h
    simp only [Except.ok.injEq] at h
    subst h
    simp [write_page, setAs]

theorem find_slot_spec {st st1 : Kernel} {a k : Nat} {x : Bool} {d : Nat}
    (h : find_slot_for_pg_table st a x d = .ok (k, st1)) :
    k < NUM_PTABLES_IN_MEM
    ∧ (∀ j, j ≠ k → (st1.ass a).page_table_flags j = (st.ass a).page_table_flags j)
    ∧ (∀ i, (st1.ass a).pg_dir i &&& PGDIR_LOADED = (st.ass a).pg_dir i &&& PGDIR_LOADED) := by
  unfold find_slot_for_pg_table at h
  split at h
  · rename_i i hi
    simp only [Except.ok.injEq, Prod.mk.injEq] at h
    obtain ⟨h1, h2⟩ := h
    subst h1; subst h2
    have := scanUp_some hi
    exact ⟨by omega, fun _ _ => rfl, fun _ => rfl⟩
  · split at h
    · simp at h
    · rename_i victim hv
      simp only at h
      split at h
      · simp at h
      · rename_i st2 hs
        simp only [Except.ok.injEq, Prod.mk.injEq] at h
        obtain ⟨h1, h2⟩ := h
        subst h1; subst h2
        have hass := swap_out_ass hs
        refine ⟨get_victim_slot_lt hv, ?_, ?_⟩
        · intro j hj
          simp [set_pgdir, set_ptflags, setAs, hass, Function.update_noteq hj]
        · intro i
          simp only [set_pgdir, set_ptflags, setAs, hass, Function.update_same]
          by_cases hi : i = ((st.ass a).page_table_flags victim &&& PGDIR_INDEX) >>> 22
          · subst hi
            simp only [Function.update_same]
            exact clear_present_keeps_loaded _
          · simp [Function.update_noteq hi]


theorem get_page_table_post {st st1 : Kernel} {a k v : Nat} {x : Bool}
    (hl : (st.ass a).pg_dir (v >>> 22) &&& PGDIR_LOADED ≠ 0)
    (h : get_page_table st a v (v >>> 22) x = .ok (k, st1)) :
    k < NUM_PTABLES_IN_MEM
    ∧ (st1.ass a).pg_dir (v >>> 22) &&& PGDIR_PRESENT ≠ 0
    ∧ (st1.ass a).pg_dir (v >>> 22) &&& PGDIR_LOADED ≠ 0
    ∧ (st1.ass a).page_table_flags k &&& PGDIR_INDEX = v &&& PGDIR_INDEX
    ∧ (slots_match_directory (st.ass a) v → ∀ j, j < k →
        (st1.ass a).page_table_flags j &&& PGDIR_INDEX ≠ v &&& PGDIR_INDEX) := by
  unfold get_page_table at h
  split at h
  · rename_i hp
    split at h
    · rename_i i hi
      simp only [Except.ok.injEq, Prod.mk.injEq] at h
      obtain ⟨h1, h2⟩ := h
      subst h1; subst h2
      obtain ⟨_, hlt, hpi, hfirst⟩ := scanUp_some hi
      simp only [decide_eq_true_eq] at hpi
      refine ⟨by omega, ?_, ?_, ?_, ?_⟩
      · simpa [set_ptflags, setAs] using hp
      · simpa [set_ptflags, setAs] using hl
      · simp only [set_ptflags, setAs, Function.update_same]
        rw [bump_keeps_dir]; exact hpi
      · intro _ j hj
        have hne : j ≠ i := by omega
        have := hfirst j (Nat.zero_le _) hj
        simp only [decide_eq_false_iff_not] at this
        simpa [set_ptflags, setAs, Function.update_noteq hne] using this
    · simp at h
  · rename_i hp
    split at h
    · simp at h
    · rename_i slot st2 hs
      split at h
      · simp at h
      · rename_i st3 hin
        simp only [Except.ok.injEq, Prod.mk.injEq] at h
        obtain ⟨h1, h2⟩ := h
        subst h1; subst h2
        obtain ⟨hk, hfl, hld⟩ := find_slot_spec hs
        obtain ⟨hpd, hpf⟩ := swap_in_ptable_fields hin
        have hl2 : (st3.ass a).pg_dir (v >>> 22) &&& PGDIR_LOADED ≠ 0 := by
          rw [hpd, hld]; exact hl
        have hsp := set_present _ hl2
        refine ⟨hk, ?_, ?_, ?_, ?_⟩
        · simpa [set_ptflags, set_pgdir, setAs] using hsp.1
        · simpa [set_ptflags, set_pgdir, setAs] using hsp.2
        · simp only [set_ptflags, setAs, Function.update_same]
          exact slot_tag_dir v x
        · intro hm j hj hc
          have hne : j ≠ slot := by omega
          have hjf : (st.ass a).page_table_flags j &&& PGDIR_INDEX = v &&& PGDIR_INDEX := by
            simp only [set_ptflags, set_pgdir, setAs, Function.update_same,
              Function.update_noteq hne, hpf] at hc
            rw [hfl j hne] at hc
            exact hc
          exact hp (hm j (by omega) hjf).1

theorem get_ptbl_post {st st1 : Kernel} {a k v : Nat} {x : Bool}
    (h : get_ptbl st (some a) v x = .ok (k, st1)) :
    k < NUM_PTABLES_IN_MEM
    ∧ (st1.ass a).pg_dir (v >>> 22) &&& PGDIR_PRESENT ≠ 0
    ∧ (st1.ass a).pg_dir (v >>> 22) &&& PGDIR_LOADED ≠ 0
    ∧ (st1.ass a).page_table_flags k &&& PGDIR_INDEX = v &&& PGDIR_INDEX
    ∧ (slots_match_directory (st.ass a) v → ∀ j, j < k →
        (st1.ass a).page_table_flags j &&& PGDIR_INDEX ≠ v &&& PGDIR_INDEX) := by
  unfold get_ptbl at h
  simp only at h
  split at h
  · rename_i hl
    exact get_page_table_post hl h
  · rename_i hl
    split at h
    · simp at h
    · rename_i slot st2 hs
      simp only [Except.ok.injEq, Prod.mk.injEq] at h
      obtain ⟨h1, h2⟩ := h
      subst h1; subst h2
      obtain ⟨hk, hfl, hld⟩ := find_slot_spec hs
      have hsp := set_present_loaded ((st2.ass a).pg_dir (v >>> 22))
      refine ⟨hk, ?_, ?_, ?_, ?_⟩
      · simpa [set_ptflags, set_pgdir, setAs] using hsp.1
      · simpa [set_ptflags, set_pgdir, setAs] using hsp.2
      · simp only [set_ptflags, setAs, Function.update_same]
        exact slot_tag_dir v x
      · intro hm j hj hc
        have hne : j ≠ slot := by omega
        have hjf : (st.ass a).page_table_flags j &&& PGDIR_INDEX = v &&& PGDIR_INDEX := by
          simp only [set_ptflags, set_pgdir, setAs, Function.update_same,
            Function.update_noteq hne] at hc
          rw [hfl j hne] at hc
          exact hc
        exact hl (hm j (by omega) hjf).2


theorem get_ptbl_resident {st : Kernel} {a v k : Nat} (x : Bool)
    (hl : (st.ass a).pg_dir (v >>> 22) &&& PGDIR_LOADED ≠ 0)
    (hp : (st.ass a).pg_dir (v >>> 22) &&& PGDIR_PRESENT ≠ 0)
    (hk : k < NUM_PTABLES_IN_MEM)
    (hm : (st.ass a).page_table_flags k &&& PGDIR_INDEX = v &&& PGDIR_INDEX)
    (hfirst : ∀ j, j < k → (st.ass a).page_table_flags j &&& PGDIR_INDEX ≠ v &&& PGDIR_INDEX) :
    get_ptbl st (some a) v x = .ok (k, set_ptflags st a k
      (((st.ass a).page_table_flags k &&& notw PINMEM_FLAG_COUNTER_MASK)
        ||| (((st.ass a).page_table_flags k + 1) &&& PINMEM_FLAG_COUNTER_MASK))) := by
  have hscan : scanUp (fun i => decide ((st.ass a).page_table_flags i &&& PGDIR_INDEX
      = v &&& PGDIR_INDEX)) NUM_PTABLES_IN_MEM 0 = some k := by
    apply scanUp_first (Nat.zero_le _) (by omega)
    · simpa using hm
    · intro j _ hj
      simpa using hfirst j hj
  unfold get_ptbl
  simp only
  rw [if_pos hl]
  unfold get_page_table
  rw [if_pos hp, hscan]

theorem alloc_page_free {st : Kernel} (a vpn r : Nat) (h : free_frame_available st) :
    ∃ i, i < st.num_pages ∧ (st.pages i).flags &&& PFLAG_USED_MASK = 0
      ∧ alloc_page st (some a) vpn r = .ok (frame_paddr st i,
          { st with pages := Function.update st.pages i ⟨some a, vpn, PFLAG_USED_MASK⟩ }) := by
  obtain ⟨⟨i0, hi0, hf0⟩, hnz⟩ := h
  obtain ⟨i, hi⟩ := @scanUp_exists
    (fun i => decide ((st.pages i).flags &&& PFLAG_USED_MASK = 0)) st.num_pages 0 i0
    (Nat.zero_le i0) (by omega) (by simpa using hf0)
  obtain ⟨_, hlt, hpi, _⟩ := scanUp_some hi
  refine ⟨i, by omega, by simpa using hpi, ?_⟩
  unfold alloc_page
  simp only [hi]
  have hne : frame_paddr st i ≠ 0 := hnz i (by omega)
  simp [hne]

theorem tlb_install_spec (st : Kernel) (fa rt : Nat) :
    ∃ i, i < NUM_TLB ∧ ∀ elo, tlb_install st fa elo rt
      = { st with tlb := Function.update st.tlb i (fa, elo) } := by
  unfold tlb_install
  cases hp : TLB_Probe st fa with
  | some i =>
    have := scanUp_some hp
    exact ⟨i, by omega, fun _ => rfl⟩
  | none =>
    cases hs : scanUp (fun i => decide ((TLB_Read st i).2 &&& TLBLO_VALID = 0)) NUM_TLB 0 with
    | some i =>
      have := scanUp_some hs
      exact ⟨i, by omega, fun _ => rfl⟩
    | none => exact ⟨rt % NUM_TLB, Nat.mod_lt _ (by decide), fun _ => rfl⟩

theorem load_page_step {st st1 : Kernel} {p o v pa ms fs rc : Nat}
    (h : load_page_from_executable st p o v pa ms fs = .ok (rc, st1)) :
    st1 = { st with mem := st1.mem } := by
  unfold load_page_from_executable at h
  simp only at h
  split at h
  · simp at h
  · split_ifs at h <;>
      first
      | (simp at h; done)
      | (simp only [Except.ok.injEq, Prod.mk.injEq] at h; rw [← h.2])

theorem swap_in_frame_step {st st1 : Kernel} {asp : Option Nat} {vpn pa : Nat}
    (h : swap_in_page st asp vpn (.frame pa) = .ok st1) :
    st1 = { st with mem := st1.mem, swap_map := st1.swap_map } := by
  unfold swap_in_page find_swapped_page_location at h
  cases hf : find_swapped_index st asp vpn with
  | none => rw [hf] at h; simp at h
  | some i =>
    rw [hf] at h
    simp only [Except.ok.injEq] at h
    subst h
    simp [write_page]


theorem load_step_of_mem (st st1 : Kernel) (a k idx : Nat) (m : Nat → Bytes) (sm : Nat → SwapMap)
    (h : st1 = { st with mem := m, swap_map := sm }) :
    load_step a st st1 ∧ get_pte st1 a k idx = get_pte st a k idx := by
  subst h
  exact ⟨⟨(st.ass a).ptables_in_mem, m, sm, by simp⟩, rfl⟩

theorem load_step_set_pte (st : Kernel) (a k idx v : Nat) :
    load_step a st (set_pte st a k idx v) ∧ get_pte (set_pte st a k idx v) a k idx = v := by
  refine ⟨⟨Function.update (st.ass a).ptables_in_mem k
    (Function.update ((st.ass a).ptables_in_mem k) idx v), st.mem, st.swap_map, ?_⟩, ?_⟩
  · simp [set_pte, setAs]
  · simp [set_pte, get_pte, setAs]

theorem load_step_trans {a : Nat} {s1 s2 s3 : Kernel} (h1 : load_step a s1 s2)
    (h2 : load_step a s2 s3) : load_step a s1 s3 := by
  obtain ⟨pt1, m1, sm1, rfl⟩ := h1
  obtain ⟨pt2, m2, sm2, rfl⟩ := h2
  exact ⟨pt2, m2, sm2, by simp⟩

theorem load_segment_step {st st1 : Kernel} {a fa pa k idx : Nat}
    (h : load_segment_if_required st a fa pa k idx = .ok st1) :
    load_step a st st1
    ∧ (get_pte st1 a k idx = get_pte st a k idx
        ∨ get_pte st1 a k idx = get_pte st a k idx ||| PF_L) := by
  unfold load_segment_if_required at h
  simp only at h
  split_ifs at h <;>
    first
    | (simp at h; done)
    | (have e := swap_in_frame_step h
       have := load_step_of_mem st st1 a k idx st1.mem st1.swap_map e
       exact ⟨this.1, Or.inl this.2⟩)
    | (simp only [Except.ok.injEq] at h
       subst h
       have h2 := load_step_set_pte st a k idx (get_pte st a k idx ||| PF_L)
       exact ⟨h2.1, Or.inr h2.2⟩)
    | (split at h
       · simp at h
       · rename_i rc s1 hl
         simp only [Except.ok.injEq] at h
         subst h
         have e := load_page_step hl
         have h1 := load_step_of_mem st s1 a k idx s1.mem st.swap_map e
         first
         | exact ⟨h1.1, Or.inl h1.2⟩
         | (have h2 := load_step_set_pte s1 a k idx (get_pte s1 a k idx ||| PF_L)
            refine ⟨load_step_trans h1.1 h2.1, Or.inr ?_⟩
            rw [h2.2, h1.2]))


/-! ## Lemmas: the page-table walk of the fault handler -/

theorem free_frame_of_cache_step {a : Nat} {st st1 : Kernel} (h : cache_step a st st1)
    (hf : free_frame_available st) : free_frame_available st1 := by
  obtain ⟨pd, pt, fl, sm, dk, rfl⟩ := h
  exact hf

theorem find_pte_walk {st st4 : Kernel} {a v flags r : Nat} {ptr : Nat × Nat × Nat}
    (hw : find_pte st (some a) v flags r = .ok (ptr, st4)) :
    ∃ k st1, get_ptbl st (some a) v (exec_page (st.ass a) v) = .ok (k, st1)
      ∧ ptr = (a, k, pte_index v)
      ∧ (get_pte st1 a k (pte_index v) &&& PGTBL_VALID_MASK ≠ 0 → st4 = st1)
      ∧ (get_pte st1 a k (pte_index v) &&& PGTBL_VALID_MASK = 0 →
          ∃ pa st2 st3, alloc_page st1 (some a) v r = .ok (pa, st2)
            ∧ load_segment_if_required st2 a v pa k (pte_index v) = .ok st3
            ∧ st4 = set_pte st3 a k (pte_index v)
                ((get_pte st3 a k (pte_index v) &&& notw PAGE_FRAME)
                  ||| (((pa &&& PAGE_FRAME) ||| flags) ||| PGTBL_VALID_MASK))) := by
  unfold find_pte at hw
  simp only at hw
  split at hw
  · simp at hw
  · rename_i k st1 hg
    refine ⟨k, st1, hg, ?_⟩
    split_ifs at hw with hv
    · simp only [Except.ok.injEq, Prod.mk.injEq] at hw
      exact ⟨hw.1.symm, fun _ => hw.2.symm, fun h0 => absurd h0 hv⟩
    · split at hw
      · simp at hw
      · rename_i pa st2 hal
        split at hw
        · simp at hw
        · rename_i st3 hld
          simp only [Except.ok.injEq, Prod.mk.injEq] at hw
          exact ⟨hw.1.symm, fun h1 => absurd h1 hv, fun _ => ⟨pa, st2, st3, hal, hld, hw.2.symm⟩⟩


/-- The entry `find_pte` stores after mapping a page. -/
theorem installed_entry_valid (e pa flags : Nat) :
    ((e &&& notw PAGE_FRAME) ||| (((pa &&& PAGE_FRAME) ||| flags) ||| PGTBL_VALID_MASK))
      &&& PGTBL_VALID_MASK ≠ 0 := by
  rw [flag_ne_zero_iff _ PGTBL_VALID_MASK 3 rfl]
  have h : PGTBL_VALID_MASK.testBit 3 = true := by decide
  simp [Nat.testBit_or, h]

theorem installed_entry_bit (e pa flags i : Nat) (h1 : (notw PAGE_FRAME).testBit i = true)
    (h2 : PAGE_FRAME.testBit i = false) (h3 : PGTBL_VALID_MASK.testBit i = false) :
    ((e &&& notw PAGE_FRAME) ||| (((pa &&& PAGE_FRAME) ||| flags) ||| PGTBL_VALID_MASK)).testBit i
      = (e.testBit i || flags.testBit i) := by
  simp [Nat.testBit_or, Nat.testBit_and, h1, h2, h3]

theorem loaded_bit (e i : Nat) (h : PF_L.testBit i = false) :
    (e ||| PF_L).testBit i = e.testBit i := by
  simp [Nat.testBit_or, h]

theorem find_pte_no_evict {st st4 : Kernel} {a v flags r : Nat} {ptr : Nat × Nat × Nat}
    (hw : find_pte st (some a) v flags r = .ok (ptr, st4))
    (hne : free_frame_available st ∨ ∀ k st1,
      get_ptbl st (some a) v (exec_page (st.ass a) v) = .ok (k, st1) →
        get_pte st1 a k (pte_index v) &&& PGTBL_VALID_MASK ≠ 0) :
    ∃ k st1, get_ptbl st (some a) v (exec_page (st.ass a) v) = .ok (k, st1)
      ∧ ptr = (a, k, pte_index v)
      ∧ ∃ pt pg m sm,
        st4 = { st1 with ass := Function.update st1.ass a { st1.ass a with ptables_in_mem := pt }, pages := pg, mem := m, swap_map := sm }
        ∧ (get_pte st1 a k (pte_index v) &&& PGTBL_VALID_MASK ≠ 0 →
            pt k (pte_index v) = get_pte st1 a k (pte_index v))
        ∧ (get_pte st1 a k (pte_index v) &&& PGTBL_VALID_MASK = 0 →
            ∃ e pa, (e = get_pte st1 a k (pte_index v) ∨ e = get_pte st1 a k (pte_index v) ||| PF_L)
              ∧ pt k (pte_index v) = (e &&& notw PAGE_FRAME)
                  ||| (((pa &&& PAGE_FRAME) ||| flags) ||| PGTBL_VALID_MASK)) := by
  obtain ⟨k, st1, hg, hptr, hv, hnv⟩ := find_pte_walk hw
  refine ⟨k, st1, hg, hptr, ?_⟩
  by_cases hval : get_pte st1 a k (pte_index v) &&& PGTBL_VALID_MASK ≠ 0
  · have h4 := hv hval
    subst h4
    refine ⟨(st4.ass a).ptables_in_mem, st4.pages, st4.mem, st4.swap_map, by simp, fun _ => rfl,
      fun h0 => absurd h0 hval⟩
  · have hval0 : get_pte st1 a k (pte_index v) &&& PGTBL_VALID_MASK = 0 := by
      by_contra hc; exact hval hc
    have hfree : free_frame_available st := by
      rcases hne with h | h
      · exact h
      · exact absurd (h k st1 hg) hval
    obtain ⟨pa, st2, st3, hal, hld, h4⟩ := hnv hval0
    obtain ⟨i, _, _, hal2⟩ := alloc_page_free a v r (free_frame_of_cache_step (cache_step_get_ptbl hg) hfree)
    rw [hal2] at hal
    simp only [Except.ok.injEq, Prod.mk.injEq] at hal
    obtain ⟨hpa, hst2⟩ := hal
    obtain ⟨⟨pt3, m3, sm3, hst3⟩, hent⟩ := load_segment_step hld
    have he2 : get_pte st2 a k (pte_index v) = get_pte st1 a k (pte_index v) := by
      rw [← hst2]; rfl
    rw [he2] at hent
    refine ⟨(st4.ass a).ptables_in_mem, st4.pages, st4.mem, st4.swap_map, ?_, fun h1 => absurd h1 hval,
      fun _ => ⟨get_pte st3 a k (pte_index v), pa, hent, ?_⟩⟩
    · subst h4; subst hst3; subst hst2
      simp [set_pte, setAs]
    · subst h4
      simp [set_pte, setAs, get_pte]


theorem tlb_entry_bits (x : Nat) :
    ((x ||| TLBLO_DIRTY) ||| TLBLO_VALID) &&& TLBLO_DIRTY ≠ 0
    ∧ ((x ||| TLBLO_DIRTY) ||| TLBLO_VALID) &&& TLBLO_VALID ≠ 0 := by
  rw [flag_ne_zero_iff _ TLBLO_DIRTY 10 rfl, flag_ne_zero_iff _ TLBLO_VALID 9 rfl]
  have h1 : TLBLO_DIRTY.testBit 10 = true := by decide
  have h2 : TLBLO_VALID.testBit 9 = true := by decide
  simp [Nat.testBit_or, h1, h2]


theorem plain_kernel_free_frame : free_frame_available plain_kernel :=
  ⟨⟨7, by decide, by decide⟩, by decide⟩


theorem find_pte_mapped {st : Kernel} {a v k : Nat} (flags r : Nat)
    (hl : (st.ass a).pg_dir (v >>> 22) &&& PGDIR_LOADED ≠ 0)
    (hp : (st.ass a).pg_dir (v >>> 22) &&& PGDIR_PRESENT ≠ 0)
    (hk : k < NUM_PTABLES_IN_MEM)
    (hm : (st.ass a).page_table_flags k &&& PGDIR_INDEX = v &&& PGDIR_INDEX)
    (hfirst : ∀ j, j < k → (st.ass a).page_table_flags j &&& PGDIR_INDEX ≠ v &&& PGDIR_INDEX)
    (hv : get_pte st a k (pte_index v) &&& PGTBL_VALID_MASK ≠ 0) :
    find_pte st (some a) v flags r = .ok ((a, k, pte_index v), set_ptflags st a k
      (((st.ass a).page_table_flags k &&& notw PINMEM_FLAG_COUNTER_MASK)
        ||| (((st.ass a).page_table_flags k + 1) &&& PINMEM_FLAG_COUNTER_MASK))) := by
  unfold find_pte
  simp only
  rw [get_ptbl_resident _ hl hp hk hm hfirst]
  simp only
  have hv2 : get_pte (set_ptflags st a k
      (((st.ass a).page_table_flags k &&& notw PINMEM_FLAG_COUNTER_MASK)
        ||| (((st.ass a).page_table_flags k + 1) &&& PINMEM_FLAG_COUNTER_MASK))) a k
      ((v &&& PGTBL_INDEX) >>> 12) &&& PGTBL_VALID_MASK ≠ 0 := by
    simpa [get_pte, set_ptflags, setAs, pte_index] using hv
  rw [if_pos hv2]
  rfl

theorem vm_fault_read_write {st st0 st1 : Kernel} {a faulttype faultaddress flags : Nat}
    {grow : Bool} {ptr : Nat × Nat × Nat} (rp rt : Nat)
    (hcur : st.t_vmspace = some a)
    (hft : faulttype = VM_FAULT_READ ∨ faulttype = VM_FAULT_WRITE)
    (hreg : classify (st.ass a) (faultaddress &&& PAGE_FRAME) = some (flags, grow))
    (hst0 : st0 = if grow then grow_stack st a else st)
    (hw : find_pte st0 (some a) (faultaddress &&& PAGE_FRAME) flags rp = .ok (ptr, st1)) :
    ∃ i elo, i < NUM_TLB ∧ vm_fault st faulttype faultaddress rp rt
      = .ok (VM_FAULT_OK,
          { st1 with tlb := Function.update st1.tlb i (faultaddress &&& PAGE_FRAME, elo) }) := by
  obtain ⟨i, hi, hti⟩ := tlb_install_spec st1 (faultaddress &&& PAGE_FRAME) rt
  subst hst0
  obtain ⟨pa, slot, idx⟩ := ptr
  rcases hft with h | h
  · subst h
    refine ⟨i, (if get_pte st1 pa slot idx &&& PF_W ≠ 0 then
        ((get_pte st1 pa slot idx &&& PAGE_FRAME) ||| TLBLO_VALID) ||| TLBLO_DIRTY
      else (get_pte st1 pa slot idx &&& PAGE_FRAME) ||| TLBLO_VALID), hi, ?_⟩
    unfold vm_fault
    simp [hcur, hreg, hw, hti, VM_FAULT_READ, VM_FAULT_READONLY, VM_FAULT_WRITE]
  · subst h
    refine ⟨i, ((get_pte st1 pa slot idx &&& PAGE_FRAME) ||| TLBLO_DIRTY) ||| TLBLO_VALID,
      hi, ?_⟩
    unfold vm_fault
    simp [hcur, hreg, hw, hti, VM_FAULT_READ, VM_FAULT_READONLY, VM_FAULT_WRITE]

/-! ## Lemmas: swap store -/

theorem swap_key_frame (vpn : Nat) :
    ((vpn &&& PAGE_FRAME) ||| SWMAP_FLAG_USED) &&& PAGE_FRAME = vpn &&& PAGE_FRAME := by
  rw [Nat.and_distrib_right, Nat.and_assoc]
  have h1 : PAGE_FRAME &&& PAGE_FRAME = PAGE_FRAME := by decide
  have h2 : SWMAP_FLAG_USED &&& PAGE_FRAME = 0 := by decide
  rw [h1, h2, Nat.or_zero]

theorem swap_key_used (vpn : Nat) :
    ((vpn &&& PAGE_FRAME) ||| SWMAP_FLAG_USED) &&& SWMAP_FLAG_USED ≠ 0 := by
  rw [flag_ne_zero_iff _ SWMAP_FLAG_USED 0 rfl]
  have h : SWMAP_FLAG_USED.testBit 0 = true := by decide
  rw [Nat.testBit_or, h, Bool.or_true]

/-- What `swap_out_page` does when a slot is free. -/
theorem swap_out_spec (st : Kernel) (asp : Option Nat) (vpn : Nat) (l : Loc)
    (hfree : ∃ j, j < SWAP_MAP_SIZE ∧ (st.swap_map j).flags &&& SWMAP_FLAG_USED = 0) :
    ∃ i, i < SWAP_MAP_SIZE
      ∧ (st.swap_map i).flags &&& SWMAP_FLAG_USED = 0
      ∧ (∀ j, j < i → (st.swap_map j).flags &&& SWMAP_FLAG_USED ≠ 0)
      ∧ swap_out_page st asp vpn l = .ok { st with
          swap_map := Function.update st.swap_map i
            { as := asp, flags := (vpn &&& PAGE_FRAME) ||| SWMAP_FLAG_USED },
          disk := fun o => if i * PAGE_SIZE ≤ o ∧ o < i * PAGE_SIZE + PAGE_SIZE then
            read_page st l (o - i * PAGE_SIZE) else st.disk o } := by
  obtain ⟨j, hj, hjf⟩ := hfree
  obtain ⟨i, hi⟩ := @scanUp_exists
    (fun i => decide ((st.swap_map i).flags &&& SWMAP_FLAG_USED = 0)) SWAP_MAP_SIZE 0 j
    (Nat.zero_le _) (by omega) (by simpa using hjf)
  obtain ⟨_, h2, h3, h4⟩ := scanUp_some hi
  refine ⟨i, by omega, by simpa using h3, fun k hk => ?_, ?_⟩
  · have := h4 k (Nat.zero_le _) hk
    simpa using this
  · unfold swap_out_page find_free_swap_section
    rw [hi]
    simp [SWAP_GLOBAL_OFFSET]

/-- What `find_swapped_index` finds when a slot is keyed `(asp, vpn)`. -/
theorem find_swapped_spec (st : Kernel) (asp : Option Nat) (vpn : Nat)
    (hkey : ∃ j, j < SWAP_MAP_SIZE ∧ slot_keyed st asp vpn j) :
    ∃ i, i < SWAP_MAP_SIZE ∧ slot_keyed st asp vpn i
      ∧ (∀ j, j < i → ¬ slot_keyed st asp vpn j)
      ∧ find_swapped_index st asp vpn = some i := by
  obtain ⟨j, hj, hjk⟩ := hkey
  obtain ⟨i, hi⟩ := @scanUp_exists
    (fun i => decide ((st.swap_map i).flags &&& SWMAP_FLAG_USED ≠ 0
      ∧ (st.swap_map i).as = asp ∧ (st.swap_map i).flags &&& PAGE_FRAME = vpn)) SWAP_MAP_SIZE 0 j
    (Nat.zero_le _) (by omega) (by simpa [slot_keyed] using hjk)
  obtain ⟨_, h2, h3, h4⟩ := scanUp_some hi
  refine ⟨i, by omega, by simpa [slot_keyed] using h3, fun k hk => ?_, hi⟩
  have := h4 k (Nat.zero_le _) hk
  simpa [slot_keyed] using this

theorem swap_in_spec {st : Kernel} {asp : Option Nat} {vpn i : Nat} (l : Loc)
    (h : find_swapped_index st asp vpn = some i) :
    swap_in_page st asp vpn l = .ok (write_page
      { st with swap_map := Function.update st.swap_map i { as := (st.swap_map i).as, flags := 0 } }
      l (fun o => st.disk (i * PAGE_SIZE + o))) := by
  unfold swap_in_page find_swapped_page_location
  rw [h]
  simp [SWAP_GLOBAL_OFFSET]

theorem swap_copy_in_spec {st : Kernel} {asp : Option Nat} {vpn i : Nat} (l : Loc)
    (h : find_swapped_index st asp vpn = some i) :
    swap_copy_in_page st asp vpn l
      = .ok (write_page st l (fun o => st.disk (i * PAGE_SIZE + o))) := by
  unfold swap_copy_in_page find_swapped_page_location
  rw [h]
  simp [SWAP_GLOBAL_OFFSET]

theorem write_page_swap_map (st : Kernel) (l : Loc) (buf : Bytes) :
    (write_page st l buf).swap_map = st.swap_map ∧ (write_page st l buf).disk = st.disk := by
  cases l <;> simp [write_page, setAs]

theorem write_page_frame_mem (st : Kernel) (q : Nat) (buf : Bytes) :
    (write_page st (.frame q) buf).mem (frame_index (write_page st (.frame q) buf) q) = buf := by
  simp [write_page, frame_index]

theorem plain_kernel_swap_empty (j : Nat) : ¬ slot_in_use plain_kernel j := by
  intro h
  have h0 : (plain_kernel.swap_map j).flags &&& SWMAP_FLAG_USED = 0 := by
    show (0 : Nat) &&& SWMAP_FLAG_USED = 0
    decide
  exact h h0

/-- A swap table whose in-use slots are in-use slots of `st` with the same entry inherits
`swap_unique`. -/
theorem swap_unique_of_subset {st st1 : Kernel}
    (h : ∀ j, j < SWAP_MAP_SIZE → slot_in_use st1 j → st1.swap_map j = st.swap_map j)
    (hinv : swap_unique st) : swap_unique st1 := by
  intro i j hi hj hui huj has hvpn
  have ei := h i hi hui
  have ej := h j hj huj
  unfold slot_in_use at hui huj
  rw [ei] at hui has hvpn
  rw [ej] at huj has hvpn
  exact hinv i j hi hj hui huj has hvpn

theorem swap_unique_swap_in {st st1 : Kernel} {asp : Option Nat} {vpn : Nat} {l : Loc}
    (h : swap_in_page st asp vpn l = .ok st1) (hinv : swap_unique st) : swap_unique st1 := by
  unfold swap_in_page find_swapped_page_location at h
  cases hf : find_swapped_index st asp vpn with
  | none => rw [hf] at h; simp at h
  | some i =>
    rw [hf] at h
    simp only [Except.ok.injEq] at h
    subst h
    apply swap_unique_of_subset _ hinv
    intro j _ huj
    unfold slot_in_use at huj
    rw [(write_page_swap_map _ _ _).1] at huj ⊢
    simp only at huj ⊢
    by_cases hji : j = i
    · subst hji
      rw [Function.update_same] at huj
      exact absurd (Nat.zero_and _) huj
    · rw [Function.update_noteq hji]

theorem swap_unique_swap_copy_in {st st1 : Kernel} {asp : Option Nat} {vpn : Nat} {l : Loc}
    (h : swap_copy_in_page st asp vpn l = .ok st1) (hinv : swap_unique st) : swap_unique st1 := by
  unfold swap_copy_in_page find_swapped_page_location at h
  cases hf : find_swapped_index st asp vpn with
  | none => rw [hf] at h; simp at h
  | some i =>
    rw [hf] at h
    simp only [Except.ok.injEq] at h
    subst h
    apply swap_unique_of_subset _ hinv
    intro j _ _
    rw [(write_page_swap_map _ _ _).1]

theorem swap_unique_swap_free (st : Kernel) (asp : Option Nat) (hinv : swap_unique st) :
    swap_unique (swap_free_pages st asp) := by
  apply swap_unique_of_subset _ hinv
  intro j _ huj
  unfold slot_in_use swap_free_pages at huj
  unfold swap_free_pages
  simp only at huj ⊢
  split_ifs at huj ⊢ with hc
  · exact absurd (Nat.zero_and _) huj
  · rfl

theorem swap_unique_reclaim (st : Kernel) : swap_unique (reclaim_all_swap_sections st) := by
  intro i j hi _ hui
  unfold slot_in_use reclaim_all_swap_sections at hui
  simp only [if_pos hi] at hui
  exact absurd (Nat.zero_and _) hui

theorem swap_unique_swap_out {st st1 : Kernel} {asp : Option Nat} {vpn : Nat} {l : Loc}
    (hnokey : ∀ j, j < SWAP_MAP_SIZE → ¬ slot_keyed st asp (vpn &&& PAGE_FRAME) j)
    (h : swap_out_page st asp vpn l = .ok st1) (hinv : swap_unique st) : swap_unique st1 := by
  unfold swap_out_page at h
  cases hf : find_free_swap_section st with
  | none => rw [hf] at h; simp at h
  | some f =>
    rw [hf] at h
    simp only [Except.ok.injEq] at h
    subst h
    intro i j hi hj hui huj has hvpn
    unfold slot_in_use at hui huj
    simp only at hui huj has hvpn
    by_cases hif : i = f
    · by_cases hjf : j = f
      · rw [hif, hjf]
      · exfalso
        subst hif
        rw [Function.update_same, Function.update_noteq hjf] at has hvpn
        rw [Function.update_noteq hjf] at huj
        rw [swap_key_frame] at hvpn
        exact hnokey j hj ⟨huj, has.symm, hvpn.symm⟩
    · by_cases hjf : j = f
      · exfalso
        subst hjf
        rw [Function.update_same, Function.update_noteq hif] at has hvpn
        rw [Function.update_noteq hif] at hui
        rw [swap_key_frame] at hvpn
        exact hnokey i hi ⟨hui, has, hvpn⟩
      · rw [Function.update_noteq hif, Function.update_noteq hjf] at has hvpn
        rw [Function.update_noteq hif] at hui
        rw [Function.update_noteq hjf] at huj
        exact hinv i j hi hj hui huj has hvpn

theorem plain_kernel_swap_unique : swap_unique plain_kernel :=
  fun i _ _ _ hui => absurd hui (plain_kernel_swap_empty i)

/-! ## Lemmas: eviction of a frame -/

theorem scanDown_some {p : Nat → Bool} : ∀ {start i : Nat}, scanDown p start = some i →
    i ≤ start ∧ p i = true ∧ ∀ j, i < j → j ≤ start → p j = false := by
  intro start
  induction start with
  | zero =>
    intro i h
    unfold scanDown at h
    by_cases hp : p 0 = true
    · rw [if_pos hp] at h
      have hi : 0 = i := by simpa using h
      subst hi
      exact ⟨le_refl _, hp, fun j h1 h2 => absurd h1 (by omega)⟩
    · rw [if_neg hp] at h; simp at h
  | succ n ih =>
    intro i h
    unfold scanDown at h
    by_cases hp : p (n + 1) = true
    · rw [if_pos hp] at h
      have hi : n + 1 = i := by simpa using h
      subst hi
      exact ⟨le_refl _, hp, fun j h1 h2 => absurd h1 (by omega)⟩
    · rw [if_neg hp] at h
      obtain ⟨h1, h2, h3⟩ := ih h
      refine ⟨by omega, h2, fun j hj1 hj2 => ?_⟩
      by_cases hjn : j = n + 1
      · subst hjn; simpa using hp
      · exact h3 j hj1 (by omega)

/-- The frame `make_pg_available` releases is free or owned by the requester. -/
theorem make_pg_available_victim {st : Kernel} {a r i : Nat}
    (h : (match scanUp (fun i => decide ((st.pages i).flags &&& PFLAG_USED_MASK = 0
              ∨ (st.pages i).as = some a)) (st.num_pages - r % st.num_pages) (r % st.num_pages) with
          | some i => some i
          | none => scanDown (fun i => decide ((st.pages i).flags &&& PFLAG_USED_MASK = 0
              ∨ (st.pages i).as = some a)) (r % st.num_pages)) = some i) :
    (st.pages i).flags &&& PFLAG_USED_MASK = 0 ∨ (st.pages i).as = some a := by
  split at h
  · rename_i j hj
    have hij : j = i := by simpa using h
    subst hij
    have := (scanUp_some hj).2.2.1
    simpa using this
  · have := (scanDown_some h).2.1
    simpa using this

theorem make_pg_available_used {st st5 : Kernel} {a vpn r pa i : Nat}
    (hret : make_pg_available st a vpn r = .ok (pa, i, st5))
    (hused : (st.pages i).flags &&& PFLAG_USED_MASK ≠ 0) :
    (st.pages i).as = some a
    ∧ pa = frame_paddr st i
    ∧ ∃ k st1, get_ptbl st (some a) (st.pages i).vpn (exec_page (st.ass a) (st.pages i).vpn)
          = .ok (k, st1)
      ∧ frame_paddr st i = (get_pte st1 a k (pte_index (st.pages i).vpn)
          &&& notw PGTBL_VALID_MASK) &&& PAGE_FRAME
      ∧ ∃ st4, (if exec_page (st.ass a) (st.pages i).vpn = true then
            (.ok (tlb_invalidate (set_pte st1 a k (pte_index (st.pages i).vpn)
              (get_pte st1 a k (pte_index (st.pages i).vpn) &&& notw PGTBL_VALID_MASK))
              (st.pages i).vpn) : Except Abort Kernel)
          else swap_out_page (tlb_invalidate (set_pte st1 a k (pte_index (st.pages i).vpn)
              (get_pte st1 a k (pte_index (st.pages i).vpn) &&& notw PGTBL_VALID_MASK))
              (st.pages i).vpn) (some a) (st.pages i).vpn (.frame (frame_paddr st i))) = .ok st4
        ∧ st5 = set_page_flags st4 i 0 := by
  unfold make_pg_available at hret
  simp only at hret
  split_ifs at hret with h1 h2
  split at hret
  · simp at hret
  · rename_i victim_index hfound
    have hvict := make_pg_available_victim hfound
    split at hret
    · simp at hret
    · rename_i should st2 hwalk
      split at hret
      · simp at hret
      · rename_i st4 hswap
        simp only [Except.ok.injEq, Prod.mk.injEq] at hret
        obtain ⟨hpa, hvi, hst5⟩ := hret
        subst hvi
        have hown : (st.pages victim_index).as = some a := by
          rcases hvict with h | h
          · exact absurd h hused
          · exact h
        rw [if_pos hused, hown] at hwalk
        simp only at hwalk
        by_cases hx : (st.ass a).as_flags1 &&& PF_X = 0 ∧ (st.ass a).as_flags2 &&& PF_X = 0
        · rw [if_pos hx] at hwalk; simp at hwalk
        · rw [if_neg hx] at hwalk
          have hex : exec_page (st.ass a) (st.pages victim_index).vpn
              = decide ((st.pages victim_index).vpn ≥
                  (if (st.ass a).as_flags1 &&& PF_X ≠ 0 then (st.ass a).as_vbase1
                    else (st.ass a).as_vbase2) ∧
                (st.pages victim_index).vpn <
                  (if (st.ass a).as_flags1 &&& PF_X ≠ 0 then
                    ((st.ass a).as_vbase1 + (st.ass a).as_npages1 * PAGE_SIZE) % WORD
                  else ((st.ass a).as_vbase2 + (st.ass a).as_npages2 * PAGE_SIZE) % WORD)) := rfl
          rw [← hex] at hwalk
          have hidx : ((st.pages victim_index).vpn &&& PGTBL_INDEX) >>> 12
              = pte_index (st.pages victim_index).vpn := rfl
          rw [hidx] at hwalk
          cases hg : get_ptbl st (some a) (st.pages victim_index).vpn
              (exec_page (st.ass a) (st.pages victim_index).vpn) with
          | error e => rw [hg] at hwalk; simp at hwalk
          | ok res =>
            obtain ⟨k, st1⟩ := res
            rw [hg] at hwalk
            simp only at hwalk
            by_cases hassert : frame_paddr st victim_index
                = (get_pte st1 a k (pte_index (st.pages victim_index).vpn)
                    &&& notw PGTBL_VALID_MASK) &&& PAGE_FRAME
            · rw [if_pos hassert] at hwalk
              simp only [Except.ok.injEq, Prod.mk.injEq] at hwalk
              obtain ⟨hshould, hst2⟩ := hwalk
              refine ⟨hown, hpa.symm, k, st1, rfl, hassert, st4, ?_, hst5.symm⟩
              rw [hown] at hswap
              rw [← hshould, ← hst2] at hswap
              rw [← hswap]
              cases exec_page (st.ass a) (st.pages victim_index).vpn <;> simp
            · rw [if_neg hassert] at hwalk; simp at hwalk

theorem swap_out_ok {st st1 : Kernel} {asp : Option Nat} {vpn : Nat} {l : Loc}
    (h : swap_out_page st asp vpn l = .ok st1) :
    ∃ i, i < SWAP_MAP_SIZE ∧ ¬ slot_in_use st i ∧ (∀ j, j < i → slot_in_use st j)
      ∧ st1 = { st with
          swap_map := Function.update st.swap_map i
            { as := asp, flags := (vpn &&& PAGE_FRAME) ||| SWMAP_FLAG_USED },
          disk := fun o => if i * PAGE_SIZE ≤ o ∧ o < i * PAGE_SIZE + PAGE_SIZE then
            read_page st l (o - i * PAGE_SIZE) else st.disk o } := by
  have hex : ∃ j, j < SWAP_MAP_SIZE ∧ (st.swap_map j).flags &&& SWMAP_FLAG_USED = 0 := by
    unfold swap_out_page at h
    cases hf : find_free_swap_section st with
    | none => rw [hf] at h; simp at h
    | some f =>
      obtain ⟨_, h2, h3, _⟩ := scanUp_some hf
      exact ⟨f, by omega, by simpa using h3⟩
  obtain ⟨i, hi, hif, hlow, hout⟩ := swap_out_spec st asp vpn l hex
  rw [hout] at h
  simp only [Except.ok.injEq] at h
  exact ⟨i, hi, by simpa [slot_in_use] using hif, hlow, h.symm⟩

theorem clear_valid_bits (e : Nat) :
    (e &&& notw PGTBL_VALID_MASK) &&& PGTBL_VALID_MASK = 0
    ∧ (e &&& notw PGTBL_VALID_MASK) &&& PAGE_FRAME = e &&& PAGE_FRAME
    ∧ ∀ b, b < 32 → b ≠ 3 → (e &&& notw PGTBL_VALID_MASK).testBit b = e.testBit b := by
  refine ⟨?_, ?_, ?_⟩
  · rw [Nat.and_assoc]
    have : notw PGTBL_VALID_MASK &&& PGTBL_VALID_MASK = 0 := by decide
    rw [this, Nat.and_zero]
  · rw [Nat.and_assoc]
    have : notw PGTBL_VALID_MASK &&& PAGE_FRAME = PAGE_FRAME := by decide
    rw [this]
  · intro b hb hb3
    rw [Nat.testBit_and]
    have : (notw PGTBL_VALID_MASK).testBit b = true := by
      have hall : ∀ c, c < 32 → c ≠ 3 → (notw PGTBL_VALID_MASK).testBit c = true := by decide
      exact hall b hb hb3
    rw [this, Bool.and_true]

/-! ## Lemmas: kernel runs of frames -/

/-- The counting loop of `can_i_alloc_npages`. -/
theorem count_free_spec (st : Kernel) (n : Nat) : ∀ (fuel start count : Nat), count + fuel = n →
    count ≤ count_free st n fuel start count ∧ count_free st n fuel start count ≤ n
    ∧ (∀ j, j < count_free st n fuel start count - count →
        frame_free st (start + j) ∧ start + j < st.num_pages)
    ∧ (count_free st n fuel start count < n →
        ¬ (frame_free st (start + (count_free st n fuel start count - count))
          ∧ start + (count_free st n fuel start count - count) < st.num_pages)) := by
  intro fuel
  induction fuel with
  | zero =>
    intro start count h
    simp only [count_free]
    refine ⟨le_refl _, by omega, fun j hj => absurd hj (by omega), fun hc => absurd hc (by omega)⟩
  | succ f ih =>
    intro start count h
    unfold count_free
    by_cases hc : (st.pages start).flags &&& PFLAG_USED_MASK = 0 ∧ count < n ∧ start < st.num_pages
    · rw [if_pos hc]
      obtain ⟨h1, h2, h3, h4⟩ := ih (start + 1) (count + 1) (by omega)
      refine ⟨by omega, h2, fun j hj => ?_, fun hlt => ?_⟩
      · by_cases hj0 : j = 0
        · subst hj0
          exact ⟨hc.1, hc.2.2⟩
        · have := h3 (j - 1) (by omega)
          have e : start + 1 + (j - 1) = start + j := by omega
          rw [e] at this
          exact this
      · have := h4 hlt
        have e : start + 1 + (count_free st n f (start + 1) (count + 1) - (count + 1))
            = start + (count_free st n f (start + 1) (count + 1) - count) := by omega
        rw [e] at this
        exact this
    · rw [if_neg hc]
      refine ⟨le_refl _, by omega, fun j hj => absurd hj (by omega), fun _ => ?_⟩
      rw [Nat.sub_self, Nat.add_zero]
      intro hh
      exact hc ⟨hh.1, by omega, hh.2⟩

/-- `can_i_alloc_npages` answers 1 exactly when the `npages` frames from `start` are managed
and free. -/
theorem can_i_alloc_npages_iff (st : Kernel) (i n : Nat) (hn : 1 ≤ n) :
    ((can_i_alloc_npages st i n).1 = true ↔ run_free st i n)
    ∧ (can_i_alloc_npages st i n).2 ≤ n
    ∧ (∀ j, j < (can_i_alloc_npages st i n).2 → frame_free st (i + j) ∧ i + j < st.num_pages)
    ∧ ((can_i_alloc_npages st i n).2 < n →
        ¬ (frame_free st (i + (can_i_alloc_npages st i n).2)
          ∧ i + (can_i_alloc_npages st i n).2 < st.num_pages)) := by
  obtain ⟨_, h2, h3, h4⟩ := count_free_spec st n n i 0 (by omega)
  simp only [Nat.sub_zero] at h3 h4
  unfold can_i_alloc_npages
  simp only [decide_eq_true_eq]
  refine ⟨⟨fun hc => ?_, fun hr => ?_⟩, h2, h3, h4⟩
  · rw [hc] at h3
    refine ⟨?_, fun j hj => (h3 j hj).1⟩
    have := (h3 (n - 1) (by omega)).2
    omega
  · by_contra hne
    have hlt : count_free st n n i 0 < n := by omega
    apply h4 hlt
    exact ⟨hr.2 _ hlt, by have := hr.1; omega⟩

/-- The loop of `getkpagesfromvm` that passes over frames in use. -/
theorem skip_used_spec (st : Kernel) : ∀ (fuel i : Nat), st.num_pages - i ≤ fuel →
    i ≤ skip_used st fuel i
    ∧ (∀ m, i ≤ m → m < skip_used st fuel i → ¬ frame_free st m)
    ∧ (skip_used st fuel i < st.num_pages → frame_free st (skip_used st fuel i)) := by
  intro fuel
  induction fuel with
  | zero =>
    intro i h
    simp only [skip_used]
    exact ⟨le_refl _, fun m h1 h2 => absurd h1 (by omega), fun hlt => absurd hlt (by omega)⟩
  | succ f ih =>
    intro i h
    unfold skip_used
    by_cases hc : i < st.num_pages ∧ (st.pages i).flags &&& PFLAG_USED_MASK ≠ 0
    · rw [if_pos hc]
      obtain ⟨h1, h2, h3⟩ := ih (i + 1) (by omega)
      refine ⟨by omega, fun m hm1 hm2 => ?_, h3⟩
      by_cases hmi : m = i
      · subst hmi; exact hc.2
      · exact h2 m (by omega) hm2
    · rw [if_neg hc]
      refine ⟨le_refl _, fun m h1 h2 => absurd h1 (by omega), fun hlt => ?_⟩
      by_contra hfr
      exact hc ⟨hlt, hfr⟩

theorem no_run_beyond (st : Kernel) (n i : Nat) (hn : 1 ≤ n) (hi : st.num_pages ≤ i)
    (hlow : ∀ j, j < i → ¬ run_free st j n) : ∀ j, ¬ run_free st j n := by
  intro j hr
  by_cases hj : j < i
  · exact hlow j hj hr
  · have := hr.1
    omega

/-- The outer loop of `getkpagesfromvm`, entered at index `i` below which no run starts. -/
theorem getkpages_loop_spec (st : Kernel) (n : Nat) (hn : 1 ≤ n) : ∀ (fuel i : Nat),
    st.num_pages - i ≤ fuel → (∀ j, j < i → ¬ run_free st j n) →
    (∃ i0, run_free st i0 n ∧ (∀ j, j < i0 → ¬ run_free st j n)
        ∧ getkpages_loop st n fuel i
            = .ok ((st.free_paddr + i0 * PAGE_SIZE) % WORD, kpages_state st i0 n))
    ∨ ((∀ j, ¬ run_free st j n) ∧ getkpages_loop st n fuel i = .ok (0, st)) := by
  intro fuel
  induction fuel with
  | zero =>
    intro i hf hlow
    right
    refine ⟨no_run_beyond st n i hn (by omega) hlow, ?_⟩
    unfold getkpages_loop
    rw [if_neg (by omega)]
  | succ f ih =>
    intro i hf hlow
    unfold getkpages_loop
    by_cases hi : i < st.num_pages
    · rw [if_pos hi]
      obtain ⟨hiff, hle, hfr, hstop⟩ := can_i_alloc_npages_iff st i n hn
      simp only
      by_cases hr : (can_i_alloc_npages st i n).1 = true
      · rw [if_pos hr]
        left
        exact ⟨i, hiff.mp hr, hlow, rfl⟩
      · rw [if_neg hr]
        have hnrun : ¬ run_free st i n := fun h => hr (hiff.mpr h)
        have hclt : (can_i_alloc_npages st i n).2 < n := by
          rcases Nat.lt_or_ge (can_i_alloc_npages st i n).2 n with h | h
          · exact h
          · exfalso
            have heq : (can_i_alloc_npages st i n).2 = n := by omega
            apply hnrun
            refine ⟨?_, fun j hj => (hfr j (by omega)).1⟩
            have := (hfr (n - 1) (by omega)).2
            omega
        have hstop1 := hstop hclt
        obtain ⟨s1, s2, s3⟩ := skip_used_spec st
          (st.num_pages - (i + (can_i_alloc_npages st i n).2))
          (i + (can_i_alloc_npages st i n).2) (le_refl _)
        have hadv : i + 1 ≤ skip_used st (st.num_pages - (i + (can_i_alloc_npages st i n).2))
            (i + (can_i_alloc_npages st i n).2) := by
          by_contra hcon
          have e1 : (can_i_alloc_npages st i n).2 = 0 := by omega
          have e2 : skip_used st (st.num_pages - (i + (can_i_alloc_npages st i n).2))
              (i + (can_i_alloc_npages st i n).2) = i := by omega
          rw [e1] at hstop1
          rw [e2] at s3
          exact hstop1 ⟨s3 hi, hi⟩
        apply ih _ (by omega)
        intro j hj hrun
        by_cases hj1 : j < i
        · exact hlow j hj1 hrun
        · by_cases hj2 : j ≤ i + (can_i_alloc_npages st i n).2
          · apply hstop1
            have hfree := hrun.2 (i + (can_i_alloc_npages st i n).2 - j) (by omega)
            have e : j + (i + (can_i_alloc_npages st i n).2 - j)
                = i + (can_i_alloc_npages st i n).2 := by omega
            rw [e] at hfree
            exact ⟨hfree, by have := hrun.1; omega⟩
          · have hfree := hrun.2 0 (by omega)
            rw [Nat.add_zero] at hfree
            exact s2 j (by omega) hj hfree
    · rw [if_neg hi]
      right
      exact ⟨no_run_beyond st n i hn (by omega) hlow, rfl⟩

theorem kpages_state_pages (st : Kernel) (i n j : Nat) (hn : 1 ≤ n) :
    (kpages_state st i n).pages j =
      if j = i then
        { as := none, vpn := (st.pages i).vpn,
          flags := PFLAG_USED_MASK ||| ((n % WORD) &&& PFLAG_NUM_CONTG_PAGES) }
      else if i ≤ j ∧ j < i + n then
        { as := none, vpn := (st.pages j).vpn, flags := PFLAG_USED_MASK }
      else st.pages j := by
  unfold kpages_state set_page_flags setup_coremap_for_kpages
  by_cases hji : j = i
  · subst hji
    have hin : j ≤ j ∧ j < j + n := ⟨le_refl _, by omega⟩
    simp [hin]
  · simp [Function.update_noteq hji, hji]

theorem kpages_state_frame (st : Kernel) (i n : Nat) :
    kpages_state st i n = { st with pages := (kpages_state st i n).pages } := by
  simp [kpages_state, set_page_flags, setup_coremap_for_kpages]

theorem used_or_count (n : Nat) :
    (PFLAG_USED_MASK ||| ((n % WORD) &&& PFLAG_NUM_CONTG_PAGES)) &&& PFLAG_USED_MASK ≠ 0
    ∧ (PFLAG_USED_MASK ||| ((n % WORD) &&& PFLAG_NUM_CONTG_PAGES)) &&& PFLAG_NUM_CONTG_PAGES
        = n % 128 := by
  constructor
  · rw [flag_ne_zero_iff _ PFLAG_USED_MASK 31 rfl, Nat.testBit_or]
    have : PFLAG_USED_MASK.testBit 31 = true := by decide
    rw [this, Bool.true_or]
  · rw [Nat.and_distrib_right, Nat.and_assoc]
    have h1 : PFLAG_USED_MASK &&& PFLAG_NUM_CONTG_PAGES = 0 := by decide
    have h2 : PFLAG_NUM_CONTG_PAGES &&& PFLAG_NUM_CONTG_PAGES = PFLAG_NUM_CONTG_PAGES := by decide
    rw [h1, h2, Nat.zero_or]
    have h3 : PFLAG_NUM_CONTG_PAGES = 2 ^ 7 - 1 := by decide
    rw [h3, Nat.and_pow_two_sub_one_eq_mod]
    have h4 : WORD = 2 ^ 7 * 2 ^ 25 := by decide
    rw [h4, Nat.mod_mul_right_mod]
    rfl

theorem for_loop_inv (P : Kernel → Prop) (body : Kernel → Nat → Except Abort Kernel)
    (hbody : ∀ s i s1, P s → body s i = .ok s1 → P s1) :
    ∀ (n i : Nat) (s s1 : Kernel), P s → for_loop body n i s = .ok s1 → P s1 := by
  intro n
  induction n with
  | zero =>
    intro i s s1 hp h
    simp only [for_loop, Except.ok.injEq] at h
    subst h
    exact hp
  | succ m ih =>
    intro i s s1 hp h
    unfold for_loop at h
    cases hb : body s i with
    | error e => rw [hb] at h; simp at h
    | ok s2 =>
      rw [hb] at h
      exact ih (i + 1) s2 s1 (hbody s i s2 hp hb) h

/-- What `evict_frame` changes: page tables, swap store, and the flag word of frame `i`. -/
theorem evict_frame_step {st st1 : Kernel} {i : Nat} (h : evict_frame st i = .ok st1) :
    st1.free_paddr = st.free_paddr ∧ st1.num_pages = st.num_pages ∧ st1.mem = st.mem
    ∧ st1.tlb = st.tlb
    ∧ (st1.pages i).flags = 0 ∧ (st1.pages i).as = (st.pages i).as
    ∧ ∀ j, j ≠ i → st1.pages j = st.pages j := by
  unfold evict_frame at h
  cases ha : (st.pages i).as with
  | none => rw [ha] at h; simp at h
  | some va =>
    rw [ha] at h
    simp only at h
    split at h
    · simp at h
    · rename_i k s1 hg
      obtain ⟨pd, pt, fl, sm, dk, hs1⟩ := cache_step_get_ptbl hg
      split at h
      · simp at h
      · rename_i s3 hso
        obtain ⟨s, _, _, _, hs3⟩ := swap_out_ok hso
        simp only [Except.ok.injEq] at h
        subst h
        subst hs3
        subst hs1
        refine ⟨rfl, rfl, rfl, rfl, ?_, ?_, ?_⟩
        · simp [set_page_flags]
        · simp [set_page_flags, set_pte, setAs, ha]
        · intro j hj
          simp [set_page_flags, set_pte, setAs, Function.update_noteq hj]

theorem evict_all_user_pages_frame {st st1 : Kernel} (h : evict_all_user_pages st = .ok st1) :
    st1.free_paddr = st.free_paddr ∧ st1.num_pages = st.num_pages := by
  unfold evict_all_user_pages at h
  refine for_loop_inv (fun s => s.free_paddr = st.free_paddr ∧ s.num_pages = st.num_pages) _ ?_
    st.num_pages 0 st st1 ⟨rfl, rfl⟩ h
  intro s i s1 hp hb
  simp only at hb
  split_ifs at hb
  · obtain ⟨h1, h2, _⟩ := evict_frame_step hb
    exact ⟨h1.trans hp.1, h2.trans hp.2⟩
  · simp only [Except.ok.injEq] at hb
    subst hb
    exact hp

theorem getkpagesfromvm_ok {st st1 : Kernel} {n pa : Nat} (hn : 1 ≤ n)
    (h : getkpagesfromvm st n = .ok (pa, st1)) (hpa : pa ≠ 0) :
    ∃ i, run_free st i n ∧ pa = (st.free_paddr + i * PAGE_SIZE) % WORD
      ∧ st1 = kpages_state st i n := by
  have hloop := getkpages_loop_spec st n hn st.num_pages 0 (by omega)
    (fun j hj => absurd hj (by omega))
  unfold getkpagesfromvm at h
  rcases hloop with ⟨i, hrun, _, hres⟩ | ⟨_, hres⟩
  · rw [hres] at h
    simp only [Except.ok.injEq, Prod.mk.injEq] at h
    exact ⟨i, hrun, h.1.symm, h.2.symm⟩
  · rw [hres] at h
    simp only [Except.ok.injEq, Prod.mk.injEq] at h
    exact absurd h.1.symm hpa

theorem kpages_state_dims (st : Kernel) (i n : Nat) :
    (kpages_state st i n).free_paddr = st.free_paddr
    ∧ (kpages_state st i n).num_pages = st.num_pages := by
  simp [kpages_state, set_page_flags, setup_coremap_for_kpages]

/-- The frame index `free_kpages` computes from the kernel address of frame `i`. -/
theorem kvaddr_index (f i m : Nat) (hi : i < m) (hfit : f + m * PAGE_SIZE ≤ WORD) :
    ((PADDR_TO_KVADDR ((f + i * PAGE_SIZE) % WORD) + WORD - PADDR_TO_KVADDR f) % WORD) / PAGE_SIZE
      = i := by
  unfold PADDR_TO_KVADDR
  simp only [PAGE_SIZE, WORD, MIPS_KSEG0] at *
  omega

theorem free_kpages_run (st : Kernel) (i n : Nat) (hn1 : 1 ≤ n) (hn2 : n ≤ 127)
    (hrun : i + n ≤ st.num_pages)
    (hfit : st.free_paddr + st.num_pages * PAGE_SIZE ≤ WORD) :
    free_kpages (kpages_state st i n) (PADDR_TO_KVADDR ((st.free_paddr + i * PAGE_SIZE) % WORD))
      = .ok { kpages_state st i n with pages := fun j =>
          if i ≤ j ∧ j < i + n then
            { as := ((kpages_state st i n).pages j).as, vpn := ((kpages_state st i n).pages j).vpn,
              flags := 0 }
          else (kpages_state st i n).pages j } := by
  have hidx : ((PADDR_TO_KVADDR ((st.free_paddr + i * PAGE_SIZE) % WORD) + WORD
      - PADDR_TO_KVADDR (kpages_state st i n).free_paddr) % WORD) / PAGE_SIZE = i := by
    rw [(kpages_state_dims st i n).1]
    exact kvaddr_index st.free_paddr i st.num_pages (by omega) hfit
  have hnp := (kpages_state_dims st i n).2
  have hfl : ((kpages_state st i n).pages i).flags
      = PFLAG_USED_MASK ||| ((n % WORD) &&& PFLAG_NUM_CONTG_PAGES) := by
    rw [kpages_state_pages st i n i hn1, if_pos rfl]
  have has : ((kpages_state st i n).pages i).as = none := by
    rw [kpages_state_pages st i n i hn1, if_pos rfl]
  have hcnt : ((kpages_state st i n).pages i).flags &&& PFLAG_NUM_CONTG_PAGES = n := by
    rw [hfl, (used_or_count n).2]
    omega
  have hu : ((kpages_state st i n).pages i).flags &&& PFLAG_USED_MASK ≠ 0 := by
    rw [hfl]; exact (used_or_count n).1
  unfold free_kpages
  simp only [hidx, hcnt]
  rw [if_neg (by rw [hnp]; omega), if_neg (by rw [hnp]; omega), if_neg (by simp [has, hu])]

theorem getkpagesfromvm_dims {st st1 : Kernel} {n pa : Nat} (hn : 1 ≤ n)
    (h : getkpagesfromvm st n = .ok (pa, st1)) :
    st1.free_paddr = st.free_paddr ∧ st1.num_pages = st.num_pages := by
  have hloop := getkpages_loop_spec st n hn st.num_pages 0 (by omega)
    (fun j hj => absurd hj (by omega))
  unfold getkpagesfromvm at h
  rcases hloop with ⟨i, _, _, hres⟩ | ⟨_, hres⟩
  · rw [hres] at h
    simp only [Except.ok.injEq, Prod.mk.injEq] at h
    rw [← h.2]
    exact kpages_state_dims st i n
  · rw [hres] at h
    simp only [Except.ok.injEq, Prod.mk.injEq] at h
    rw [← h.2]
    exact ⟨rfl, rfl⟩

/-- The frame table after `make_pg_available`: only the flag word of the released frame
changes. -/
theorem make_pg_available_frames {st st5 : Kernel} {a vpn r pa i : Nat}
    (hret : make_pg_available st a vpn r = .ok (pa, i, st5)) :
    st5.num_pages = st.num_pages ∧ st5.free_paddr = st.free_paddr
    ∧ st5.pages = Function.update st.pages i
        { as := (st.pages i).as, vpn := (st.pages i).vpn, flags := 0 } := by
  by_cases hused : (st.pages i).flags &&& PFLAG_USED_MASK ≠ 0
  · obtain ⟨_, _, k, st1, hg, _, st4, hswap, hst5⟩ := make_pg_available_used hret hused
    obtain ⟨pd, pt, fl, sm, dk, hs1⟩ := cache_step_get_ptbl hg
    have h4 : st4.num_pages = st.num_pages ∧ st4.free_paddr = st.free_paddr
        ∧ st4.pages = st.pages := by
      by_cases hx : exec_page (st.ass a) (st.pages i).vpn = true
      · rw [if_pos hx] at hswap
        simp only [Except.ok.injEq] at hswap
        subst hswap
        subst hs1
        exact ⟨rfl, rfl, rfl⟩
      · rw [if_neg hx] at hswap
        obtain ⟨s, _, _, _, hst4⟩ := swap_out_ok hswap
        subst hst4
        subst hs1
        exact ⟨rfl, rfl, rfl⟩
    subst hst5
    obtain ⟨e1, e2, e3⟩ := h4
    refine ⟨e1, e2, ?_⟩
    simp [set_page_flags, e3]
  · unfold make_pg_available at hret
    simp only at hret
    split_ifs at hret with h1 h2
    split at hret
    · simp at hret
    · rename_i victim_index hfound
      split at hret
      · simp at hret
      · rename_i should st2 hwalk
        split at hret
        · simp at hret
        · rename_i st4 hswap
          simp only [Except.ok.injEq, Prod.mk.injEq] at hret
          obtain ⟨_, hvi, hst5⟩ := hret
          subst hvi
          rw [if_neg hused] at hwalk
          simp only [Except.ok.injEq, Prod.mk.injEq] at hwalk
          obtain ⟨hsh, hst2⟩ := hwalk
          subst hsh
          subst hst2
          simp only [Bool.false_eq_true, if_false, Except.ok.injEq] at hswap
          subst hswap
          subst hst5
          refine ⟨rfl, rfl, ?_⟩
          simp [set_page_flags, tlb_invalidate]

/-- The frame table after `alloc_page`: one entry is replaced by `(cur_proc, vpn, USED)`. -/
theorem alloc_page_frames {st st1 : Kernel} {cur : Option Nat} {vpn r pa : Nat}
    (h : alloc_page st cur vpn r = .ok (pa, st1)) :
    st1.num_pages = st.num_pages ∧ st1.free_paddr = st.free_paddr
    ∧ ∃ i a, cur = some a ∧ st1.pages = Function.update st.pages i
        { as := some a, vpn := vpn, flags := PFLAG_USED_MASK } := by
  unfold alloc_page at h
  simp only at h
  split at h
  · simp at h
  · rename_i pa1 i st2 hmade
    split_ifs at h with hz
    cases cur with
    | none => simp at h
    | some a =>
      simp only [Except.ok.injEq, Prod.mk.injEq] at h
      obtain ⟨_, hst1⟩ := h
      subst hst1
      split_ifs at hmade with hp0
      · simp only at hmade
        obtain ⟨e1, e2, e3⟩ := make_pg_available_frames hmade
        refine ⟨e1, e2, i, a, rfl, ?_⟩
        simp only
        rw [e3, Function.update_idem]
      · simp only [Except.ok.injEq, Prod.mk.injEq] at hmade
        obtain ⟨_, _, e3⟩ := hmade
        subst e3
        exact ⟨rfl, rfl, i, a, rfl, rfl⟩

/-! ## Lemmas: the frame-table invariant -/

theorem vm_bootstrap_unowned {s st1 : Kernel} {lo last_paddr : Nat}
    (h : vm_bootstrap s lo last_paddr = .ok st1) : free_frames_unowned st1 := by
  unfold vm_bootstrap at h
  simp only at h
  split_ifs at h
  split at h
  · simp at h
  · split_ifs at h
    simp only [Except.ok.injEq] at h
    subst h
    intro i hi _
    simp only at hi ⊢
    rw [if_pos hi]

theorem alloc_page_unowned {st st1 : Kernel} {cur : Option Nat} {vpn r pa : Nat}
    (hinv : free_frames_unowned st) (h : alloc_page st cur vpn r = .ok (pa, st1)) :
    free_frames_unowned st1 := by
  obtain ⟨hn, _, i, a, _, hp⟩ := alloc_page_frames h
  intro j hj hf
  rw [hp] at hf ⊢
  by_cases hji : j = i
  · subst hji
    rw [Function.update_same] at hf
    exact absurd hf (by show ¬ (PFLAG_USED_MASK &&& PFLAG_USED_MASK = 0); decide)
  · rw [Function.update_noteq hji] at hf ⊢
    exact hinv j (by rw [← hn]; exact hj) hf

theorem free_page_unowned {st st1 : Kernel} {page : Nat}
    (hinv : free_frames_unowned st) (h : free_page st page = .ok st1) :
    free_frames_unowned st1 := by
  unfold free_page at h
  simp only at h
  split_ifs at h
  simp only [Except.ok.injEq] at h
  subst h
  intro j hj hf
  simp only at hj hf ⊢
  by_cases hji : j = ((page + WORD - st.free_paddr) % WORD) / PAGE_SIZE
  · rw [hji, Function.update_same]
  · rw [Function.update_noteq hji] at hf ⊢
    exact hinv j hj hf

theorem free_kpages_unowned {st st1 : Kernel} {addr : Nat}
    (hinv : free_frames_unowned st) (h : free_kpages st addr = .ok st1)
    (hrun : ∀ j, ((addr + WORD - PADDR_TO_KVADDR st.free_paddr) % WORD) / PAGE_SIZE ≤ j →
      j < ((addr + WORD - PADDR_TO_KVADDR st.free_paddr) % WORD) / PAGE_SIZE
          + ((st.pages (((addr + WORD - PADDR_TO_KVADDR st.free_paddr) % WORD) / PAGE_SIZE)).flags
              &&& PFLAG_NUM_CONTG_PAGES) →
      (st.pages j).as = none) :
    free_frames_unowned st1 := by
  unfold free_kpages at h
  simp only at h
  split_ifs at h
  simp only [Except.ok.injEq] at h
  subst h
  intro j hj hf
  simp only at hj hf ⊢
  split_ifs at hf ⊢ with hc
  · exact hrun j hc.1 hc.2
  · exact hinv j hj hf

theorem getkpagesfromvm_unowned {st st1 : Kernel} {n pa : Nat} (hn : 1 ≤ n)
    (hinv : free_frames_unowned st) (h : getkpagesfromvm st n = .ok (pa, st1)) :
    free_frames_unowned st1 := by
  have hloop := getkpages_loop_spec st n hn st.num_pages 0 (by omega)
    (fun j hj => absurd hj (by omega))
  unfold getkpagesfromvm at h
  rcases hloop with ⟨i, _, _, hres⟩ | ⟨_, hres⟩
  · rw [hres] at h
    simp only [Except.ok.injEq, Prod.mk.injEq] at h
    rw [← h.2]
    intro j hj hf
    rw [(kpages_state_dims st i n).2] at hj
    rw [kpages_state_pages st i n j hn] at hf ⊢
    split_ifs at hf ⊢ <;> first | rfl | exact hinv j hj hf
  · rw [hres] at h
    simp only [Except.ok.injEq, Prod.mk.injEq] at h
    rw [← h.2]
    exact hinv

theorem as_destroy_unowned (st : Kernel) (asp : Option Nat) (hinv : free_frames_unowned st) :
    free_frames_unowned (as_destroy st asp) := by
  intro j hj hf
  simp only [as_destroy, swap_free_pages] at hj hf ⊢
  split_ifs at hf ⊢ <;> first | rfl | exact hinv j hj hf

/-! ## Lemmas: the page-directory invariant -/

theorem all_pd_ok_of_dirs {st st1 : Kernel}
    (h : ∀ b, (st1.ass b).pg_dir = (st.ass b).pg_dir) (hinv : all_pd_ok st) : all_pd_ok st1 := by
  intro b i hp
  rw [h b] at hp ⊢
  exact hinv b i hp

theorem dirs_setAs (st : Kernel) (a : Nat) (sp : AddrSpace) (h : sp.pg_dir = (st.ass a).pg_dir) :
    ∀ b, ((setAs st a sp).ass b).pg_dir = (st.ass b).pg_dir := by
  intro b
  unfold setAs
  by_cases hb : b = a
  · subst hb; simp [h]
  · simp [Function.update_noteq hb]

theorem dirs_set_ptflags (st : Kernel) (a k v : Nat) :
    ∀ b, ((set_ptflags st a k v).ass b).pg_dir = (st.ass b).pg_dir :=
  dirs_setAs st a _ rfl

theorem dirs_set_pte (st : Kernel) (a k i v : Nat) :
    ∀ b, ((set_pte st a k i v).ass b).pg_dir = (st.ass b).pg_dir :=
  dirs_setAs st a _ rfl

theorem dirs_set_table (st : Kernel) (a k : Nat) (tbl : Nat → Nat) :
    ∀ b, ((setAs st a { st.ass a with
        ptables_in_mem := Function.update (st.ass a).ptables_in_mem k tbl }).ass b).pg_dir
      = (st.ass b).pg_dir :=
  dirs_setAs st a _ rfl

theorem dirs_write_page (st : Kernel) (l : Loc) (buf : Bytes) :
    ∀ b, ((write_page st l buf).ass b).pg_dir = (st.ass b).pg_dir := by
  cases l with
  | frame p => intro b; rfl
  | ptable a k => exact dirs_setAs st a _ rfl

theorem all_pd_ok_set_pgdir {st : Kernel} (a i v : Nat)
    (hv : v &&& PGDIR_PRESENT ≠ 0 → v &&& PGDIR_LOADED ≠ 0) (hinv : all_pd_ok st) :
    all_pd_ok (set_pgdir st a i v) := by
  intro b j hp
  unfold set_pgdir setAs at hp ⊢
  by_cases hb : b = a
  · subst hb
    simp only [Function.update_same] at hp ⊢
    by_cases hj : j = i
    · subst hj
      rw [Function.update_same] at hp ⊢
      exact hv hp
    · rw [Function.update_noteq hj] at hp ⊢
      exact hinv b j hp
  · simp only [Function.update_noteq hb] at hp ⊢
    exact hinv b j hp

theorem clear_present_ok (x : Nat) :
    (x &&& notw PGDIR_PRESENT) &&& PGDIR_PRESENT ≠ 0 →
      (x &&& notw PGDIR_PRESENT) &&& PGDIR_LOADED ≠ 0 := by
  intro h
  exfalso
  apply h
  rw [Nat.and_assoc]
  have : notw PGDIR_PRESENT &&& PGDIR_PRESENT = 0 := by decide
  rw [this, Nat.and_zero]

theorem swap_in_dirs {st st1 : Kernel} {asp : Option Nat} {vpn : Nat} {l : Loc}
    (h : swap_in_page st asp vpn l = .ok st1) :
    ∀ b, (st1.ass b).pg_dir = (st.ass b).pg_dir := by
  unfold swap_in_page find_swapped_page_location at h
  cases hf : find_swapped_index st asp vpn with
  | none => rw [hf] at h; simp at h
  | some i =>
    rw [hf] at h
    simp only [Except.ok.injEq] at h
    subst h
    exact dirs_write_page _ l _

theorem swap_copy_in_dirs {st st1 : Kernel} {asp : Option Nat} {vpn : Nat} {l : Loc}
    (h : swap_copy_in_page st asp vpn l = .ok st1) :
    ∀ b, (st1.ass b).pg_dir = (st.ass b).pg_dir := by
  unfold swap_copy_in_page find_swapped_page_location at h
  cases hf : find_swapped_index st asp vpn with
  | none => rw [hf] at h; simp at h
  | some i =>
    rw [hf] at h
    simp only [Except.ok.injEq] at h
    subst h
    exact dirs_write_page _ l _

theorem find_slot_pd {st st1 : Kernel} {a k d : Nat} {x : Bool}
    (h : find_slot_for_pg_table st a x d = .ok (k, st1)) (hinv : all_pd_ok st) :
    all_pd_ok st1 := by
  unfold find_slot_for_pg_table at h
  split at h
  · simp only [Except.ok.injEq, Prod.mk.injEq] at h
    rw [← h.2]; exact hinv
  · split at h
    · simp at h
    · rename_i v hv
      simp only at h
      split at h
      · simp at h
      · rename_i s1 hs
        simp only [Except.ok.injEq, Prod.mk.injEq] at h
        rw [← h.2]
        apply all_pd_ok_set_pgdir _ _ _ (clear_present_ok _)
        apply all_pd_ok_of_dirs (dirs_set_ptflags s1 a v 0)
        apply all_pd_ok_of_dirs _ hinv
        intro b
        rw [swap_out_ass hs]

theorem get_page_table_pd {st st1 : Kernel} {a vpn idx k : Nat} {x : Bool}
    (hl : (st.ass a).pg_dir idx &&& PGDIR_LOADED ≠ 0)
    (h : get_page_table st a vpn idx x = .ok (k, st1)) (hinv : all_pd_ok st) :
    all_pd_ok st1 := by
  unfold get_page_table at h
  split_ifs at h with hp
  · split at h
    · simp only [Except.ok.injEq, Prod.mk.injEq] at h
      rw [← h.2]
      exact all_pd_ok_of_dirs (dirs_set_ptflags st a _ _) hinv
    · simp at h
  · split at h
    · simp at h
    · rename_i slot s1 hs
      split at h
      · simp at h
      · rename_i s2 hsw
        simp only [Except.ok.injEq, Prod.mk.injEq] at h
        rw [← h.2]
        apply all_pd_ok_of_dirs (dirs_set_ptflags _ a _ _)
        have hl1 : (s1.ass a).pg_dir idx &&& PGDIR_LOADED ≠ 0 := by
          rw [(find_slot_spec hs).2.2 idx]; exact hl
        have hl2 : (s2.ass a).pg_dir idx &&& PGDIR_LOADED ≠ 0 := by
          rw [swap_in_dirs hsw a]; exact hl1
        apply all_pd_ok_set_pgdir _ _ _ (fun _ => (set_present _ hl2).2)
        exact all_pd_ok_of_dirs (swap_in_dirs hsw) (find_slot_pd hs hinv)

theorem get_ptbl_pd {st st1 : Kernel} {asp : Option Nat} {vpn k : Nat} {x : Bool}
    (h : get_ptbl st asp vpn x = .ok (k, st1)) (hinv : all_pd_ok st) : all_pd_ok st1 := by
  unfold get_ptbl at h
  simp only at h
  cases asp with
  | none => simp at h
  | some a =>
    simp only at h
    split_ifs at h with hl
    · exact get_page_table_pd hl h hinv
    · split at h
      · simp at h
      · rename_i slot s1 hs
        simp only [Except.ok.injEq, Prod.mk.injEq] at h
        rw [← h.2]
        apply all_pd_ok_of_dirs (dirs_set_table _ a _ _)
        apply all_pd_ok_of_dirs (dirs_set_ptflags _ a _ _)
        exact all_pd_ok_set_pgdir _ _ _ (fun _ => (set_present_loaded _).2) (find_slot_pd hs hinv)

theorem all_pd_ok_setAs {st : Kernel} (a : Nat) (sp : AddrSpace)
    (hsp : ∀ i, sp.pg_dir i &&& PGDIR_PRESENT ≠ 0 → sp.pg_dir i &&& PGDIR_LOADED ≠ 0)
    (hinv : all_pd_ok st) : all_pd_ok (setAs st a sp) := by
  intro b i hp
  unfold setAs at hp ⊢
  by_cases hb : b = a
  · subst hb
    simp only [Function.update_same] at hp ⊢
    exact hsp i hp
  · simp only [Function.update_noteq hb] at hp ⊢
    exact hinv b i hp

theorem make_pg_available_pd {st st5 : Kernel} {a vpn r pa i : Nat}
    (hret : make_pg_available st a vpn r = .ok (pa, i, st5)) (hinv : all_pd_ok st) :
    all_pd_ok st5 := by
  by_cases hused : (st.pages i).flags &&& PFLAG_USED_MASK ≠ 0
  · obtain ⟨_, _, k, st1, hg, _, st4, hswap, hst5⟩ := make_pg_available_used hret hused
    have h1 := get_ptbl_pd hg hinv
    have h3 : all_pd_ok (set_pte st1 a k (pte_index (st.pages i).vpn)
        (get_pte st1 a k (pte_index (st.pages i).vpn) &&& notw PGTBL_VALID_MASK)) :=
      all_pd_ok_of_dirs (dirs_set_pte st1 a _ _ _) h1
    have h4 : all_pd_ok st4 := by
      by_cases hx : exec_page (st.ass a) (st.pages i).vpn = true
      · rw [if_pos hx] at hswap
        simp only [Except.ok.injEq] at hswap
        rw [← hswap]
        exact all_pd_ok_of_dirs (fun _ => rfl) h3
      · rw [if_neg hx] at hswap
        refine all_pd_ok_of_dirs (fun b => ?_) h3
        rw [swap_out_ass hswap]
        rfl
    rw [hst5]
    exact all_pd_ok_of_dirs (fun _ => rfl) h4
  · unfold make_pg_available at hret
    simp only at hret
    split_ifs at hret with h1 h2
    split at hret
    · simp at hret
    · rename_i victim_index hfound
      split at hret
      · simp at hret
      · rename_i should st2 hwalk
        split at hret
        · simp at hret
        · rename_i st4 hswap
          simp only [Except.ok.injEq, Prod.mk.injEq] at hret
          obtain ⟨_, hvi, hst5⟩ := hret
          subst hvi
          rw [if_neg hused] at hwalk
          simp only [Except.ok.injEq, Prod.mk.injEq] at hwalk
          obtain ⟨hsh, hst2⟩ := hwalk
          subst hsh
          subst hst2
          simp only [Bool.false_eq_true, if_false, Except.ok.injEq] at hswap
          subst hswap
          subst hst5
          exact hinv

theorem alloc_page_pd {st st1 : Kernel} {cur : Option Nat} {vpn r pa : Nat}
    (h : alloc_page st cur vpn r = .ok (pa, st1)) (hinv : all_pd_ok st) : all_pd_ok st1 := by
  unfold alloc_page at h
  simp only at h
  split at h
  · simp at h
  · rename_i pa1 i st2 hmade
    split_ifs at h with hz
    cases cur with
    | none => simp at h
    | some a =>
      simp only [Except.ok.injEq, Prod.mk.injEq] at h
      obtain ⟨_, hst1⟩ := h
      subst hst1
      split_ifs at hmade with hp0
      · simp only at hmade
        have h5 := make_pg_available_pd hmade hinv
        exact h5
      · simp only [Except.ok.injEq, Prod.mk.injEq] at hmade
        obtain ⟨_, _, e3⟩ := hmade
        subst e3
        exact hinv

theorem copy_page_pd {st st1 : Kernel} {as_old as_new slot_old slot_new vpn r i : Nat}
    (h : copy_page st as_old as_new slot_old slot_new vpn r i = .ok st1) (hinv : all_pd_ok st) :
    all_pd_ok st1 := by
  unfold copy_page at h
  split at h
  · simp at h
  · rename_i pa s1 ha
    have h1 := alloc_page_pd ha hinv
    simp only at h
    split at h
    · simp at h
    · rename_i s2 hfill
      simp only [Except.ok.injEq] at h
      rw [← h]
      apply all_pd_ok_of_dirs (dirs_set_pte s2 as_new _ _ _)
      split_ifs at hfill
      · simp only [Except.ok.injEq] at hfill
        rw [← hfill]
        exact all_pd_ok_of_dirs (dirs_write_page s1 _ _) h1
      · exact all_pd_ok_of_dirs (swap_copy_in_dirs hfill) h1

theorem copy_individal_page_table_pd {st st1 : Kernel} {as_old as_new slot_old slot_new d : Nat}
    {r : Nat → Nat}
    (h : copy_individal_page_table st as_old as_new slot_old slot_new d r = .ok st1)
    (hinv : all_pd_ok st) : all_pd_ok st1 := by
  unfold copy_individal_page_table at h
  refine for_loop_inv all_pd_ok _ ?_ 1024 0 st st1 hinv h
  intro s i s1 hp hb
  simp only at hb
  split_ifs at hb
  · exact copy_page_pd hb hp
  · exact copy_page_pd hb hp
  · simp only [Except.ok.injEq] at hb
    rw [← hb]; exact hp

theorem copy_all_page_tables_pd {st st1 : Kernel} {as_old as_new : Nat} {r : Nat → Nat → Nat}
    (h : copy_all_page_tables st as_old as_new r = .ok st1) (hinv : all_pd_ok st) :
    all_pd_ok st1 := by
  unfold copy_all_page_tables at h
  simp only at h
  by_cases hx : (st.ass as_new).as_flags1 &&& PF_X = 0 ∧ (st.ass as_new).as_flags2 &&& PF_X = 0
  · rw [if_pos hx] at h; simp at h
  · rw [if_neg hx] at h
    refine for_loop_inv all_pd_ok _ ?_ 1024 0 st st1 hinv h
    intro s i s1 hp hb
    by_cases hl : (s.ass as_old).pg_dir i &&& PGDIR_LOADED ≠ 0
    · simp only [if_pos hl] at hb
      split at hb
      · simp at hb
      · rename_i slot_old t1 hg
        split at hb
        · simp at hb
        · rename_i empty_slot t2 hf
          split at hb
          · simp at hb
          · rename_i t3 hc
            simp only [Except.ok.injEq] at hb
            rw [← hb]
            apply all_pd_ok_set_pgdir _ _ _ (fun _ => by decide)
            apply all_pd_ok_of_dirs (dirs_set_ptflags t3 as_new _ _)
            exact copy_individal_page_table_pd hc (find_slot_pd hf (get_page_table_pd hl hg hp))
    · simp only [if_neg hl, Except.ok.injEq] at hb
      rw [← hb]; exact hp

theorem as_create_pd {m : Option AddrSpace} {ok : Bool} {sp : AddrSpace}
    (h : as_create m ok = some sp) : sp.pg_dir = fun _ => 0 := by
  unfold as_create at h
  cases m with
  | none => simp at h
  | some c =>
    simp only at h
    split_ifs at h
    simp only [Option.some.injEq] at h
    rw [← h]

theorem as_copy_pd {st st1 : Kernel} {old new rc : Nat} {m : Option AddrSpace} {ok : Bool}
    {r : Nat → Nat → Nat} {ret : Option Nat}
    (h : as_copy st old new m ok r = .ok (rc, ret, st1)) (hinv : all_pd_ok st) :
    all_pd_ok st1 := by
  unfold as_copy at h
  cases hc : as_create m ok with
  | none =>
    rw [hc] at h
    simp only [Except.ok.injEq, Prod.mk.injEq] at h
    rw [← h.2.2]; exact hinv
  | some c =>
    rw [hc] at h
    simp only at h
    split at h
    · simp at h
    · rename_i s1 hcopy
      simp only [Except.ok.injEq, Prod.mk.injEq] at h
      rw [← h.2.2]
      refine copy_all_page_tables_pd hcopy (all_pd_ok_setAs new _ ?_ hinv)
      intro i hp
      exfalso
      apply hp
      simp only [as_create_pd hc]
      exact Nat.zero_and _

theorem pt_step_pd {st st1 : Kernel} (h : pt_step st st1) (hinv : all_pd_ok st) :
    all_pd_ok st1 := by
  cases h
  case create new m sp hc =>
    refine all_pd_ok_setAs new sp ?_ hinv
    intro i hp
    exfalso
    apply hp
    rw [as_create_pd hc]
    exact Nat.zero_and _
  case other hd => exact all_pd_ok_of_dirs hd hinv
  case get_ptbl asp vpn k x hg => exact get_ptbl_pd hg hinv
  case get_page_table a vpn idx k x hl hg => exact get_page_table_pd hl hg hinv
  case find_slot a d k x hf => exact find_slot_pd hf hinv
  case as_copy old new rc m ok r ret hc => exact as_copy_pd hc hinv

/-! ## Page alignment -/

theorem and_page_frame (x : Nat) (h : x < WORD) : x &&& PAGE_FRAME = x / PAGE_SIZE * PAGE_SIZE := by
  have hpf : PAGE_FRAME = 2 ^ 12 * (2 ^ 20 - 1) := by decide
  have hps : PAGE_SIZE = 2 ^ 12 := by decide
  rw [hpf, hps, Nat.mul_comm (x / 2 ^ 12)]
  apply Nat.eq_of_testBit_eq
  intro j
  rw [Nat.testBit_and, Nat.testBit_mul_pow_two, Nat.testBit_mul_pow_two,
    Nat.testBit_two_pow_sub_one, ← Nat.shiftRight_eq_div_pow, Nat.testBit_shiftRight]
  by_cases hj : j ≥ 12
  · have e : 12 + (j - 12) = j := by omega
    rw [e]
    by_cases hj2 : j - 12 < 20
    · simp [hj, hj2]
    · have : x.testBit j = false := by
        apply Nat.testBit_lt_two_pow
        calc x < 2 ^ 32 := h
          _ ≤ 2 ^ j := Nat.pow_le_pow_right (by decide) (by omega)
      simp [this]
  · simp [hj]

theorem and_not_page_frame (x : Nat) : x &&& notw PAGE_FRAME = x % PAGE_SIZE := by
  have h1 : notw PAGE_FRAME = 2 ^ 12 - 1 := by decide
  have h2 : PAGE_SIZE = 2 ^ 12 := by decide
  rw [h1, h2, Nat.and_pow_two_sub_one_eq_mod]

theorem as_define_region_eq (sp : AddrSpace) (vaddr sz r w x : Nat) (hv : vaddr < WORD) :
    as_define_region sp vaddr sz r w x
      = if sp.as_vbase1 = 0 then
          (0, { sp with as_vbase1 := vaddr / PAGE_SIZE * PAGE_SIZE, as_flags1 := (r ||| w) ||| x,
                        as_npages1 := ((sz + vaddr % PAGE_SIZE) % WORD + PAGE_SIZE - 1) % WORD
                          / PAGE_SIZE })
        else if sp.as_vbase2 = 0 then
          (0, { sp with as_vbase2 := vaddr / PAGE_SIZE * PAGE_SIZE, as_flags2 := (r ||| w) ||| x,
                        as_npages2 := ((sz + vaddr % PAGE_SIZE) % WORD + PAGE_SIZE - 1) % WORD
                          / PAGE_SIZE })
        else (EUNIMP, sp) := by
  have h1 : (((sz + vaddr % PAGE_SIZE) % WORD + PAGE_SIZE - 1) % WORD &&& PAGE_FRAME) / PAGE_SIZE
      = ((sz + vaddr % PAGE_SIZE) % WORD + PAGE_SIZE - 1) % WORD / PAGE_SIZE := by
    rw [and_page_frame _ (Nat.mod_lt _ (by decide))]
    exact Nat.mul_div_cancel _ (by decide)
  unfold as_define_region
  simp only [and_not_page_frame, and_page_frame vaddr hv, h1]

/-! ## Victim choice among the resident page-table slots -/

theorem counter_lt (f : Nat) : f &&& PINMEM_FLAG_COUNTER_MASK < 0x7fffffff := by
  have h : f &&& PINMEM_FLAG_COUNTER_MASK ≤ PINMEM_FLAG_COUNTER_MASK := Nat.and_le_right
  have h2 : PINMEM_FLAG_COUNTER_MASK = 0x1fffff := by decide
  omega

theorem victim_data_step_broke (sp : AddrSpace) (v : Nat) (s : VictimScan) (i : Nat)
    (h : s.broke = true) : victim_data_step sp v s i = s := by
  unfold victim_data_step
  rw [if_pos h]

theorem victim_data_step_exec (sp : AddrSpace) (v : Nat) (s : VictimScan) (i : Nat)
    (h : s.broke = false) (he : ¬ data_slot sp i) :
    victim_data_step sp v s i
      = { s with executable_count := s.executable_count + 1,
                 second_exec_ptable_index :=
                   if 1 ≤ s.executable_count then some i else s.second_exec_ptable_index } := by
  unfold data_slot at he
  unfold victim_data_step
  simp only [h, Bool.false_eq_true, if_false, he, false_and, ne_eq, not_false_eq_true, if_true]
  by_cases h1 : 1 ≤ s.executable_count
  · rw [if_pos (by omega), if_pos h1]
  · rw [if_neg (by omega), if_neg h1]

theorem victim_data_step_match (sp : AddrSpace) (v : Nat) (s : VictimScan) (i : Nat)
    (h : s.broke = false) (he : data_slot sp i) (hm : slot_dir sp i = v) :
    (victim_data_step sp v s i).broke = true
    ∧ (victim_data_step sp v s i).least_count_index = some i := by
  unfold data_slot at he
  unfold slot_dir at hm
  unfold victim_data_step
  simp only [h, Bool.false_eq_true, if_false, he, true_and, ne_eq, not_true_eq_false, hm, if_true]

theorem victim_data_step_data (sp : AddrSpace) (v : Nat) (s : VictimScan) (i : Nat)
    (h : s.broke = false) (he : data_slot sp i) (hm : slot_dir sp i ≠ v) :
    victim_data_step sp v s i
      = if slot_counter sp i < s.least_count then
          { s with least_count := slot_counter sp i, least_count_index := some i }
        else s := by
  unfold data_slot at he
  unfold slot_dir at hm
  unfold victim_data_step slot_counter
  simp only [h, Bool.false_eq_true, if_false, he, true_and, ne_eq, not_true_eq_false, hm]

theorem victim_inv_step (sp : AddrSpace) (v n : Nat) (s : VictimScan)
    (hinv : victim_inv sp v n s) : victim_inv sp v (n + 1) (victim_data_step sp v s n) := by
  obtain ⟨hb, hnb⟩ := hinv
  cases hbr : s.broke with
  | true =>
    rw [victim_data_step_broke sp v s n hbr]
    obtain ⟨b, h1, h2, h3, h4, h5⟩ := hb hbr
    refine ⟨fun _ => ⟨b, by omega, h2, h3, h4, h5⟩, fun h => ?_⟩
    rw [hbr] at h
    exact absurd h (by decide)
  | false =>
    obtain ⟨hnm, hnone, hsome, hex⟩ := hnb hbr
    by_cases he : data_slot sp n
    · by_cases hm : slot_dir sp n = v
      · obtain ⟨h1, h2⟩ := victim_data_step_match sp v s n hbr he hm
        refine ⟨fun _ => ⟨n, by omega, h2, he, hm, hnm⟩, fun h => ?_⟩
        rw [h1] at h
        exact absurd h (by decide)
      · rw [victim_data_step_data sp v s n hbr he hm]
        have hnm1 : ∀ j, j < n + 1 → ¬ (data_slot sp j ∧ slot_dir sp j = v) := by
          intro j hj
          rcases Nat.lt_succ_iff_lt_or_eq.mp hj with h | h
          · exact hnm j h
          · rw [h]; exact fun hc => hm hc.2
        have hex1 : (∀ j, j < n + 1 → ¬ data_slot sp j) → False :=
          fun h => h n (by omega) he
        by_cases hc : slot_counter sp n < s.least_count
        · rw [if_pos hc]
          refine ⟨fun h => ?_, fun _ => ⟨hnm1, fun h => ?_, ?_, fun h => (hex1 h).elim⟩⟩
          · exact absurd (hbr.symm.trans h) (by decide)
          · exact absurd h (by simp)
          · intro r hr
            have hrn : n = r := Option.some.inj hr
            subst hrn
            refine ⟨by omega, he, rfl, ?_, ?_⟩
            · intro j hj hd
              rcases Nat.lt_succ_iff_lt_or_eq.mp hj with h | h
              · cases hi : s.least_count_index with
                | none =>
                  exact absurd hd ((hnone hi).2 j h)
                | some r0 =>
                  obtain ⟨-, -, h3, h4, -⟩ := hsome r0 hi
                  have := h4 j h hd
                  omega
              · rw [h]
            · intro j hj hd
              cases hi : s.least_count_index with
              | none =>
                exact absurd hd ((hnone hi).2 j hj)
              | some r0 =>
                obtain ⟨-, -, h3, h4, -⟩ := hsome r0 hi
                have := h4 j hj hd
                omega
        · rw [if_neg hc]
          refine ⟨fun h => ?_, fun _ => ⟨hnm1, fun h => ?_, ?_, fun h => (hex1 h).elim⟩⟩
          · exact absurd (hbr.symm.trans h) (by decide)
          · have := (hnone h).1
            have := counter_lt (sp.page_table_flags n)
            unfold slot_counter at hc
            omega
          · intro r hr
            obtain ⟨h1, h2, h3, h4, h5⟩ := hsome r hr
            refine ⟨by omega, h2, h3, ?_, h5⟩
            intro j hj hd
            rcases Nat.lt_succ_iff_lt_or_eq.mp hj with h | h
            · exact h4 j h hd
            · rw [h]; omega
    · rw [victim_data_step_exec sp v s n hbr he]
      refine ⟨fun h => ?_, fun _ => ⟨?_, fun h => ?_, ?_, fun h => ?_⟩⟩
      · exact absurd (hbr.symm.trans h) (by decide)
      · intro j hj
        rcases Nat.lt_succ_iff_lt_or_eq.mp hj with h | h
        · exact hnm j h
        · rw [h]; exact fun hc => he hc.1
      · refine ⟨(hnone h).1, ?_⟩
        intro j hj
        rcases Nat.lt_succ_iff_lt_or_eq.mp hj with h1 | h1
        · exact (hnone h).2 j h1
        · rw [h1]; exact he
      · intro r hr
        obtain ⟨h1, h2, h3, h4, h5⟩ := hsome r hr
        refine ⟨by omega, h2, h3, ?_, h5⟩
        intro j hj hd
        rcases Nat.lt_succ_iff_lt_or_eq.mp hj with h | h
        · exact h4 j h hd
        · rw [h] at hd; exact absurd hd he
      · obtain ⟨h1, h2⟩ := hex (fun j hj => h j (by omega))
        refine ⟨by show s.executable_count + 1 = n + 1; omega, fun h3 => ?_⟩
        show (if 1 ≤ s.executable_count then some n else s.second_exec_ptable_index) = some (n + 1 - 1)
        rw [if_pos (by omega)]
        rfl

theorem victim_inv_init (sp : AddrSpace) (v : Nat) :
    victim_inv sp v 0
      { least_count := 0x7fffffff, least_count_index := none, executable_count := 0,
        second_exec_ptable_index := none, broke := false } := by
  refine ⟨fun h => absurd h (by decide), fun _ => ⟨fun j hj => absurd hj (by omega),
    fun _ => ⟨rfl, fun j hj => absurd hj (by omega)⟩, fun r hr => absurd hr (by simp),
    fun _ => ⟨rfl, fun h => absurd h (by omega)⟩⟩⟩

theorem get_victim_slot_scan (sp : AddrSpace) (vpgdir : Nat) :
    ∃ s : VictimScan, victim_inv sp vpgdir 3 s
      ∧ get_victim_slot sp false vpgdir
          = match s.least_count_index with
            | some i => .ok i
            | none =>
              match s.second_exec_ptable_index with
              | some j => .ok j
              | none => .error .assertion :=
  ⟨_, victim_inv_step sp vpgdir 2 _ (victim_inv_step sp vpgdir 1 _
    (victim_inv_step sp vpgdir 0 _ (victim_inv_init sp vpgdir))), rfl⟩

theorem get_victim_slot_total (sp : AddrSpace) (x : Bool) (d : Nat) :
    ∃ k, get_victim_slot sp x d = .ok k := by
  cases x with
  | true => exact ⟨_, rfl⟩
  | false =>
    obtain ⟨s, ⟨hb, hnb⟩, hg⟩ := get_victim_slot_scan sp d
    rw [hg]
    cases hi : s.least_count_index with
    | some r => exact ⟨r, rfl⟩
    | none =>
      cases hbr : s.broke with
      | true =>
        obtain ⟨b, -, h2, -⟩ := hb hbr
        rw [hi] at h2
        exact absurd h2 (by simp)
      | false =>
        obtain ⟨-, hnone, -, hex⟩ := hnb hbr
        obtain ⟨-, h4⟩ := hex (hnone hi).2
        have h5 := h4 (by omega)
        exact ⟨2, by simp only [h5]⟩

theorem clear_present (x : Nat) : (x &&& notw PGDIR_PRESENT) &&& PGDIR_PRESENT = 0 := by
  rw [Nat.and_assoc]
  have : notw PGDIR_PRESENT &&& PGDIR_PRESENT = 0 := by decide
  rw [this, Nat.and_zero]

/-! ## Teardown -/

theorem free_kpages_ok {st st1 : Kernel} {addr : Nat} (h : free_kpages st addr = .ok st1) :
    ((addr + WORD - PADDR_TO_KVADDR st.free_paddr) % WORD) / PAGE_SIZE < st.num_pages
    ∧ (st.pages (((addr + WORD - PADDR_TO_KVADDR st.free_paddr) % WORD) / PAGE_SIZE)).as = none
    ∧ (st.pages (((addr + WORD - PADDR_TO_KVADDR st.free_paddr) % WORD) / PAGE_SIZE)).flags
        &&& PFLAG_USED_MASK ≠ 0
    ∧ st1.num_pages = st.num_pages ∧ st1.free_paddr = st.free_paddr
    ∧ st1.swap_map = st.swap_map
    ∧ (∀ j, st1.pages j = if kernel_run st addr j then
          { as := (st.pages j).as, vpn := (st.pages j).vpn, flags := 0 }
        else st.pages j) := by
  unfold free_kpages at h
  simp only at h
  split_ifs at h with c1 c2 c3
  simp only [Except.ok.injEq] at h
  subst h
  exact ⟨by omega, c3.1, c3.2, rfl, rfl, rfl, fun j => rfl⟩

theorem zero_and_used : (0 : Nat) &&& PFLAG_USED_MASK = 0 := by decide

/-! ## Demand loading -/

theorem frame_step_refl (a : Nat) (st : Kernel) : frame_step a st st :=
  ⟨(st.ass a).pg_dir, (st.ass a).ptables_in_mem, (st.ass a).page_table_flags, st.swap_map,
    st.disk, st.pages, st.tlb, by simp⟩

theorem frame_step_trans {a : Nat} {s1 s2 s3 : Kernel} (h1 : frame_step a s1 s2)
    (h2 : frame_step a s2 s3) : frame_step a s1 s3 := by
  obtain ⟨pd1, pt1, fl1, sm1, dk1, pg1, tl1, rfl⟩ := h1
  obtain ⟨pd2, pt2, fl2, sm2, dk2, pg2, tl2, rfl⟩ := h2
  exact ⟨pd2, pt2, fl2, sm2, dk2, pg2, tl2, by simp⟩

theorem frame_step_of_cache {a : Nat} {st st1 : Kernel} (h : cache_step a st st1) :
    frame_step a st st1 := by
  obtain ⟨pd, pt, fl, sm, dk, rfl⟩ := h
  exact ⟨pd, pt, fl, sm, dk, st.pages, st.tlb, rfl⟩

theorem frame_step_pages_tlb (a : Nat) (st : Kernel) (pg : Nat → Page) (tl : Nat → Nat × Nat) :
    frame_step a st { st with pages := pg, tlb := tl } :=
  ⟨(st.ass a).pg_dir, (st.ass a).ptables_in_mem, (st.ass a).page_table_flags, st.swap_map,
    st.disk, pg, tl, by simp⟩

theorem make_pg_available_step {st st5 : Kernel} {a vpn r pa i : Nat}
    (hret : make_pg_available st a vpn r = .ok (pa, i, st5)) : frame_step a st st5 := by
  by_cases hused : (st.pages i).flags &&& PFLAG_USED_MASK ≠ 0
  · obtain ⟨_, _, k, st1, hg, _, st4, hswap, hst5⟩ := make_pg_available_used hret hused
    have h1 := frame_step_of_cache (cache_step_get_ptbl hg)
    have h2 : frame_step a st1 (set_pte st1 a k (pte_index (st.pages i).vpn)
        (get_pte st1 a k (pte_index (st.pages i).vpn) &&& notw PGTBL_VALID_MASK)) :=
      frame_step_of_cache (cache_step_set_pte st1 a _ _ _)
    have h3 : frame_step a (set_pte st1 a k (pte_index (st.pages i).vpn)
        (get_pte st1 a k (pte_index (st.pages i).vpn) &&& notw PGTBL_VALID_MASK))
        (tlb_invalidate (set_pte st1 a k (pte_index (st.pages i).vpn)
          (get_pte st1 a k (pte_index (st.pages i).vpn) &&& notw PGTBL_VALID_MASK))
          (st.pages i).vpn) := frame_step_pages_tlb a _ _ _
    have h4 : frame_step a (tlb_invalidate (set_pte st1 a k (pte_index (st.pages i).vpn)
          (get_pte st1 a k (pte_index (st.pages i).vpn) &&& notw PGTBL_VALID_MASK))
          (st.pages i).vpn) st4 := by
      by_cases hx : exec_page (st.ass a) (st.pages i).vpn = true
      · rw [if_pos hx] at hswap
        simp only [Except.ok.injEq] at hswap
        rw [← hswap]
        exact frame_step_refl a _
      · rw [if_neg hx] at hswap
        exact frame_step_of_cache (cache_step_swap_out hswap)
    have h5 : frame_step a st4 st5 := by
      rw [hst5]
      exact frame_step_pages_tlb a st4 _ _
    exact frame_step_trans (frame_step_trans (frame_step_trans (frame_step_trans h1 h2) h3) h4) h5
  · unfold make_pg_available at hret
    simp only at hret
    split_ifs at hret with h1 h2
    split at hret
    · simp at hret
    · rename_i victim_index hfound
      split at hret
      · simp at hret
      · rename_i should st2 hwalk
        split at hret
        · simp at hret
        · rename_i st4 hswap
          simp only [Except.ok.injEq, Prod.mk.injEq] at hret
          obtain ⟨_, hvi, hst5⟩ := hret
          subst hvi
          rw [if_neg hused] at hwalk
          simp only [Except.ok.injEq, Prod.mk.injEq] at hwalk
          obtain ⟨hsh, hst2⟩ := hwalk
          subst hsh
          subst hst2
          simp only [Bool.false_eq_true, if_false, Except.ok.injEq] at hswap
          subst hswap
          subst hst5
          exact frame_step_pages_tlb a st _ _

theorem alloc_page_step {st st1 : Kernel} {a vpn r pa : Nat}
    (h : alloc_page st (some a) vpn r = .ok (pa, st1)) : frame_step a st st1 := by
  unfold alloc_page at h
  simp only at h
  split at h
  · simp at h
  · rename_i pa1 i st2 hmade
    split_ifs at h with hz
    simp only [Except.ok.injEq, Prod.mk.injEq] at h
    obtain ⟨_, hst1⟩ := h
    subst hst1
    have h2 : frame_step a st st2 := by
      split_ifs at hmade with hp0
      · exact make_pg_available_step hmade
      · simp only [Except.ok.injEq, Prod.mk.injEq] at hmade
        rw [← hmade.2.2]
        exact frame_step_refl a st
    exact frame_step_trans h2 (frame_step_pages_tlb a st2 _ _)

theorem load_page_fill (st : Kernel) (p off v pa ms fs : Nat) (f : File)
    (hfile : st.files p = some f) (hms : ms ≤ PAGE_SIZE) (hlen : off + min fs ms ≤ f.size) :
    load_page_from_executable st p off v pa ms fs
      = .ok (0,
          { st with mem := Function.update st.mem (frame_index st pa) (seg_fill f off fs ms (st.mem (frame_index st pa))) }) := by
  unfold load_page_from_executable
  simp only [hfile]
  rw [if_neg (by omega)]
  have hmin : (if fs > ms then ms else fs) = min fs ms := by
    by_cases h : fs > ms
    · rw [if_pos h]; omega
    · rw [if_neg h]; omega
  rw [hmin]
  have hgot : min (min fs ms) (f.size - off) = min fs ms := by omega
  rw [hgot]
  rw [if_neg (by omega)]
  have hb : (fun o => if min fs ms ≤ o ∧ o < ms then 0
        else if o < min fs ms then f.data (off + o) else st.mem (frame_index st pa) o)
      = seg_fill f off fs ms (st.mem (frame_index st pa)) := by
    funext o
    unfold seg_fill
    by_cases h1 : o < min fs ms
    · rw [if_pos h1, if_neg (by omega), if_pos h1]
    · rw [if_neg h1]
      by_cases h2 : o < ms
      · rw [if_pos h2, if_pos ⟨by omega, h2⟩, if_neg h1]
      · rw [if_neg h2, if_neg (fun c => h2 c.2), if_neg h1]
  exact congrArg (fun b => Except.ok (0,
    { st with mem := Function.update st.mem (frame_index st pa) b })) hb


theorem min_page_size (x : Nat) : (if x > PAGE_SIZE then PAGE_SIZE else x) = min PAGE_SIZE x := by
  by_cases h : x > PAGE_SIZE
  · rw [if_pos h]; omega
  · rw [if_neg h]; omega

theorem load_segment_demand (s : Kernel) (a v pa slot idx : Nat) (f : File) (off fsz msz : Nat)
    (halign : v &&& PAGE_FRAME = v)
    (hx : (s.ass a).as_flags1 &&& PF_X ≠ 0 ∨ (s.ass a).as_flags2 &&& PF_X ≠ 0)
    (hfile : s.files (s.ass a).exec_path = some f)
    (hseg : demand_segment (s.ass a) v (get_pte s a slot idx) = some (off, fsz, msz))
    (hlen : off + min fsz msz ≤ f.size) :
    ∃ s3, load_segment_if_required s a v pa slot idx = .ok s3
      ∧ s3.mem = Function.update s.mem (frame_index s pa)
          (seg_fill f off fsz msz (s.mem (frame_index s pa))) := by
  unfold demand_segment at hseg
  unfold load_segment_if_required
  simp only [halign] at hseg ⊢
  rw [if_neg (by
    intro hc
    rcases hx with h | h
    · exact h hc.1
    · exact h hc.2)]
  generalize (if (s.ass a).as_flags1 &&& PF_X ≠ 0 then (s.ass a).as_vbase1
    else (s.ass a).as_vbase2) = exec_vbase at hseg ⊢
  generalize (if (s.ass a).as_flags1 &&& PF_X ≠ 0 then
      ((s.ass a).as_vbase1 + (s.ass a).as_npages1 * PAGE_SIZE) % WORD
    else ((s.ass a).as_vbase2 + (s.ass a).as_npages2 * PAGE_SIZE) % WORD) = exec_vtop at hseg ⊢
  generalize (if (s.ass a).as_flags1 &&& PF_X ≠ 0 then (s.ass a).as_vbase2
    else (s.ass a).as_vbase1) = data_vbase at hseg ⊢
  generalize (if (s.ass a).as_flags1 &&& PF_X ≠ 0 then
      ((s.ass a).as_vbase2 + (s.ass a).as_npages2 * PAGE_SIZE) % WORD
    else ((s.ass a).as_vbase1 + (s.ass a).as_npages1 * PAGE_SIZE) % WORD) = data_vtop at hseg ⊢
  by_cases hc : v ≥ exec_vbase ∧ v < exec_vtop
  · rw [if_pos hc] at hseg ⊢
    by_cases hk : ((v + WORD - exec_vbase) % WORD) / PAGE_SIZE * PAGE_SIZE
        ≤ (s.ass a).executable_filesize
      ∧ ((v + WORD - exec_vbase) % WORD) / PAGE_SIZE * PAGE_SIZE ≤ (s.ass a).executable_memsize
    · rw [if_pos hk] at hseg
      simp only [Option.some.injEq, Prod.mk.injEq] at hseg
      obtain ⟨e1, e2, e3⟩ := hseg
      rw [if_neg (fun h => h hk.1), if_neg (fun h => h hk.2)]
      rw [min_page_size, min_page_size, e1, e2, e3]
      rw [load_page_fill s _ off v pa msz fsz f hfile (by rw [← e3]; omega) hlen]
      exact ⟨_, rfl, rfl⟩
    · rw [if_neg hk] at hseg
      exact absurd hseg (by simp)
  · rw [if_neg hc] at hseg ⊢
    by_cases hd : v ≥ data_vbase ∧ v < data_vtop ∧ get_pte s a slot idx &&& PF_L = 0
    · rw [if_pos hd] at hseg ⊢
      by_cases hk : ((v + WORD - data_vbase) % WORD) / PAGE_SIZE * PAGE_SIZE
          ≤ (s.ass a).data_memsize
      · rw [if_pos hk] at hseg
        simp only [Option.some.injEq, Prod.mk.injEq] at hseg
        obtain ⟨e1, e2, e3⟩ := hseg
        rw [if_neg (fun h => h hk)]
        have hfs : (if ((v + WORD - data_vbase) % WORD) / PAGE_SIZE * PAGE_SIZE
              > (s.ass a).data_filesize then 0
            else (s.ass a).data_filesize
              - ((v + WORD - data_vbase) % WORD) / PAGE_SIZE * PAGE_SIZE)
            = (s.ass a).data_filesize
              - ((v + WORD - data_vbase) % WORD) / PAGE_SIZE * PAGE_SIZE := by
          split_ifs with h
          · omega
          · rfl
        rw [hfs, min_page_size, min_page_size, e1, e2, e3]
        rw [load_page_fill s _ off v pa msz fsz f hfile (by rw [← e3]; omega) hlen]
        exact ⟨_, rfl, rfl⟩
      · rw [if_neg hk] at hseg
        exact absurd hseg (by simp)
    · rw [if_neg hd] at hseg
      exact absurd hseg (by simp)

theorem demand_segment_classify {sp : AddrSpace} {v e : Nat} {p : Nat × Nat × Nat}
    (h : demand_segment sp v e = some p) : ∃ flags, classify sp v = some (flags, false) := by
  unfold demand_segment at h
  unfold classify
  dsimp only
  by_cases h1 : v ≥ sp.as_vbase1 ∧ v < (sp.as_vbase1 + sp.as_npages1 * PAGE_SIZE) % WORD
  · exact ⟨_, by rw [if_pos h1]⟩
  · by_cases h2 : v ≥ sp.as_vbase2 ∧ v < (sp.as_vbase2 + sp.as_npages2 * PAGE_SIZE) % WORD
    · exact ⟨_, by rw [if_neg h1, if_pos h2]⟩
    · exfalso
      by_cases hx : sp.as_flags1 &&& PF_X ≠ 0
      · simp only [if_pos hx] at h
        rw [if_neg h1, if_neg (fun c => h2 ⟨c.1, c.2.1⟩)] at h
        exact absurd h (by simp)
      · simp only [if_neg hx] at h
        rw [if_neg h2, if_neg (fun c => h1 ⟨c.1, c.2.1⟩)] at h
        exact absurd h (by simp)

theorem and_page_frame_idem (x : Nat) : (x &&& PAGE_FRAME) &&& PAGE_FRAME = x &&& PAGE_FRAME := by
  rw [Nat.and_assoc, Nat.and_self]

/-! ## Copy of an address space -/

theorem get_new_pid_loop_spec (s : PidState) (hl : s.last_pid_index < 20) :
    ∀ f i, 1 ≤ f → f ≤ 20 → i = (s.last_pid_index + (20 - f)) % 20 →
      (∀ t, t < 20 - f → s.pid_array ((s.last_pid_index + t) % 20) ≠ 0) →
      ((∃ t, t < 20 ∧ s.pid_array ((s.last_pid_index + t) % 20) = 0) →
        ∃ t, t < 20 ∧ s.pid_array ((s.last_pid_index + t) % 20) = 0
          ∧ get_new_pid_loop s f i = some ((((s.last_pid_index + t) % 20 : Nat) : Int) + 1,
              { pid_array := Function.update s.pid_array ((s.last_pid_index + t) % 20) 1,
                last_pid_index := (s.last_pid_index + t) % 20 }))
      ∧ ((∀ t, t < 20 → s.pid_array ((s.last_pid_index + t) % 20) ≠ 0) →
          get_new_pid_loop s f i = some (-1, s)) := by
  intro f
  induction f with
  | zero => intro i h1; omega
  | succ f ih =>
    intro i _ h20 hi hprev
    unfold get_new_pid_loop
    by_cases hfree : s.pid_array i = 0
    · rw [if_pos hfree]
      constructor
      · intro _
        refine ⟨20 - (f + 1), by omega, ?_, ?_⟩
        · rw [← hi]; exact hfree
        · rw [← hi]
      · intro hall
        exact absurd hfree (hi ▸ hall (20 - (f + 1)) (by omega))
    · rw [if_neg hfree]
      have hM : MAX_USER_PROCESSES = 20 := rfl
      rw [hM]
      by_cases hf0 : f = 0
      · subst hf0
        have hback : (i + 1) % 20 = s.last_pid_index := by omega
        rw [if_neg (by simpa using hback)]
        constructor
        · rintro ⟨t, ht, hz⟩
          exfalso
          by_cases htl : t < 19
          · exact hprev t (by omega) hz
          · have : t = 19 := by omega
            subst this
            apply hfree
            rw [hi]
            exact hz
        · intro _; rfl
      · have hne : (i + 1) % 20 ≠ s.last_pid_index := by omega
        rw [if_pos hne]
        apply ih ((i + 1) % 20) (by omega) (by omega) (by omega)
        intro t ht
        by_cases htl : t < 20 - (f + 1)
        · exact hprev t htl
        · have : t = 20 - (f + 1) := by omega
          subst this
          rw [← hi]
          exact hfree

theorem get_new_pid_spec (s : PidState) (hl : s.last_pid_index < MAX_USER_PROCESSES) :
    ((∀ i, i < MAX_USER_PROCESSES → s.pid_array i ≠ 0) → get_new_pid s = .ok (-1, s))
    ∧ ((∃ i, i < MAX_USER_PROCESSES ∧ s.pid_array i = 0) →
        ∃ i, i < MAX_USER_PROCESSES ∧ s.pid_array i = 0
          ∧ get_new_pid s = .ok ((i : Int) + 1,
              { pid_array := Function.update s.pid_array i 1, last_pid_index := i })) := by
  have hM : MAX_USER_PROCESSES = 20 := rfl
  rw [hM] at hl ⊢
  obtain ⟨h1, h2⟩ := get_new_pid_loop_spec s hl 20 s.last_pid_index (by omega) (by omega)
    (by omega) (fun t ht => absurd ht (by omega))
  constructor
  · intro hall
    unfold get_new_pid
    rw [hM, h2 (fun t _ => hall _ (Nat.mod_lt _ (by omega)))]
  · rintro ⟨i, hi, hz⟩
    obtain ⟨t, _, htz, hloop⟩ := h1 ⟨(i + 20 - s.last_pid_index) % 20, by omega, by
      have : (s.last_pid_index + (i + 20 - s.last_pid_index) % 20) % 20 = i := by omega
      rw [this]; exact hz⟩
    refine ⟨(s.last_pid_index + t) % 20, Nat.mod_lt _ (by omega), htz, ?_⟩
    unfold get_new_pid
    rw [hM, hloop]

theorem get_new_pid_cases (s : PidState) (hl : s.last_pid_index < MAX_USER_PROCESSES) :
    (get_new_pid s = .ok (-1, s) ∧ ∀ i, i < MAX_USER_PROCESSES → s.pid_array i ≠ 0)
    ∨ ∃ i, i < MAX_USER_PROCESSES ∧ s.pid_array i = 0
        ∧ get_new_pid s = .ok ((i : Int) + 1,
            { pid_array := Function.update s.pid_array i 1, last_pid_index := i }) := by
  obtain ⟨h1, h2⟩ := get_new_pid_spec s hl
  by_cases h : ∃ i, i < MAX_USER_PROCESSES ∧ s.pid_array i = 0
  · exact Or.inr (h2 h)
  · have hall : ∀ i, i < MAX_USER_PROCESSES → s.pid_array i ≠ 0 :=
      fun i hi hz => h ⟨i, hi, hz⟩
    exact Or.inl ⟨h1 hall, hall⟩

theorem get_new_pids_spec : ∀ (n : Nat) (s : PidState), s.last_pid_index < MAX_USER_PROCESSES →
    ∃ ps s2, get_new_pids n s = .ok (ps, s2)
      ∧ s2.last_pid_index < MAX_USER_PROCESSES
      ∧ (∀ i, s.pid_array i ≠ 0 → s2.pid_array i ≠ 0)
      ∧ (∀ p, p ∈ ps → p ≠ -1 →
          ∃ i, i < MAX_USER_PROCESSES ∧ p = (i : Int) + 1 ∧ s.pid_array i = 0
            ∧ s2.pid_array i ≠ 0)
      ∧ (ps.filter (fun p => decide (p ≠ -1))).Nodup := by
  intro n
  induction n with
  | zero =>
    intro s hl
    exact ⟨[], s, rfl, hl, fun _ h => h, fun p hp => absurd hp (List.not_mem_nil p), by simp⟩
  | succ n ih =>
    intro s hl
    rcases get_new_pid_cases s hl with ⟨hret, _⟩ | ⟨i, hi, hz, hret⟩
    · obtain ⟨ps, s2, hrun, hl2, hkeep, hps, hnd⟩ := ih s hl
      refine ⟨-1 :: ps, s2, ?_, hl2, hkeep, ?_, ?_⟩
      · simp only [get_new_pids, hret, hrun]
      · intro p hp hne
        rcases List.mem_cons.mp hp with h | h
        · exact absurd h hne
        · exact hps p h hne
      · simpa using hnd
    · obtain ⟨ps, s2, hrun, hl2, hkeep, hps, hnd⟩ :=
        ih { pid_array := Function.update s.pid_array i 1, last_pid_index := i } hi
      refine ⟨((i : Int) + 1) :: ps, s2, ?_, hl2, ?_, ?_, ?_⟩
      · simp only [get_new_pids, hret, hrun]
      · intro j hj
        apply hkeep
        show Function.update s.pid_array i 1 j ≠ 0
        by_cases hji : j = i
        · subst hji; simp
        · rw [Function.update_noteq hji]; exact hj
      · intro p hp hne
        rcases List.mem_cons.mp hp with h | h
        · refine ⟨i, hi, h, hz, ?_⟩
          apply hkeep
          show Function.update s.pid_array i 1 i ≠ 0
          simp
        · obtain ⟨j, hj, hpj, hzj, hnz⟩ := hps p h hne
          refine ⟨j, hj, hpj, ?_, hnz⟩
          have hzj1 : Function.update s.pid_array i 1 j = 0 := hzj
          by_cases hji : j = i
          · subst hji; simp at hzj1
          · rwa [Function.update_noteq hji] at hzj1
      · have hne : ((i : Int) + 1) ≠ -1 := by omega
        rw [List.filter_cons_of_pos (by simpa using hne)]
        refine List.nodup_cons.mpr ⟨?_, hnd⟩
        intro hmem
        have hmem1 := (List.mem_filter.mp hmem).1
        obtain ⟨j, _, hpj, hzj, _⟩ := hps _ hmem1 hne
        have hij : j = i := by omega
        subst hij
        have hzj1 : Function.update s.pid_array j 1 j = 0 := hzj
        simp at hzj1

/-! ## Victim frame of `make_pg_available` -/

theorem make_pg_available_index {st st5 : Kernel} {a vpn r pa i : Nat}
    (hret : make_pg_available st a vpn r = .ok (pa, i, st5)) :
    i < st.num_pages
    ∧ ((st.pages i).flags &&& PFLAG_USED_MASK = 0 ∨ (st.pages i).as = some a) := by
  unfold make_pg_available at hret
  simp only at hret
  split_ifs at hret with h1 h2
  split at hret
  · simp at hret
  · rename_i victim_index hfound
    have hvict := make_pg_available_victim hfound
    split at hret
    · simp at hret
    · rename_i should st2 hwalk
      split at hret
      · simp at hret
      · rename_i st4 hswap
        simp only [Except.ok.injEq, Prod.mk.injEq] at hret
        obtain ⟨_, hvi, _⟩ := hret
        subst hvi
        refine ⟨?_, hvict⟩
        have hpos : 0 < st.num_pages := Nat.pos_of_ne_zero h2
        have hlt : r % st.num_pages < st.num_pages := Nat.mod_lt _ hpos
        split at hfound
        · rename_i j hj
          have hij : j = victim_index := by simpa using hfound
          subst hij
          have := (scanUp_some hj).2.1
          omega
        · have := (scanDown_some hfound).1
          omega

/-! ## Eviction of all user pages and the TLB -/

theorem evict_all_user_pages_tlb (st st1 : Kernel) (h : evict_all_user_pages st = .ok st1) :
    st1.tlb = st.tlb := by
  unfold evict_all_user_pages at h
  refine for_loop_inv (fun s => s.tlb = st.tlb) _ ?_ _ _ _ _ rfl h
  intro s i s1 hs hb
  split_ifs at hb
  · rw [← hs]; exact (evict_frame_step hb).2.2.2.1
  · simp only [Except.ok.injEq] at hb
    rw [← hb]; exact hs

theorem evict_all_my_pages_tlb (st st1 : Kernel) (asp : Option Nat)
    (h : evict_all_my_pages_if_necessary st asp = .ok st1) : st1.tlb = st.tlb := by
  unfold evict_all_my_pages_if_necessary at h
  split at h
  · simp only [Except.ok.injEq] at h
    rw [h]
  · refine for_loop_inv (fun s => s.tlb = st.tlb) _ ?_ _ _ _ _ rfl h
    intro s i s1 hs hb
    split_ifs at hb
    · rw [← hs]; exact (evict_frame_step hb).2.2.2.1
    · simp only [Except.ok.injEq] at hb
      rw [← hb]; exact hs

/-! ## Entries read by `can_i_alloc_npages` -/

theorem can_i_alloc_reads_eq (st : Kernel) (npages : Nat) :
    ∀ fuel start count, count + fuel = npages →
      can_i_alloc_reads st npages fuel start count
        = List.range' start (count_free st npages fuel start count - count + 1) := by
  intro fuel
  induction fuel with
  | zero =>
    intro start count _
    simp [can_i_alloc_reads, count_free]
  | succ fuel ih =>
    intro start count h
    unfold can_i_alloc_reads count_free
    split_ifs with hc
    · rw [ih (start + 1) (count + 1) (by omega)]
      have hge : count + 1 ≤ count_free st npages fuel (start + 1) (count + 1) := by
        clear ih h hc
        induction fuel generalizing start count with
        | zero => simp [count_free]
        | succ f ihf =>
          unfold count_free
          split_ifs
          · have := ihf (start + 1) (count + 1)
            omega
          · exact le_refl _
      have e : count_free st npages fuel (start + 1) (count + 1) - count + 1
          = (count_free st npages fuel (start + 1) (count + 1) - (count + 1) + 1) + 1 := by omega
      rw [e]
      rfl
    · simp

/-! ## Sizing of the frame table -/

theorem bootstrap_loop_spec : ∀ (fuel p c n : Nat), p / PAGE_SIZE < fuel →
    p % PAGE_SIZE = 0 → 0 < c → c ≤ p → p < WORD →
    ∃ p1 c1 n1, bootstrap_loop fuel (p, c, n) = some (p1, c1, n1)
      ∧ p1 % PAGE_SIZE = 0 ∧ 0 < c1 ∧ c1 ≤ p1 ∧ p1 ≤ p ∧ n ≤ n1
      ∧ c1 + SIZEOF_PAGE * n = c + SIZEOF_PAGE * n1
      ∧ p1 + PAGE_SIZE * n1 = p + PAGE_SIZE * n
      ∧ p1 < c1 + SIZEOF_PAGE + PAGE_SIZE := by
  have hP : PAGE_SIZE = 4096 := rfl
  have hS : SIZEOF_PAGE = 12 := rfl
  have hW : WORD = 4294967296 := by decide
  intro fuel
  induction fuel with
  | zero => intro p c n h; exact absurd h (Nat.not_lt_zero _)
  | succ fuel ih =>
    intro p c n hf hal hc hcp hpw
    rw [hP] at hf hal
    rw [hW] at hpw
    have e1 : (p + WORD - PAGE_SIZE) % WORD = p - 4096 := by rw [hP, hW]; omega
    have e2 : (c + SIZEOF_PAGE) % WORD = c + 12 := by rw [hS, hW]; omega
    unfold bootstrap_loop
    rw [e1, e2]
    by_cases hcond : p - 4096 ≥ c + 12
    · rw [if_pos hcond]
      obtain ⟨p1, c1, n1, hl, h1, h2, h3, h4, h5, h6, h7, h8⟩ :=
        ih (p - 4096) (c + 12) (n + 1) (by rw [hP]; omega) (by rw [hP]; omega) (by omega)
          (by omega) (by rw [hW]; omega)
      rw [hP, hS] at *
      exact ⟨p1, c1, n1, hl, h1, h2, h3, by omega, by omega, by omega, by omega, h8⟩
    · rw [if_neg hcond]
      rw [hP, hS]
      exact ⟨p, c, n, rfl, hal, hc, hcp, le_refl _, le_refl _, rfl, rfl, by omega⟩

theorem page_frame_floor (x : Nat) (h : x < WORD) :
    (x &&& PAGE_FRAME) % PAGE_SIZE = 0 ∧ x &&& PAGE_FRAME ≤ x ∧ x < (x &&& PAGE_FRAME) + PAGE_SIZE := by
  rw [and_page_frame x h]
  have hP : PAGE_SIZE = 4096 := rfl
  rw [hP]
  omega

theorem vm_bootstrap_spec (st : Kernel) (lo hi p0 : Nat)
    (hp0 : p0 = ((hi + WORD - PAGE_SIZE) % WORD) &&& PAGE_FRAME)
    (hlo : lo + SIZEOF_PAGE < WORD) :
    (p0 < lo + SIZEOF_PAGE → vm_bootstrap st lo hi = .error .panic)
    ∧ (lo + SIZEOF_PAGE ≤ p0 →
        ∃ p1 n1, p1 % PAGE_SIZE = 0 ∧ lo + SIZEOF_PAGE * n1 ≤ p1 ∧ 1 ≤ n1
          ∧ p1 + PAGE_SIZE * n1 = p0 + PAGE_SIZE
          ∧ p1 < lo + SIZEOF_PAGE * n1 + SIZEOF_PAGE + PAGE_SIZE
          ∧ (n1 < MIN_COREMAP_PAGES → vm_bootstrap st lo hi = .error .panic)
          ∧ (MIN_COREMAP_PAGES ≤ n1 → vm_bootstrap st lo hi
              = .ok { st with
                  pages := fun i => if i < n1 then { as := none, vpn := 0, flags := 0 }
                    else st.pages i,
                  num_pages := n1, free_paddr := p1 })) := by
  have hP : PAGE_SIZE = 4096 := rfl
  have hS : SIZEOF_PAGE = 12 := rfl
  have hW : WORD = 4294967296 := by decide
  have hc0 : (lo + SIZEOF_PAGE) % WORD = lo + SIZEOF_PAGE := Nat.mod_eq_of_lt hlo
  have hx : (hi + WORD - PAGE_SIZE) % WORD < WORD := Nat.mod_lt _ (by rw [hW]; omega)
  obtain ⟨ha, hb, _⟩ := page_frame_floor _ hx
  rw [← hp0] at ha hb
  have hp0lt : p0 < WORD := lt_of_le_of_lt hb hx
  have hfuel : p0 / PAGE_SIZE < 2 ^ 21 := by
    have h21 : (2 : Nat) ^ 21 = 2097152 := by norm_num
    rw [hP, h21]
    rw [hW] at hp0lt
    omega
  constructor
  · intro hlt
    unfold vm_bootstrap
    simp only [← hp0, hc0]
    rw [if_pos hlt]
  · intro hge
    obtain ⟨p1, c1, n1, hl, h1, h2, h3, h4, h5, h6, h7, h8⟩ :=
      bootstrap_loop_spec (2 ^ 21) p0 (lo + SIZEOF_PAGE) 1 hfuel
        ha (by rw [hS]; omega) hge hp0lt
    refine ⟨p1, n1, h1, ?_, h5, ?_, ?_, ?_, ?_⟩
    · rw [hS] at *; omega
    · rw [hP] at *; omega
    · rw [hS, hP] at *; omega
    · intro hsmall
      unfold vm_bootstrap
      simp only [← hp0, hc0]
      rw [if_neg (by omega), hl]
      simp only
      rw [if_pos hsmall]
    · intro hbig
      unfold vm_bootstrap
      simp only [← hp0, hc0]
      rw [if_neg (by omega), hl]
      simp only
      rw [if_neg (by omega)]

/-! ## Claims about `sys_sbrk` -/

/-- C7 (amended): for an address space with `heap_vstart ≤ heap_vtop < stack_vbase ≤ USERSTACK`
and an `amount` in the range of a C `int`, a call of `sys_sbrk` that returns 0 hands back the
`heap_vtop` from before the call and leaves `heap_vtop` at exactly the old value plus `amount`,
changing nothing else; with `amount = 0` the state is unchanged. -/
theorem sys_sbrk_success (st : Kernel) (a : Nat) (amount : Int) (rv : Nat) (st1 : Kernel)
    (hcur : st.t_vmspace = some a)
    (_hb1 : (st.ass a).as_heap_vstart ≤ (st.ass a).as_heap_vtop)
    (hb2 : (st.ass a).as_heap_vtop < (st.ass a).as_stack_vbase)
    (hs : (st.ass a).as_stack_vbase ≤ USERSTACK)
    (hlo : -2147483648 ≤ amount) (hhi : amount < 2147483648)
    (hret : sys_sbrk st amount = .ok (0, rv, st1)) :
    rv = (st.ass a).as_heap_vtop
    ∧ (((st1.ass a).as_heap_vtop : Nat) : Int) = ((st.ass a).as_heap_vtop : Nat) + amount
    ∧ (amount = 0 → st1 = st)
    ∧ st1 = setAs st a { st.ass a with as_heap_vtop := (st1.ass a).as_heap_vtop } := by
  unfold sys_sbrk at hret
  rw [hcur] at hret
  simp only at hret
  simp only [WORD, USERSTACK] at *
  split_ifs at hret with h0 h1 h2 h3
  · simp only [Except.ok.injEq, Prod.mk.injEq, true_and] at hret
    obtain ⟨h1, h2⟩ := hret
    subst h2
    subst h0
    refine ⟨h1.symm, by simp, fun _ => rfl, ?_⟩
    show st = { st with ass := Function.update st.ass a (st.ass a) }
    rw [Function.update_eq_self]
  · simp [EINVAL] at hret
  · simp [ENOMEM] at hret
  · simp [ENOMEM] at hret
  · simp only [Except.ok.injEq, Prod.mk.injEq, true_and] at hret
    obtain ⟨h4, h5⟩ := hret
    subst h5
    have hc := toWord_cast amount
    refine ⟨h4.symm, ?_, fun h => absurd h h0, ?_⟩
    · simp only [Function.update_same]
      omega
    · simp [setAs, hcur]

/-- Witness of C7: in `plain_kernel`, `sbrk(8192)` returns 0. -/
theorem sys_sbrk_success_witness :
    plain_kernel.t_vmspace = some 7
    ∧ (plain_kernel.ass 7).as_heap_vstart ≤ (plain_kernel.ass 7).as_heap_vtop
    ∧ (plain_kernel.ass 7).as_heap_vtop < (plain_kernel.ass 7).as_stack_vbase
    ∧ (plain_kernel.ass 7).as_stack_vbase ≤ USERSTACK
    ∧ sys_sbrk plain_kernel 8192
        = .ok (0, 0x10002000, sbrk_state plain_kernel (sys_sbrk plain_kernel 8192))
    ∧ ((sbrk_state plain_kernel (sys_sbrk plain_kernel 8192)).ass 7).as_heap_vtop
        = 0x10004000 := by
  have h := sys_sbrk_success plain_kernel 7 8192 0x10002000
    (sbrk_state plain_kernel (sys_sbrk plain_kernel 8192)) rfl (by decide) (by decide)
    (by decide) (by norm_num) (by norm_num) rfl
  refine ⟨rfl, by decide, by decide, by decide, rfl, ?_⟩
  have h2 := h.2.1
  have h3 : ((plain_kernel.ass 7).as_heap_vtop : Int) = 0x10002000 := by decide
  rw [h3] at h2
  omega

set_option maxRecDepth 100000 in
/-- C7 fails as stated: with `heap_vstart = 0`, `heap_vtop = 0x80001000` and
`stack_vbase = 0xfffff000` the bounds `heap_vstart ≤ heap_vtop < stack_vbase` hold, and
`sbrk(0x7fffffff)` returns 0 handing back `0x80001000`, but the new `heap_vtop` is `0xfff`, not
`0x80001000 + 0x7fffffff`: the 32-bit sum wraps around and passes all three tests. -/
theorem sys_sbrk_success_wraps_heap_top :
    (wrapped_heap_kernel.ass 7).as_heap_vstart ≤ (wrapped_heap_kernel.ass 7).as_heap_vtop
    ∧ (wrapped_heap_kernel.ass 7).as_heap_vtop < (wrapped_heap_kernel.ass 7).as_stack_vbase
    ∧ (wrapped_heap_kernel.ass 7).as_heap_vtop = 0x80001000
    ∧ returned (sys_sbrk wrapped_heap_kernel 0x7fffffff) = some 0
    ∧ ((sbrk_state wrapped_heap_kernel (sys_sbrk wrapped_heap_kernel 0x7fffffff)).ass 7).as_heap_vtop
        = 0xfff
    ∧ 0xfff ≠ 0x80001000 + 0x7fffffff := by
  decide

set_option maxRecDepth 100000 in
/-- C8 (code defect): with `heap_vstart = heap_vtop = 0x10002000` and the stack base below
`USERSTACK`, the request `sbrk(-0x10003000)` asks for a top that is below `heap_vstart` over
the integers, yet `sys_sbrk` returns `ENOMEM`, not `EINVAL`: the 32-bit sum wraps to
`0xfffff000`, which passes the `EINVAL` test and fails the stack test. -/
theorem sys_sbrk_wrapped_shrink :
    (plain_kernel.ass 7).as_heap_vstart ≤ (plain_kernel.ass 7).as_heap_vtop
    ∧ (((plain_kernel.ass 7).as_heap_vtop : Nat) : Int) + (-0x10003000)
        < ((plain_kernel.ass 7).as_heap_vstart : Nat)
    ∧ returned (sys_sbrk plain_kernel (-0x10003000)) = some ENOMEM
    ∧ ((sbrk_state plain_kernel (sys_sbrk plain_kernel (-0x10003000))).ass 7).as_heap_vtop
        = (plain_kernel.ass 7).as_heap_vtop := by
  decide

set_option maxRecDepth 100000 in
/-- C9 fails as stated: with `heap_vstart = heap_vtop = stack_vbase = 0xfffff000` the bounds
`heap_vstart ≤ heap_vtop ≤ stack_vbase` hold and `heap_vtop + 0x2000` passes the stack base,
but `sys_sbrk` returns `EINVAL`, because the 32-bit sum wraps below `heap_vstart`. -/
theorem sys_sbrk_grow_wraps_to_einval :
    (high_heap_kernel.ass 7).as_heap_vstart ≤ (high_heap_kernel.ass 7).as_heap_vtop
    ∧ (high_heap_kernel.ass 7).as_heap_vtop ≤ (high_heap_kernel.ass 7).as_stack_vbase
    ∧ (high_heap_kernel.ass 7).as_heap_vtop + 0x2000 > (high_heap_kernel.ass 7).as_stack_vbase
    ∧ returned (sys_sbrk high_heap_kernel 0x2000) = some EINVAL := by
  decide

/-- C9 (amended): for an address space with `heap_vstart ≤ heap_vtop ≤ stack_vbase ≤ USERSTACK`
and a positive `amount`, if `heap_vtop + amount` passes `stack_vbase` or makes the heap larger
than `USER_HEAP_MAX`, `sys_sbrk` returns `ENOMEM` and leaves the state unchanged; in particular
`sbrk(1)` returns `ENOMEM` when `heap_vtop = stack_vbase`. -/
theorem sys_sbrk_grow_rejected (st : Kernel) (a : Nat)
    (hcur : st.t_vmspace = some a) (hb : heap_stack_bounds (st.ass a)) :
    (∀ amount : Int, 0 < amount → amount < 2147483648 →
      (((st.ass a).as_heap_vtop : Nat) + amount > ((st.ass a).as_stack_vbase : Nat)
        ∨ ((st.ass a).as_heap_vtop : Nat) + amount - ((st.ass a).as_heap_vstart : Nat)
            > (USER_HEAP_MAX : Nat)) →
      sys_sbrk st amount = .ok (ENOMEM, toWord (-1), st))
    ∧ ((st.ass a).as_heap_vtop = (st.ass a).as_stack_vbase →
      sys_sbrk st 1 = .ok (ENOMEM, toWord (-1), st)) := by
  obtain ⟨hb1, hb2, hb3⟩ := hb
  simp only [USERSTACK] at hb3
  have key : ∀ amount : Int, 0 < amount → amount < 2147483648 →
      (((st.ass a).as_heap_vtop : Nat) + amount > ((st.ass a).as_stack_vbase : Nat)
        ∨ ((st.ass a).as_heap_vtop : Nat) + amount - ((st.ass a).as_heap_vstart : Nat)
            > (USER_HEAP_MAX : Nat)) →
      sys_sbrk st amount = .ok (ENOMEM, toWord (-1), st) := by
    intro amount hpos hlt hover
    have hc := toWord_of_nonneg amount (le_of_lt hpos) (by omega)
    unfold sys_sbrk
    rw [hcur]
    simp only [WORD, USER_HEAP_MAX] at *
    have h0 : amount ≠ 0 := by omega
    rw [if_neg h0]
    split_ifs with h1 h2 h3
    · exfalso; omega
    · rfl
    · rfl
    · exfalso; omega
  refine ⟨key, fun heq => key 1 (by norm_num) (by norm_num) (Or.inl ?_)⟩
  omega

/-- Witness of C9 (amended): in `plain_kernel`, growing the heap by 2 MiB is rejected. -/
theorem sys_sbrk_grow_rejected_witness :
    plain_kernel.t_vmspace = some 7 ∧ heap_stack_bounds (plain_kernel.ass 7)
    ∧ sys_sbrk plain_kernel 0x200000 = .ok (ENOMEM, toWord (-1), plain_kernel) :=
  ⟨rfl, by unfold heap_stack_bounds; decide,
    (sys_sbrk_grow_rejected plain_kernel 7 rfl (by unfold heap_stack_bounds; decide)).1
      0x200000 (by norm_num) (by norm_num) (Or.inr (by decide))⟩

/-! ## Claims about `vm_fault`, settled by running the code -/

set_option maxRecDepth 100000 in
/-- C1 (code defect): in `plain_kernel` the fault address `0x80000000` lies in neither load
region, not in the stack band, not in the page below `stack_vbase` and not in the heap, yet
`vm_fault` does not return `VM_FAULT_USER`: the test of the growth branch has no upper bound,
so the address is taken for a stack probe, `stack_vbase` is lowered, and the walk that follows
ends in the `panic` of `swap_in_page`. -/
theorem vm_fault_kernel_address_grows_stack :
    ¬ ((plain_kernel.ass 7).as_vbase1 ≤ 0x80000000
        ∧ 0x80000000 < (plain_kernel.ass 7).as_vbase1 + (plain_kernel.ass 7).as_npages1 * PAGE_SIZE)
    ∧ ¬ ((plain_kernel.ass 7).as_vbase2 ≤ 0x80000000
        ∧ 0x80000000 < (plain_kernel.ass 7).as_vbase2 + (plain_kernel.ass 7).as_npages2 * PAGE_SIZE)
    ∧ ¬ ((plain_kernel.ass 7).as_stack_vbase ≤ 0x80000000 ∧ 0x80000000 < USERSTACK)
    ∧ ¬ ((plain_kernel.ass 7).as_stack_vbase - PAGE_SIZE ≤ 0x80000000
        ∧ 0x80000000 < (plain_kernel.ass 7).as_stack_vbase)
    ∧ ¬ ((plain_kernel.ass 7).as_heap_vstart ≤ 0x80000000
        ∧ 0x80000000 < (plain_kernel.ass 7).as_heap_vtop)
    ∧ classify (plain_kernel.ass 7) 0x80000000 = some (PF_R ||| PF_W, true)
    ∧ returned (vm_fault plain_kernel VM_FAULT_READ 0x80000000 0 0) ≠ some VM_FAULT_USER
    ∧ aborted (vm_fault plain_kernel VM_FAULT_READ 0x80000000 0 0) = some Abort.panic := by
  decide

set_option maxRecDepth 100000 in
/-- C3 (code defect): the text page `0x00400000` of `plain_kernel` belongs to a region with
permissions R|X only, yet a fault of type `VM_FAULT_WRITE` on it returns `VM_FAULT_OK` and
leaves a TLB entry for the page with the dirty and valid bits set; only the `VM_FAULT_READONLY`
path tests `PF_W`. -/
theorem vm_fault_write_on_text_page_maps_dirty :
    (plain_kernel.ass 7).as_flags1 = PF_R ||| PF_X
    ∧ (plain_kernel.ass 7).as_vbase1 ≤ 0x00400000
    ∧ 0x00400000 < (plain_kernel.ass 7).as_vbase1 + (plain_kernel.ass 7).as_npages1 * PAGE_SIZE
    ∧ returned (vm_fault plain_kernel VM_FAULT_READONLY 0x00400000 0 0) = some VM_FAULT_USER
    ∧ returned (vm_fault plain_kernel VM_FAULT_WRITE 0x00400000 0 0) = some VM_FAULT_OK
    ∧ ((state_after plain_kernel (vm_fault plain_kernel VM_FAULT_WRITE 0x00400000 0 0)).tlb 0).1
        = 0x00400000
    ∧ ((state_after plain_kernel (vm_fault plain_kernel VM_FAULT_WRITE 0x00400000 0 0)).tlb 0).2
        &&& TLBLO_DIRTY ≠ 0
    ∧ ((state_after plain_kernel (vm_fault plain_kernel VM_FAULT_WRITE 0x00400000 0 0)).tlb 0).2
        &&& TLBLO_VALID ≠ 0 := by
  decide

set_option maxRecDepth 1000000 in
/-- C5 (code defect): from the state `as_define_stack` leaves in `crowded_kernel`, the faults
`crowded_faults` followed by 23 more read faults on the kernel address `0xff800000` all return,
and leave `stack_vbase` at `USERSTACK - 25 * PAGE_SIZE`, below the limit of
`DUMBVM_STACKPAGES` pages. -/
theorem vm_fault_stack_grows_past_limit :
    (crowded_kernel.ass 7).as_stack_vbase = USERSTACK - PAGE_SIZE
    ∧ aborted (run_faults crowded_kernel
        (crowded_faults ++ List.replicate 23 (VM_FAULT_READ, 0xff800000, 0))) = none
    ∧ ((final_state crowded_kernel (run_faults crowded_kernel
        (crowded_faults ++ List.replicate 23 (VM_FAULT_READ, 0xff800000, 0)))).ass 7).as_stack_vbase
        = USERSTACK - 25 * PAGE_SIZE
    ∧ USERSTACK - 25 * PAGE_SIZE < USERSTACK - DUMBVM_STACKPAGES * PAGE_SIZE := by
  decide

set_option maxRecDepth 100000 in
/-- C6 (code defect): `crowded_kernel` is the state left by `as_complete_load` and a successful
`as_define_stack`, and satisfies `heap_vstart ≤ heap_vtop ≤ stack_vbase ≤ USERSTACK`; the four
faults `crowded_faults` all return, and after the last one, on the kernel address `0xff800000`,
`stack_vbase` is below `heap_vtop`. -/
theorem vm_fault_breaks_heap_stack_bounds :
    heap_stack_bounds (crowded_kernel.ass 7)
    ∧ aborted (run_faults crowded_kernel crowded_faults) = none
    ∧ ((final_state crowded_kernel (run_faults crowded_kernel crowded_faults)).ass 7).as_stack_vbase
        < ((final_state crowded_kernel (run_faults crowded_kernel crowded_faults)).ass 7).as_heap_vtop
    ∧ ¬ heap_stack_bounds
        ((final_state crowded_kernel (run_faults crowded_kernel crowded_faults)).ass 7) := by
  refine ⟨?_, ?_, ?_, ?_⟩
  · unfold heap_stack_bounds; decide
  · decide
  · decide
  · intro h
    exact absurd h.2.1 (by decide)

set_option maxRecDepth 100000 in
/-- C10 (code defect): `tight_kernel` has a fresh address space (no resident page table) and
no frame owned by a user; the four faults `tight_faults` all return.  Afterwards resident slot
2 holds the page table of directory `0x42`, its entry `0x3ff` is `VALID` and names frame 9,
but frame 9 is recorded for virtual page `0x7ffff000`, not for the page `0x10bff000` of that
entry: `find_pte` wrote through a slot pointer that `make_pg_available` had re-used for another
table. -/
theorem find_pte_writes_into_replaced_table :
    (∀ k, k < NUM_PTABLES_IN_MEM → (tight_kernel.ass 7).page_table_flags k = 0)
    ∧ (∀ i, i < tight_kernel.num_pages → (tight_kernel.pages i).as = none)
    ∧ aborted (run_faults tight_kernel tight_faults) = none
    ∧ ((final_state tight_kernel (run_faults tight_kernel tight_faults)).ass 7).page_table_flags 2
        &&& PGDIR_INDEX = 0x42 <<< 22
    ∧ get_pte (final_state tight_kernel (run_faults tight_kernel tight_faults)) 7 2 0x3ff
        &&& PGTBL_VALID_MASK ≠ 0
    ∧ get_pte (final_state tight_kernel (run_faults tight_kernel tight_faults)) 7 2 0x3ff
        &&& PAGE_FRAME = frame_paddr tight_kernel 9
    ∧ ((final_state tight_kernel (run_faults tight_kernel tight_faults)).pages 9).vpn = 0x7ffff000
    ∧ slot_vpn ((final_state tight_kernel (run_faults tight_kernel tight_faults)).ass 7) 2 0x3ff
        = 0x10bff000
    ∧ ¬ valid_entries_backed (final_state tight_kernel (run_faults tight_kernel tight_faults)) 7 := by
  refine ⟨by decide, by decide, by decide, by decide, by decide, by decide, by decide,
    by decide, ?_⟩
  intro h
  have h1 := h 2 0x3ff (by decide) (by decide) (by decide) (by decide)
  exact absurd h1.2.2.2.2 (by decide)

/-! ## Claims about `vm_fault`, proved for all states -/

set_option maxRecDepth 100000 in
/-- C2 fails as stated: in `swapless_tight_kernel` (one free frame, swap store full) a read
fault on the data page `0x10000000` returns; the page `0x10001000` then lies in the data
region, which has W, but the `VM_FAULT_READONLY` fault on it does not return `VM_FAULT_OK`:
the only frame has to be evicted and `swap_out_page` ends in `panic("Out of swap space!")`. -/
theorem vm_fault_readonly_aborts_when_swap_is_full :
    classify ((final_state swapless_tight_kernel
        (run_faults swapless_tight_kernel [(VM_FAULT_READ, 0x10000000, 0)])).ass 7) 0x10001000
      = some (PF_R ||| PF_W, false)
    ∧ aborted (run_faults swapless_tight_kernel [(VM_FAULT_READ, 0x10000000, 0)]) = none
    ∧ aborted (vm_fault (final_state swapless_tight_kernel
        (run_faults swapless_tight_kernel [(VM_FAULT_READ, 0x10000000, 0)]))
        VM_FAULT_READONLY 0x10001000 0 0) = some Abort.panic := by
  decide


/-- C2 (amended): take a `VM_FAULT_READONLY` fault on a page that `vm_fault` classifies with
permission flags `flags` (a load region, the stack or the heap), for which `find_pte` returns
and evicts no frame (a frame is free, or the page's entry is already `VALID`), and whose
page-table entry carries W only if the region does, and carries W when it is already `VALID`
and the region has W.  If the region lacks W, `vm_fault` returns `VM_FAULT_USER`; if it has W,
`vm_fault` returns `VM_FAULT_OK` after writing a TLB entry for that page with the dirty and
valid bits set. -/
theorem vm_fault_readonly_checks_permission (st : Kernel) (a faultaddress flags rp rt : Nat)
    (hcur : st.t_vmspace = some a)
    (hreg : classify (st.ass a) (faultaddress &&& PAGE_FRAME) = some (flags, false))
    (hwalk : ∃ r, find_pte st (some a) (faultaddress &&& PAGE_FRAME) flags rp = .ok r)
    (hnoevict : free_frame_available st ∨ ∀ k st1,
      get_ptbl st (some a) (faultaddress &&& PAGE_FRAME)
          (exec_page (st.ass a) (faultaddress &&& PAGE_FRAME)) = .ok (k, st1) →
        get_pte st1 a k (pte_index (faultaddress &&& PAGE_FRAME)) &&& PGTBL_VALID_MASK ≠ 0)
    (hentry : ∀ k st1,
      get_ptbl st (some a) (faultaddress &&& PAGE_FRAME)
          (exec_page (st.ass a) (faultaddress &&& PAGE_FRAME)) = .ok (k, st1) →
        (get_pte st1 a k (pte_index (faultaddress &&& PAGE_FRAME)) &&& PF_W ≠ 0 →
          flags &&& PF_W ≠ 0)
        ∧ (get_pte st1 a k (pte_index (faultaddress &&& PAGE_FRAME)) &&& PGTBL_VALID_MASK ≠ 0 →
          flags &&& PF_W ≠ 0 →
          get_pte st1 a k (pte_index (faultaddress &&& PAGE_FRAME)) &&& PF_W ≠ 0)) :
    (flags &&& PF_W = 0 →
      ∃ st1, vm_fault st VM_FAULT_READONLY faultaddress rp rt = .ok (VM_FAULT_USER, st1))
    ∧ (flags &&& PF_W ≠ 0 →
      ∃ st1 i elo, vm_fault st VM_FAULT_READONLY faultaddress rp rt = .ok (VM_FAULT_OK, st1)
        ∧ i < NUM_TLB ∧ st1.tlb i = (faultaddress &&& PAGE_FRAME, elo)
        ∧ elo &&& TLBLO_DIRTY ≠ 0 ∧ elo &&& TLBLO_VALID ≠ 0) := by
  obtain ⟨⟨ptr, st4⟩, hw⟩ := hwalk
  obtain ⟨k, st1, hg, hptr, pt, pg, m, sm, hst4, hval, hnval⟩ := find_pte_no_evict hw hnoevict
  obtain ⟨hW1, hW2⟩ := hentry k st1 hg
  have hpte : get_pte st4 a k (pte_index (faultaddress &&& PAGE_FRAME))
      = pt k (pte_index (faultaddress &&& PAGE_FRAME)) := by
    rw [hst4]; simp [get_pte]
  have hvm : vm_fault st VM_FAULT_READONLY faultaddress rp rt
      = (if get_pte st4 a k (pte_index (faultaddress &&& PAGE_FRAME)) &&& PF_W ≠ 0 then
          .ok (VM_FAULT_OK, tlb_install st4 (faultaddress &&& PAGE_FRAME)
            (((get_pte st4 a k (pte_index (faultaddress &&& PAGE_FRAME)) &&& PAGE_FRAME)
              ||| TLBLO_DIRTY) ||| TLBLO_VALID) rt)
        else .ok (VM_FAULT_USER, st4)) := by
    unfold vm_fault
    simp only [hcur, hreg, if_true, Bool.false_eq_true, if_false, hw, hptr]
  have hWiff : get_pte st4 a k (pte_index (faultaddress &&& PAGE_FRAME)) &&& PF_W ≠ 0
      ↔ flags &&& PF_W ≠ 0 := by
    rw [hpte]
    by_cases hv : get_pte st1 a k (pte_index (faultaddress &&& PAGE_FRAME)) &&& PGTBL_VALID_MASK ≠ 0
    · rw [hval hv]
      exact ⟨hW1, hW2 hv⟩
    · have hv0 : get_pte st1 a k (pte_index (faultaddress &&& PAGE_FRAME)) &&& PGTBL_VALID_MASK = 0 := by
        by_contra hc; exact hv hc
      obtain ⟨e, pa, he, hpt⟩ := hnval hv0
      rw [hpt]
      rw [flag_ne_zero_iff _ PF_W 1 rfl, flag_ne_zero_iff _ PF_W 1 rfl,
        installed_entry_bit e pa flags 1 (by decide) (by decide) (by decide)]
      rw [flag_ne_zero_iff _ PF_W 1 rfl, flag_ne_zero_iff _ PF_W 1 rfl] at hW1
      have he1 : e.testBit 1
          = (get_pte st1 a k (pte_index (faultaddress &&& PAGE_FRAME))).testBit 1 := by
        rcases he with h | h
        · rw [h]
        · rw [h, loaded_bit _ 1 (by decide)]
      rw [he1]
      constructor
      · intro h
        rcases Bool.or_eq_true _ _ ▸ h with h1 | h1
        · exact hW1 h1
        · exact h1
      · intro h
        simp [h]
  constructor
  · intro h0
    refine ⟨st4, ?_⟩
    rw [hvm, if_neg]
    intro hc
    exact (hWiff.mp hc) h0
  · intro h1
    obtain ⟨i, hi, hti⟩ := tlb_install_spec st4 (faultaddress &&& PAGE_FRAME) rt
    refine ⟨tlb_install st4 (faultaddress &&& PAGE_FRAME)
      (((get_pte st4 a k (pte_index (faultaddress &&& PAGE_FRAME)) &&& PAGE_FRAME)
        ||| TLBLO_DIRTY) ||| TLBLO_VALID) rt, i,
      (((get_pte st4 a k (pte_index (faultaddress &&& PAGE_FRAME)) &&& PAGE_FRAME)
        ||| TLBLO_DIRTY) ||| TLBLO_VALID), ?_, hi, ?_, (tlb_entry_bits _).1, (tlb_entry_bits _).2⟩
    · rw [hvm, if_pos (hWiff.mpr h1)]
    · rw [hti]
      simp


set_option maxRecDepth 100000 in
/-- Witness of C2 (amended): the `VM_FAULT_READONLY` fault on the data page `0x10000000` of
`plain_kernel`. -/
theorem vm_fault_readonly_checks_permission_witness :
    plain_kernel.t_vmspace = some 7
    ∧ classify (plain_kernel.ass 7) (0x10000000 &&& PAGE_FRAME) = some (6, false)
    ∧ ∃ st1 i elo, vm_fault plain_kernel VM_FAULT_READONLY 0x10000000 0 0 = .ok (VM_FAULT_OK, st1)
        ∧ i < NUM_TLB ∧ st1.tlb i = (0x10000000 &&& PAGE_FRAME, elo)
        ∧ elo &&& TLBLO_DIRTY ≠ 0 ∧ elo &&& TLBLO_VALID ≠ 0 := by
  refine ⟨rfl, by decide, ?_⟩
  refine (vm_fault_readonly_checks_permission plain_kernel 7 0x10000000 6 0 0 rfl (by decide)
    ⟨pte_result plain_kernel 7 (0x10000000 &&& PAGE_FRAME) 6 0, by rfl⟩
    (Or.inl plain_kernel_free_frame) ?_).2 (by decide)
  intro k st1 h
  have h0 : get_ptbl plain_kernel (some 7) (0x10000000 &&& PAGE_FRAME)
      (exec_page (plain_kernel.ass 7) (0x10000000 &&& PAGE_FRAME))
      = .ok (walk_slot plain_kernel 7 (0x10000000 &&& PAGE_FRAME) false,
          walk_state plain_kernel 7 (0x10000000 &&& PAGE_FRAME) false) := by rfl
  rw [h0] at h
  simp only [Except.ok.injEq, Prod.mk.injEq] at h
  obtain ⟨h1, h2⟩ := h
  subst h1; subst h2
  decide

set_option maxRecDepth 100000 in
/-- C4 fails as stated: in `swapless_kernel` (swap store full) after `warm_faults` the three
resident page-table slots are taken and frame 9 is free; the page `0x7fffe000` is exactly
`stack_vbase - PAGE_SIZE`, at or above `heap_vtop` and the growth limit and in neither load
region, yet the read fault on it does not return: bringing in the page table of its directory
evicts a resident page table, and `swap_out_page` ends in `panic("Out of swap space!")`. -/
theorem vm_fault_stack_probe_aborts_when_swap_is_full :
    aborted (run_faults swapless_kernel warm_faults) = none
    ∧ (final_state swapless_kernel (run_faults swapless_kernel warm_faults)).t_vmspace = some 7
    ∧ ((final_state swapless_kernel (run_faults swapless_kernel warm_faults)).ass 7).as_stack_vbase
        = 0x7fffe000 + PAGE_SIZE
    ∧ ((final_state swapless_kernel (run_faults swapless_kernel warm_faults)).ass 7).as_heap_vtop
        ≤ 0x7fffe000
    ∧ USERSTACK - 24 * PAGE_SIZE ≤ 0x7fffe000
    ∧ classify ((final_state swapless_kernel (run_faults swapless_kernel warm_faults)).ass 7)
        0x7fffe000 = some (PF_R ||| PF_W, true)
    ∧ ((final_state swapless_kernel (run_faults swapless_kernel warm_faults)).pages 9).flags
        &&& PFLAG_USED_MASK = 0
    ∧ aborted (vm_fault (final_state swapless_kernel (run_faults swapless_kernel warm_faults))
        VM_FAULT_READ 0x7fffe000 0 0) = some Abort.panic := by
  decide

/-- C4 (amended): take a READ or WRITE fault whose page is exactly `stack_vbase - PAGE_SIZE`
with `stack_vbase <= USERSTACK`, at or above `heap_vtop` and `USERSTACK - 24*PAGE_SIZE`, in
neither load region, with a free frame, for which `find_pte` returns, whose directory is
marked `PRESENT` and `LOADED` when a resident slot is tagged with it, and whose page-table
entry has X clear and, if already `VALID`, has R and W.  Then `vm_fault` returns
`VM_FAULT_OK`, lowers `stack_vbase` by exactly one page, and leaves the page mapped in a
resident slot with `VALID`, R and W set and X clear; a second fault on the same address returns
`VM_FAULT_OK` and changes neither the frame table, memory, the swap store nor any page-table
entry. -/
theorem vm_fault_stack_growth (st : Kernel) (a faulttype faultaddress rp rt : Nat)
    (hcur : st.t_vmspace = some a)
    (hft : faulttype = VM_FAULT_READ ∨ faulttype = VM_FAULT_WRITE)
    (hpage : (faultaddress &&& PAGE_FRAME) + PAGE_SIZE = (st.ass a).as_stack_vbase)
    (htop : (st.ass a).as_stack_vbase ≤ USERSTACK)
    (hheap : (st.ass a).as_heap_vtop ≤ faultaddress &&& PAGE_FRAME)
    (hlim : USERSTACK - DUMBVM_STACKPAGES * PAGE_SIZE ≤ faultaddress &&& PAGE_FRAME)
    (hr1 : ¬ ((st.ass a).as_vbase1 ≤ faultaddress &&& PAGE_FRAME
      ∧ faultaddress &&& PAGE_FRAME
          < ((st.ass a).as_vbase1 + (st.ass a).as_npages1 * PAGE_SIZE) % WORD))
    (hr2 : ¬ ((st.ass a).as_vbase2 ≤ faultaddress &&& PAGE_FRAME
      ∧ faultaddress &&& PAGE_FRAME
          < ((st.ass a).as_vbase2 + (st.ass a).as_npages2 * PAGE_SIZE) % WORD))
    (hfree : free_frame_available st)
    (hwalk : ∃ r, find_pte (grow_stack st a) (some a) (faultaddress &&& PAGE_FRAME)
      (PF_R ||| PF_W) rp = .ok r)
    (hslots : slots_match_directory (st.ass a) (faultaddress &&& PAGE_FRAME))
    (hentry : ∀ k st1,
      get_ptbl (grow_stack st a) (some a) (faultaddress &&& PAGE_FRAME) false = .ok (k, st1) →
        get_pte st1 a k (pte_index (faultaddress &&& PAGE_FRAME)) &&& PF_X = 0
        ∧ (get_pte st1 a k (pte_index (faultaddress &&& PAGE_FRAME)) &&& PGTBL_VALID_MASK ≠ 0 →
            get_pte st1 a k (pte_index (faultaddress &&& PAGE_FRAME)) &&& PF_R ≠ 0
            ∧ get_pte st1 a k (pte_index (faultaddress &&& PAGE_FRAME)) &&& PF_W ≠ 0)) :
    ∃ st1 k, vm_fault st faulttype faultaddress rp rt = .ok (VM_FAULT_OK, st1)
      ∧ (st1.ass a).as_stack_vbase + PAGE_SIZE = (st.ass a).as_stack_vbase
      ∧ k < NUM_PTABLES_IN_MEM
      ∧ (st1.ass a).page_table_flags k &&& PGDIR_INDEX
          = (faultaddress &&& PAGE_FRAME) &&& PGDIR_INDEX
      ∧ get_pte st1 a k (pte_index (faultaddress &&& PAGE_FRAME)) &&& PGTBL_VALID_MASK ≠ 0
      ∧ get_pte st1 a k (pte_index (faultaddress &&& PAGE_FRAME)) &&& PF_R ≠ 0
      ∧ get_pte st1 a k (pte_index (faultaddress &&& PAGE_FRAME)) &&& PF_W ≠ 0
      ∧ get_pte st1 a k (pte_index (faultaddress &&& PAGE_FRAME)) &&& PF_X = 0
      ∧ ∀ rp2 rt2, ∃ st2, vm_fault st1 faulttype faultaddress rp2 rt2 = .ok (VM_FAULT_OK, st2)
          ∧ st2.pages = st1.pages ∧ st2.mem = st1.mem ∧ st2.swap_map = st1.swap_map
          ∧ st2.disk = st1.disk
          ∧ (st2.ass a).ptables_in_mem = (st1.ass a).ptables_in_mem := by
  -- the fault is classified as a stack probe
  have hclass : classify (st.ass a) (faultaddress &&& PAGE_FRAME)
      = some (PF_R ||| PF_W, true) := by
    unfold classify
    simp only [USERSTACK, DUMBVM_STACKPAGES, PAGE_SIZE, WORD, ge_iff_le] at *
    rw [if_neg hr1, if_neg hr2, if_neg (by omega), if_pos (by omega)]
  have hx : exec_page ((grow_stack st a).ass a) (faultaddress &&& PAGE_FRAME) = false := by
    unfold exec_page
    simp only [grow_stack, setAs, Function.update_same, ge_iff_le, decide_eq_false_iff_not]
    split_ifs
    · exact hr1
    · exact hr2
  obtain ⟨⟨ptr, st4⟩, hw⟩ := hwalk
  have hfree0 : free_frame_available (grow_stack st a) := hfree
  obtain ⟨k, s1, hg, hptr, pt, pg, m, sm, hst4, hval, hnval⟩ :=
    find_pte_no_evict hw (Or.inl hfree0)
  rw [hx] at hg
  obtain ⟨hX, hRW⟩ := hentry k s1 hg
  have hslots0 : slots_match_directory ((grow_stack st a).ass a) (faultaddress &&& PAGE_FRAME) := by
    simpa [slots_match_directory, grow_stack, setAs] using hslots
  obtain ⟨hk, hP, hL, htag, hfirst⟩ := get_ptbl_post hg
  have hfirst := hfirst hslots0
  obtain ⟨pd, pt1, fl, sm1, dk1, hs1⟩ := cache_step_get_ptbl hg
  obtain ⟨i, elo, _, hvm⟩ := vm_fault_read_write rp rt hcur hft hclass rfl hw
  -- the entry of the page after the fault
  have hbits : pt k (pte_index (faultaddress &&& PAGE_FRAME)) &&& PGTBL_VALID_MASK ≠ 0
      ∧ pt k (pte_index (faultaddress &&& PAGE_FRAME)) &&& PF_R ≠ 0
      ∧ pt k (pte_index (faultaddress &&& PAGE_FRAME)) &&& PF_W ≠ 0
      ∧ pt k (pte_index (faultaddress &&& PAGE_FRAME)) &&& PF_X = 0 := by
    by_cases hv : get_pte s1 a k (pte_index (faultaddress &&& PAGE_FRAME)) &&& PGTBL_VALID_MASK ≠ 0
    · rw [hval hv]
      exact ⟨hv, (hRW hv).1, (hRW hv).2, hX⟩
    · have hv0 : get_pte s1 a k (pte_index (faultaddress &&& PAGE_FRAME)) &&& PGTBL_VALID_MASK = 0 := by
        by_contra hc; exact hv hc
      obtain ⟨e, pa, he, hpt⟩ := hnval hv0
      rw [hpt]
      refine ⟨installed_entry_valid _ _ _, ?_, ?_, ?_⟩
      · rw [flag_ne_zero_iff _ PF_R 2 rfl,
          installed_entry_bit e pa _ 2 (by decide) (by decide) (by decide)]
        have : (PF_R ||| PF_W).testBit 2 = true := by decide
        simp [this]
      · rw [flag_ne_zero_iff _ PF_W 1 rfl,
          installed_entry_bit e pa _ 1 (by decide) (by decide) (by decide)]
        have : (PF_R ||| PF_W).testBit 1 = true := by decide
        simp [this]
      · rw [flag_eq_zero_iff _ PF_X 0 rfl,
          installed_entry_bit e pa _ 0 (by decide) (by decide) (by decide)]
        rw [flag_eq_zero_iff _ PF_X 0 rfl] at hX
        have h6 : (PF_R ||| PF_W).testBit 0 = false := by decide
        have he0 : e.testBit 0
            = (get_pte s1 a k (pte_index (faultaddress &&& PAGE_FRAME))).testBit 0 := by
          rcases he with h | h
          · rw [h]
          · rw [h, loaded_bit _ 0 (by decide)]
        rw [he0, hX, h6]
        rfl
  -- the address space after the fault
  obtain ⟨stf, hstf⟩ : ∃ s : Kernel, s = { st4 with tlb := Function.update st4.tlb i (faultaddress &&& PAGE_FRAME, elo) } := ⟨_, rfl⟩
  rw [← hstf] at hvm
  have hA : stf.ass a = { s1.ass a with ptables_in_mem := pt } := by
    rw [hstf, hst4]; simp
  have hS1 : s1.ass a = { (grow_stack st a).ass a with
      pg_dir := pd, ptables_in_mem := pt1, page_table_flags := fl } := by
    rw [hs1]; simp
  have hS0 : (grow_stack st a).ass a = { st.ass a with
      as_stack_vbase := ((st.ass a).as_stack_vbase + WORD - PAGE_SIZE) % WORD } := by
    simp [grow_stack, setAs]
  have hvb : ((st.ass a).as_stack_vbase + WORD - PAGE_SIZE) % WORD
      = faultaddress &&& PAGE_FRAME := by
    simp only [USERSTACK, PAGE_SIZE, WORD] at *
    omega
  refine ⟨stf, k, hvm, ?_, hk, ?_, ?_, ?_, ?_, ?_, ?_⟩
  · rw [hA]
    simp only [hS1, hS0, hvb]
    exact hpage
  · rw [hA]
    exact htag
  · simp only [get_pte]; rw [hA]; exact hbits.1
  · simp only [get_pte]; rw [hA]; exact hbits.2.1
  · simp only [get_pte]; rw [hA]; exact hbits.2.2.1
  · simp only [get_pte]; rw [hA]; exact hbits.2.2.2
  · intro rp2 rt2
    have hcur2 : stf.t_vmspace = some a := by
      rw [hstf, hst4, hs1]; exact hcur
    have hclass2 : classify (stf.ass a) (faultaddress &&& PAGE_FRAME)
        = some (PF_R ||| PF_W, false) := by
      rw [hA]
      unfold classify
      simp only [hS1, hS0, hvb]
      simp only [USERSTACK, DUMBVM_STACKPAGES, PAGE_SIZE, WORD, ge_iff_le] at *
      rw [if_neg hr1, if_neg hr2, if_pos (by omega)]
    have hfm := @find_pte_mapped stf a (faultaddress &&& PAGE_FRAME) k (PF_R ||| PF_W) rp2
      (by rw [hA]; exact hL) (by rw [hA]; exact hP) hk (by rw [hA]; exact htag)
      (by rw [hA]; exact hfirst) (by simp only [get_pte]; rw [hA]; exact hbits.1)
    obtain ⟨i2, elo2, _, hvm2⟩ := vm_fault_read_write rp2 rt2 hcur2 hft hclass2 rfl hfm
    refine ⟨_, hvm2, ?_⟩
    simp [set_ptflags, setAs]

set_option maxRecDepth 100000 in
/-- Witness of C4 (amended): the read fault on the page `0x7fffe000` just below the stack of
`plain_kernel`. -/
theorem vm_fault_stack_growth_witness :
    plain_kernel.t_vmspace = some 7
    ∧ (0x7fffe000 &&& PAGE_FRAME) + PAGE_SIZE = (plain_kernel.ass 7).as_stack_vbase
    ∧ ∃ st1 k, vm_fault plain_kernel VM_FAULT_READ 0x7fffe000 0 0 = .ok (VM_FAULT_OK, st1)
      ∧ (st1.ass 7).as_stack_vbase + PAGE_SIZE = (plain_kernel.ass 7).as_stack_vbase
      ∧ k < NUM_PTABLES_IN_MEM
      ∧ (st1.ass 7).page_table_flags k &&& PGDIR_INDEX
          = (0x7fffe000 &&& PAGE_FRAME) &&& PGDIR_INDEX
      ∧ get_pte st1 7 k (pte_index (0x7fffe000 &&& PAGE_FRAME)) &&& PGTBL_VALID_MASK ≠ 0
      ∧ get_pte st1 7 k (pte_index (0x7fffe000 &&& PAGE_FRAME)) &&& PF_R ≠ 0
      ∧ get_pte st1 7 k (pte_index (0x7fffe000 &&& PAGE_FRAME)) &&& PF_W ≠ 0
      ∧ get_pte st1 7 k (pte_index (0x7fffe000 &&& PAGE_FRAME)) &&& PF_X = 0
      ∧ ∀ rp2 rt2, ∃ st2, vm_fault st1 VM_FAULT_READ 0x7fffe000 rp2 rt2 = .ok (VM_FAULT_OK, st2)
          ∧ st2.pages = st1.pages ∧ st2.mem = st1.mem ∧ st2.swap_map = st1.swap_map
          ∧ st2.disk = st1.disk
          ∧ (st2.ass 7).ptables_in_mem = (st1.ass 7).ptables_in_mem := by
  refine ⟨rfl, by decide, ?_⟩
  refine vm_fault_stack_growth plain_kernel 7 VM_FAULT_READ 0x7fffe000 0 0 rfl (Or.inl rfl)
    (by decide) (by decide) (by decide) (by decide) (by decide) (by decide)
    plain_kernel_free_frame
    ⟨pte_result (grow_stack plain_kernel 7) 7 (0x7fffe000 &&& PAGE_FRAME) (PF_R ||| PF_W) 0,
      by rfl⟩ (by unfold slots_match_directory; decide) ?_
  intro k st1 h
  have h0 : get_ptbl (grow_stack plain_kernel 7) (some 7) (0x7fffe000 &&& PAGE_FRAME) false
      = .ok (walk_slot (grow_stack plain_kernel 7) 7 (0x7fffe000 &&& PAGE_FRAME) false,
          walk_state (grow_stack plain_kernel 7) 7 (0x7fffe000 &&& PAGE_FRAME) false) := by rfl
  rw [h0] at h
  simp only [Except.ok.injEq, Prod.mk.injEq] at h
  obtain ⟨h1, h2⟩ := h
  subst h1; subst h2
  decide

/-! ## Claims about the swap store -/

/-- C16: on a swap table with a free slot and no in-use slot keyed `(as, vpn)`, for a
page-aligned `vpn`, `swap_out_page(as, vpn, p)` and then `swap_in_page(as, vpn, q)` both
return, frame `q` then holds the 4096 bytes frame `p` held at the swap-out, and the set of
in-use swap slots is what it was before the swap-out. -/
theorem swap_out_then_swap_in_round_trip (st : Kernel) (asp : Option Nat) (vpn p q : Nat)
    (hfree : ∃ j, j < SWAP_MAP_SIZE ∧ ¬ slot_in_use st j)
    (hnokey : ∀ j, j < SWAP_MAP_SIZE → ¬ slot_keyed st asp vpn j)
    (halign : vpn &&& PAGE_FRAME = vpn) :
    ∃ st1 st2, swap_out_page st asp vpn (.frame p) = .ok st1
      ∧ swap_in_page st1 asp vpn (.frame q) = .ok st2
      ∧ (∀ o, o < PAGE_SIZE → st2.mem (frame_index st2 q) o = st.mem (frame_index st p) o)
      ∧ ∀ j, slot_in_use st2 j ↔ slot_in_use st j := by
  obtain ⟨j, hj, hjf⟩ := hfree
  obtain ⟨i, hi, hif, hlow, hout⟩ := swap_out_spec st asp vpn (.frame p)
    ⟨j, hj, by simpa [slot_in_use] using hjf⟩
  obtain ⟨st1, hst1⟩ : ∃ s : Kernel, s = { st with swap_map := Function.update st.swap_map i { as := asp, flags := (vpn &&& PAGE_FRAME) ||| SWMAP_FLAG_USED }, disk := fun o => if i * PAGE_SIZE ≤ o ∧ o < i * PAGE_SIZE + PAGE_SIZE then read_page st (.frame p) (o - i * PAGE_SIZE) else st.disk o } := ⟨_, rfl⟩
  rw [← hst1] at hout
  have hmap : st1.swap_map = Function.update st.swap_map i
      { as := asp, flags := (vpn &&& PAGE_FRAME) ||| SWMAP_FLAG_USED } := by rw [hst1]
  have hkeyi : slot_keyed st1 asp vpn i := by
    unfold slot_keyed
    rw [hmap, Function.update_same]
    exact ⟨swap_key_used vpn, rfl, by rw [swap_key_frame, halign]⟩
  obtain ⟨i2, hi2, hk2, _, hfind⟩ := find_swapped_spec st1 asp vpn ⟨i, hi, hkeyi⟩
  have hii : i2 = i := by
    by_contra hne
    apply hnokey i2 hi2
    unfold slot_keyed at hk2 ⊢
    rw [hmap, Function.update_noteq hne] at hk2
    exact hk2
  subst hii
  have hin := swap_in_spec (.frame q) hfind
  refine ⟨st1, _, hout, hin, ?_, ?_⟩
  · intro o ho
    rw [write_page_frame_mem]
    rw [hst1]
    simp [read_page, ho]
  · intro k
    unfold slot_in_use
    rw [(write_page_swap_map _ _ _).1]
    simp only
    by_cases hk : k = i2
    · subst hk
      simp only [Function.update_same]
      constructor
      · intro h; exact absurd (Nat.zero_and _) h
      · intro h; exact absurd hif h
    · rw [Function.update_noteq hk, hmap, Function.update_noteq hk]

/-- Witness of C16: frame 7 of `plain_kernel` swapped out for `(7, 0x10000000)` and brought
back into frame 8. -/
theorem swap_out_then_swap_in_round_trip_witness :
    (∃ j, j < SWAP_MAP_SIZE ∧ ¬ slot_in_use plain_kernel j)
    ∧ (∀ j, j < SWAP_MAP_SIZE → ¬ slot_keyed plain_kernel (some 7) 0x10000000 j)
    ∧ 0x10000000 &&& PAGE_FRAME = 0x10000000
    ∧ ∃ st1 st2, swap_out_page plain_kernel (some 7) 0x10000000 (.frame 0x47000) = .ok st1
      ∧ swap_in_page st1 (some 7) 0x10000000 (.frame 0x48000) = .ok st2
      ∧ (∀ o, o < PAGE_SIZE → st2.mem (frame_index st2 0x48000) o
          = plain_kernel.mem (frame_index plain_kernel 0x47000) o)
      ∧ ∀ j, slot_in_use st2 j ↔ slot_in_use plain_kernel j :=
  ⟨⟨0, by decide, by unfold slot_in_use; decide⟩, fun j _ h => plain_kernel_swap_empty j h.1, by decide,
    swap_out_then_swap_in_round_trip plain_kernel (some 7) 0x10000000 0x47000 0x48000
      ⟨0, by decide, by unfold slot_in_use; decide⟩ (fun j _ h => plain_kernel_swap_empty j h.1) (by decide)⟩

/-- C17: when a swap slot is free, `swap_out_page(as, vpn, p)` returns, having claimed the
lowest-indexed free slot `i`: the slot records owner `as` and the flag word
`(vpn & PAGE_FRAME) | SWMAP_FLAG_USED` (virtual page `vpn`, in use), the 4096 bytes of frame
`p` stand at device offset `i * 4096`, no other slot changes and no other byte of the device
changes. -/
theorem swap_out_page_claims_lowest_free_slot (st : Kernel) (asp : Option Nat) (vpn p : Nat)
    (hfree : ∃ j, j < SWAP_MAP_SIZE ∧ ¬ slot_in_use st j) :
    ∃ i st1, swap_out_page st asp vpn (.frame p) = .ok st1
      ∧ i < SWAP_MAP_SIZE ∧ ¬ slot_in_use st i ∧ (∀ j, j < i → slot_in_use st j)
      ∧ (st1.swap_map i).as = asp
      ∧ (st1.swap_map i).flags = (vpn &&& PAGE_FRAME) ||| SWMAP_FLAG_USED
      ∧ slot_in_use st1 i
      ∧ (st1.swap_map i).flags &&& PAGE_FRAME = vpn &&& PAGE_FRAME
      ∧ (∀ o, o < PAGE_SIZE → st1.disk (i * PAGE_SIZE + o) = st.mem (frame_index st p) o)
      ∧ (∀ j, j ≠ i → st1.swap_map j = st.swap_map j)
      ∧ (∀ o, ¬ (i * PAGE_SIZE ≤ o ∧ o < i * PAGE_SIZE + PAGE_SIZE) → st1.disk o = st.disk o) := by
  obtain ⟨j, hj, hjf⟩ := hfree
  obtain ⟨i, hi, hif, hlow, hout⟩ := swap_out_spec st asp vpn (.frame p)
    ⟨j, hj, by simpa [slot_in_use] using hjf⟩
  refine ⟨i, _, hout, hi, by simpa [slot_in_use] using hif, hlow, ?_, ?_, ?_, ?_, ?_, ?_, ?_⟩
  · simp
  · simp
  · simp only [slot_in_use, Function.update_same]
    exact swap_key_used vpn
  · simp only [Function.update_same]
    exact swap_key_frame vpn
  · intro o ho
    simp [read_page, ho]
  · intro k hk
    simp [Function.update_noteq hk]
  · intro o ho
    simp only
    rw [if_neg ho]

/-- Witness of C17: swapping out frame 7 of `plain_kernel`, whose swap table is empty, for
`(7, 0x10000000)`. -/
theorem swap_out_page_claims_lowest_free_slot_witness :
    (∃ j, j < SWAP_MAP_SIZE ∧ ¬ slot_in_use plain_kernel j)
    ∧ ∃ i st1, swap_out_page plain_kernel (some 7) 0x10000000 (.frame 0x47000) = .ok st1
      ∧ i < SWAP_MAP_SIZE ∧ ¬ slot_in_use plain_kernel i
      ∧ (∀ j, j < i → slot_in_use plain_kernel j)
      ∧ (st1.swap_map i).as = some 7
      ∧ (st1.swap_map i).flags = (0x10000000 &&& PAGE_FRAME) ||| SWMAP_FLAG_USED
      ∧ slot_in_use st1 i
      ∧ (st1.swap_map i).flags &&& PAGE_FRAME = 0x10000000 &&& PAGE_FRAME
      ∧ (∀ o, o < PAGE_SIZE →
          st1.disk (i * PAGE_SIZE + o) = plain_kernel.mem (frame_index plain_kernel 0x47000) o)
      ∧ (∀ j, j ≠ i → st1.swap_map j = plain_kernel.swap_map j)
      ∧ (∀ o, ¬ (i * PAGE_SIZE ≤ o ∧ o < i * PAGE_SIZE + PAGE_SIZE) →
          st1.disk o = plain_kernel.disk o) :=
  ⟨⟨0, by decide, by unfold slot_in_use; decide⟩,
    swap_out_page_claims_lowest_free_slot plain_kernel (some 7) 0x10000000 0x47000
      ⟨0, by decide, by unfold slot_in_use; decide⟩⟩

/-- C18: on a swap table with an in-use slot keyed `(as, vpn)`, `swap_copy_in_page(as, vpn, q)`
returns with the 4096 bytes of the first such slot `i` in frame `q` and with the swap table and
the device unchanged; a later `swap_in_page(as, vpn, r)` returns with the same bytes in frame
`r`. -/
theorem swap_copy_in_page_keeps_slot (st : Kernel) (asp : Option Nat) (vpn q r : Nat)
    (hkey : ∃ j, j < SWAP_MAP_SIZE ∧ slot_keyed st asp vpn j) :
    ∃ i st1 st2, i < SWAP_MAP_SIZE ∧ slot_keyed st asp vpn i
      ∧ (∀ j, j < i → ¬ slot_keyed st asp vpn j)
      ∧ swap_copy_in_page st asp vpn (.frame q) = .ok st1
      ∧ (∀ o, o < PAGE_SIZE → st1.mem (frame_index st1 q) o = st.disk (i * PAGE_SIZE + o))
      ∧ st1.swap_map = st.swap_map ∧ st1.disk = st.disk
      ∧ swap_in_page st1 asp vpn (.frame r) = .ok st2
      ∧ (∀ o, o < PAGE_SIZE → st2.mem (frame_index st2 r) o = st.disk (i * PAGE_SIZE + o)) := by
  obtain ⟨i, hi, hk, hlow, hfind⟩ := find_swapped_spec st asp vpn hkey
  have hcopy := @swap_copy_in_spec st asp vpn i (.frame q) hfind
  have hfind1 : find_swapped_index (write_page st (.frame q) (fun o => st.disk (i * PAGE_SIZE + o)))
      asp vpn = some i := by
    rw [← hfind]
    simp [find_swapped_index, write_page]
  have hin := @swap_in_spec _ asp vpn i (.frame r) hfind1
  refine ⟨i, _, _, hi, hk, hlow, hcopy, ?_, ?_, ?_, hin, ?_⟩
  · intro o _
    rw [write_page_frame_mem]
  · exact (write_page_swap_map _ _ _).1
  · exact (write_page_swap_map _ _ _).2
  · intro o _
    rw [write_page_frame_mem]
    simp [write_page]

set_option maxRecDepth 100000 in
/-- Witness of C18: the slot of `swapped_kernel` keyed `(7, 0x10000000)` copied into frame 8
and then moved into frame 9. -/
theorem swap_copy_in_page_keeps_slot_witness :
    (∃ j, j < SWAP_MAP_SIZE ∧ slot_keyed swapped_kernel (some 7) 0x10000000 j)
    ∧ ∃ i st1 st2, i < SWAP_MAP_SIZE ∧ slot_keyed swapped_kernel (some 7) 0x10000000 i
      ∧ (∀ j, j < i → ¬ slot_keyed swapped_kernel (some 7) 0x10000000 j)
      ∧ swap_copy_in_page swapped_kernel (some 7) 0x10000000 (.frame 0x48000) = .ok st1
      ∧ (∀ o, o < PAGE_SIZE →
          st1.mem (frame_index st1 0x48000) o = swapped_kernel.disk (i * PAGE_SIZE + o))
      ∧ st1.swap_map = swapped_kernel.swap_map ∧ st1.disk = swapped_kernel.disk
      ∧ swap_in_page st1 (some 7) 0x10000000 (.frame 0x49000) = .ok st2
      ∧ (∀ o, o < PAGE_SIZE →
          st2.mem (frame_index st2 0x49000) o = swapped_kernel.disk (i * PAGE_SIZE + o)) :=
  ⟨⟨0, by decide, by unfold slot_keyed; decide⟩,
    swap_copy_in_page_keeps_slot swapped_kernel (some 7) 0x10000000 0x48000 0x49000
      ⟨0, by decide, by unfold slot_keyed; decide⟩⟩

set_option maxRecDepth 100000 in
/-- C19 fails as stated: `swapped_kernel` has one in-use swap slot, keyed `(7, 0x10000000)`,
and satisfies the invariant; `swap_out_page` with the same address space and virtual page
returns and leaves slots 0 and 1 both in use with that key. -/
theorem swap_out_page_duplicates_key :
    swap_unique swapped_kernel
    ∧ ∃ st1, swap_out_page swapped_kernel (some 7) 0x10000000 (.frame 0x47000) = .ok st1
        ∧ ¬ swap_unique st1 := by
  constructor
  · exact @swap_unique_swap_out plain_kernel swapped_kernel (some 7) 0x10000000 (.frame 0x47000)
      (fun j _ h => plain_kernel_swap_empty j h.1) (by rfl) plain_kernel_swap_unique
  · refine ⟨swap_state swapped_kernel
      (swap_out_page swapped_kernel (some 7) 0x10000000 (.frame 0x47000)), by rfl, ?_⟩
    intro h
    have h01 := h 0 1 (by decide) (by decide) (by unfold slot_in_use; decide)
      (by unfold slot_in_use; decide) (by decide) (by decide)
    exact absurd h01 (by decide)

/-- C19 (amended): the invariant "at most one in-use slot per (address space, virtual page)
pair" is preserved by `swap_in_page`, `swap_copy_in_page`, `swap_free_pages` and
`reclaim_all_swap_sections` for all arguments, and by `swap_out_page(as, vpn, p)` when no
in-use slot is keyed `(as, vpn & PAGE_FRAME)` before the call. -/
theorem swap_operations_keep_slots_unique (st : Kernel) (hinv : swap_unique st) :
    (∀ asp vpn l st1, swap_in_page st asp vpn l = .ok st1 → swap_unique st1)
    ∧ (∀ asp vpn l st1, swap_copy_in_page st asp vpn l = .ok st1 → swap_unique st1)
    ∧ (∀ asp, swap_unique (swap_free_pages st asp))
    ∧ swap_unique (reclaim_all_swap_sections st)
    ∧ (∀ asp vpn l st1, (∀ j, j < SWAP_MAP_SIZE → ¬ slot_keyed st asp (vpn &&& PAGE_FRAME) j) →
        swap_out_page st asp vpn l = .ok st1 → swap_unique st1) :=
  ⟨fun _ _ _ _ h => swap_unique_swap_in h hinv,
   fun _ _ _ _ h => swap_unique_swap_copy_in h hinv,
   fun asp => swap_unique_swap_free st asp hinv,
   swap_unique_reclaim st,
   fun _ _ _ _ hk h => swap_unique_swap_out hk h hinv⟩

set_option maxRecDepth 100000 in
/-- Witness of C19 (amended): on `swapped_kernel`, whose slot 0 is in use, the five operations
run and keep the invariant; `swap_out_page` is given the other page `0x10001000`. -/
theorem swap_operations_keep_slots_unique_witness :
    swap_unique swapped_kernel
    ∧ (∃ st1, swap_in_page swapped_kernel (some 7) 0x10000000 (.frame 0x48000) = .ok st1
        ∧ swap_unique st1)
    ∧ (∃ st1, swap_copy_in_page swapped_kernel (some 7) 0x10000000 (.frame 0x48000) = .ok st1
        ∧ swap_unique st1)
    ∧ swap_unique (swap_free_pages swapped_kernel (some 7))
    ∧ swap_unique (reclaim_all_swap_sections swapped_kernel)
    ∧ (∃ st1, swap_out_page swapped_kernel (some 7) 0x10001000 (.frame 0x48000) = .ok st1
        ∧ swap_unique st1) := by
  have hinv : swap_unique swapped_kernel :=
    @swap_unique_swap_out plain_kernel swapped_kernel (some 7) 0x10000000 (.frame 0x47000)
      (fun j _ h => plain_kernel_swap_empty j h.1) (by rfl) plain_kernel_swap_unique
  have h := swap_operations_keep_slots_unique swapped_kernel hinv
  refine ⟨hinv, ?_, ?_, h.2.2.1 _, h.2.2.2.1, ?_⟩
  · exact ⟨swap_state swapped_kernel
      (swap_in_page swapped_kernel (some 7) 0x10000000 (.frame 0x48000)), by rfl,
      h.1 (some 7) 0x10000000 (.frame 0x48000) _ (by rfl)⟩
  · exact ⟨swap_state swapped_kernel
      (swap_copy_in_page swapped_kernel (some 7) 0x10000000 (.frame 0x48000)), by rfl,
      h.2.1 (some 7) 0x10000000 (.frame 0x48000) _ (by rfl)⟩
  · refine ⟨swap_state swapped_kernel
      (swap_out_page swapped_kernel (some 7) 0x10001000 (.frame 0x48000)), by rfl,
      h.2.2.2.2 (some 7) 0x10001000 (.frame 0x48000) _ ?_ (by rfl)⟩
    intro j hj hk
    have hj0 : j = 0 := by
      by_contra hne
      have : slot_in_use plain_kernel j := by
        have h1 := hk.1
        have e : swapped_kernel.swap_map j = plain_kernel.swap_map j := by
          show (Function.update plain_kernel.swap_map 0 _) j = _
          rw [Function.update_noteq hne]
        rw [e] at h1
        exact h1
      exact plain_kernel_swap_empty j this
    subst hj0
    exact absurd hk.2.2 (by decide)

/-! ## Claims about the frame table -/

/-- C12: when a frame is free (the managed frames lying in `(0, 2^32)`, as `vm_bootstrap`
places them), `alloc_page(as, vpn)` with a non-null `as` returns `free_paddr + i * PAGE_SIZE`
for the lowest-indexed free frame `i`, sets that entry to owner `as`, virtual page `vpn` and
flags `PFLAG_USED_MASK`, and changes nothing else. -/
theorem alloc_page_takes_lowest_free_frame (st : Kernel) (a vpn r : Nat)
    (hfree : ∃ j, j < st.num_pages ∧ (st.pages j).flags &&& PFLAG_USED_MASK = 0)
    (hbase : 0 < st.free_paddr)
    (hfit : st.free_paddr + st.num_pages * PAGE_SIZE ≤ WORD) :
    ∃ i st1, alloc_page st (some a) vpn r = .ok (st.free_paddr + i * PAGE_SIZE, st1)
      ∧ i < st.num_pages
      ∧ (st.pages i).flags &&& PFLAG_USED_MASK = 0
      ∧ (∀ j, j < i → (st.pages j).flags &&& PFLAG_USED_MASK ≠ 0)
      ∧ st1.pages i = { as := some a, vpn := vpn, flags := PFLAG_USED_MASK }
      ∧ (∀ j, j ≠ i → st1.pages j = st.pages j)
      ∧ st1 = { st with pages := st1.pages } := by
  obtain ⟨j, hj, hjf⟩ := hfree
  obtain ⟨i, hi⟩ := @scanUp_exists
    (fun i => decide ((st.pages i).flags &&& PFLAG_USED_MASK = 0)) st.num_pages 0 j
    (Nat.zero_le j) (by omega) (by simpa using hjf)
  obtain ⟨_, hlt, hpi, hlow⟩ := scanUp_some hi
  have hilt : i < st.num_pages := by omega
  have hpa : frame_paddr st i = st.free_paddr + i * PAGE_SIZE := by
    unfold frame_paddr
    apply Nat.mod_eq_of_lt
    have : i * PAGE_SIZE < st.num_pages * PAGE_SIZE :=
      Nat.mul_lt_mul_of_pos_right hilt (by decide)
    omega
  have hne : frame_paddr st i ≠ 0 := by rw [hpa]; omega
  refine ⟨i, { st with pages := Function.update st.pages i ⟨some a, vpn, PFLAG_USED_MASK⟩ },
    ?_, hilt, by simpa using hpi, fun k hk => ?_, ?_, fun k hk => ?_, rfl⟩
  · unfold alloc_page
    simp only [hi]
    rw [← hpa]
    simp [hne]
  · have := hlow k (Nat.zero_le _) hk
    simpa using this
  · simp
  · simp [Function.update_noteq hk]

/-- Witness of C12: `alloc_page(7, 0x10000000)` on `plain_kernel`, whose frames 7, 8 and 9 are
free. -/
theorem alloc_page_takes_lowest_free_frame_witness :
    (∃ j, j < plain_kernel.num_pages ∧ (plain_kernel.pages j).flags &&& PFLAG_USED_MASK = 0)
    ∧ 0 < plain_kernel.free_paddr
    ∧ plain_kernel.free_paddr + plain_kernel.num_pages * PAGE_SIZE ≤ WORD
    ∧ ∃ i st1, alloc_page plain_kernel (some 7) 0x10000000 0
          = .ok (plain_kernel.free_paddr + i * PAGE_SIZE, st1)
      ∧ i < plain_kernel.num_pages
      ∧ (plain_kernel.pages i).flags &&& PFLAG_USED_MASK = 0
      ∧ (∀ j, j < i → (plain_kernel.pages j).flags &&& PFLAG_USED_MASK ≠ 0)
      ∧ st1.pages i = { as := some 7, vpn := 0x10000000, flags := PFLAG_USED_MASK }
      ∧ (∀ j, j ≠ i → st1.pages j = plain_kernel.pages j)
      ∧ st1 = { plain_kernel with pages := st1.pages } :=
  ⟨⟨7, by decide, by decide⟩, by decide, by decide,
    alloc_page_takes_lowest_free_frame plain_kernel 7 0x10000000 0
      ⟨7, by decide, by decide⟩ (by decide) (by decide)⟩

/-- C13: let `make_pg_available(as, vpn)` return frame `i` and let that frame be in use
before the call.  Then the frame was owned by `as`, the walk `get_ptbl` made for the victim page
returned a resident slot `k` of the owner whose entry named the frame, and on return: the
owner's entry for the victim page is the old entry with `VALID` cleared (same frame number,
every other bit unchanged), the frame's flag word is 0, every other frame-table entry is
unchanged, the result is the frame's physical address, and
* if the victim page lies outside the owner's executable region, the lowest free swap slot
  now records `(owner, victim vpn)` in use and the device holds the frame's 4096 bytes at that
  slot's offset, every other slot being as the walk left it;
* if it lies inside, the swap table and the device are as the walk left them. -/
theorem make_pg_available_evicts_victim (st st5 : Kernel) (a vpn r pa i : Nat)
    (hret : make_pg_available st a vpn r = .ok (pa, i, st5))
    (hused : (st.pages i).flags &&& PFLAG_USED_MASK ≠ 0) :
    (st.pages i).as = some a
    ∧ pa = frame_paddr st i
    ∧ (st5.pages i).flags = 0
    ∧ (∀ j, j ≠ i → st5.pages j = st.pages j)
    ∧ ∃ k st1, get_ptbl st (some a) (st.pages i).vpn (exec_page (st.ass a) (st.pages i).vpn)
          = .ok (k, st1)
      ∧ k < NUM_PTABLES_IN_MEM
      ∧ (st5.ass a).page_table_flags k &&& PGDIR_INDEX = (st.pages i).vpn &&& PGDIR_INDEX
      ∧ get_pte st1 a k (pte_index (st.pages i).vpn) &&& PAGE_FRAME = pa
      ∧ get_pte st5 a k (pte_index (st.pages i).vpn)
          = get_pte st1 a k (pte_index (st.pages i).vpn) &&& notw PGTBL_VALID_MASK
      ∧ get_pte st5 a k (pte_index (st.pages i).vpn) &&& PGTBL_VALID_MASK = 0
      ∧ (∀ b, b < 32 → b ≠ 3 → (get_pte st5 a k (pte_index (st.pages i).vpn)).testBit b
          = (get_pte st1 a k (pte_index (st.pages i).vpn)).testBit b)
      ∧ (exec_page (st.ass a) (st.pages i).vpn = false →
          ∃ s, s < SWAP_MAP_SIZE ∧ ¬ slot_in_use st1 s ∧ (∀ j, j < s → slot_in_use st1 j)
            ∧ st5.swap_map s
                = { as := some a, flags := ((st.pages i).vpn &&& PAGE_FRAME) ||| SWMAP_FLAG_USED }
            ∧ (∀ j, j ≠ s → st5.swap_map j = st1.swap_map j)
            ∧ ∀ o, o < PAGE_SIZE → st5.disk (s * PAGE_SIZE + o) = read_page st (.frame pa) o)
      ∧ (exec_page (st.ass a) (st.pages i).vpn = true →
          st5.swap_map = st1.swap_map ∧ st5.disk = st1.disk) := by
  obtain ⟨hown, hpa, k, st1, hg, hassert, st4, hswap, hst5⟩ := make_pg_available_used hret hused
  obtain ⟨hk, _, _, htag, _⟩ := get_ptbl_post hg
  obtain ⟨pd, pt, fl, sm, dk, hs1⟩ := cache_step_get_ptbl hg
  obtain ⟨hc1, hc2, hc3⟩ := clear_valid_bits (get_pte st1 a k (pte_index (st.pages i).vpn))
  have hp1 : st1.pages = st.pages := by rw [hs1]
  by_cases hx : exec_page (st.ass a) (st.pages i).vpn = true
  · rw [if_pos hx] at hswap
    simp only [Except.ok.injEq] at hswap
    subst hswap
    subst hst5
    refine ⟨hown, hpa, ?_, ?_, k, st1, hg, hk, ?_, ?_, ?_, ?_, ?_, ?_, ?_⟩
    · simp [set_page_flags]
    · intro j hj
      simp [set_page_flags, tlb_invalidate, set_pte, setAs, Function.update_noteq hj, hp1]
    · simpa [set_page_flags, tlb_invalidate, set_pte, setAs] using htag
    · rw [hpa, hassert, hc2]
    · simp [get_pte, set_page_flags, tlb_invalidate, set_pte, setAs]
    · simpa [get_pte, set_page_flags, tlb_invalidate, set_pte, setAs] using hc1
    · intro b hb hb3
      simpa [get_pte, set_page_flags, tlb_invalidate, set_pte, setAs] using hc3 b hb hb3
    · intro hf
      rw [hx] at hf
      exact absurd hf (by simp)
    · intro _
      simp [set_page_flags, tlb_invalidate, set_pte, setAs]
  · rw [if_neg hx] at hswap
    obtain ⟨s, hs, hsf, hslow, hst4⟩ := swap_out_ok hswap
    subst hst4
    subst hst5
    refine ⟨hown, hpa, ?_, ?_, k, st1, hg, hk, ?_, ?_, ?_, ?_, ?_, ?_, ?_⟩
    · simp [set_page_flags]
    · intro j hj
      simp [set_page_flags, tlb_invalidate, set_pte, setAs, Function.update_noteq hj, hp1]
    · simpa [set_page_flags, tlb_invalidate, set_pte, setAs] using htag
    · rw [hpa, hassert, hc2]
    · simp [get_pte, set_page_flags, tlb_invalidate, set_pte, setAs]
    · simpa [get_pte, set_page_flags, tlb_invalidate, set_pte, setAs] using hc1
    · intro b hb hb3
      simpa [get_pte, set_page_flags, tlb_invalidate, set_pte, setAs] using hc3 b hb hb3
    · intro _
      refine ⟨s, hs, ?_, ?_, ?_, ?_, ?_⟩
      · simpa [slot_in_use, tlb_invalidate, set_pte, setAs] using hsf
      · intro j hj
        simpa [slot_in_use, tlb_invalidate, set_pte, setAs] using hslow j hj
      · simp [set_page_flags, tlb_invalidate, set_pte, setAs]
      · intro j hj
        simp [set_page_flags, tlb_invalidate, set_pte, setAs, Function.update_noteq hj]
      · intro o ho
        rw [hpa]
        simp [set_page_flags, tlb_invalidate, set_pte, setAs, read_page, frame_index, ho, hs1]
    · intro hf
      exact absurd hf hx

set_option maxRecDepth 100000 in
/-- Witness of C13: in `full_kernel` every frame is in use and frame 9 holds the data page
`0x10000000` of address space 7; `make_pg_available(7, 0x10001000)` evicts it. -/
theorem make_pg_available_evicts_victim_witness :
    make_pg_available full_kernel 7 0x10001000 0
      = .ok (0x49000, 9, made_state full_kernel (make_pg_available full_kernel 7 0x10001000 0))
    ∧ (full_kernel.pages 9).flags &&& PFLAG_USED_MASK ≠ 0
    ∧ exec_page (full_kernel.ass 7) (full_kernel.pages 9).vpn = false
    ∧ (full_kernel.pages 9).as = some 7
    ∧ ((made_state full_kernel (make_pg_available full_kernel 7 0x10001000 0)).pages 9).flags = 0
    ∧ ∃ k st1, get_ptbl full_kernel (some 7) (full_kernel.pages 9).vpn
          (exec_page (full_kernel.ass 7) (full_kernel.pages 9).vpn) = .ok (k, st1)
      ∧ get_pte st1 7 k (pte_index (full_kernel.pages 9).vpn) &&& PAGE_FRAME = 0x49000
      ∧ get_pte (made_state full_kernel (make_pg_available full_kernel 7 0x10001000 0)) 7 k
          (pte_index (full_kernel.pages 9).vpn) &&& PGTBL_VALID_MASK = 0 := by
  have h := make_pg_available_evicts_victim full_kernel
    (made_state full_kernel (make_pg_available full_kernel 7 0x10001000 0)) 7 0x10001000 0
    0x49000 9 (by rfl) (by decide)
  obtain ⟨h1, _, h3, _, k, st1, hg, _, _, h4, _, h5, _⟩ := h
  exact ⟨by rfl, by decide, by decide, h1, h3, k, st1, hg, h4, h5⟩

/-- C14: for `n >= 1` (the managed frames lying in `(0, 2^32)`, as `vm_bootstrap` places
them), `getkpagesfromvm(n)` always returns; when some `n` consecutive managed frames are all
free it returns the non-zero address `free_paddr + i * PAGE_SIZE` of the lowest-indexed such
run, gives exactly the frames `i, ..., i + n - 1` the `USED` bit and no owner, and changes no
other frame entry and nothing else; when there is no such run it returns 0 and changes
nothing. -/
theorem getkpagesfromvm_finds_lowest_run (st : Kernel) (n : Nat) (hn : 1 ≤ n)
    (hbase : 0 < st.free_paddr)
    (hfit : st.free_paddr + st.num_pages * PAGE_SIZE ≤ WORD) :
    ((∃ i, run_free st i n) →
      ∃ i st1, getkpagesfromvm st n = .ok (st.free_paddr + i * PAGE_SIZE, st1)
        ∧ st.free_paddr + i * PAGE_SIZE ≠ 0
        ∧ run_free st i n ∧ (∀ j, j < i → ¬ run_free st j n)
        ∧ (∀ j, i ≤ j → j < i + n →
            (st1.pages j).flags &&& PFLAG_USED_MASK ≠ 0 ∧ (st1.pages j).as = none)
        ∧ (∀ j, ¬ (i ≤ j ∧ j < i + n) → st1.pages j = st.pages j)
        ∧ st1 = { st with pages := st1.pages })
    ∧ ((¬ ∃ i, run_free st i n) → getkpagesfromvm st n = .ok (0, st)) := by
  have hloop := getkpages_loop_spec st n hn st.num_pages 0 (by omega)
    (fun j hj => absurd hj (by omega))
  constructor
  · intro hex
    rcases hloop with ⟨i, hrun, hlow, hres⟩ | ⟨hno, _⟩
    · have hilt : i < st.num_pages := by have := hrun.1; omega
      have hpa : (st.free_paddr + i * PAGE_SIZE) % WORD = st.free_paddr + i * PAGE_SIZE := by
        apply Nat.mod_eq_of_lt
        have : i * PAGE_SIZE < st.num_pages * PAGE_SIZE :=
          Nat.mul_lt_mul_of_pos_right hilt (by decide)
        omega
      rw [hpa] at hres
      refine ⟨i, kpages_state st i n, hres, by omega, hrun, hlow, fun j h1 h2 => ?_,
        fun j hj => ?_, kpages_state_frame st i n⟩
      · rw [kpages_state_pages st i n j hn]
        by_cases hji : j = i
        · rw [if_pos hji]
          exact ⟨(used_or_count n).1, rfl⟩
        · rw [if_neg hji, if_pos ⟨h1, h2⟩]
          exact ⟨by show PFLAG_USED_MASK &&& PFLAG_USED_MASK ≠ 0; decide, rfl⟩
      · rw [kpages_state_pages st i n j hn]
        have hji : j ≠ i := fun h => hj ⟨by omega, by omega⟩
        rw [if_neg hji, if_neg hj]
    · obtain ⟨i, hi⟩ := hex
      exact absurd hi (hno i)
  · intro hno
    rcases hloop with ⟨i, hrun, _, _⟩ | ⟨_, hres⟩
    · exact absurd ⟨i, hrun⟩ hno
    · exact hres

/-- Witness of C14: `getkpagesfromvm(2)` on `plain_kernel`, whose frames 7, 8 and 9 are
free. -/
theorem getkpagesfromvm_finds_lowest_run_witness :
    1 ≤ 2 ∧ 0 < plain_kernel.free_paddr
    ∧ plain_kernel.free_paddr + plain_kernel.num_pages * PAGE_SIZE ≤ WORD
    ∧ (∃ i, run_free plain_kernel i 2)
    ∧ ∃ i st1, getkpagesfromvm plain_kernel 2 = .ok (plain_kernel.free_paddr + i * PAGE_SIZE, st1)
        ∧ plain_kernel.free_paddr + i * PAGE_SIZE ≠ 0
        ∧ run_free plain_kernel i 2 ∧ (∀ j, j < i → ¬ run_free plain_kernel j 2)
        ∧ (∀ j, i ≤ j → j < i + 2 →
            (st1.pages j).flags &&& PFLAG_USED_MASK ≠ 0 ∧ (st1.pages j).as = none)
        ∧ (∀ j, ¬ (i ≤ j ∧ j < i + 2) → st1.pages j = plain_kernel.pages j)
        ∧ st1 = { plain_kernel with pages := st1.pages } :=
  ⟨by decide, by decide, by decide, ⟨7, by unfold run_free frame_free; decide⟩,
    (getkpagesfromvm_finds_lowest_run plain_kernel 2 (by decide) (by decide) (by decide)).1
      ⟨7, by unfold run_free frame_free; decide⟩⟩

set_option maxRecDepth 1000000 in
/-- C15 fails as stated: on `booted_kernel` (207 managed frames, all free)
`alloc_kpages(128)` hands out the run of frames 0..127, whose first entry has run-length field
`128 & 0x7f = 0`; `free_kpages` on the returned address returns without freeing a frame: frames
0 and 127 are still `USED`. -/
theorem free_kpages_leaks_run_of_128 :
    booted_kernel.num_pages = 207
    ∧ aborted (alloc_kpages booted_kernel 128 0) = none
    ∧ (result_of booted_kernel (alloc_kpages booted_kernel 128 0)).1
        = PADDR_TO_KVADDR booted_kernel.free_paddr
    ∧ (∀ j, j < 128 →
        (((result_of booted_kernel (alloc_kpages booted_kernel 128 0)).2.pages j).flags
          &&& PFLAG_USED_MASK ≠ 0
        ∧ ((result_of booted_kernel (alloc_kpages booted_kernel 128 0)).2.pages j).flags
          &&& PFLAG_NUM_CONTG_PAGES = 0))
    ∧ aborted (free_kpages (result_of booted_kernel (alloc_kpages booted_kernel 128 0)).2
        (result_of booted_kernel (alloc_kpages booted_kernel 128 0)).1) = none
    ∧ ((state_of booted_kernel
          (free_kpages (result_of booted_kernel (alloc_kpages booted_kernel 128 0)).2
            (result_of booted_kernel (alloc_kpages booted_kernel 128 0)).1)).pages 0).flags
        &&& PFLAG_USED_MASK ≠ 0
    ∧ ((state_of booted_kernel
          (free_kpages (result_of booted_kernel (alloc_kpages booted_kernel 128 0)).2
            (result_of booted_kernel (alloc_kpages booted_kernel 128 0)).1)).pages 127).flags
        &&& PFLAG_USED_MASK ≠ 0 := by
  decide

/-- C15 (amended): for `1 <= n <= 127` (the managed frames lying in `(0, 2^32)`), when
`alloc_kpages(n)` hands out a run from the frame table (`ram_stealmem` gives nothing and
the result is not 0), the run is `n` managed frames `i, ..., i + n - 1` at the returned
address, its first entry has run-length field `n` and is the only entry of the run whose
run-length field is non-zero, and `free_kpages` on the returned address returns, zeroes the
flag word of all `n` frames of the run and changes no frame outside the run and nothing
else. -/
theorem alloc_kpages_run_is_freed_whole (st st1 : Kernel) (n va : Nat)
    (hn1 : 1 ≤ n) (hn2 : n ≤ 127)
    (hfit : st.free_paddr + st.num_pages * PAGE_SIZE ≤ WORD)
    (halloc : alloc_kpages st n 0 = .ok (va, st1)) (hva : va ≠ 0) :
    ∃ i st2, va = PADDR_TO_KVADDR (st.free_paddr + i * PAGE_SIZE) ∧ i + n ≤ st.num_pages
      ∧ (st1.pages i).flags &&& PFLAG_NUM_CONTG_PAGES = n
      ∧ (∀ j, i < j → j < i + n → (st1.pages j).flags &&& PFLAG_NUM_CONTG_PAGES = 0)
      ∧ (∀ j, i ≤ j → j < i + n →
          (st1.pages j).flags &&& PFLAG_USED_MASK ≠ 0 ∧ (st1.pages j).as = none)
      ∧ free_kpages st1 va = .ok st2
      ∧ (∀ j, i ≤ j → j < i + n → (st2.pages j).flags = 0)
      ∧ (∀ j, ¬ (i ≤ j ∧ j < i + n) → st2.pages j = st1.pages j)
      ∧ st2 = { st1 with pages := st2.pages } := by
  -- the state `s` on which the successful scan ran
  have hscan : ∃ s pa, s.free_paddr = st.free_paddr ∧ s.num_pages = st.num_pages
      ∧ getkpagesfromvm s n = .ok (pa, st1) ∧ pa ≠ 0 ∧ va = PADDR_TO_KVADDR pa := by
    unfold alloc_kpages at halloc
    rw [if_neg (by simp)] at halloc
    cases h1 : getkpagesfromvm st n with
    | error e => rw [h1] at halloc; simp at halloc
    | ok r1 =>
      obtain ⟨pa, s1⟩ := r1
      rw [h1] at halloc
      simp only at halloc
      by_cases hpa : pa ≠ 0
      · rw [if_pos hpa] at halloc
        simp only [Except.ok.injEq, Prod.mk.injEq] at halloc
        obtain ⟨e1, e2⟩ := halloc
        subst e2
        exact ⟨st, pa, rfl, rfl, h1, hpa, e1.symm⟩
      · rw [if_neg hpa] at halloc
        have hpa0 : pa = 0 := by
          by_contra hc; exact hpa hc
        subst hpa0
        obtain ⟨d1, d2⟩ := getkpagesfromvm_dims hn1 h1
        cases h2 : evict_all_user_pages s1 with
        | error e => rw [h2] at halloc; simp at halloc
        | ok s2 =>
          rw [h2] at halloc
          simp only at halloc
          cases h3 : getkpagesfromvm s2 n with
          | error e => rw [h3] at halloc; simp at halloc
          | ok r3 =>
            obtain ⟨pa2, s3⟩ := r3
            rw [h3] at halloc
            simp only at halloc
            by_cases hpa2 : pa2 ≠ 0
            · rw [if_pos hpa2] at halloc
              simp only [Except.ok.injEq, Prod.mk.injEq] at halloc
              obtain ⟨e1, e2⟩ := halloc
              subst e2
              obtain ⟨f1, f2⟩ := evict_all_user_pages_frame h2
              exact ⟨s2, pa2, f1.trans d1, f2.trans d2, h3, hpa2, e1.symm⟩
            · rw [if_neg hpa2] at halloc
              simp only [Except.ok.injEq, Prod.mk.injEq] at halloc
              exact absurd halloc.1.symm hva
  obtain ⟨s, pa, hf, hnp, hget, hpa, hvaeq⟩ := hscan
  obtain ⟨i, hrun, hpaeq, hst1⟩ := getkpagesfromvm_ok hn1 hget hpa
  have hin : i + n ≤ st.num_pages := by rw [← hnp]; exact hrun.1
  have hmod : (s.free_paddr + i * PAGE_SIZE) % WORD = st.free_paddr + i * PAGE_SIZE := by
    rw [hf]
    apply Nat.mod_eq_of_lt
    have : i * PAGE_SIZE < st.num_pages * PAGE_SIZE :=
      Nat.mul_lt_mul_of_pos_right (by omega) (by decide)
    omega
  have hfree := free_kpages_run s i n hn1 hn2 hrun.1 (by rw [hf, hnp]; exact hfit)
  rw [← hpaeq, ← hvaeq, ← hst1] at hfree
  rw [hmod] at hpaeq
  refine ⟨i, _, by rw [hvaeq, hpaeq], hin, ?_, ?_, ?_, hfree, ?_, ?_, ?_⟩
  · rw [hst1, kpages_state_pages s i n i hn1, if_pos rfl, (used_or_count n).2]
    omega
  · intro j h1 h2
    rw [hst1, kpages_state_pages s i n j hn1, if_neg (by omega), if_pos ⟨by omega, h2⟩]
    show PFLAG_USED_MASK &&& PFLAG_NUM_CONTG_PAGES = 0
    decide
  · intro j h1 h2
    rw [hst1, kpages_state_pages s i n j hn1]
    by_cases hji : j = i
    · rw [if_pos hji]
      exact ⟨(used_or_count n).1, rfl⟩
    · rw [if_neg hji, if_pos ⟨h1, h2⟩]
      exact ⟨by show PFLAG_USED_MASK &&& PFLAG_USED_MASK ≠ 0; decide, rfl⟩
  · intro j h1 h2
    simp only [if_pos (And.intro h1 h2)]
  · intro j hj
    simp only [if_neg hj]
  · rfl

set_option maxRecDepth 100000 in
/-- Witness of C15 (amended): `alloc_kpages(2)` on `plain_kernel` hands out frames 7 and 8 at
`0x80047000`, and `free_kpages` frees both. -/
theorem alloc_kpages_run_is_freed_whole_witness :
    1 ≤ 2 ∧ 2 ≤ 127
    ∧ plain_kernel.free_paddr + plain_kernel.num_pages * PAGE_SIZE ≤ WORD
    ∧ alloc_kpages plain_kernel 2 0
        = .ok (0x80047000, (result_of plain_kernel (alloc_kpages plain_kernel 2 0)).2)
    ∧ ∃ i st2, 0x80047000 = PADDR_TO_KVADDR (plain_kernel.free_paddr + i * PAGE_SIZE)
      ∧ i + 2 ≤ plain_kernel.num_pages
      ∧ ((result_of plain_kernel (alloc_kpages plain_kernel 2 0)).2.pages i).flags
          &&& PFLAG_NUM_CONTG_PAGES = 2
      ∧ free_kpages (result_of plain_kernel (alloc_kpages plain_kernel 2 0)).2 0x80047000 = .ok st2
      ∧ (∀ j, i ≤ j → j < i + 2 → (st2.pages j).flags = 0) := by
  obtain ⟨i, st2, h1, h2, h3, _, _, h6, h7, _⟩ :=
    alloc_kpages_run_is_freed_whole plain_kernel
      (result_of plain_kernel (alloc_kpages plain_kernel 2 0)).2 2 0x80047000
      (by decide) (by decide) (by decide) (by rfl) (by decide)
  exact ⟨by decide, by decide, by decide, by rfl, i, st2, h1, h2, h3, h6, h7⟩

set_option maxRecDepth 100000 in
/-- C11 fails as stated: `full_kernel` and `two_page_kernel` satisfy the invariant (their
frames are all in use), and each of `evict_all_user_pages`, `evict_all_my_pages_if_necessary`,
`reclaim_all_user_pages` and `make_pg_available` returns leaving frame 9 with its `USED` bit
clear and its owner 7 still recorded; so does `alloc_kpages(1)`, which evicts frames 8 and 9
and takes frame 8. -/
theorem eviction_leaves_owner_on_free_frame :
    free_frames_unowned full_kernel ∧ free_frames_unowned two_page_kernel
    ∧ aborted (evict_all_user_pages full_kernel) = none
    ∧ ¬ free_frames_unowned (state_of full_kernel (evict_all_user_pages full_kernel))
    ∧ aborted (evict_all_my_pages_if_necessary full_kernel (some 7)) = none
    ∧ ¬ free_frames_unowned
        (state_of full_kernel (evict_all_my_pages_if_necessary full_kernel (some 7)))
    ∧ ¬ free_frames_unowned (reclaim_all_user_pages full_kernel)
    ∧ aborted (make_pg_available full_kernel 7 0x10001000 0) = none
    ∧ ¬ free_frames_unowned (made_state full_kernel (make_pg_available full_kernel 7 0x10001000 0))
    ∧ aborted (alloc_kpages two_page_kernel 1 0) = none
    ∧ ¬ free_frames_unowned (result_of two_page_kernel (alloc_kpages two_page_kernel 1 0)).2 := by
  refine ⟨by unfold free_frames_unowned; decide, by unfold free_frames_unowned; decide,
    by decide, ?_, by decide, ?_, ?_, by decide, ?_, by decide, ?_⟩
  · intro h
    exact absurd (h 9 (by decide) (by decide)) (by decide)
  · intro h
    exact absurd (h 9 (by decide) (by decide)) (by decide)
  · intro h
    exact absurd (h 9 (by decide) (by decide)) (by decide)
  · intro h
    exact absurd (h 9 (by decide) (by decide)) (by decide)
  · intro h
    exact absurd (h 9 (by decide) (by decide)) (by decide)

/-- C11 (amended): the frame-table invariant "a managed frame whose `USED` bit is clear has
no owning address space" holds after `vm_bootstrap` and is preserved by `alloc_page`,
`free_page`, `as_destroy`, by the frame-table scan of `alloc_kpages` (`getkpagesfromvm`,
`n >= 1`), and by `free_kpages` when the frames of the run it releases have no owner (as in
every run `getkpagesfromvm` hands out). -/
theorem frame_operations_keep_free_frames_unowned (st : Kernel)
    (hinv : free_frames_unowned st) :
    (∀ lo last_paddr st1, vm_bootstrap st lo last_paddr = .ok st1 → free_frames_unowned st1)
    ∧ (∀ cur vpn r pa st1, alloc_page st cur vpn r = .ok (pa, st1) → free_frames_unowned st1)
    ∧ (∀ page st1, free_page st page = .ok st1 → free_frames_unowned st1)
    ∧ (∀ asp, free_frames_unowned (as_destroy st asp))
    ∧ (∀ n pa st1, 1 ≤ n → getkpagesfromvm st n = .ok (pa, st1) → free_frames_unowned st1)
    ∧ (∀ addr st1, free_kpages st addr = .ok st1 →
        (∀ j, ((addr + WORD - PADDR_TO_KVADDR st.free_paddr) % WORD) / PAGE_SIZE ≤ j →
          j < ((addr + WORD - PADDR_TO_KVADDR st.free_paddr) % WORD) / PAGE_SIZE
            + ((st.pages (((addr + WORD - PADDR_TO_KVADDR st.free_paddr) % WORD) / PAGE_SIZE)).flags
                &&& PFLAG_NUM_CONTG_PAGES) →
          (st.pages j).as = none) →
        free_frames_unowned st1) :=
  ⟨fun _ _ _ h => vm_bootstrap_unowned h,
   fun _ _ _ _ _ h => alloc_page_unowned hinv h,
   fun _ _ h => free_page_unowned hinv h,
   fun asp => as_destroy_unowned st asp hinv,
   fun _ _ _ hn h => getkpagesfromvm_unowned hn hinv h,
   fun _ _ h hrun => free_kpages_unowned hinv h hrun⟩

set_option maxRecDepth 1000000 in
/-- Witness of C11 (amended): on `plain_kernel` the invariant holds, and it holds after
`vm_bootstrap`, after `alloc_page(7, 0x10000000)`, after `free_page` of frame 3, after
`as_destroy(7)` and after `getkpagesfromvm(2)`. -/
theorem frame_operations_keep_free_frames_unowned_witness :
    free_frames_unowned plain_kernel
    ∧ free_frames_unowned booted_kernel
    ∧ (∃ pa st1, alloc_page plain_kernel (some 7) 0x10000000 0 = .ok (pa, st1)
        ∧ free_frames_unowned st1)
    ∧ (∃ st1, free_page plain_kernel 0x43000 = .ok st1 ∧ free_frames_unowned st1)
    ∧ free_frames_unowned (as_destroy plain_kernel (some 7))
    ∧ (∃ pa st1, getkpagesfromvm plain_kernel 2 = .ok (pa, st1) ∧ free_frames_unowned st1) := by
  have hinv : free_frames_unowned plain_kernel := by unfold free_frames_unowned; decide
  have h := frame_operations_keep_free_frames_unowned plain_kernel hinv
  refine ⟨hinv, h.1 0x30000 0x100000 booted_kernel (by rfl), ?_, ?_, h.2.2.2.1 (some 7), ?_⟩
  · exact ⟨_, _, by rfl, h.2.1 (some 7) 0x10000000 0
      (result_of plain_kernel (alloc_page plain_kernel (some 7) 0x10000000 0)).1
      (result_of plain_kernel (alloc_page plain_kernel (some 7) 0x10000000 0)).2 (by rfl)⟩
  · exact ⟨_, by rfl, h.2.2.1 0x43000 (state_of plain_kernel (free_page plain_kernel 0x43000))
      (by rfl)⟩
  · exact ⟨_, _, by rfl, h.2.2.2.2.1 2
      (result_of plain_kernel (getkpagesfromvm plain_kernel 2)).1
      (result_of plain_kernel (getkpagesfromvm plain_kernel 2)).2 (by decide) (by rfl)⟩

/-! ## Claims about the page-table cache -/

/-- C20: in every kernel state reachable from address spaces fresh from `as_create` through
`get_ptbl`, `get_page_table` (on a `LOADED` directory, its documented precondition),
`find_slot_for_pg_table` and `as_copy` (and through code that leaves page directories
alone), no page-directory entry of any address space has `PRESENT` set without `LOADED`. -/
theorem reachable_directories_present_implies_loaded (st : Kernel) (h : pt_reachable st) :
    ∀ b i, (st.ass b).pg_dir i &&& PGDIR_PRESENT ≠ 0 → (st.ass b).pg_dir i &&& PGDIR_LOADED ≠ 0 := by
  induction h with
  | init st hfresh =>
    intro b i hp
    obtain ⟨m, hm⟩ := hfresh b
    exfalso
    apply hp
    rw [as_create_pd hm]
    exact Nat.zero_and _
  | step st st1 _ hs ih => exact pt_step_pd hs ih

set_option maxRecDepth 10000000 in
/-- Witness of C20: `copied_kernel` is reachable (fresh records, program set-up, one
`get_ptbl`, one `as_copy`); directory entry 1 of the parent 7 and of the child 9 has `PRESENT`,
hence `LOADED`. -/
theorem reachable_directories_present_implies_loaded_witness :
    pt_reachable copied_kernel
    ∧ (copied_kernel.ass 7).pg_dir 1 &&& PGDIR_PRESENT ≠ 0
    ∧ (copied_kernel.ass 7).pg_dir 1 &&& PGDIR_LOADED ≠ 0
    ∧ (copied_kernel.ass 9).pg_dir 1 &&& PGDIR_PRESENT ≠ 0
    ∧ (copied_kernel.ass 9).pg_dir 1 &&& PGDIR_LOADED ≠ 0 := by
  have hw : pt_reachable walked_kernel := by
    refine pt_reachable.step (setAs fresh_kernel 7 (program_as [text_segment, data_segment]))
      walked_kernel ?_ ?_
    · refine pt_reachable.step fresh_kernel _ (pt_reachable.init fresh_kernel ?_)
        (pt_step.other fresh_kernel _ ?_)
      · intro b
        exact ⟨zero_as, by rfl⟩
      · intro b
        by_cases hb : b = 7
        · subst hb; rfl
        · simp [setAs, Function.update_noteq hb]
    · exact pt_step.get_ptbl _ walked_kernel (some 7) 0x00400000
        (walk_slot (setAs fresh_kernel 7 (program_as [text_segment, data_segment])) 7
          0x00400000 true) true (by rfl)
  have hr : pt_reachable copied_kernel :=
    pt_reachable.step walked_kernel copied_kernel hw
      (pt_step.as_copy walked_kernel copied_kernel 7 9 0 (some zero_as) true (fun _ _ => 0)
        (some 9) (by rfl))
  exact ⟨hr, by decide,
    reachable_directories_present_implies_loaded copied_kernel hr 7 1 (by decide), by decide,
    reachable_directories_present_implies_loaded copied_kernel hr 9 1 (by decide)⟩

/-! ## Address-space set-up: `as_define_region`, `as_create` -/

/-- C26 (amended): for a 32-bit `vaddr` and a size `sz` with `vaddr + sz < 2^32` and
`sz + vaddr mod PAGE_SIZE + PAGE_SIZE - 1 < 2^32`, and an address space with an empty region,
`as_define_region` returns 0 and records, in region 1 if its base is 0 and in region 2
otherwise, base = `vaddr` rounded down to a page, npages = ceil((sz + vaddr mod PAGE_SIZE) /
PAGE_SIZE) and flags = `readable | writeable | executable`.  The range
`[base, base + npages * PAGE_SIZE)` contains `[vaddr, vaddr + sz)` and, for `sz > 0`, lies
inside every page-aligned range that contains it. -/
theorem as_define_region_aligns (sp : AddrSpace) (vaddr sz r w x : Nat)
    (hsum : vaddr + sz < WORD)
    (hfit : sz + vaddr % PAGE_SIZE + PAGE_SIZE - 1 < WORD)
    (hroom : sp.as_vbase1 = 0 ∨ sp.as_vbase2 = 0) :
    let base := vaddr / PAGE_SIZE * PAGE_SIZE
    let npages := (sz + vaddr % PAGE_SIZE + PAGE_SIZE - 1) / PAGE_SIZE
    let res := as_define_region sp vaddr sz r w x
    res.1 = 0
    ∧ (if sp.as_vbase1 = 0 then
        res.2.as_vbase1 = base ∧ res.2.as_npages1 = npages ∧ res.2.as_flags1 = (r ||| w) ||| x
      else
        res.2.as_vbase2 = base ∧ res.2.as_npages2 = npages ∧ res.2.as_flags2 = (r ||| w) ||| x)
    ∧ base % PAGE_SIZE = 0 ∧ base ≤ vaddr ∧ vaddr < base + PAGE_SIZE
    ∧ sz + vaddr % PAGE_SIZE ≤ npages * PAGE_SIZE
    ∧ npages * PAGE_SIZE < sz + vaddr % PAGE_SIZE + PAGE_SIZE
    ∧ vaddr + sz ≤ base + npages * PAGE_SIZE
    ∧ (∀ lo hi : Nat, lo % PAGE_SIZE = 0 → hi % PAGE_SIZE = 0 → 0 < sz → lo ≤ vaddr →
        vaddr + sz ≤ hi → lo ≤ base ∧ base + npages * PAGE_SIZE ≤ hi) := by
  intro base npages res
  have hv : vaddr < WORD := by omega
  have hP : PAGE_SIZE = 4096 := rfl
  have hW : WORD = 4294967296 := by decide
  have hnp : ((sz + vaddr % PAGE_SIZE) % WORD + PAGE_SIZE - 1) % WORD / PAGE_SIZE = npages := by
    have e1 : (sz + vaddr % PAGE_SIZE) % WORD = sz + vaddr % PAGE_SIZE :=
      Nat.mod_eq_of_lt (by omega)
    rw [e1, Nat.mod_eq_of_lt hfit]
  have hres : res = as_define_region sp vaddr sz r w x := rfl
  rw [as_define_region_eq sp vaddr sz r w x hv, hnp] at hres
  have hb : base = vaddr / PAGE_SIZE * PAGE_SIZE := rfl
  have hn : npages = (sz + vaddr % PAGE_SIZE + PAGE_SIZE - 1) / PAGE_SIZE := rfl
  rw [hP] at hb hn
  have hb1 : base % 4096 = 0 := by omega
  have hb2 : base ≤ vaddr := by omega
  have hb3 : vaddr < base + 4096 := by omega
  have hn1 : sz + vaddr % 4096 ≤ npages * 4096 := by omega
  have hn2 : npages * 4096 < sz + vaddr % 4096 + 4096 := by omega
  have hoff : vaddr % 4096 = vaddr - base := by omega
  refine ⟨?_, ?_, ?_⟩
  · rw [hres]
    rcases hroom with h | h
    · rw [if_pos h]
    · by_cases h1 : sp.as_vbase1 = 0
      · rw [if_pos h1]
      · rw [if_neg h1, if_pos h]
  · rw [hres]
    by_cases h1 : sp.as_vbase1 = 0
    · rw [if_pos h1, if_pos h1]
      exact ⟨rfl, rfl, rfl⟩
    · have h2 : sp.as_vbase2 = 0 := by
        rcases hroom with h | h
        · exact absurd h h1
        · exact h
      rw [if_neg h1, if_neg h1, if_pos h2]
      exact ⟨rfl, rfl, rfl⟩
  · rw [hP]
    refine ⟨hb1, hb2, hb3, hn1, hn2, by omega, ?_⟩
    intro lo hi hlo hhi hsz h1 h2
    constructor
    · omega
    · omega

/-- Witness of C26: on a fresh address space the region `[0x400123, 0x402123)` with flags
R and X is recorded in region 1 as base 0x400000, 3 pages, flags 5. -/
theorem as_define_region_aligns_witness :
    0x400123 + 0x2000 < WORD
    ∧ (as_define_region fresh_as 0x400123 0x2000 4 0 1).1 = 0
    ∧ (as_define_region fresh_as 0x400123 0x2000 4 0 1).2.as_vbase1 = 0x400000
    ∧ (as_define_region fresh_as 0x400123 0x2000 4 0 1).2.as_npages1 = 3
    ∧ (as_define_region fresh_as 0x400123 0x2000 4 0 1).2.as_flags1 = 5 := by
  have h := as_define_region_aligns fresh_as 0x400123 0x2000 4 0 1 (by decide) (by decide)
    (Or.inl (by decide))
  have h2 := h.2.1
  rw [if_pos (by decide)] at h2
  exact ⟨by decide, h.1, h2.1, h2.2.1, h2.2.2⟩

/-- Counterexample to C26 as stated: `vaddr = 0x800`, `sz = 0xfffff000` do not overflow
(`vaddr + sz = 0xfffff800`), the ceiling asks for 0x100000 pages, and the code's 32-bit
`sz + PAGE_SIZE - 1` wraps, so that 0 pages are recorded. -/
theorem as_define_region_wraps_at_page_zero :
    0x800 + 0xfffff000 < WORD
    ∧ (as_define_region fresh_as 0x800 0xfffff000 4 2 0).1 = 0
    ∧ (as_define_region fresh_as 0x800 0xfffff000 4 2 0).2.as_vbase1 = 0
    ∧ (as_define_region fresh_as 0x800 0xfffff000 4 2 0).2.as_npages1 = 0
    ∧ (0xfffff000 + 0x800 % PAGE_SIZE + PAGE_SIZE - 1) / PAGE_SIZE = 0x100000 := by
  decide

/-- C27 (amended): on an address space fresh from `as_create`, for three successive
`as_define_region` calls of which the first two have a 32-bit `vaddr` of at least `PAGE_SIZE`
(a non-zero page base): the first returns 0 and fills region 1 leaving region 2 empty, the
second returns 0 and fills region 2 leaving region 1 unchanged, and the third returns the
non-zero `EUNIMP` and leaves the whole record unchanged. -/
theorem as_define_region_fills_two_regions (m : AddrSpace)
    (v1 s1 r1 w1 x1 v2 s2 r2 w2 x2 v3 s3 r3 w3 x3 : Nat)
    (h1 : PAGE_SIZE ≤ v1) (h1w : v1 < WORD) (h2 : PAGE_SIZE ≤ v2) (h2w : v2 < WORD) :
    ∃ sp0 : AddrSpace, as_create (some m) true = some sp0
      ∧ (as_define_region sp0 v1 s1 r1 w1 x1).1 = 0
      ∧ region1 (as_define_region sp0 v1 s1 r1 w1 x1).2 = aligned_region v1 s1 r1 w1 x1
      ∧ region2 (as_define_region sp0 v1 s1 r1 w1 x1).2 = (0, 0, 0)
      ∧ (as_define_region (as_define_region sp0 v1 s1 r1 w1 x1).2 v2 s2 r2 w2 x2).1 = 0
      ∧ region2 (as_define_region (as_define_region sp0 v1 s1 r1 w1 x1).2 v2 s2 r2 w2 x2).2
          = aligned_region v2 s2 r2 w2 x2
      ∧ region1 (as_define_region (as_define_region sp0 v1 s1 r1 w1 x1).2 v2 s2 r2 w2 x2).2
          = region1 (as_define_region sp0 v1 s1 r1 w1 x1).2
      ∧ (as_define_region
          (as_define_region (as_define_region sp0 v1 s1 r1 w1 x1).2 v2 s2 r2 w2 x2).2
          v3 s3 r3 w3 x3)
          = (EUNIMP, (as_define_region (as_define_region sp0 v1 s1 r1 w1 x1).2 v2 s2 r2 w2 x2).2)
      ∧ EUNIMP ≠ 0 := by
  have hP : PAGE_SIZE = 4096 := rfl
  have hb1 : v1 / PAGE_SIZE * PAGE_SIZE ≠ 0 := by rw [hP] at h1 ⊢; omega
  have hb2 : v2 / PAGE_SIZE * PAGE_SIZE ≠ 0 := by rw [hP] at h2 ⊢; omega
  refine ⟨_, rfl, ?_⟩
  rw [as_define_region_eq _ v1 s1 r1 w1 x1 h1w, if_pos rfl]
  rw [as_define_region_eq _ v2 s2 r2 w2 x2 h2w, if_neg hb1, if_pos rfl]
  refine ⟨rfl, rfl, rfl, rfl, rfl, rfl, ?_, by decide⟩
  unfold as_define_region
  simp only
  rw [if_neg hb1, if_neg hb2]

/-- Witness of C27: on the record `as_create` makes of used memory, a text region at
0x400000 fills region 1 and a data region at 0x10000000 fills region 2. -/
theorem as_define_region_fills_two_regions_witness :
    ∃ sp0 : AddrSpace, as_create (some dirty_as) true = some sp0
      ∧ region1 (as_define_region sp0 0x400000 0x1000 4 0 1).2 = (0x400000, 1, 5)
      ∧ region2 (as_define_region (as_define_region sp0 0x400000 0x1000 4 0 1).2
          0x10000000 0x1800 4 2 0).2 = (0x10000000, 2, 6) := by
  obtain ⟨sp0, h0, -, ha, -, -, hb, -⟩ := as_define_region_fills_two_regions dirty_as
    0x400000 0x1000 4 0 1 0x10000000 0x1800 4 2 0 0x20000000 0x1000 4 2 0
    (by decide) (by decide) (by decide) (by decide)
  refine ⟨sp0, h0, ?_, ?_⟩
  · rw [ha]; decide
  · rw [hb]; decide

/-- Counterexample to C27 as stated: a first call at `vaddr = 0x800` records base 0 in
region 1, which is the mark of an empty region; the second call therefore overwrites region 1
and leaves region 2 empty, and the third call returns 0 instead of `EUNIMP`. -/
theorem as_define_region_refills_region_at_page_zero :
    ∃ sp0 : AddrSpace, as_create (some zero_as) true = some sp0
      ∧ (as_define_region sp0 0x800 0x1000 4 2 0).1 = 0
      ∧ region1 (as_define_region sp0 0x800 0x1000 4 2 0).2 = (0, 2, 6)
      ∧ (as_define_region (as_define_region sp0 0x800 0x1000 4 2 0).2 0x400000 0x1000 4 0 1).1 = 0
      ∧ region1 (as_define_region (as_define_region sp0 0x800 0x1000 4 2 0).2
          0x400000 0x1000 4 0 1).2 = (0x400000, 1, 5)
      ∧ region2 (as_define_region (as_define_region sp0 0x800 0x1000 4 2 0).2
          0x400000 0x1000 4 0 1).2 = (0, 0, 0)
      ∧ (as_define_region (as_define_region (as_define_region sp0 0x800 0x1000 4 2 0).2
          0x400000 0x1000 4 0 1).2 0x10000000 0x1000 4 2 0).1 = 0 :=
  ⟨_, rfl, by decide, by decide, by decide, by decide, by decide, by decide⟩

/-- C28 (code evaluated on the failing input): `as_create` on used memory (`dirty_as`, every
word 0xdeadbeef) returns a record whose page directory, slot flag words and regions are zero,
but of each resident page-table slot only entries 0..255 are zero: entry 256 of slot 0 and
entry 1023 of slot 2 still hold 0xdeadbeef. -/
theorem as_create_clears_first_quarter_of_slots :
    ∃ sp : AddrSpace, as_create (some dirty_as) true = some sp
      ∧ sp.pg_dir 0 = 0 ∧ sp.pg_dir 1023 = 0
      ∧ sp.page_table_flags 0 = 0 ∧ sp.page_table_flags 2 = 0
      ∧ region1 sp = (0, 0, 0) ∧ region2 sp = (0, 0, 0)
      ∧ sp.ptables_in_mem 0 255 = 0
      ∧ sp.ptables_in_mem 0 256 = 0xdeadbeef
      ∧ sp.ptables_in_mem 2 1023 = 0xdeadbeef
      ∧ dirty_as.ptables_in_mem 0 256 = 0xdeadbeef :=
  ⟨_, rfl, by decide, by decide, by decide, by decide, by decide, by decide, by decide, by decide,
    by decide, by decide⟩

/-! ## Resident page-table slots: `get_victim_slot`, `find_slot_for_pg_table` -/

/-- C22 (amended): when a swap slot is free, `find_slot_for_pg_table` returns.  If some slot
has a zero flag word it returns the lowest-indexed such slot and the state is unchanged.
Otherwise it returns the slot `k` chosen by `get_victim_slot`: the 4096 bytes of the victim
table stand in the lowest free swap slot, keyed by the owner and
`PADDR_TO_KVADDR(flags[k] & PGDIR_INDEX)`; the victim's directory entry has `PRESENT` clear
and `LOADED` as before; the flag word of slot `k` is zero; all other flag words, all other
directory entries, all other swap slots, the resident tables and the other address spaces are
unchanged. -/
theorem find_slot_for_pg_table_evicts (st : Kernel) (a : Nat) (x : Bool) (d : Nat)
    (hswap : ∃ j, j < SWAP_MAP_SIZE ∧ ¬ slot_in_use st j) :
    ∃ k st1, find_slot_for_pg_table st a x d = .ok (k, st1) ∧ k < NUM_PTABLES_IN_MEM
      ∧ ((∃ j, j < NUM_PTABLES_IN_MEM ∧ (st.ass a).page_table_flags j = 0) →
          (st.ass a).page_table_flags k = 0
          ∧ (∀ j, j < k → (st.ass a).page_table_flags j ≠ 0) ∧ st1 = st)
      ∧ ((∀ j, j < NUM_PTABLES_IN_MEM → (st.ass a).page_table_flags j ≠ 0) →
          get_victim_slot (st.ass a) x d = .ok k
          ∧ ∃ i, i < SWAP_MAP_SIZE ∧ ¬ slot_in_use st i ∧ (∀ j, j < i → slot_in_use st j)
            ∧ (st1.swap_map i).as = some a
            ∧ (st1.swap_map i).flags
                = (PADDR_TO_KVADDR ((st.ass a).page_table_flags k &&& PGDIR_INDEX) &&& PAGE_FRAME)
                    ||| SWMAP_FLAG_USED
            ∧ (∀ o, o < PAGE_SIZE →
                st1.disk (i * PAGE_SIZE + o) = ptable_bytes ((st.ass a).ptables_in_mem k) o)
            ∧ (∀ j, j ≠ i → st1.swap_map j = st.swap_map j)
            ∧ (st1.ass a).page_table_flags k = 0
            ∧ (∀ j, j ≠ k → (st1.ass a).page_table_flags j = (st.ass a).page_table_flags j)
            ∧ (st1.ass a).pg_dir (((st.ass a).page_table_flags k &&& PGDIR_INDEX) >>> 22)
                &&& PGDIR_PRESENT = 0
            ∧ (st1.ass a).pg_dir (((st.ass a).page_table_flags k &&& PGDIR_INDEX) >>> 22)
                &&& PGDIR_LOADED
                = (st.ass a).pg_dir (((st.ass a).page_table_flags k &&& PGDIR_INDEX) >>> 22)
                    &&& PGDIR_LOADED
            ∧ (∀ i, i ≠ ((st.ass a).page_table_flags k &&& PGDIR_INDEX) >>> 22 →
                (st1.ass a).pg_dir i = (st.ass a).pg_dir i)
            ∧ (st1.ass a).ptables_in_mem = (st.ass a).ptables_in_mem
            ∧ (∀ b, b ≠ a → st1.ass b = st.ass b)) := by
  unfold find_slot_for_pg_table
  cases hs : scanUp (fun i => decide ((st.ass a).page_table_flags i = 0)) NUM_PTABLES_IN_MEM 0 with
  | some k =>
    obtain ⟨_, h2, h3, h4⟩ := scanUp_some hs
    have h3 : (st.ass a).page_table_flags k = 0 := by simpa using h3
    refine ⟨k, st, rfl, by omega, fun _ => ⟨h3, fun j hj => ?_, rfl⟩, fun h => ?_⟩
    · have := h4 j (Nat.zero_le _) hj
      simpa using this
    · exact absurd h3 (h k (by omega))
  | none =>
    have hnone := scanUp_none hs
    obtain ⟨k, hk⟩ := get_victim_slot_total (st.ass a) x d
    have hklt := get_victim_slot_lt hk
    have hex : ∃ j, j < SWAP_MAP_SIZE ∧ (st.swap_map j).flags &&& SWMAP_FLAG_USED = 0 := by
      obtain ⟨j, hj, hf⟩ := hswap
      exact ⟨j, hj, by simpa [slot_in_use] using hf⟩
    obtain ⟨i, hi, hif, hlow, hout⟩ := swap_out_spec st (some a)
      (PADDR_TO_KVADDR ((st.ass a).page_table_flags k &&& PGDIR_INDEX)) (.ptable a k) hex
    simp only [hk, hout]
    refine ⟨k, _, rfl, hklt, ?_, fun _ => ⟨rfl, i, hi, by simpa [slot_in_use] using hif, hlow, ?_⟩⟩
    · rintro ⟨j, hj, hf⟩
      have := hnone j (Nat.zero_le _) (by omega)
      simp only [decide_eq_false_iff_not] at this
      exact absurd hf this
    · simp only [set_pgdir, set_ptflags, setAs, Function.update_same]
      refine ⟨trivial, trivial, ?_, ?_,
        trivial, ?_, ?_, ?_, ?_, trivial, ?_⟩
      · intro o ho
        rw [if_pos ⟨by omega, by omega⟩, Nat.add_sub_cancel_left]
        rfl
      · intro j hj
        exact Function.update_noteq hj _ _
      · intro j hj
        exact Function.update_noteq hj _ _
      · exact clear_present _
      · exact clear_present_keeps_loaded _
      · intro j hj
        exact Function.update_noteq hj _ _
      · intro b hb
        simp [Function.update_noteq hb]

set_option maxRecDepth 1000000 in
/-- Witness of C22: in `warm_kernel` all three slots are taken and swap slot 0 is free; a data
request for directory `0x7fc00000` returns the slot `get_victim_slot` chooses, with its flag
word zeroed. -/
theorem find_slot_for_pg_table_evicts_witness :
    (∀ j, j < NUM_PTABLES_IN_MEM → (warm_kernel.ass 7).page_table_flags j ≠ 0)
    ∧ ¬ slot_in_use warm_kernel 0
    ∧ ∃ k st1, find_slot_for_pg_table warm_kernel 7 false 0x7fc00000 = .ok (k, st1)
        ∧ get_victim_slot (warm_kernel.ass 7) false 0x7fc00000 = .ok k
        ∧ (st1.ass 7).page_table_flags k = 0 := by
  have h0 : ∀ j, j < NUM_PTABLES_IN_MEM → (warm_kernel.ass 7).page_table_flags j ≠ 0 := by
    decide
  have h1 : ¬ slot_in_use warm_kernel 0 := by unfold slot_in_use; decide
  obtain ⟨k, st1, h, -, -, h2⟩ := find_slot_for_pg_table_evicts warm_kernel 7 false 0x7fc00000
    ⟨0, by decide, h1⟩
  obtain ⟨h3, i, -, -, -, -, -, -, -, h4, -⟩ := h2 h0
  exact ⟨h0, h1, k, st1, h, h3, h4⟩

set_option maxRecDepth 1000000 in
/-- Counterexample to C22 as stated: in `swapless_warm_kernel` all three slots are taken and
every swap slot is in use; the call does not return, `swap_out_page` ends in
`panic("Out of swap space!")`. -/
theorem find_slot_for_pg_table_aborts_when_swap_is_full :
    (∀ j, j < NUM_PTABLES_IN_MEM → (swapless_warm_kernel.ass 7).page_table_flags j ≠ 0)
    ∧ aborted (find_slot_for_pg_table swapless_warm_kernel 7 false 0x7fc00000)
        = some Abort.panic := by
  decide

/-- C23 (amended): for a data request `get_victim_slot` returns a slot index `r`.  If some
non-executable slot carries the requester's directory index, `r` is the lowest-indexed such
slot, whatever the counters.  Otherwise, if some slot is non-executable, `r` is the
lowest-indexed of the non-executable slots with the lowest counter.  Otherwise (all three slots
executable) `r` is slot 2, the last executable slot, never the first. -/
theorem get_victim_slot_data_request (sp : AddrSpace) (vpgdir : Nat) :
    ∃ r, get_victim_slot sp false vpgdir = .ok r ∧ r < NUM_PTABLES_IN_MEM
      ∧ ((∃ i, i < NUM_PTABLES_IN_MEM ∧ data_slot sp i ∧ slot_dir sp i = vpgdir) →
          data_slot sp r ∧ slot_dir sp r = vpgdir
          ∧ ∀ j, j < r → ¬ (data_slot sp j ∧ slot_dir sp j = vpgdir))
      ∧ ((¬ ∃ i, i < NUM_PTABLES_IN_MEM ∧ data_slot sp i ∧ slot_dir sp i = vpgdir) →
          (∃ i, i < NUM_PTABLES_IN_MEM ∧ data_slot sp i) →
          data_slot sp r
          ∧ (∀ j, j < NUM_PTABLES_IN_MEM → data_slot sp j → slot_counter sp r ≤ slot_counter sp j)
          ∧ (∀ j, j < r → data_slot sp j → slot_counter sp r < slot_counter sp j))
      ∧ ((∀ i, i < NUM_PTABLES_IN_MEM → ¬ data_slot sp i) → r = 2) := by
  have hn : NUM_PTABLES_IN_MEM = 3 := by decide
  obtain ⟨s, hinv, hg⟩ := get_victim_slot_scan sp vpgdir
  rw [hg, hn]
  obtain ⟨hb, hnb⟩ := hinv
  cases hbr : s.broke with
  | true =>
    obtain ⟨b, h1, h2, h3, h4, h5⟩ := hb hbr
    refine ⟨b, by simp only [h2], h1, fun _ => ⟨h3, h4, h5⟩, fun h => ?_, fun h => ?_⟩
    · exact absurd ⟨b, h1, h3, h4⟩ h
    · exact absurd h3 (h b h1)
  | false =>
    obtain ⟨hnm, hnone, hsome, hex⟩ := hnb hbr
    cases hi : s.least_count_index with
    | some r =>
      obtain ⟨h1, h2, h3, h4, h5⟩ := hsome r hi
      refine ⟨r, by simp only [hi], h1, ?_, fun _ _ => ⟨h2, h4, h5⟩, fun h => ?_⟩
      · rintro ⟨i, hi1, hi2⟩
        exact absurd hi2 (hnm i hi1)
      · exact absurd h2 (h r h1)
    | none =>
      obtain ⟨h1, h2⟩ := hnone hi
      obtain ⟨h3, h4⟩ := hex h2
      have h5 := h4 (by omega)
      refine ⟨2, by simp only [hi, h5], by omega, ?_, ?_, fun _ => rfl⟩
      · rintro ⟨i, hi1, hi2⟩
        exact absurd hi2 (hnm i hi1)
      · rintro - ⟨i, hi1, hi2⟩
        exact absurd hi2 (h2 i hi1)

/-- Counterexample to C23 as stated, all slots occupied.  With slot 0 a data table of
directory `0x10000000` and counter 1, slot 1 a data table of directory `0x7fc00000` and
counter 5, and slot 2 executable, a data request for `0x7fc00000` returns slot 1, not the
lowest-counter slot 0.  With three executable slots it returns slot 2, the third executable
slot, not the second. -/
theorem get_victim_slot_match_overrides_counter :
    get_victim_slot (slots_as 0x10000001 0x7fc00005 0x00600003) false 0x7fc00000 = .ok 1
    ∧ data_slot (slots_as 0x10000001 0x7fc00005 0x00600003) 0
    ∧ data_slot (slots_as 0x10000001 0x7fc00005 0x00600003) 1
    ∧ slot_counter (slots_as 0x10000001 0x7fc00005 0x00600003) 0 = 1
    ∧ slot_counter (slots_as 0x10000001 0x7fc00005 0x00600003) 1 = 5
    ∧ get_victim_slot (slots_as 0x00600001 0x00a00002 0x00e00003) false 0x10000000 = .ok 2
    ∧ (∀ i, i < NUM_PTABLES_IN_MEM → ¬ data_slot (slots_as 0x00600001 0x00a00002 0x00e00003) i) := by
  refine ⟨by rfl, by unfold data_slot; decide, by unfold data_slot; decide, by decide,
    by decide, by rfl, ?_⟩
  unfold data_slot
  decide

/-! ## Resident slots and the page directory: the tag of directory 0 -/

set_option maxRecDepth 1000000 in
/-- C21 (code evaluated on the failing input): on an address space fresh from `as_create`,
`get_ptbl` for the data page `0x00001000` returns slot 0 and sets `PRESENT` in directory entry
0, but the tag it stores, `(PGDIR_INDEX & vpn) | 0`, is zero: all three flag words are still
zero, the mark of a free slot.  The next `get_ptbl`, for the data page `0x00400000`, is handed
the same slot 0 and zeroes it; directory entries 0 and 1 are then both `PRESENT`, slot 0 is
tagged for directory 1, and a further `get_ptbl` for `0x00001000` returns slot 1, a slot with
a zero flag word that was never given out. -/
theorem get_ptbl_directory_zero_slot_stays_free :
    as_create (some zero_as) true = some (fresh_kernel.ass 7)
    ∧ aborted (get_ptbl fresh_kernel (some 7) 0x00001000 false) = none
    ∧ walk_slot fresh_kernel 7 0x00001000 false = 0
    ∧ (dir0_kernel.ass 7).pg_dir 0 &&& PGDIR_PRESENT ≠ 0
    ∧ (∀ k, k < NUM_PTABLES_IN_MEM → (dir0_kernel.ass 7).page_table_flags k = 0)
    ∧ aborted (get_ptbl dir0_kernel (some 7) 0x00400000 false) = none
    ∧ walk_slot dir0_kernel 7 0x00400000 false = 0
    ∧ (dir1_kernel.ass 7).pg_dir 0 &&& PGDIR_PRESENT ≠ 0
    ∧ (dir1_kernel.ass 7).pg_dir 1 &&& PGDIR_PRESENT ≠ 0
    ∧ (dir1_kernel.ass 7).page_table_flags 0 = 0x00400000
    ∧ (dir1_kernel.ass 7).page_table_flags 1 = 0
    ∧ (dir1_kernel.ass 7).page_table_flags 2 = 0
    ∧ aborted (get_ptbl dir1_kernel (some 7) 0x00001000 false) = none
    ∧ walk_slot dir1_kernel 7 0x00001000 false = 1 := by
  refine ⟨by rfl, by decide, by decide, by decide, by decide, by decide, by decide, by decide,
    by decide, by decide, by decide, by decide, by decide, by decide⟩

/-! ## Address-space teardown: `as_destroy` -/

/-- C25 (amended): let `as_destroy(as)` run its loop over the frame table and
`swap_free_pages(as)`, and let its two `kfree` calls (for the page directory at `p` and for
the record at `q`) return.  Then no frame-table entry names `as` as owner, every frame `as`
owned has a zero flag word, no swap slot owned by `as` is in use, every swap slot of another
owner is unchanged, and every frame of another owner is unchanged unless it lies in one of
the two kernel runs at `p` and `q`; the frames of these two runs have a zero flag word. -/
theorem as_destroy_releases_address_space (st st1 st2 : Kernel) (a p q : Nat)
    (h1 : kfree (as_destroy st (some a)) p = .ok st1) (h2 : kfree st1 q = .ok st2) :
    st2.num_pages = st.num_pages
    ∧ (∀ i, i < st.num_pages → (st2.pages i).as ≠ some a)
    ∧ (∀ i, i < st.num_pages → (st.pages i).as = some a → (st2.pages i).flags = 0)
    ∧ (∀ j, j < SWAP_MAP_SIZE → (st2.swap_map j).as = some a → ¬ slot_in_use st2 j)
    ∧ (∀ j, (st.swap_map j).as ≠ some a → st2.swap_map j = st.swap_map j)
    ∧ (∀ i, (st.pages i).as ≠ some a → ¬ kernel_run st p i → ¬ kernel_run st q i →
        st2.pages i = st.pages i)
    ∧ (∀ i, kernel_run st p i ∨ kernel_run st q i → (st2.pages i).flags = 0) := by
  unfold kfree at h1 h2
  obtain ⟨a1, a2, a3, a4, a5, a6, a7⟩ := free_kpages_ok h1
  obtain ⟨b1, b2, b3, b4, b5, b6, b7⟩ := free_kpages_ok h2
  have hd : ∀ i, (as_destroy st (some a)).pages i
      = if i < st.num_pages ∧ (st.pages i).as = some a then
          { as := none, vpn := (st.pages i).vpn, flags := 0 }
        else st.pages i := fun _ => rfl
  have hdf : (as_destroy st (some a)).free_paddr = st.free_paddr := rfl
  have hdn : (as_destroy st (some a)).num_pages = st.num_pages := rfl
  have hds : ∀ j, (as_destroy st (some a)).swap_map j
      = if j < SWAP_MAP_SIZE ∧ (st.swap_map j).as = some a then
          { as := (st.swap_map j).as, flags := 0 }
        else st.swap_map j := fun _ => rfl
  -- the head of the run at `p` is as in `st`
  have hp : (as_destroy st (some a)).pages
      (((p + WORD - PADDR_TO_KVADDR st.free_paddr) % WORD) / PAGE_SIZE)
      = st.pages (((p + WORD - PADDR_TO_KVADDR st.free_paddr) % WORD) / PAGE_SIZE) := by
    rw [hdf] at a3
    rw [hd] at a3 ⊢
    split_ifs at a3 ⊢ with c
    · exact absurd zero_and_used a3
    · rfl
  have hrp : ∀ i, kernel_run (as_destroy st (some a)) p i ↔ kernel_run st p i := by
    intro i
    unfold kernel_run
    rw [hdf, hp]
  have hq : st1.pages (((q + WORD - PADDR_TO_KVADDR st.free_paddr) % WORD) / PAGE_SIZE)
      = st.pages (((q + WORD - PADDR_TO_KVADDR st.free_paddr) % WORD) / PAGE_SIZE) := by
    rw [a5, hdf] at b3
    rw [a7] at b3 ⊢
    split_ifs at b3 ⊢ with c
    · exact absurd zero_and_used b3
    · rw [hd] at b3 ⊢
      split_ifs at b3 ⊢ with c2
      · exact absurd zero_and_used b3
      · rfl
  have hrq : ∀ i, kernel_run st1 q i ↔ kernel_run st q i := by
    intro i
    unfold kernel_run
    rw [a5, hdf, hq]
  have hpages : ∀ i, st2.pages i
      = if kernel_run st q i then
          { as := (st1.pages i).as, vpn := (st1.pages i).vpn, flags := 0 }
        else st1.pages i := by
    intro i
    rw [b7]
    by_cases c : kernel_run st q i
    · rw [if_pos ((hrq i).2 c), if_pos c]
    · rw [if_neg (fun h => c ((hrq i).1 h)), if_neg c]
  have hpages1 : ∀ i, st1.pages i
      = if kernel_run st p i then
          { as := ((as_destroy st (some a)).pages i).as,
            vpn := ((as_destroy st (some a)).pages i).vpn, flags := 0 }
        else (as_destroy st (some a)).pages i := by
    intro i
    rw [a7]
    by_cases c : kernel_run st p i
    · rw [if_pos ((hrp i).2 c), if_pos c]
    · rw [if_neg (fun h => c ((hrp i).1 h)), if_neg c]
  have has1 : ∀ i, (st2.pages i).as = ((as_destroy st (some a)).pages i).as := by
    intro i
    rw [hpages, hpages1]
    split_ifs <;> rfl
  refine ⟨by rw [b4, a4, hdn], ?_, ?_, ?_, ?_, ?_, ?_⟩
  · intro i hi
    rw [has1, hd]
    split_ifs with c
    · simp
    · exact fun h => c ⟨hi, h⟩
  · intro i hi hown
    have hc : i < st.num_pages ∧ (st.pages i).as = some a := ⟨hi, hown⟩
    rw [hpages, hpages1, hd, if_pos hc]
    split_ifs <;> rfl
  · intro j hj hown
    unfold slot_in_use
    rw [b6, a6] at hown ⊢
    rw [hds] at hown ⊢
    split_ifs at hown ⊢ with c
    · simp
    · exact absurd ⟨hj, hown⟩ c
  · intro j hown
    rw [b6, a6, hds, if_neg (fun c => hown c.2)]
  · intro i hown hnp hnq
    rw [hpages, if_neg hnq, hpages1, if_neg hnp, hd, if_neg (fun c => hown c.2)]
  · intro i hrun
    rw [hpages]
    by_cases c : kernel_run st q i
    · rw [if_pos c]
    · rw [if_neg c, hpages1]
      rcases hrun with h | h
      · rw [if_pos h]
      · exact absurd h c

set_option maxRecDepth 1000000 in
/-- Witness of C25: in `live_swapped_kernel` process 7 owns frame 8 and swap slot 0, the page
directory is the kernel frame 7 (at `0x80047000`) and the record the kernel run of frames 3
to 6 (at `0x80043000`).  Both `kfree` calls return; afterwards frame 8 and swap slot 0 are
free. -/
theorem as_destroy_releases_address_space_witness :
    (live_swapped_kernel.pages 8).as = some 7
    ∧ (live_swapped_kernel.swap_map 0).as = some 7
    ∧ slot_in_use live_swapped_kernel 0
    ∧ ∃ st1 st2, kfree (as_destroy live_swapped_kernel (some 7)) 0x80047000 = .ok st1
        ∧ kfree st1 0x80043000 = .ok st2
        ∧ (st2.pages 8).as ≠ some 7 ∧ (st2.pages 8).flags = 0
        ∧ ¬ slot_in_use st2 0 := by
  have h1 : kfree (as_destroy live_swapped_kernel (some 7)) 0x80047000
      = .ok (state_of live_swapped_kernel
          (kfree (as_destroy live_swapped_kernel (some 7)) 0x80047000)) := by rfl
  have h2 : kfree (state_of live_swapped_kernel
        (kfree (as_destroy live_swapped_kernel (some 7)) 0x80047000)) 0x80043000
      = .ok (state_of live_swapped_kernel (kfree (state_of live_swapped_kernel
          (kfree (as_destroy live_swapped_kernel (some 7)) 0x80047000)) 0x80043000)) := by rfl
  have hown : (live_swapped_kernel.pages 8).as = some 7 := by decide
  have hsw : (live_swapped_kernel.swap_map 0).as = some 7 := by decide
  obtain ⟨-, c1, c2, c3, -⟩ := as_destroy_releases_address_space live_swapped_kernel _ _ 7
    0x80047000 0x80043000 h1 h2
  refine ⟨hown, hsw, by unfold slot_in_use; decide, _, _, h1, h2, c1 8 (by decide),
    c2 8 (by decide) hown, c3 0 (by decide) ?_⟩
  decide

set_option maxRecDepth 1000000 in
/-- Counterexample to C25 as stated: in `live_swapped_kernel` frame 7 is owned by the kernel
(no owning address space, `USED` set); it holds the page directory of process 7.  After
`as_destroy` and its `kfree(as->pg_dir)` frame 7 is free: a frame owned by the kernel has
changed. -/
theorem as_destroy_frees_kernel_frame_of_page_directory :
    (live_swapped_kernel.pages 7).as = none
    ∧ (live_swapped_kernel.pages 7).flags &&& PFLAG_USED_MASK ≠ 0
    ∧ aborted (kfree (as_destroy live_swapped_kernel (some 7)) 0x80047000) = none
    ∧ ((state_of live_swapped_kernel
        (kfree (as_destroy live_swapped_kernel (some 7)) 0x80047000)).pages 7).flags = 0
    ∧ ((as_destroy live_swapped_kernel (some 7)).pages 7).flags
        = (live_swapped_kernel.pages 7).flags := by
  decide

/-! ## Demand loading: `load_segment_if_required`, `load_page_from_executable` -/

/-- C29 (amended): let a `VM_FAULT_READ` or `VM_FAULT_WRITE` fault hit page `k` of the code
region (with `k * PAGE_SIZE` within the segment's file and memory size) or a page `k` of the
data region whose entry has `L` clear (with `k * PAGE_SIZE` within the memory size), let the
page-table walk find the entry not `VALID` and `alloc_page` return the frame `pa`, and let the
executable hold the bytes to be read.  Then `vm_fault` returns `VM_FAULT_OK` with the entry
`VALID` and naming `pa`; of the frame, the first
`n = min(PAGE_SIZE, filesize - k * PAGE_SIZE, memsize - k * PAGE_SIZE)` bytes are the file's
bytes from offset `segment_offset + k * PAGE_SIZE`, the bytes from `n` up to
`min(PAGE_SIZE, memsize - k * PAGE_SIZE)` are zero, and the bytes beyond are what the frame
held before the fault; no other frame's contents change. -/
theorem vm_fault_demand_load_fills_frame (st st1 st2 : Kernel) (a ft fa rp rt slot pa : Nat)
    (f : File) (off fsz msz : Nat)
    (hcur : st.t_vmspace = some a)
    (hft : ft = VM_FAULT_READ ∨ ft = VM_FAULT_WRITE)
    (hx : (st.ass a).as_flags1 &&& PF_X ≠ 0 ∨ (st.ass a).as_flags2 &&& PF_X ≠ 0)
    (hfile : st.files (st.ass a).exec_path = some f)
    (hg : get_ptbl st (some a) (fa &&& PAGE_FRAME)
      (exec_page (st.ass a) (fa &&& PAGE_FRAME)) = .ok (slot, st1))
    (hnv : get_pte st1 a slot (pte_index (fa &&& PAGE_FRAME)) &&& PGTBL_VALID_MASK = 0)
    (hal : alloc_page st1 (some a) (fa &&& PAGE_FRAME) rp = .ok (pa, st2))
    (hseg : demand_segment (st.ass a) (fa &&& PAGE_FRAME)
      (get_pte st2 a slot (pte_index (fa &&& PAGE_FRAME))) = some (off, fsz, msz))
    (hlen : off + min fsz msz ≤ f.size) :
    ∃ st3, vm_fault st ft fa rp rt = .ok (VM_FAULT_OK, st3)
      ∧ get_pte st3 a slot (pte_index (fa &&& PAGE_FRAME)) &&& PGTBL_VALID_MASK ≠ 0
      ∧ (∃ e flags, get_pte st3 a slot (pte_index (fa &&& PAGE_FRAME))
          = (e &&& notw PAGE_FRAME) ||| (((pa &&& PAGE_FRAME) ||| flags) ||| PGTBL_VALID_MASK))
      ∧ (∀ o, o < min fsz msz → st3.mem (frame_index st pa) o = f.data (off + o))
      ∧ (∀ o, min fsz msz ≤ o → o < msz → st3.mem (frame_index st pa) o = 0)
      ∧ (∀ o, msz ≤ o → st3.mem (frame_index st pa) o = st.mem (frame_index st pa) o)
      ∧ (∀ j, j ≠ frame_index st pa → st3.mem j = st.mem j) := by
  obtain ⟨flags, hreg⟩ := demand_segment_classify hseg
  have hstep := frame_step_trans (frame_step_of_cache (cache_step_get_ptbl hg))
    (alloc_page_step hal)
  obtain ⟨pd, pt, fl, sm, dk, pg, tl, hst2⟩ := hstep
  have hass : st2.ass a
      = { st.ass a with pg_dir := pd, ptables_in_mem := pt, page_table_flags := fl } := by
    rw [hst2]; simp
  have hmem : st2.mem = st.mem := by rw [hst2]
  have hfiles : st2.files = st.files := by rw [hst2]
  have hfi : frame_index st2 pa = frame_index st pa := by rw [hst2]; rfl
  have hseg2 : demand_segment (st2.ass a) (fa &&& PAGE_FRAME)
      (get_pte st2 a slot (pte_index (fa &&& PAGE_FRAME))) = some (off, fsz, msz) := by
    rw [hass]; exact hseg
  have hx2 : (st2.ass a).as_flags1 &&& PF_X ≠ 0 ∨ (st2.ass a).as_flags2 &&& PF_X ≠ 0 := by
    rw [hass]; exact hx
  have hfile2 : st2.files (st2.ass a).exec_path = some f := by
    rw [hass, hfiles]; exact hfile
  obtain ⟨s3, hld, hmem3⟩ := load_segment_demand st2 a (fa &&& PAGE_FRAME) pa slot
    (pte_index (fa &&& PAGE_FRAME)) f off fsz msz (and_page_frame_idem fa) hx2 hfile2 hseg2 hlen
  have hex : exec_page (st.ass a) (fa &&& PAGE_FRAME)
      = decide ((fa &&& PAGE_FRAME) ≥ (if (st.ass a).as_flags1 &&& PF_X ≠ 0 then
            (st.ass a).as_vbase1 else (st.ass a).as_vbase2)
          ∧ (fa &&& PAGE_FRAME) < (if (st.ass a).as_flags1 &&& PF_X ≠ 0 then
              ((st.ass a).as_vbase1 + (st.ass a).as_npages1 * PAGE_SIZE) % WORD
            else ((st.ass a).as_vbase2 + (st.ass a).as_npages2 * PAGE_SIZE) % WORD)) := rfl
  obtain ⟨ent, hent⟩ : ∃ ent, ent
      = (get_pte s3 a slot (pte_index (fa &&& PAGE_FRAME)) &&& notw PAGE_FRAME)
        ||| (((pa &&& PAGE_FRAME) ||| flags) ||| PGTBL_VALID_MASK) := ⟨_, rfl⟩
  have hw : find_pte st (some a) (fa &&& PAGE_FRAME) flags rp
      = .ok ((a, slot, pte_index (fa &&& PAGE_FRAME)),
          set_pte s3 a slot (pte_index (fa &&& PAGE_FRAME)) ent) := by
    unfold find_pte
    simp only
    rw [← hex, hg]
    simp only
    have hnv2 : ¬ get_pte st1 a slot ((fa &&& PAGE_FRAME &&& PGTBL_INDEX) >>> 12)
        &&& PGTBL_VALID_MASK ≠ 0 := fun h => h hnv
    rw [if_neg hnv2, hal]
    simp only
    have hld2 : load_segment_if_required st2 a (fa &&& PAGE_FRAME) pa slot
        ((fa &&& PAGE_FRAME &&& PGTBL_INDEX) >>> 12) = .ok s3 := hld
    rw [hld2, hent]
    rfl
  obtain ⟨i, elo, -, hvm⟩ := vm_fault_read_write rp rt hcur hft hreg
    (show st = if false = true then grow_stack st a else st by simp) hw
  have hget : get_pte (set_pte s3 a slot (pte_index (fa &&& PAGE_FRAME)) ent) a slot
      (pte_index (fa &&& PAGE_FRAME)) = ent :=
    (load_step_set_pte s3 a slot (pte_index (fa &&& PAGE_FRAME)) ent).2
  have hm : ∀ j, (set_pte s3 a slot (pte_index (fa &&& PAGE_FRAME)) ent).mem j
      = Function.update st.mem (frame_index st pa)
          (seg_fill f off fsz msz (st.mem (frame_index st pa))) j := by
    intro j
    show s3.mem j = _
    rw [hmem3, hmem, hfi]
  refine ⟨_, hvm, ?_, ⟨get_pte s3 a slot (pte_index (fa &&& PAGE_FRAME)), flags, ?_⟩,
    fun o ho => ?_, fun o h1 h2 => ?_, fun o ho => ?_, fun j hj => ?_⟩
  · show get_pte (set_pte s3 a slot (pte_index (fa &&& PAGE_FRAME)) ent) a slot
      (pte_index (fa &&& PAGE_FRAME)) &&& PGTBL_VALID_MASK ≠ 0
    rw [hget, hent]
    exact installed_entry_valid _ _ _
  · show get_pte (set_pte s3 a slot (pte_index (fa &&& PAGE_FRAME)) ent) a slot
      (pte_index (fa &&& PAGE_FRAME)) = _
    rw [hget, hent]
  · show (set_pte s3 a slot (pte_index (fa &&& PAGE_FRAME)) ent).mem (frame_index st pa) o = _
    rw [hm, Function.update_same]
    unfold seg_fill
    rw [if_pos ho]
  · show (set_pte s3 a slot (pte_index (fa &&& PAGE_FRAME)) ent).mem (frame_index st pa) o = _
    rw [hm, Function.update_same]
    unfold seg_fill
    rw [if_neg (by omega), if_pos h2]
  · show (set_pte s3 a slot (pte_index (fa &&& PAGE_FRAME)) ent).mem (frame_index st pa) o = _
    rw [hm, Function.update_same]
    unfold seg_fill
    rw [if_neg (by omega), if_neg (by omega)]
  · show (set_pte s3 a slot (pte_index (fa &&& PAGE_FRAME)) ent).mem j = _
    rw [hm, Function.update_noteq hj]

set_option maxRecDepth 1000000 in
/-- Witness of C29: in `pattern_data_kernel` the only user frame, frame 9, holds the data page
`0x10000000`.  A read fault on the text page (half a page of file and memory size) evicts it
and loads the text page there: `vm_fault` returns `VM_FAULT_OK`, bytes 0 to 0x7ff of frame 9
are the file's bytes from offset `0x1000`, and bytes from 0x800 on are what the frame held. -/
theorem vm_fault_demand_load_fills_frame_witness :
    demand_segment (pattern_data_kernel.ass 7) 0x00400000 0 = some (0x1000, 0x800, 0x800)
    ∧ ∃ st3, vm_fault pattern_data_kernel VM_FAULT_READ 0x00400000 0 0 = .ok (VM_FAULT_OK, st3)
      ∧ st3.mem 9 0 = 0x1000 % 251 + 1
      ∧ st3.mem 9 0x7ff = 0x17ff % 251 + 1
      ∧ st3.mem 9 0x800 = pattern_data_kernel.mem 9 0x800 := by
  have hg : get_ptbl pattern_data_kernel (some 7) (0x00400000 &&& PAGE_FRAME)
      (exec_page (pattern_data_kernel.ass 7) (0x00400000 &&& PAGE_FRAME))
      = .ok (1, walk_state pattern_data_kernel 7 0x00400000 true) := by rfl
  have hal : alloc_page (walk_state pattern_data_kernel 7 0x00400000 true) (some 7)
      (0x00400000 &&& PAGE_FRAME) 0
      = .ok (0x49000, (result_of pattern_data_kernel
          (alloc_page (walk_state pattern_data_kernel 7 0x00400000 true) (some 7)
            0x00400000 0)).2) := by rfl
  obtain ⟨st3, h1, -, -, h2, -, h3, -⟩ := vm_fault_demand_load_fills_frame pattern_data_kernel
    (walk_state pattern_data_kernel 7 0x00400000 true)
    (result_of pattern_data_kernel
      (alloc_page (walk_state pattern_data_kernel 7 0x00400000 true) (some 7) 0x00400000 0)).2
    7 VM_FAULT_READ 0x00400000 0 0 1 0x49000
    { size := 0x2000000, data := fun o => o % 251 + 1 } 0x1000 0x800 0x800
    (by decide) (Or.inl rfl) (Or.inl (by decide)) (by rfl) hg (by decide) hal (by decide)
    (by decide)
  have hfi : frame_index pattern_data_kernel 0x49000 = 9 := by decide
  rw [hfi] at h2 h3
  exact ⟨by decide, st3, h1, h2 0 (by decide), h2 0x7ff (by decide), h3 0x800 (by decide)⟩

set_option maxRecDepth 1000000 in
/-- Counterexample to C29 as stated: in `pattern_data_kernel` frame 9 holds the 4096 non-zero
bytes of the data page.  After the read fault on the text page (`filesize = memsize = 0x800`)
the text page is mapped to frame 9, bytes 0 to 0x7ff are the file's, and the remaining bytes
are not zero: byte 0x800 is still the byte `0x2800 % 251 + 1 = 201` of the data page. -/
theorem vm_fault_code_page_keeps_bytes_beyond_memsize :
    aborted (run_faults pattern_kernel [(VM_FAULT_READ, 0x10000000, 0)]) = none
    ∧ (pattern_data_kernel.pages 9).vpn = 0x10000000
    ∧ pattern_data_kernel.mem 9 0x800 = 201
    ∧ (pattern_data_kernel.ass 7).executable_filesize = 0x800
    ∧ (pattern_data_kernel.ass 7).executable_memsize = 0x800
    ∧ returned (vm_fault pattern_data_kernel VM_FAULT_READ 0x00400000 0 0) = some VM_FAULT_OK
    ∧ (pattern_text_kernel.pages 9).vpn = 0x00400000
    ∧ get_pte pattern_text_kernel 7 1 0 &&& PGTBL_VALID_MASK ≠ 0
    ∧ get_pte pattern_text_kernel 7 1 0 &&& PAGE_FRAME = frame_paddr pattern_text_kernel 9
    ∧ (pattern_text_kernel.ass 7).page_table_flags 1 &&& PGDIR_INDEX = 0x00400000
    ∧ pattern_text_kernel.mem 9 0x7ff = 0x17ff % 251 + 1
    ∧ pattern_text_kernel.mem 9 0x800 = 201
    ∧ pattern_text_kernel.mem 9 0xfff = 240 := by
  decide

set_option maxRecDepth 1000000 in
/-- C30 (code evaluated on the failing input): in `pattern_data_kernel` frame 9 holds the data
page `0x10000000`, 4096 non-zero bytes, and the stack's page directory was never touched.  The
read fault on the stack page `0x7ffff000` returns `VM_FAULT_OK`; the page is then mapped
(`VALID`, `L` set) to frame 9, which the frame table records for `(7, 0x7ffff000)`, and the
frame still holds the bytes of the data page: byte 0 is 161, byte 0xfff is 240. -/
theorem vm_fault_stack_page_keeps_old_frame_bytes :
    (pattern_data_kernel.pages 9).vpn = 0x10000000
    ∧ pattern_data_kernel.mem 9 0 = 161
    ∧ pattern_data_kernel.mem 9 0xfff = 240
    ∧ (pattern_data_kernel.ass 7).pg_dir 0x1ff &&& PGDIR_LOADED = 0
    ∧ classify (pattern_data_kernel.ass 7) 0x7ffff000 = some (PF_R ||| PF_W, false)
    ∧ returned (vm_fault pattern_data_kernel VM_FAULT_READ 0x7ffff000 0 0) = some VM_FAULT_OK
    ∧ (pattern_stack_kernel.ass 7).page_table_flags 1 &&& PGDIR_INDEX = 0x7fc00000
    ∧ get_pte pattern_stack_kernel 7 1 0x3ff &&& PGTBL_VALID_MASK ≠ 0
    ∧ get_pte pattern_stack_kernel 7 1 0x3ff &&& PF_L ≠ 0
    ∧ get_pte pattern_stack_kernel 7 1 0x3ff &&& PAGE_FRAME = frame_paddr pattern_stack_kernel 9
    ∧ (pattern_stack_kernel.pages 9).as = some 7
    ∧ (pattern_stack_kernel.pages 9).vpn = 0x7ffff000
    ∧ pattern_stack_kernel.mem 9 0 = 161
    ∧ pattern_stack_kernel.mem 9 0xfff = 240 := by
  decide

/-! ## C24: copy of an address space -/

set_option maxRecDepth 1000000 in
/-- C31 (code evaluated): in `live_kernel` every frame is in use, frame 8 holds the code page
`0x00400000` of address space 7 (the one page of its executable region) and swap slot 0 is the
first free slot.  `evict_all_user_pages()` and `evict_all_my_pages_if_necessary(7)` both return with swap
slot 0 in use for that code page.  `make_pg_available`, when it takes the same frame, leaves
slot 0 free. -/
theorem evict_all_user_pages_swaps_out_code_page :
    exec_page (live_kernel.ass 7) 0x00400000 = true
    ∧ (live_kernel.ass 7).as_vbase1 = 0x00400000 ∧ (live_kernel.ass 7).as_npages1 = 1
    ∧ (live_kernel.ass 7).as_flags1 &&& PF_X ≠ 0
    ∧ (live_kernel.pages 8).as = some 7 ∧ (live_kernel.pages 8).vpn = 0x00400000
    ∧ (∀ i, i < live_kernel.num_pages → (live_kernel.pages i).flags &&& PFLAG_USED_MASK ≠ 0)
    ∧ find_free_swap_section live_kernel = some 0
    ∧ aborted (evict_all_user_pages live_kernel) = none
    ∧ ((state_of live_kernel (evict_all_user_pages live_kernel)).swap_map 0).as = some 7
    ∧ ((state_of live_kernel (evict_all_user_pages live_kernel)).swap_map 0).flags
        = 0x00400000 ||| SWMAP_FLAG_USED
    ∧ ((state_of live_kernel (evict_all_user_pages live_kernel)).pages 8).flags = 0
    ∧ aborted (evict_all_my_pages_if_necessary live_kernel (some 7)) = none
    ∧ ((state_of live_kernel (evict_all_my_pages_if_necessary live_kernel (some 7))).swap_map 0).as
        = some 7
    ∧ ((state_of live_kernel
          (evict_all_my_pages_if_necessary live_kernel (some 7))).swap_map 0).flags
        = 0x00400000 ||| SWMAP_FLAG_USED
    ∧ returned (make_pg_available live_kernel 7 0x10001000 8) = some 0x48000
    ∧ ((made_state live_kernel (make_pg_available live_kernel 7 0x10001000 8)).pages 8).flags = 0
    ∧ find_free_swap_section
        (made_state live_kernel (make_pg_available live_kernel 7 0x10001000 8)) = some 0 := by
  decide

/-! ## C32: process identifiers -/

/-- C32: with `last_pid_index` inside the array (as `pid_bootstrap` and every earlier call
leave it), `get_new_pid` returns, and it returns -1 exactly when all `MAX_USER_PROCESSES`
entries of `pid_array` are allocated, changing nothing then.  Otherwise it returns a pid `p`
with `1 <= p <= 20` whose entry `p - 1` was 0, sets exactly that entry to 1 and leaves every
other entry as it was.  In a run of any number of calls with no `release_pid` between them
every call returns, and the pids the run hands out (the results other than -1) are pairwise
different.  `release_pid` does not move `last_pid_index`, so the condition on it holds at every
call after `pid_bootstrap`. -/
theorem get_new_pid_hands_out_free_pid (s : PidState)
    (hl : s.last_pid_index < MAX_USER_PROCESSES) :
    (∃ p s1, get_new_pid s = .ok (p, s1)
      ∧ s1.last_pid_index < MAX_USER_PROCESSES
      ∧ (p = -1 ↔ ∀ i, i < MAX_USER_PROCESSES → s.pid_array i ≠ 0)
      ∧ (p = -1 → s1 = s)
      ∧ (p ≠ -1 → 1 ≤ p ∧ p ≤ (MAX_USER_PROCESSES : Int)
          ∧ s.pid_array (p - 1).toNat = 0
          ∧ s1.pid_array (p - 1).toNat = 1
          ∧ ∀ j, j ≠ (p - 1).toNat → s1.pid_array j = s.pid_array j))
    ∧ (∀ n, ∃ ps s2, get_new_pids n s = .ok (ps, s2)
        ∧ (ps.filter (fun p => decide (p ≠ -1))).Nodup)
    ∧ ∀ pid s1, release_pid s pid = .ok s1 → s1.last_pid_index = s.last_pid_index := by
  refine ⟨?_, ?_, ?_⟩
  · rcases get_new_pid_cases s hl with ⟨hret, hall⟩ | ⟨i, hi, hz, hret⟩
    · exact ⟨-1, s, hret, hl, ⟨fun _ => hall, fun _ => rfl⟩, fun _ => rfl,
        fun h => absurd rfl h⟩
    · refine ⟨(i : Int) + 1, _, hret, hi, ⟨fun h => ?_, fun h => ?_⟩, fun h => ?_, fun _ => ?_⟩
      · omega
      · exact absurd hz (h i hi)
      · omega
      · have hidx : ((i : Int) + 1 - 1).toNat = i := by omega
        have hM : MAX_USER_PROCESSES = 20 := rfl
        rw [hidx]
        refine ⟨by omega, by rw [hM] at hi ⊢; omega, hz, by simp, fun j hj => ?_⟩
        simp [Function.update_noteq hj]
  · intro n
    obtain ⟨ps, s2, hrun, _, _, _, hnd⟩ := get_new_pids_spec n s hl
    exact ⟨ps, s2, hrun, hnd⟩
  · intro pid s1 h
    unfold release_pid at h
    split_ifs at h
    simp only [Except.ok.injEq] at h
    rw [← h]

/-- Witness of C32: after `pid_bootstrap` the first call hands out a pid, and 21 calls in a
row hand out the pids 1 to 20 and then return -1. -/
theorem get_new_pid_hands_out_free_pid_witness :
    booted_pids.last_pid_index < MAX_USER_PROCESSES
    ∧ pid_bootstrap true = .ok booted_pids
    ∧ (match get_new_pids 21 booted_pids with
        | .ok (ps, _) => ps
        | .error _ => [])
        = [1, 2, 3, 4, 5, 6, 7, 8, 9, 10, 11, 12, 13, 14, 15, 16, 17, 18, 19, 20, -1]
    ∧ (∃ p s1, get_new_pid booted_pids = .ok (p, s1)
        ∧ s1.last_pid_index < MAX_USER_PROCESSES
        ∧ (p = -1 ↔ ∀ i, i < MAX_USER_PROCESSES → booted_pids.pid_array i ≠ 0)
        ∧ (p = -1 → s1 = booted_pids)
        ∧ (p ≠ -1 → 1 ≤ p ∧ p ≤ (MAX_USER_PROCESSES : Int)
            ∧ booted_pids.pid_array (p - 1).toNat = 0
            ∧ s1.pid_array (p - 1).toNat = 1
            ∧ ∀ j, j ≠ (p - 1).toNat → s1.pid_array j = booted_pids.pid_array j))
    ∧ (∀ n, ∃ ps s2, get_new_pids n booted_pids = .ok (ps, s2)
        ∧ (ps.filter (fun p => decide (p ≠ -1))).Nodup)
    ∧ ∀ pid s1, release_pid booted_pids pid = .ok s1
        → s1.last_pid_index = booted_pids.last_pid_index :=
  ⟨by decide, rfl, by decide,
    get_new_pid_hands_out_free_pid booted_pids (by decide)⟩

/-! ## C33: eviction and the TLB -/

set_option maxRecDepth 1000000 in
/-- C33 (code evaluated): `evict_all_user_pages` and `evict_all_my_pages_if_necessary` leave
the TLB as it is, whatever they evict.  In `live_kernel` TLB entry 1 maps the data page
`0x10000000` to frame 9 (physical address `0x49000`), valid; after either call frame 9 is free
and entry 1 still maps the page to it, valid.  `make_pg_available`, when it takes frame 9,
invalidates entry 1. -/
theorem evict_all_user_pages_keeps_tlb_entry_of_freed_frame :
    (∀ st st1, evict_all_user_pages st = .ok st1 → st1.tlb = st.tlb)
    ∧ (∀ st st1 asp, evict_all_my_pages_if_necessary st asp = .ok st1 → st1.tlb = st.tlb)
    ∧ (live_kernel.pages 9).as = some 7 ∧ (live_kernel.pages 9).vpn = 0x10000000
    ∧ (live_kernel.pages 9).flags &&& PFLAG_USED_MASK ≠ 0
    ∧ frame_paddr live_kernel 9 = 0x49000
    ∧ live_kernel.tlb 1 = (0x10000000, (0x49000 ||| TLBLO_DIRTY) ||| TLBLO_VALID)
    ∧ aborted (evict_all_user_pages live_kernel) = none
    ∧ ((state_of live_kernel (evict_all_user_pages live_kernel)).pages 9).flags = 0
    ∧ (state_of live_kernel (evict_all_user_pages live_kernel)).tlb 1
        = (0x10000000, (0x49000 ||| TLBLO_DIRTY) ||| TLBLO_VALID)
    ∧ aborted (evict_all_my_pages_if_necessary live_kernel (some 7)) = none
    ∧ ((state_of live_kernel
          (evict_all_my_pages_if_necessary live_kernel (some 7))).pages 9).flags = 0
    ∧ (state_of live_kernel (evict_all_my_pages_if_necessary live_kernel (some 7))).tlb 1
        = (0x10000000, (0x49000 ||| TLBLO_DIRTY) ||| TLBLO_VALID)
    ∧ returned (make_pg_available live_kernel 7 0x10001000 9) = some 0x49000
    ∧ ((made_state live_kernel (make_pg_available live_kernel 7 0x10001000 9)).pages 9).flags = 0
    ∧ (made_state live_kernel (make_pg_available live_kernel 7 0x10001000 9)).tlb 1
        = (TLBHI_INVALID 1, TLBLO_INVALID) :=
  ⟨evict_all_user_pages_tlb, evict_all_my_pages_tlb, by decide⟩

/-! ## C34: a short read of the executable -/

set_option maxRecDepth 1000000 in
/-- C34 (code evaluated): in `truncated_kernel` the executable ends inside the text segment.
`load_page_from_executable` for the code page `0x00400000` reports `ENOEXEC`, and so it does
for the data page `0x10000000`; `load_segment_if_required` drops that result.  The read fault
on the code page returns `VM_FAULT_OK`: frame 3 stays recorded in use for the page, the
page-table entry is `VALID` and names the frame, the TLB maps the page to it, and the frame
holds the `0x800` bytes that were read, the rest being what the frame held before.  The read fault on
the data page returns `VM_FAULT_OK` as well, with the entry `VALID` and marked `L`. -/
theorem vm_fault_maps_page_after_short_read :
    returned (load_page_from_executable truncated_kernel 1 0x1000 0x00400000 0x43000 4096 4096)
      = some ENOEXEC
    ∧ returned (vm_fault truncated_kernel VM_FAULT_READ 0x00400000 0 0) = some VM_FAULT_OK
    ∧ ((state_after truncated_kernel
          (vm_fault truncated_kernel VM_FAULT_READ 0x00400000 0 0)).pages 3).as = some 7
    ∧ ((state_after truncated_kernel
          (vm_fault truncated_kernel VM_FAULT_READ 0x00400000 0 0)).pages 3).vpn = 0x00400000
    ∧ ((state_after truncated_kernel
          (vm_fault truncated_kernel VM_FAULT_READ 0x00400000 0 0)).pages 3).flags
        = PFLAG_USED_MASK
    ∧ get_pte (state_after truncated_kernel
          (vm_fault truncated_kernel VM_FAULT_READ 0x00400000 0 0)) 7 0 0
        = ((0x43000 ||| PGTBL_VALID_MASK) ||| PF_R) ||| PF_X
    ∧ (state_after truncated_kernel
          (vm_fault truncated_kernel VM_FAULT_READ 0x00400000 0 0)).tlb 0
        = (0x00400000, 0x43000 ||| TLBLO_VALID)
    ∧ (state_after truncated_kernel
          (vm_fault truncated_kernel VM_FAULT_READ 0x00400000 0 0)).mem 3 0x7ff
        = (0x1000 + 0x7ff) % 251 + 1
    ∧ (state_after truncated_kernel
          (vm_fault truncated_kernel VM_FAULT_READ 0x00400000 0 0)).mem 3 0x800 = 0
    ∧ returned (load_page_from_executable truncated_kernel 1 0x2000 0x10000000 0x43000 4096 4096)
      = some ENOEXEC
    ∧ returned (vm_fault truncated_kernel VM_FAULT_READ 0x10000000 0 0) = some VM_FAULT_OK
    ∧ ((state_after truncated_kernel
          (vm_fault truncated_kernel VM_FAULT_READ 0x10000000 0 0)).pages 3).flags
        = PFLAG_USED_MASK
    ∧ get_pte (state_after truncated_kernel
          (vm_fault truncated_kernel VM_FAULT_READ 0x10000000 0 0)) 7 0 0
        = (((0x43000 ||| PGTBL_VALID_MASK) ||| PF_L) ||| PF_R) ||| PF_W := by
  decide

/-! ## C35: the frame table after `vm_bootstrap` -/

/-- C35 (amended): let the platform report a RAM window `[lo, hi)` with
`PAGE_SIZE <= hi < 2^32` and `lo + sizeof(struct page) < 2^32`.  Then `vm_bootstrap` returns
or panics (the sizing loop ends), it returns when the window has at least 45175 bytes, and
whenever it returns: `num_pages >= 10`, the published base `free_paddr` is page-aligned, the
frame table `[lo, lo + num_pages * sizeof(struct page))` ends at or below `free_paddr`, the
managed frames `[free_paddr, free_paddr + num_pages * PAGE_SIZE)` end at or below `hi`, every
frame-table entry is zero, and one more frame with its entry would not have fitted. -/
theorem vm_bootstrap_lays_out_frames (st : Kernel) (lo hi : Nat)
    (hpage : PAGE_SIZE ≤ hi) (hhi : hi < WORD) (hlo : lo + SIZEOF_PAGE < WORD) :
    vm_bootstrap st lo hi ≠ .error .wait
    ∧ (lo + 45175 ≤ hi → ∃ st1, vm_bootstrap st lo hi = .ok st1)
    ∧ ∀ st1, vm_bootstrap st lo hi = .ok st1 →
        MIN_COREMAP_PAGES ≤ st1.num_pages
        ∧ st1.free_paddr % PAGE_SIZE = 0
        ∧ 0 < st1.free_paddr
        ∧ lo + st1.num_pages * SIZEOF_PAGE ≤ st1.free_paddr
        ∧ st1.free_paddr + st1.num_pages * PAGE_SIZE ≤ hi
        ∧ (∀ i, i < st1.num_pages → st1.pages i = { as := none, vpn := 0, flags := 0 })
        ∧ st1.free_paddr < lo + (st1.num_pages + 1) * SIZEOF_PAGE + PAGE_SIZE := by
  have hP : PAGE_SIZE = 4096 := rfl
  have hS : SIZEOF_PAGE = 12 := rfl
  have hW : WORD = 4294967296 := by decide
  have hM : MIN_COREMAP_PAGES = 10 := rfl
  rw [hP] at hpage
  rw [hW] at hhi
  rw [hS, hW] at hlo
  have hx : (hi + WORD - PAGE_SIZE) % WORD = hi - 4096 := by rw [hP, hW]; omega
  have hfl := page_frame_floor ((hi + WORD - PAGE_SIZE) % WORD) (Nat.mod_lt _ (by decide))
  have hspec := vm_bootstrap_spec st lo hi _ rfl (by rw [hS, hW]; exact hlo)
  rw [hx] at hfl hspec
  generalize (hi - 4096) &&& PAGE_FRAME = p0 at hfl hspec
  rw [hP] at hfl
  obtain ⟨_, hb, hc⟩ := hfl
  rw [hS, hP, hM] at hspec
  obtain ⟨hpanic, hrun⟩ := hspec
  rw [hS, hP, hM]
  by_cases hlt : p0 < lo + 12
  · have e := hpanic hlt
    clear hpanic hrun
    rw [e]
    refine ⟨by simp, fun h => ?_, fun st1 h => by simp at h⟩
    omega
  · have hge : lo + 12 ≤ p0 := Nat.le_of_not_lt hlt
    obtain ⟨p1, n1, h1, h2, h3, h4, h5, hsmall, hbig⟩ := hrun hge
    clear hpanic hrun
    by_cases hn : n1 < 10
    · have e := hsmall hn
      clear hsmall hbig
      rw [e]
      refine ⟨by simp, fun h => ?_, fun st1 h => by simp at h⟩
      omega
    · have e := hbig (Nat.le_of_not_lt hn)
      clear hsmall hbig
      rw [e]
      refine ⟨by simp, fun _ => ⟨_, rfl⟩, fun st1 h => ?_⟩
      simp only [Except.ok.injEq] at h
      subst h
      refine ⟨?_, h1, ?_, ?_, ?_, ?_, ?_⟩
      · show 10 ≤ n1
        omega
      · show 0 < p1
        omega
      · show lo + n1 * 12 ≤ p1
        omega
      · show p1 + n1 * 4096 ≤ hi
        omega
      · intro i hi1
        have hi2 : i < n1 := hi1
        show (if i < n1 then ({ as := none, vpn := 0, flags := 0 } : Page) else st.pages i) = _
        rw [if_pos hi2]
      · show p1 < lo + (n1 + 1) * 12 + 4096
        omega

/-- Witness of C35: a machine with 1 MiB of RAM of which `[0x30000, 0x100000)` is left for the
VM system; `vm_bootstrap` returns there. -/
theorem vm_bootstrap_lays_out_frames_witness :
    PAGE_SIZE ≤ 0x100000 ∧ 0x100000 < WORD ∧ 0x30000 + SIZEOF_PAGE < WORD
    ∧ ∃ st1, vm_bootstrap plain_kernel 0x30000 0x100000 = .ok st1
        ∧ MIN_COREMAP_PAGES ≤ st1.num_pages
        ∧ st1.free_paddr % PAGE_SIZE = 0
        ∧ 0 < st1.free_paddr
        ∧ 0x30000 + st1.num_pages * SIZEOF_PAGE ≤ st1.free_paddr
        ∧ st1.free_paddr + st1.num_pages * PAGE_SIZE ≤ 0x100000
        ∧ (∀ i, i < st1.num_pages → st1.pages i = { as := none, vpn := 0, flags := 0 })
        ∧ st1.free_paddr < 0x30000 + (st1.num_pages + 1) * SIZEOF_PAGE + PAGE_SIZE := by
  obtain ⟨_, hret, hall⟩ := vm_bootstrap_lays_out_frames plain_kernel 0x30000 0x100000
    (by decide) (by decide) (by decide)
  obtain ⟨st1, h⟩ := hret (by decide)
  exact ⟨by decide, by decide, by decide, st1, h, hall st1 h⟩

/-- Counterexample to C35 as stated: for the RAM window `[0, 100)`, smaller than a page,
`last_paddr - PAGE_SIZE` wraps around in 32 bits and the test for "no space for even 1 page"
passes; `vm_bootstrap` returns with a frame table of 1045512 entries and managed frames from
`0xbf8000` to `2^32`, all of them beyond `hi = 100`. -/
theorem vm_bootstrap_wraps_on_window_below_a_page :
    ((100 + WORD - PAGE_SIZE) % WORD) &&& PAGE_FRAME = 0xfffff000
    ∧ ∃ st1, vm_bootstrap plain_kernel 0 100 = .ok st1
      ∧ st1.num_pages = 1045512 ∧ st1.free_paddr = 0xbf8000
      ∧ st1.free_paddr + st1.num_pages * PAGE_SIZE = WORD
      ∧ ¬ (st1.free_paddr + st1.num_pages * PAGE_SIZE ≤ 100) := by
  have hP : PAGE_SIZE = 4096 := rfl
  have hS : SIZEOF_PAGE = 12 := rfl
  have hW : WORD = 4294967296 := by decide
  have hM : MIN_COREMAP_PAGES = 10 := rfl
  have hp0 : 0xfffff000 = ((100 + WORD - PAGE_SIZE) % WORD) &&& PAGE_FRAME := by decide
  refine ⟨hp0.symm, ?_⟩
  have hspec := vm_bootstrap_spec plain_kernel 0 100 0xfffff000 hp0 (by decide)
  rw [hS, hP, hM] at hspec
  obtain ⟨p1, n1, h1, h2, h3, h4, h5, _, hbig⟩ := hspec.2 (by decide)
  clear hspec
  have hn : n1 = 1045512 := by clear hbig; omega
  have hp : p1 = 0xbf8000 := by clear hbig; omega
  subst hn
  subst hp
  exact ⟨_, hbig (by decide), rfl, rfl, by decide, by decide⟩

/-! ## C36: entries of the child's page tables -/

set_option maxRecDepth 1000000 in
set_option maxHeartbeats 4000000 in
/-- C36 (code evaluated): two runs of `as_copy` that return 0 and leave, in a page table of the
child, a `VALID` entry where the parent's entry is 0.
In `family_kernel`, with `kmalloc` handing out used memory (`dirty_as`), the child's table of
directory `0x40` is slot 1; its entry 256 is the left-over word `0xdeadbeef` while entry 256 of
the parent's table is 0.
In `four_dir_kernel`, with zeroed memory, the parent has four `LOADED` directories; the child's
table of the stack directory `0x1ff` is built in slot 0 after the child's table of directory
`0x40` was evicted from that slot, and its entry 0 is still the `VALID` entry that table had
for the page `0x10000000` (physical address `0x45000`), while entry 0 of the parent's stack
table is 0. -/
theorem as_copy_child_table_keeps_old_entries :
    returned (as_copy family_kernel 7 9 (some dirty_as) true (fun _ _ => 0)) = some 0
    ∧ (family_kernel.ass 7).pg_dir 0x40 &&& PGDIR_LOADED ≠ 0
    ∧ (family_kernel.ass 7).page_table_flags 1 &&& PGDIR_INDEX = 0x10000000
    ∧ get_pte family_kernel 7 1 256 = 0
    ∧ ((copy_state family_kernel
          (as_copy family_kernel 7 9 (some dirty_as) true (fun _ _ => 0))).ass 9).pg_dir 0x40
        = PGDIR_PRESENT ||| PGDIR_LOADED
    ∧ ((copy_state family_kernel
          (as_copy family_kernel 7 9 (some dirty_as) true (fun _ _ => 0))).ass 9).page_table_flags 1
        = 0x10000000
    ∧ get_pte (copy_state family_kernel
          (as_copy family_kernel 7 9 (some dirty_as) true (fun _ _ => 0))) 9 1 256 = 0xdeadbeef
    ∧ 0xdeadbeef &&& PGTBL_VALID_MASK ≠ 0
    ∧ returned (as_copy four_dir_kernel 7 9 (some zero_as) true (fun _ _ => 0)) = some 0
    ∧ (four_dir_kernel.ass 7).pg_dir 0x1ff &&& PGDIR_LOADED ≠ 0
    ∧ (four_dir_kernel.ass 7).page_table_flags 0 &&& PGDIR_INDEX = 0x7fc00000
    ∧ get_pte four_dir_kernel 7 0 0 = 0
    ∧ ((copy_state four_dir_kernel
          (as_copy four_dir_kernel 7 9 (some zero_as) true (fun _ _ => 0))).ass 9).pg_dir 0x1ff
        = PGDIR_PRESENT ||| PGDIR_LOADED
    ∧ ((copy_state four_dir_kernel
          (as_copy four_dir_kernel 7 9 (some zero_as) true (fun _ _ => 0))).ass 9).page_table_flags 0
        = 0x7fc00000
    ∧ get_pte (copy_state four_dir_kernel
          (as_copy four_dir_kernel 7 9 (some zero_as) true (fun _ _ => 0))) 9 0 0
        = (((0x45000 ||| PGTBL_VALID_MASK) ||| PF_L) ||| PF_R) ||| PF_W := by
  decide

/-! ## C37: victim slot -/

/-- C37: for every combination of the three slot flag words, every requester directory and
both kinds of request, `get_victim_slot` returns a slot index below `NUM_PTABLES_IN_MEM`; in
particular `assert(second_exec_ptable_index != -1)` does not fail. -/
theorem get_victim_slot_returns_slot (sp : AddrSpace) (is_executable : Bool) (vpgdir : Nat) :
    ∃ k, get_victim_slot sp is_executable vpgdir = .ok k ∧ k < NUM_PTABLES_IN_MEM := by
  obtain ⟨k, hk⟩ := get_victim_slot_total sp is_executable vpgdir
  exact ⟨k, hk, get_victim_slot_lt hk⟩

/-! ## C38: frame-table entries read by the search for a run -/

set_option maxRecDepth 1000000 in
/-- C38 (code evaluated): `can_i_alloc_npages(pages + start, n, &count)` reads the flag words of
the entries `start, ..., start + count`, one more than it counts.  In `roomy_kernel` the frame
table has 10 entries, frames 0 to 2 in use and frames 3 to 9 free.  `getkpagesfromvm(7)` calls
`can_i_alloc_npages` at the indices 0 and 3, returns the run at frame 3, and has read the flag
words of the entries 0 and 3 to 10; `getkpagesfromvm(8)` returns 0 after the same reads.  Entry
10 is `pages[num_pages]`, past the end of the frame table. -/
theorem getkpagesfromvm_reads_entry_past_table :
    (∀ st n start, can_i_alloc_reads st n n start 0
        = List.range' start ((can_i_alloc_npages st start n).2 + 1))
    ∧ roomy_kernel.num_pages = 10
    ∧ (∀ i, i < 10 → ((roomy_kernel.pages i).flags &&& PFLAG_USED_MASK = 0 ↔ 3 ≤ i))
    ∧ (result_of roomy_kernel (getkpagesfromvm roomy_kernel 7)).1 = 0x43000
    ∧ can_i_alloc_npages roomy_kernel 0 7 = (false, 0)
    ∧ can_i_alloc_npages roomy_kernel 3 7 = (true, 7)
    ∧ getkpages_reads roomy_kernel 7 roomy_kernel.num_pages 0 = [0, 3, 4, 5, 6, 7, 8, 9, 10]
    ∧ (result_of roomy_kernel (getkpagesfromvm roomy_kernel 8)).1 = 0
    ∧ aborted (getkpagesfromvm roomy_kernel 8) = none
    ∧ getkpages_reads roomy_kernel 8 roomy_kernel.num_pages 0 = [0, 3, 4, 5, 6, 7, 8, 9, 10] := by
  refine ⟨fun st n start => ?_, by decide⟩
  rw [can_i_alloc_reads_eq st n n start 0 (by omega)]
  rfl

/-! ## C39: frames of other owners -/

/-- C39: when `make_pg_available(as, vpn)` returns frame `i`, for any value of `random()`, that
frame is a managed frame that was free or was recorded for `as`, and every other frame-table
entry is the same after the call as before; so every frame in use by the kernel or by another
address space keeps its entry. -/
theorem make_pg_available_spares_other_owners (st st5 : Kernel) (a vpn r pa i : Nat)
    (hret : make_pg_available st a vpn r = .ok (pa, i, st5)) :
    i < st.num_pages
    ∧ ((st.pages i).flags &&& PFLAG_USED_MASK = 0 ∨ (st.pages i).as = some a)
    ∧ (∀ j, j ≠ i → st5.pages j = st.pages j)
    ∧ (∀ j, (st.pages j).flags &&& PFLAG_USED_MASK ≠ 0 → (st.pages j).as ≠ some a →
        st5.pages j = st.pages j)
    ∧ st5.num_pages = st.num_pages ∧ st5.free_paddr = st.free_paddr := by
  obtain ⟨hi, hv⟩ := make_pg_available_index hret
  obtain ⟨hn, hf, hp⟩ := make_pg_available_frames hret
  have hother : ∀ j, j ≠ i → st5.pages j = st.pages j := by
    intro j hj
    rw [hp, Function.update_noteq hj]
  refine ⟨hi, hv, hother, ?_, hn, hf⟩
  intro j hu ho
  apply hother
  rintro rfl
  rcases hv with h | h
  · exact hu h
  · exact ho h

set_option maxRecDepth 100000 in
/-- Witness of C39: in `full_kernel` frames 0 to 8 are the kernel's and frame 9 holds a page of
address space 7; `make_pg_available(7, 0x10001000)` returns frame 9 and the nine kernel frames
keep their entries. -/
theorem make_pg_available_spares_other_owners_witness :
    make_pg_available full_kernel 7 0x10001000 3
      = .ok (0x49000, 9, made_state full_kernel (make_pg_available full_kernel 7 0x10001000 3))
    ∧ (full_kernel.pages 9).as = some 7
    ∧ (∀ j, j < 9 → (full_kernel.pages j).as = none
        ∧ (full_kernel.pages j).flags &&& PFLAG_USED_MASK ≠ 0
        ∧ (made_state full_kernel (make_pg_available full_kernel 7 0x10001000 3)).pages j
            = full_kernel.pages j) := by
  have h := make_pg_available_spares_other_owners full_kernel
    (made_state full_kernel (make_pg_available full_kernel 7 0x10001000 3)) 7 0x10001000 3
    0x49000 9 (by rfl)
  obtain ⟨_, _, h3, _⟩ := h
  refine ⟨by rfl, by decide, fun j hj => ⟨?_, ?_, h3 j (by omega)⟩⟩
  · revert j; decide
  · revert j; decide

/-! ## C40: page-offset assertions of the demand loader -/

set_option maxRecDepth 1000000 in
/-- C40 (code evaluated): two programs whose `PT_LOAD` segments have `filesz <= memsz` and a
fault inside a region for which an assertion of `load_segment_if_required` fails.
In `unaligned_kernel` the data segment is 32 bytes at `0x10000ff0`: the data region is the two
pages from `0x10000000` and `data_memsize` is 32; the read fault on `0x10001000` (second page,
`num_pages_ahead = 1`) fails `assert(num_pages_ahead * PAGE_SIZE <= as->data_memsize)`.
In `padded_kernel` the text segment is two pages at `0x00400000` with `filesz = 0x100`: the
read fault on `0x00401000` fails `assert(num_pages_ahead * PAGE_SIZE <= as->executable_filesize)`. -/
theorem load_segment_if_required_assertion_fails :
    unaligned_data_segment.p_filesz ≤ unaligned_data_segment.p_memsz
    ∧ region2 (unaligned_kernel.ass 7) = (0x10000000, 2, PF_R ||| PF_W)
    ∧ (unaligned_kernel.ass 7).data_memsize = 0x20
    ∧ (unaligned_kernel.ass 7).data_filesize = 0x20
    ∧ classify (unaligned_kernel.ass 7) 0x10001000 = some (PF_R ||| PF_W, false)
    ∧ ¬ (((0x10001000 + WORD - (unaligned_kernel.ass 7).as_vbase2) % WORD) / PAGE_SIZE * PAGE_SIZE
          ≤ (unaligned_kernel.ass 7).data_memsize)
    ∧ aborted (load_segment_if_required unaligned_kernel 7 0x10001000 0x43000 0 1)
        = some Abort.assertion
    ∧ aborted (vm_fault unaligned_kernel VM_FAULT_READ 0x10001000 0 0) = some Abort.assertion
    ∧ padded_text_segment.p_filesz ≤ padded_text_segment.p_memsz
    ∧ region1 (padded_kernel.ass 7) = (0x00400000, 2, PF_R ||| PF_X)
    ∧ (padded_kernel.ass 7).executable_memsize = 0x2000
    ∧ (padded_kernel.ass 7).executable_filesize = 0x100
    ∧ classify (padded_kernel.ass 7) 0x00401000 = some (PF_R ||| PF_X, false)
    ∧ ¬ (((0x00401000 + WORD - (padded_kernel.ass 7).as_vbase1) % WORD) / PAGE_SIZE * PAGE_SIZE
          ≤ (padded_kernel.ass 7).executable_filesize)
    ∧ aborted (load_segment_if_required padded_kernel 7 0x00401000 0x43000 0 1)
        = some Abort.assertion
    ∧ aborted (vm_fault padded_kernel VM_FAULT_READ 0x00401000 0 0) = some Abort.assertion := by
  decide

end OS161
